import Mathlib

/-! Code_Saturne CDO evaluation engine: embedding and verified properties.

Shallow embedding of `src/cdo/cs_evaluate.c`.

Conventions of the embedding.

* A C array is a total map from its index to its content (`Nat → α`); a write
  `a[i] = x` is `Function.update a i x`.  Index validity is always stated as an
  explicit hypothesis of the theorems that need it.
* `cs_real_t` / `double` is embedded as `ℚ` (exact arithmetic); `cs_lnum_t`
  indices are natural numbers, `cs_lnum_t` tags are integers.
* A counted loop `for (j = lo; j < hi; j++) body` is `forLoop lo hi body`.
* `bft_error`, a failed `assert` and a read through a `NULL` pointer end the
  call: the functions that can reach one return `Except cs_error`.
* The file-level pointers `cs_cdo_quant`, `cs_cdo_connect`, `cs_glob_mesh`
  and the collective operations are explicit arguments.
-/

set_option autoImplicit false

namespace CodeSaturne

/-! ## Control structure and errors -/

/-- Counted loop `for (j = lo; j < hi; j++) s = body j s`. -/
def forLoop {σ : Type} (lo hi : Nat) (body : Nat → σ → σ) (s : σ) : σ :=
  (List.range' lo (hi - lo)).foldl (fun acc j => body j acc) s

/-- Ways in which a call stops before returning. -/
inductive cs_error where
  | empty_array      -- `_err_empty_array`: NULL output buffer
  | not_handled      -- `_err_not_handled` and the "not handled yet" stops
  | invalid_quad     -- `_err_quad`: invalid quadrature type
  | assert_failed    -- a failed `assert`
  | null_pointer     -- a read through a NULL pointer
  | bad_cast         -- `def->input` cast to a type it does not hold
  | invalid_dim      -- "Invalid dimension of analytical function"
  | invalid_support  -- "Invalid support for the input array", "Invalid case"
  | invalid_read     -- a read outside the live memory blocks
  | fuel             -- not a stop of the C code: the bound on the iterations was reached
  | out_of_bounds    -- a read or a write outside an array
  | null_call        -- a call through a NULL function pointer
  | empty_ns         -- `_err_empty_ns`: no Navier-Stokes system
  | invalid_coupling -- `_err_invalid_coupling`
  | invalid_scheme   -- "Invalid space discretization scheme."
  | invalid_model    -- "Invalid model for Navier-Stokes."
  | invalid_time_state -- "Invalid choice for the time state"
  deriving DecidableEq, Repr

/-! ## Data model -/

/-- CSR relation `cs_adjacency_t`: the slice of source `s` is
`ids[idx[s]], ..., ids[idx[s+1]-1]`. -/
structure cs_adjacency_t where
  idx : Nat → Nat
  ids : Nat → Nat

/-- Cell types of `fvm_element_t` that the evaluators distinguish. -/
inductive fvm_element_t where
  | FVM_CELL_TETRA
  | FVM_CELL_PYRAM
  | FVM_CELL_PRISM
  | FVM_CELL_HEXA
  | FVM_CELL_POLY
  deriving DecidableEq, Repr

/-- Point or vector of the three-dimensional space (`cs_real_3_t`). -/
abbrev cs_real_3_t := ℚ × ℚ × ℚ

/-- Face quantities returned by `cs_quant_set_face` (`cs_quant_t`). -/
structure cs_quant_t where
  meas : ℚ
  unitv : cs_real_3_t
  center : cs_real_3_t

/-- Fields of `cs_cdo_connect_t` read by the evaluators. -/
structure cs_cdo_connect_t where
  c2v : cs_adjacency_t
  c2f : cs_adjacency_t
  f2e : cs_adjacency_t
  e2v : cs_adjacency_t
  c2e : cs_adjacency_t
  cell_type : Nat → fvm_element_t

/-- Fields of `cs_cdo_quantities_t` read by the evaluators.  `face f` stands
for `cs_quant_set_face(f, quant)`; `vtx_coord v`, `cell_centers c` and
`dedge_vector i` stand for the three reals stored at `3*v`, `3*c`, `3*i`. -/
structure cs_cdo_quantities_t where
  n_cells : Nat
  n_faces : Nat
  n_vertices : Nat
  cell_vol : Nat → ℚ
  dcell_vol : Nat → ℚ
  vtx_coord : Nat → cs_real_3_t
  cell_centers : Nat → cs_real_3_t
  dedge_vector : Nat → cs_real_3_t
  face : Nat → cs_quant_t

/-- Halo of a mesh: `sync` is `cs_halo_sync_untyped` on the cell tags. -/
structure cs_halo_t where
  sync : (Nat → Bool) → (Nat → Bool)

/-- Fields of `cs_mesh_t` read by the evaluators. -/
structure cs_mesh_t where
  n_cells_with_ghosts : Nat
  n_i_faces : Nat
  i_face_cells : Nat → Nat × Nat
  i_face_vtx_idx : Nat → Nat
  i_face_vtx_lst : Nat → Nat
  halo : Option cs_halo_t

/-- Process-level state and collective operations: `cs_glob_n_ranks`,
`cs_interface_set_max` on the vertex tags, `cs_parall_sum` on one real, and
the unspecified content of the scratch arrays that `BFT_MALLOC` returns
(`vtx_tag`, `cell_tag`, `todo`, `vtx_lst`, `dc_vol`). -/
structure cs_parall_t where
  n_ranks : Nat
  interface_set_max : (Nat → Int) → (Nat → Int)
  parall_sum : ℚ → ℚ
  malloc_vtx_tag : Nat → Int
  malloc_cell_tag : Nat → Bool
  malloc_todo : Nat → Bool
  malloc_vtx_lst : Nat → Int
  malloc_dc_vol : Nat → ℚ

/-- Shared pointers of `cs_evaluate.c` (`cs_cdo_quant`, `cs_cdo_connect`,
`cs_time_step->t_cur`) plus the global mesh. -/
structure cs_shared_t where
  m : cs_mesh_t
  quant : cs_cdo_quantities_t
  connect : cs_cdo_connect_t
  par : cs_parall_t
  t_cur : ℚ

/-- Pointer `elt_ids` once it is read `n_elts` times in a loop: a NULL
pointer faults at the first read, so only when the loop runs. -/
def read_elt_ids (n_elts : Nat) (elt_ids : Option (Nat → Nat)) :
    Except cs_error (Nat → Nat) :=
  match elt_ids with
  | some ids => .ok ids
  | none => if n_elts = 0 then .ok (fun i => i) else .error .null_pointer

/-! ## Quantity over volume (`_pvsp_by_qov`) -/

/-- `_untag_frontier_vertices`: reset the tag of every vertex of an interior
face of `c_id` having an untagged adjacent cell. -/
def _untag_frontier_vertices (sh : cs_shared_t) (c_id : Nat)
    (cell_tag : Nat → Bool) (vtx_tag : Nat → Int) : Nat → Int :=
  let m := sh.m
  let c2f := sh.connect.c2f
  forLoop (c2f.idx c_id) (c2f.idx (c_id + 1)) (fun j vtx_tag =>
    let f_id := c2f.ids j
    if f_id < m.n_i_faces then
      if cell_tag (m.i_face_cells f_id).1 = false ∨
          cell_tag (m.i_face_cells f_id).2 = false then
        forLoop (m.i_face_vtx_idx f_id) (m.i_face_vtx_idx (f_id + 1))
          (fun i vtx_tag => Function.update vtx_tag (m.i_face_vtx_lst i) 0) vtx_tag
      else vtx_tag
    else vtx_tag) vtx_tag

/-- First pass of `_pvsp_by_qov` (lines 1363-1398): the pair
`(cell_tag, vtx_tag)` after flagging cells and vertices. -/
def qov_first_pass (sh : cs_shared_t) (n_elts : Nat) (elt_ids : Option (Nat → Nat)) :
    Except cs_error ((Nat → Bool) × (Nat → Int)) :=
  let m := sh.m
  let n_cells := sh.quant.n_cells
  let n_vertices := sh.quant.n_vertices
  let c2v := sh.connect.c2v
  if n_elts < n_cells then
    match read_elt_ids n_elts elt_ids with
    | .error e => .error e
    | .ok ids =>
      let vtx_tag := forLoop 0 n_vertices (fun v_id t => Function.update t v_id 0)
        sh.par.malloc_vtx_tag
      let cell_tag := forLoop 0 m.n_cells_with_ghosts
        (fun c_id t => Function.update t c_id false) sh.par.malloc_cell_tag
      .ok (forLoop 0 n_elts (fun i (s : (Nat → Bool) × (Nat → Int)) =>
        let c_id := ids i
        (Function.update s.1 c_id true,
         forLoop (c2v.idx c_id) (c2v.idx (c_id + 1))
           (fun j t => Function.update t (c2v.ids j) (-1)) s.2)) (cell_tag, vtx_tag))
  else if n_cells = n_elts then
    let vtx_tag := forLoop 0 n_vertices (fun v_id t => Function.update t v_id (-1))
      sh.par.malloc_vtx_tag
    let cell_tag := forLoop 0 n_cells (fun c_id t => Function.update t c_id true)
      sh.par.malloc_cell_tag
    let cell_tag := forLoop n_cells m.n_cells_with_ghosts
      (fun c_id t => Function.update t c_id false) cell_tag
    .ok (cell_tag, vtx_tag)
  else .error .assert_failed

/-- Tags of `_pvsp_by_qov` after the halo synchronisation, the second pass
(lines 1400-1415) and the reduction over ranks (lines 1418-1424). -/
def qov_vtx_tag (sh : cs_shared_t) (n_elts : Nat) (elt_ids : Option (Nat → Nat)) :
    Except cs_error (Nat → Int) :=
  match qov_first_pass sh n_elts elt_ids with
  | .error e => .error e
  | .ok (cell_tag, vtx_tag) =>
    let cell_tag := match sh.m.halo with
      | some h => h.sync cell_tag
      | none => cell_tag
    if n_elts < sh.quant.n_cells then
      match read_elt_ids n_elts elt_ids with
      | .error e => .error e
      | .ok ids =>
        let vtx_tag := forLoop 0 n_elts
          (fun i t => _untag_frontier_vertices sh (ids i) cell_tag t) vtx_tag
        .ok (if sh.par.n_ranks > 1 then sh.par.interface_set_max vtx_tag else vtx_tag)
    else
      let vtx_tag := forLoop 0 sh.quant.n_cells
        (fun i t => _untag_frontier_vertices sh i cell_tag t) vtx_tag
      .ok (if sh.par.n_ranks > 1 then sh.par.interface_set_max vtx_tag else vtx_tag)

/-- Third pass of `_pvsp_by_qov` (lines 1426-1455): the marked volume, after
the sum over ranks. -/
def qov_volume_marked (sh : cs_shared_t) (n_elts : Nat) (elt_ids : Option (Nat → Nat))
    (vtx_tag : Nat → Int) : ℚ :=
  let c2v := sh.connect.c2v
  let dc_vol := sh.quant.dcell_vol
  let cell_sum := fun (c_id : Nat) (volume_marked : ℚ) =>
    forLoop (c2v.idx c_id) (c2v.idx (c_id + 1)) (fun j vol =>
      if vtx_tag (c2v.ids j) = -1 then vol + dc_vol j else vol) volume_marked
  let volume_marked : ℚ :=
    match elt_ids with
    | some ids => forLoop 0 n_elts (fun i vol => cell_sum (ids i) vol) 0
    | none => forLoop 0 sh.quant.n_cells (fun c_id vol => cell_sum c_id vol) 0
  if sh.par.n_ranks > 1 then sh.par.parall_sum volume_marked else volume_marked

/-- Value to set (lines 1457-1459 of `_pvsp_by_qov`). -/
def qov_val_to_set (quantity_val volume_marked : ℚ) : ℚ :=
  if volume_marked > 0 then quantity_val / volume_marked else quantity_val

/-- `_pvsp_by_qov`: give each candidate vertex the value putting
`quantity_val` inside the volume attached to the selected cells. -/
def _pvsp_by_qov (sh : cs_shared_t) (quantity_val : ℚ) (n_elts : Nat)
    (elt_ids : Option (Nat → Nat)) (values : Nat → ℚ) : Except cs_error (Nat → ℚ) :=
  match qov_vtx_tag sh n_elts elt_ids with
  | .error e => .error e
  | .ok vtx_tag =>
    let volume_marked := qov_volume_marked sh n_elts elt_ids vtx_tag
    let val_to_set := qov_val_to_set quantity_val volume_marked
    if n_elts < sh.quant.n_cells then
      .ok (forLoop 0 sh.quant.n_vertices (fun v_id vals =>
        if vtx_tag v_id = -1 then Function.update vals v_id val_to_set else vals) values)
    else
      .ok (forLoop 0 sh.quant.n_vertices (fun v_id vals =>
        Function.update vals v_id val_to_set) values)

/-! ## Concrete meshes -/

/-- C array given by the list of its entries. -/
def ofList {α : Type} (d : α) (l : List α) : Nat → α := fun i => l.getD i d

/-- Serial run: one rank, no collective operation changes anything. -/
def serial : cs_parall_t where
  n_ranks := 1
  interface_set_max := fun t => t
  parall_sum := fun x => x
  malloc_vtx_tag := fun _ => 7
  malloc_cell_tag := fun _ => true
  malloc_todo := fun _ => false
  malloc_vtx_lst := fun _ => 7
  malloc_dc_vol := fun _ => 7

/-- One tetrahedral cell, four vertices, four boundary faces, six edges; the
dual-volume fraction of every vertex is `w` and the cell volume `4 * w`. -/
def one_tetra (w : ℚ) : cs_shared_t where
  m := {
    n_cells_with_ghosts := 1
    n_i_faces := 0
    i_face_cells := fun _ => (0, 0)
    i_face_vtx_idx := fun _ => 0
    i_face_vtx_lst := fun _ => 0
    halo := none }
  quant := {
    n_cells := 1
    n_faces := 4
    n_vertices := 4
    cell_vol := ofList 0 [4 * w]
    dcell_vol := ofList 0 [w, w, w, w]
    vtx_coord := ofList (0, 0, 0) [(0, 0, 0), (1, 0, 0), (0, 1, 0), (0, 0, 6 * 4 * w)]
    cell_centers := ofList (0, 0, 0) [(1/4, 1/4, 6 * w)]
    dedge_vector := fun _ => (0, 0, 0)
    face := fun _ => { meas := 0, unitv := (0, 0, 0), center := (0, 0, 0) } }
  connect := {
    c2v := { idx := ofList 0 [0, 4], ids := ofList 0 [0, 1, 2, 3] }
    c2f := { idx := ofList 0 [0, 4], ids := ofList 0 [0, 1, 2, 3] }
    f2e := { idx := ofList 0 [0, 3, 6, 9, 12],
             ids := ofList 0 [0, 1, 3, 0, 2, 4, 1, 2, 5, 3, 4, 5] }
    e2v := { idx := ofList 0 [0, 2, 4, 6, 8, 10, 12],
             ids := ofList 0 [0, 1, 0, 2, 0, 3, 1, 2, 1, 3, 2, 3] }
    c2e := { idx := ofList 0 [0, 6], ids := ofList 0 [0, 1, 2, 3, 4, 5] }
    cell_type := fun _ => .FVM_CELL_TETRA }
  par := serial
  t_cur := 0

/-! ## Predicates on loops -/

/-- A buffer transformer that stores `c` at the indices of `S` and nothing else. -/
def WritesConst {α : Type} (c : α) (S : Nat → Prop) (f : (Nat → α) → (Nat → α)) : Prop :=
  ∀ t x, (S x → f t x = c) ∧ (¬ S x → f t x = t x)

/-! ## Constant-value evaluators -/

/-- `_dcsd_by_value`: every selected cell adds `dual_vol[j]*const_val` to the
entry of each of its vertices. -/
def _dcsd_by_value (sh : cs_shared_t) (const_val : ℚ) (n_elts : Nat)
    (elt_ids : Option (Nat → Nat)) (values : Nat → ℚ) : Except cs_error (Nat → ℚ) :=
  let c2v := sh.connect.c2v
  let dual_vol := sh.quant.dcell_vol
  match elt_ids with
  | none =>
    if n_elts = sh.quant.n_cells then
      .ok (forLoop 0 n_elts (fun c_id values =>
        forLoop (c2v.idx c_id) (c2v.idx (c_id + 1)) (fun j values =>
          Function.update values (c2v.ids j) (values (c2v.ids j) + dual_vol j * const_val))
          values) values)
    else .error .assert_failed
  | some elt_ids =>
    .ok (forLoop 0 n_elts (fun i values =>
      let c_id := elt_ids i
      forLoop (c2v.idx c_id) (c2v.idx (c_id + 1)) (fun j values =>
        Function.update values (c2v.ids j) (values (c2v.ids j) + dual_vol j * const_val))
        values) values)

/-- The three writes `values[3*v_id + k] += vol_vc*const_vec[k]` of `_dcvd_by_value`. -/
def dcvd_add (const_vec : Nat → ℚ) (v_id : Nat) (vol_vc : ℚ) (values : Nat → ℚ) : Nat → ℚ :=
  let values := Function.update values (3 * v_id) (values (3 * v_id) + vol_vc * const_vec 0)
  let values := Function.update values (3 * v_id + 1)
    (values (3 * v_id + 1) + vol_vc * const_vec 1)
  Function.update values (3 * v_id + 2) (values (3 * v_id + 2) + vol_vc * const_vec 2)

/-- `_dcvd_by_value`: vector counterpart of `_dcsd_by_value`. -/
def _dcvd_by_value (sh : cs_shared_t) (const_vec : Nat → ℚ) (n_elts : Nat)
    (elt_ids : Option (Nat → Nat)) (values : Nat → ℚ) : Nat → ℚ :=
  let c2v := sh.connect.c2v
  let dual_vol := sh.quant.dcell_vol
  match elt_ids with
  | none =>
    forLoop 0 n_elts (fun c_id values =>
      forLoop (c2v.idx c_id) (c2v.idx (c_id + 1)) (fun j values =>
        dcvd_add const_vec (c2v.ids j) (dual_vol j) values) values) values
  | some elt_ids =>
    forLoop 0 n_elts (fun i values =>
      let c_id := elt_ids i
      forLoop (c2v.idx c_id) (c2v.idx (c_id + 1)) (fun j values =>
        dcvd_add const_vec (c2v.ids j) (dual_vol j) values) values) values

/-- `_pcsd_by_value`: `values[c_id] = cell_vol[c_id]*const_val` on the selection. -/
def _pcsd_by_value (sh : cs_shared_t) (const_val : ℚ) (n_elts : Nat)
    (elt_ids : Option (Nat → Nat)) (values : Nat → ℚ) : Nat → ℚ :=
  let quant := sh.quant
  match elt_ids with
  | none =>
    forLoop 0 quant.n_cells (fun c_id values =>
      Function.update values c_id (quant.cell_vol c_id * const_val)) values
  | some elt_ids =>
    forLoop 0 n_elts (fun i values =>
      let c_id := elt_ids i
      Function.update values c_id (quant.cell_vol c_id * const_val)) values

/-- The three writes `values[3*c_id + k] = vol_c*const_vec[k]` of `_pcvd_by_value`. -/
def pcvd_set (const_vec : Nat → ℚ) (c_id : Nat) (vol_c : ℚ) (values : Nat → ℚ) : Nat → ℚ :=
  let values := Function.update values (3 * c_id) (vol_c * const_vec 0)
  let values := Function.update values (3 * c_id + 1) (vol_c * const_vec 1)
  Function.update values (3 * c_id + 2) (vol_c * const_vec 2)

/-- `_pcvd_by_value`: vector counterpart of `_pcsd_by_value`. -/
def _pcvd_by_value (sh : cs_shared_t) (const_vec : Nat → ℚ) (n_elts : Nat)
    (elt_ids : Option (Nat → Nat)) (values : Nat → ℚ) : Nat → ℚ :=
  let vol := sh.quant.cell_vol
  match elt_ids with
  | none =>
    forLoop 0 sh.quant.n_cells (fun c_id values =>
      pcvd_set const_vec c_id (vol c_id) values) values
  | some elt_ids =>
    forLoop 0 n_elts (fun i values =>
      let c_id := elt_ids i
      pcvd_set const_vec c_id (vol c_id) values) values

/-! ## Sets and sums used to state the properties -/

/-- Selected cells, in the order the loops on cells visit them: the listed
ids, or `0, ..., n_elts - 1` when there is no list. -/
def selected_cells (n_elts : Nat) (elt_ids : Option (Nat → Nat)) : List Nat :=
  match elt_ids with
  | some ids => (List.range n_elts).map ids
  | none => List.range n_elts

/-- Positions `idx[s], ..., idx[s+1]-1` of the slice of `s` in a CSR relation. -/
def slice (a : cs_adjacency_t) (s : Nat) : List Nat :=
  List.range' (a.idx s) (a.idx (s + 1) - a.idx s)

/-- Sum of `w j` over every listed cell `c` and every position `j` of the
slice of `c`, in the relation `a`, that satisfies `p`. -/
def incidence_sum (a : cs_adjacency_t) (cells : List Nat) (p : Nat → Bool) (w : Nat → ℚ) : ℚ :=
  (cells.map (fun c => (((slice a c).filter p).map w).sum)).sum

/-- Vertex (or face) `x` is reached from a listed cell through the relation `a`. -/
def reached (a : cs_adjacency_t) (cells : List Nat) (x : Nat) : Prop :=
  ∃ c ∈ cells, ∃ j ∈ slice a c, a.ids j = x

/-- A buffer transformer that stores `g x` at the indices `x` of `S` and
nothing else. -/
def WritesFn {α : Type} (g : Nat → α) (S : Nat → Prop) (f : (Nat → α) → (Nat → α)) : Prop :=
  ∀ t x, (S x → f t x = g x) ∧ (¬ S x → f t x = t x)

/-- Two tetrahedral cells `{0,1,2,3}` and `{1,2,3,4}` sharing the interior
face `0 = {1,2,3}`; faces `1..6` are boundary faces and the eight
cell-vertex incidences carry the dual-volume fractions `1, ..., 8`. -/
def two_tetra : cs_shared_t where
  m := {
    n_cells_with_ghosts := 2
    n_i_faces := 1
    i_face_cells := fun _ => (0, 1)
    i_face_vtx_idx := ofList 3 [0, 3]
    i_face_vtx_lst := ofList 0 [1, 2, 3]
    halo := none }
  quant := {
    n_cells := 2
    n_faces := 7
    n_vertices := 5
    cell_vol := ofList 0 [10, 26]
    dcell_vol := ofList 0 [1, 2, 3, 4, 5, 6, 7, 8]
    vtx_coord := ofList (0, 0, 0) [(0, 0, 0), (1, 0, 0), (0, 1, 0), (0, 0, 1), (1, 1, 1)]
    cell_centers := ofList (0, 0, 0) [(1/4, 1/4, 1/4), (3/4, 3/4, 3/4)]
    dedge_vector := fun _ => (0, 0, 0)
    face := ofList { meas := 0, unitv := (0, 0, 0), center := (0, 0, 0) } [
      { meas := 1, unitv := (1, 1, 1), center := (1/3, 1/3, 1/3) },
      { meas := 1/2, unitv := (0, 0, -1), center := (1/3, 1/3, 0) },
      { meas := 1/2, unitv := (0, -1, 0), center := (1/3, 0, 1/3) },
      { meas := 1/2, unitv := (-1, 0, 0), center := (0, 1/3, 1/3) },
      { meas := 1, unitv := (1, 1, -1), center := (2/3, 2/3, 1/3) },
      { meas := 1, unitv := (1, -1, 1), center := (2/3, 1/3, 2/3) },
      { meas := 1, unitv := (-1, 1, 1), center := (1/3, 2/3, 2/3) }] }
  connect := {
    c2v := { idx := ofList 8 [0, 4, 8], ids := ofList 0 [0, 1, 2, 3, 1, 2, 3, 4] }
    c2f := { idx := ofList 8 [0, 4, 8], ids := ofList 0 [0, 1, 2, 3, 0, 4, 5, 6] }
    f2e := { idx := ofList 21 [0, 3, 6, 9, 12, 15, 18, 21],
             ids := ofList 0 [3, 4, 5, 0, 1, 3, 0, 2, 4, 1, 2, 5, 3, 6, 7, 4, 6, 8, 5, 7, 8] }
    e2v := { idx := ofList 18 [0, 2, 4, 6, 8, 10, 12, 14, 16, 18],
             ids := ofList 0 [0, 1, 0, 2, 0, 3, 1, 2, 1, 3, 2, 3, 1, 4, 2, 4, 3, 4] }
    c2e := { idx := ofList 12 [0, 6, 12], ids := ofList 0 [0, 1, 2, 3, 4, 5, 3, 4, 5, 6, 7, 8] }
    cell_type := fun _ => .FVM_CELL_TETRA }
  par := serial
  t_cur := 0

/-- Cell `c` is one of the `n_elts` listed cells. -/
def qov_selected (n_elts : Nat) (ids : Nat → Nat) (c : Nat) : Prop :=
  ∃ i, i < n_elts ∧ ids i = c

/-- Vertex `v` is incident (cell->vertex) to at least one listed cell. -/
def qov_incident (sh : cs_shared_t) (n_elts : Nat) (ids : Nat → Nat) (v : Nat) : Prop :=
  ∃ i, i < n_elts ∧ ∃ j, sh.connect.c2v.idx (ids i) ≤ j ∧
    j < sh.connect.c2v.idx (ids i + 1) ∧ sh.connect.c2v.ids j = v

/-- Vertex `v` belongs to an interior face of a listed cell whose two adjacent
cells are not both listed. -/
def qov_frontier (sh : cs_shared_t) (n_elts : Nat) (ids : Nat → Nat) (v : Nat) : Prop :=
  ∃ i, i < n_elts ∧ ∃ j, sh.connect.c2f.idx (ids i) ≤ j ∧
    j < sh.connect.c2f.idx (ids i + 1) ∧ sh.connect.c2f.ids j < sh.m.n_i_faces ∧
    (¬ qov_selected n_elts ids (sh.m.i_face_cells (sh.connect.c2f.ids j)).1 ∨
     ¬ qov_selected n_elts ids (sh.m.i_face_cells (sh.connect.c2f.ids j)).2) ∧
    ∃ k, sh.m.i_face_vtx_idx (sh.connect.c2f.ids j) ≤ k ∧
      k < sh.m.i_face_vtx_idx (sh.connect.c2f.ids j + 1) ∧ sh.m.i_face_vtx_lst k = v

/-! ## Analytic functions, quadrature rules, definitions and zones -/

/-- `cs_analytic_func_t` with its `input` captured: time, number of points,
list of point ids or NULL, coordinates, `compact` flag, then the output
buffer and the offset at which `retval` points into it. -/
abbrev cs_analytic_func_t :=
  ℚ → Nat → Option (Nat → Nat) → (Nat → cs_real_3_t) → Bool → (Nat → ℚ) → Nat → (Nat → ℚ)

/-- `cs_quadrature_tetra_integral_t`: time, four vertices, volume, analytic
function, then the buffer and the offset at which `results` points into it. -/
abbrev cs_quadrature_tetra_integral_t :=
  ℚ → cs_real_3_t → cs_real_3_t → cs_real_3_t → cs_real_3_t → ℚ → cs_analytic_func_t →
    (Nat → ℚ) → Nat → (Nat → ℚ)

/-- `cs_quadrature_tria_integral_t`: time, three vertices, area, analytic
function, then the buffer and the offset at which `results` points into it. -/
abbrev cs_quadrature_tria_integral_t :=
  ℚ → cs_real_3_t → cs_real_3_t → cs_real_3_t → ℚ → cs_analytic_func_t →
    (Nat → ℚ) → Nat → (Nat → ℚ)

/-- Fields of `cs_zone_t` read by the evaluators. -/
structure cs_zone_t where
  n_elts : Nat
  elt_ids : Option (Nat → Nat)

/-- Pointer `array_input->index`: the array it points to, and whether it is
the pointer `connect->c2e->idx` itself, with which one assert compares it. -/
structure cs_index_ptr_t where
  is_c2e_idx : Bool
  val : Nat → Nat

/-- Fields of `cs_xdef_array_input_t` read by the evaluators: number of values
per entity, location flag, values, and the optional index. -/
structure cs_xdef_array_input_t where
  stride : Nat
  loc : Nat
  values : Nat → ℚ
  index : Option cs_index_ptr_t

/-- What `def->input` points to: an array of reals (definition by value or
by quantity over a volume), a `cs_xdef_analytic_input_t` or a
`cs_xdef_array_input_t`. -/
inductive cs_xdef_input_t where
  | reals (val : Nat → ℚ)
  | analytic (func : cs_analytic_func_t)
  | array (a : cs_xdef_array_input_t)

/-- Fields of `cs_xdef_t` read by the evaluators. -/
structure cs_xdef_t where
  dim : Nat
  z_id : Nat
  support : Nat
  qtype : Nat
  meta : Nat
  input : cs_xdef_input_t

/-- Constants of the headers (`cs_flag.h`, `cs_xdef.h`, `cs_quadrature.h`,
`cs_cdo_connect.h`) and the inline predicate `cs_flag_test`, which are not
part of the sources at hand: they are parameters of the embedding. -/
structure cs_defs_t where
  CS_FLAG_FULL_LOC : Nat
  CS_FLAG_SCALAR : Nat
  CS_FLAG_VECTOR : Nat
  cs_flag_primal_vtx : Nat
  cs_flag_primal_face : Nat
  cs_flag_primal_cell : Nat
  cs_flag_dual_cell : Nat
  cs_flag_test : Nat → Nat → Bool
  CS_XDEF_SUPPORT_VOLUME : Nat
  CS_QUADRATURE_BARY : Nat
  CS_QUADRATURE_BARY_SUBDIV : Nat
  CS_QUADRATURE_HIGHER : Nat
  CS_QUADRATURE_HIGHEST : Nat
  CS_TRIANGLE_CASE : Nat

/-- Functions defined in other files of the library (`cs_volume_zone.c`,
`cs_math.h`, `cs_cdo_connect.c`, `cs_quadrature.c`, `cs_range_set.c`): they
are parameters of the embedding.  `cs_range_set_sync` takes the dimension,
which selects the range set. -/
structure cs_extern_t where
  cs_volume_zone_by_id : Nat → cs_zone_t
  cs_math_3_dot_product : cs_real_3_t → cs_real_3_t → ℚ
  cs_math_surftri : cs_real_3_t → cs_real_3_t → cs_real_3_t → ℚ
  cs_math_onethird : ℚ
  cs_connect_get_next_3_vertices : (Nat → Nat) → (Nat → Nat) → Nat → Nat × Nat × Nat
  cs_cell_mesh_get_next_3_vertices : (Nat → Nat) → (Nat → Nat) → Nat → Nat × Nat × Nat
  cs_quadrature_tet_1pt_scal : cs_quadrature_tetra_integral_t
  cs_quadrature_tet_4pts_scal : cs_quadrature_tetra_integral_t
  cs_quadrature_tet_5pts_scal : cs_quadrature_tetra_integral_t
  cs_quadrature_tet_1pt_vect : cs_quadrature_tetra_integral_t
  cs_quadrature_tet_4pts_vect : cs_quadrature_tetra_integral_t
  cs_quadrature_tet_5pts_vect : cs_quadrature_tetra_integral_t
  cs_quadrature_tria_1pt_scal : cs_quadrature_tria_integral_t
  cs_quadrature_tria_3pts_scal : cs_quadrature_tria_integral_t
  cs_quadrature_tria_4pts_scal : cs_quadrature_tria_integral_t
  cs_quadrature_tria_1pt_vect : cs_quadrature_tria_integral_t
  cs_quadrature_tria_3pts_vect : cs_quadrature_tria_integral_t
  cs_quadrature_tria_4pts_vect : cs_quadrature_tria_integral_t
  cs_range_set_sync : Nat → (Nat → ℚ) → (Nat → ℚ)

/-- Cell visited at step `id` of a loop on the selection:
`(elt_ids == NULL) ? id : elt_ids[id]`. -/
def elt_id (elt_ids : Option (Nat → Nat)) (id : Nat) : Nat :=
  match elt_ids with
  | none => id
  | some ids => ids id

/-! ## Density and average evaluators by analytic function -/

/-- `_dcsd_by_analytic`: for every selected cell, every face of the cell and
every edge of the face, two calls of the quadrature rule, one per vertex of
the edge. -/
def _dcsd_by_analytic (sh : cs_shared_t) (ana : cs_analytic_func_t) (n_elts : Nat)
    (elt_ids : Option (Nat → Nat)) (compute_integral : cs_quadrature_tetra_integral_t)
    (values : Nat → ℚ) : Nat → ℚ :=
  let quant := sh.quant
  let connect := sh.connect
  let c2f := connect.c2f
  let f2e := connect.f2e
  let tcur := sh.t_cur
  forLoop 0 n_elts (fun id values =>
    let c_id := elt_id elt_ids id
    let xc := quant.cell_centers c_id
    forLoop (c2f.idx c_id) (c2f.idx (c_id + 1)) (fun i values =>
      let f_id := c2f.ids i
      let xf := (quant.face f_id).center
      forLoop (f2e.idx f_id) (f2e.idx (f_id + 1)) (fun j values =>
        let e_id := f2e.ids j
        let v1 := connect.e2v.ids (2 * e_id)
        let v2 := connect.e2v.ids (2 * e_id + 1)
        let xv1 := quant.vtx_coord v1
        let xv2 := quant.vtx_coord v2
        let xe : cs_real_3_t :=
          (1/2 * (xv1.1 + xv2.1), 1/2 * (xv1.2.1 + xv2.2.1), 1/2 * (xv1.2.2 + xv2.2.2))
        let values := compute_integral tcur xv1 xe xf xc (quant.dcell_vol v1) ana values v1
        compute_integral tcur xv2 xe xf xc (quant.dcell_vol v2) ana values v2) values)
      values) values

/-- Integral on cell `c_id`, accumulated at `values + c_id`: the statements
that `_pcsd_by_analytic` (lines 299-351), `_pcsa_by_analytic` (389-440) and
`_pcva_by_analytic` (487-539) share word for word. -/
def pc_cell_integral (E : cs_extern_t) (sh : cs_shared_t) (ana : cs_analytic_func_t)
    (compute_integral : cs_quadrature_tetra_integral_t) (c_id : Nat) (values : Nat → ℚ) :
    Nat → ℚ :=
  let quant := sh.quant
  let xv := quant.vtx_coord
  let connect := sh.connect
  let c2f := connect.c2f
  let f2e := connect.f2e
  let tcur := sh.t_cur
  if connect.cell_type c_id = .FVM_CELL_TETRA then
    let v_ids := fun k => connect.c2v.ids (connect.c2v.idx c_id + k)
    compute_integral tcur (xv (v_ids 0)) (xv (v_ids 1)) (xv (v_ids 2)) (xv (v_ids 3))
      (quant.cell_vol c_id) ana values c_id
  else
    let xc := quant.cell_centers c_id
    forLoop (c2f.idx c_id) (c2f.idx (c_id + 1)) (fun i values =>
      let f_id := c2f.ids i
      let pfq := quant.face f_id
      let hfc := E.cs_math_3_dot_product pfq.unitv (quant.dedge_vector f_id)
      let start := f2e.idx f_id
      let end_ := f2e.idx (f_id + 1)
      let n_ef := end_ - start
      if n_ef = 3 then
        let v := E.cs_connect_get_next_3_vertices connect.f2e.ids connect.e2v.ids start
        compute_integral tcur (xv v.1) (xv v.2.1) (xv v.2.2) xc (hfc * pfq.meas)
          ana values c_id
      else
        forLoop start end_ (fun j values =>
          let _2e := 2 * f2e.ids j
          let v1 := connect.e2v.ids _2e
          let v2 := connect.e2v.ids (_2e + 1)
          compute_integral tcur (xv v1) (xv v2) pfq.center xc
            (hfc * E.cs_math_surftri (xv v1) (xv v2) pfq.center) ana values c_id) values)
      values

/-- `_pcsd_by_analytic`: integral over each selected primal cell. -/
def _pcsd_by_analytic (E : cs_extern_t) (sh : cs_shared_t) (ana : cs_analytic_func_t)
    (n_elts : Nat) (elt_ids : Option (Nat → Nat))
    (compute_integral : cs_quadrature_tetra_integral_t) (values : Nat → ℚ) : Nat → ℚ :=
  forLoop 0 n_elts (fun id values =>
    let c_id := elt_id elt_ids id
    pc_cell_integral E sh ana compute_integral c_id values) values

/-- `_pcsa_by_analytic`: the integral of `_pcsd_by_analytic`, then
`values[c_id] /= cell_vol[c_id]`. -/
def _pcsa_by_analytic (E : cs_extern_t) (sh : cs_shared_t) (ana : cs_analytic_func_t)
    (n_elts : Nat) (elt_ids : Option (Nat → Nat))
    (compute_integral : cs_quadrature_tetra_integral_t) (values : Nat → ℚ) : Nat → ℚ :=
  forLoop 0 n_elts (fun id values =>
    let c_id := elt_id elt_ids id
    let values := pc_cell_integral E sh ana compute_integral c_id values
    Function.update values c_id (values c_id / sh.quant.cell_vol c_id)) values

/-- `_pcva_by_analytic`: the integral is accumulated at `values + c_id`, then
the three entries of `val_i = values + 3*c_id` are multiplied by
`1./cell_vol[c_id]`. -/
def _pcva_by_analytic (E : cs_extern_t) (sh : cs_shared_t) (ana : cs_analytic_func_t)
    (n_elts : Nat) (elt_ids : Option (Nat → Nat))
    (compute_integral : cs_quadrature_tetra_integral_t) (values : Nat → ℚ) : Nat → ℚ :=
  forLoop 0 n_elts (fun id values =>
    let c_id := elt_id elt_ids id
    let values := pc_cell_integral E sh ana compute_integral c_id values
    let _overvol := 1 / sh.quant.cell_vol c_id
    forLoop 0 3 (fun xyz values =>
      Function.update values (3 * c_id + xyz) (values (3 * c_id + xyz) * _overvol)) values)
    values

/-! ## Public evaluators -/

/-- `cs_evaluate_density_by_value`. -/
def cs_evaluate_density_by_value (D : cs_defs_t) (E : cs_extern_t) (sh : cs_shared_t)
    (dof_flag : Nat) (d : Option cs_xdef_t) (retval : Option (Nat → ℚ)) :
    Except cs_error (Nat → ℚ) :=
  match retval with
  | none => .error .empty_array
  | some retval =>
    match d with
    | none => .error .assert_failed
    | some d =>
      if d.support ≠ D.CS_XDEF_SUPPORT_VOLUME then .error .assert_failed
      else
        let z := E.cs_volume_zone_by_id d.z_id
        if dof_flag &&& D.CS_FLAG_SCALAR ≠ 0 then
          if D.cs_flag_test dof_flag D.cs_flag_primal_cell = true then
            match d.input with
            | .reals constant_val =>
              .ok (_pcsd_by_value sh (constant_val 0) z.n_elts z.elt_ids retval)
            | _ => .error .bad_cast
          else if D.cs_flag_test dof_flag D.cs_flag_dual_cell = true then
            match d.input with
            | .reals constant_val =>
              _dcsd_by_value sh (constant_val 0) z.n_elts z.elt_ids retval
            | _ => .error .bad_cast
          else .error .not_handled
        else if dof_flag &&& D.CS_FLAG_VECTOR ≠ 0 then
          if D.cs_flag_test dof_flag D.cs_flag_primal_cell = true then
            match d.input with
            | .reals constant_vec =>
              .ok (_pcvd_by_value sh constant_vec z.n_elts z.elt_ids retval)
            | _ => .error .bad_cast
          else if D.cs_flag_test dof_flag D.cs_flag_dual_cell = true then
            match d.input with
            | .reals constant_vec =>
              .ok (_dcvd_by_value sh constant_vec z.n_elts z.elt_ids retval)
            | _ => .error .bad_cast
          else .error .not_handled
        else .error .not_handled

/-- `cs_evaluate_potential_by_qov`. -/
def cs_evaluate_potential_by_qov (D : cs_defs_t) (E : cs_extern_t) (sh : cs_shared_t)
    (dof_flag : Nat) (d : Option cs_xdef_t) (retval : Option (Nat → ℚ)) :
    Except cs_error (Nat → ℚ) :=
  match retval with
  | none => .error .empty_array
  | some retval =>
    match d with
    | none => .error .assert_failed
    | some d =>
      if d.support ≠ D.CS_XDEF_SUPPORT_VOLUME then .error .assert_failed
      else
        let z := E.cs_volume_zone_by_id d.z_id
        if dof_flag &&& D.CS_FLAG_SCALAR ≠ 0 then
          match d.input with
          | .reals input =>
            let const_val := input 0
            if D.cs_flag_test dof_flag D.cs_flag_primal_vtx = true then
              _pvsp_by_qov sh const_val z.n_elts z.elt_ids retval
            else .ok retval
          | _ => .error .bad_cast
        else .error .not_handled

/-! ## Instances used to run the evaluators on concrete inputs -/

/-- Sample values of the header constants, with the bitwise `cs_flag_test`
(`(flag & reference) == reference`). -/
def sample_defs : cs_defs_t where
  CS_FLAG_FULL_LOC := 1
  CS_FLAG_SCALAR := 2
  CS_FLAG_VECTOR := 4
  cs_flag_primal_vtx := 256 + 1024
  cs_flag_primal_face := 256 + 4096
  cs_flag_primal_cell := 256 + 8192
  cs_flag_dual_cell := 512 + 8192
  cs_flag_test := fun flag_to_check reference => (flag_to_check &&& reference) == reference
  CS_XDEF_SUPPORT_VOLUME := 1
  CS_QUADRATURE_BARY := 1
  CS_QUADRATURE_BARY_SUBDIV := 2
  CS_QUADRATURE_HIGHER := 3
  CS_QUADRATURE_HIGHEST := 4
  CS_TRIANGLE_CASE := 3

/-- Analytic function with the constant value `k`: one write per point, at the
index of the point (its id when a list is given and the output is not
compacted). -/
def ana_const (k : ℚ) : cs_analytic_func_t :=
  fun _ n_pts pt_ids _ compact retval off =>
    forLoop 0 n_pts (fun p r =>
      let id := match pt_ids with
        | some ids => if compact then p else ids p
        | none => p
      Function.update r (off + id) k) retval

/-- Modelled from the spec: one-point rule on a tetrahedron, one evaluation at
the centroid, weight the full measure, added into the accumulator. -/
def tet_1pt_scal : cs_quadrature_tetra_integral_t :=
  fun tcur xv xe xf xc vol ana results off =>
    let xg : cs_real_3_t := (1/4 * (xv.1 + xe.1 + xf.1 + xc.1),
      1/4 * (xv.2.1 + xe.2.1 + xf.2.1 + xc.2.1), 1/4 * (xv.2.2 + xe.2.2 + xf.2.2 + xc.2.2))
    let evaluation := ana tcur 1 none (fun _ => xg) false (fun _ => 0) 0
    Function.update results off (results off + vol * evaluation 0)

/-- Quadrature rule that ignores the function and adds the measure `vol` it
is given to `results[0]`: it records the measure and the address. -/
def scal_probe : cs_quadrature_tetra_integral_t :=
  fun _ _ _ _ _ vol _ results off => Function.update results off (results off + vol)

/-- Quadrature rule that ignores the function and adds `vol * k i` to
`results[i]`, `i = 0, 1, 2`: it records the measure and the address it is
given. -/
def vect_probe (k : Nat → ℚ) : cs_quadrature_tetra_integral_t :=
  fun _ _ _ _ _ vol _ results off =>
    forLoop 0 3 (fun i r => Function.update r (off + i) (r (off + i) + vol * k i)) results

/-- Quadrature rule on a triangle that adds `area * f(centroid)` to `results[0]`. -/
def tria_probe : cs_quadrature_tria_integral_t :=
  fun tcur xv1 xv2 xv3 area ana results off =>
    let xg : cs_real_3_t := (1/3 * (xv1.1 + xv2.1 + xv3.1),
      1/3 * (xv1.2.1 + xv2.2.1 + xv3.2.1), 1/3 * (xv1.2.2 + xv2.2.2 + xv3.2.2))
    let evaluation := ana tcur 1 none (fun _ => xg) false (fun _ => 0) 0
    Function.update results off (results off + area * evaluation 0)

/-- Cross product, used for the area of a triangle. -/
def cross (u v : cs_real_3_t) : cs_real_3_t :=
  (u.2.1 * v.2.2 - u.2.2 * v.2.1, u.2.2 * v.1 - u.1 * v.2.2, u.1 * v.2.1 - u.2.1 * v.1)

/-- External functions used on the concrete inputs, for the zone `z`: the
dot product, the area of a triangle lying in a plane normal to a coordinate
axis (half the only non-zero component of the cross product, in absolute
value), the three vertices of a triangle from its first two edges, and the
rules above for every precision. -/
def sample_ext (z : cs_zone_t) : cs_extern_t where
  cs_volume_zone_by_id := fun _ => z
  cs_math_3_dot_product := fun u v => u.1 * v.1 + u.2.1 * v.2.1 + u.2.2 * v.2.2
  cs_math_surftri := fun xa xb xc =>
    let n := cross (xb.1 - xa.1, xb.2.1 - xa.2.1, xb.2.2 - xa.2.2)
      (xc.1 - xa.1, xc.2.1 - xa.2.1, xc.2.2 - xa.2.2)
    1/2 * (|n.1| + |n.2.1| + |n.2.2|)
  cs_connect_get_next_3_vertices := fun f2e_ids e2v_ids start_idx =>
    let _2e0 := 2 * f2e_ids start_idx
    let _2e1 := 2 * f2e_ids (start_idx + 1)
    let tmp := e2v_ids _2e1
    let v0 := e2v_ids _2e0
    let v1 := e2v_ids (_2e0 + 1)
    (v0, v1, if tmp ≠ v0 ∧ tmp ≠ v1 then tmp else e2v_ids (_2e1 + 1))
  cs_cell_mesh_get_next_3_vertices := fun f2e_ids e2v_ids start_idx =>
    let _2e0 := 2 * f2e_ids start_idx
    let _2e1 := 2 * f2e_ids (start_idx + 1)
    let tmp := e2v_ids _2e1
    let v0 := e2v_ids _2e0
    let v1 := e2v_ids (_2e0 + 1)
    (v0, v1, if tmp ≠ v0 ∧ tmp ≠ v1 then tmp else e2v_ids (_2e1 + 1))
  cs_math_onethird := 1/3
  cs_quadrature_tet_1pt_scal := tet_1pt_scal
  cs_quadrature_tet_4pts_scal := tet_1pt_scal
  cs_quadrature_tet_5pts_scal := tet_1pt_scal
  cs_quadrature_tet_1pt_vect := vect_probe (fun _ => 1)
  cs_quadrature_tet_4pts_vect := vect_probe (fun _ => 1)
  cs_quadrature_tet_5pts_vect := vect_probe (fun _ => 1)
  cs_quadrature_tria_1pt_scal := tria_probe
  cs_quadrature_tria_3pts_scal := tria_probe
  cs_quadrature_tria_4pts_scal := tria_probe
  cs_quadrature_tria_1pt_vect := tria_probe
  cs_quadrature_tria_3pts_vect := tria_probe
  cs_quadrature_tria_4pts_vect := tria_probe
  cs_range_set_sync := fun _ r => r

/-- Definition by the constant values `val`, on the volume, zone `0`. -/
def xdef_by_value (val : Nat → ℚ) : cs_xdef_t where
  dim := 1
  z_id := 0
  support := sample_defs.CS_XDEF_SUPPORT_VOLUME
  qtype := sample_defs.CS_QUADRATURE_BARY
  meta := 0
  input := .reals val

/-! ## Face averages by analytic function -/

/-- Integral on face `f_id` accumulated at `values + off`: the `switch` on the
number of edges of the face, shared word for word by the two branches of
`_pfsa_by_analytic` (`off = f_id`) and of `_pfva_by_analytic` (`off = 3*f_id`). -/
def pf_face_integral (D : cs_defs_t) (E : cs_extern_t) (sh : cs_shared_t)
    (ana : cs_analytic_func_t) (compute_integral : cs_quadrature_tria_integral_t)
    (f_id off : Nat) (values : Nat → ℚ) : Nat → ℚ :=
  let quant := sh.quant
  let f2e := sh.connect.f2e
  let e2v := sh.connect.e2v
  let xv := quant.vtx_coord
  let tcur := sh.t_cur
  let pfq := quant.face f_id
  let start_idx := f2e.idx f_id
  let end_idx := f2e.idx (f_id + 1)
  if end_idx - start_idx = D.CS_TRIANGLE_CASE then
    let v := E.cs_connect_get_next_3_vertices f2e.ids e2v.ids start_idx
    compute_integral tcur (xv v.1) (xv v.2.1) (xv v.2.2) pfq.meas ana values off
  else
    forLoop start_idx end_idx (fun j values =>
      let _2e := 2 * f2e.ids j
      let v1 := e2v.ids _2e
      let v2 := e2v.ids (_2e + 1)
      compute_integral tcur (xv v1) (xv v2) pfq.center
        (E.cs_math_surftri (xv v1) (xv v2) pfq.center) ana values off) values

/-- `_pfsa_by_analytic`: average of a scalar function on the faces of the
selected cells, each face once. -/
def _pfsa_by_analytic (D : cs_defs_t) (E : cs_extern_t) (sh : cs_shared_t)
    (ana : cs_analytic_func_t) (n_elts : Nat) (elt_ids : Option (Nat → Nat))
    (compute_integral : cs_quadrature_tria_integral_t) (values : Nat → ℚ) : Nat → ℚ :=
  let quant := sh.quant
  let c2f := sh.connect.c2f
  match elt_ids with
  | none =>
    forLoop 0 quant.n_faces (fun f_id values =>
      let values := pf_face_integral D E sh ana compute_integral f_id f_id values
      Function.update values f_id (values f_id / (quant.face f_id).meas)) values
  | some elt_ids =>
    let todo := forLoop 0 quant.n_faces (fun f_id t => Function.update t f_id true)
      sh.par.malloc_todo
    (forLoop 0 n_elts (fun i (s : (Nat → Bool) × (Nat → ℚ)) =>
      let c_id := elt_ids i
      forLoop (c2f.idx c_id) (c2f.idx (c_id + 1)) (fun j s =>
        let f_id := c2f.ids j
        if s.1 f_id = true then
          let todo := Function.update s.1 f_id false
          let values := pf_face_integral D E sh ana compute_integral f_id f_id s.2
          (todo, Function.update values f_id (values f_id / (quant.face f_id).meas))
        else s) s) (todo, values)).2

/-- The scaling `val_i[xyz] *= _oversurf` of `_pfva_by_analytic`. -/
def pfva_scale (sh : cs_shared_t) (f_id : Nat) (values : Nat → ℚ) : Nat → ℚ :=
  let _oversurf := 1 / (sh.quant.face f_id).meas
  forLoop 0 3 (fun xyz values =>
    Function.update values (3 * f_id + xyz) (values (3 * f_id + xyz) * _oversurf)) values

/-- `_pfva_by_analytic`: vector counterpart of `_pfsa_by_analytic`. -/
def _pfva_by_analytic (D : cs_defs_t) (E : cs_extern_t) (sh : cs_shared_t)
    (ana : cs_analytic_func_t) (n_elts : Nat) (elt_ids : Option (Nat → Nat))
    (compute_integral : cs_quadrature_tria_integral_t) (values : Nat → ℚ) : Nat → ℚ :=
  let quant := sh.quant
  let c2f := sh.connect.c2f
  match elt_ids with
  | none =>
    forLoop 0 quant.n_faces (fun f_id values =>
      let values := pf_face_integral D E sh ana compute_integral f_id (3 * f_id) values
      pfva_scale sh f_id values) values
  | some elt_ids =>
    let todo := forLoop 0 quant.n_faces (fun f_id t => Function.update t f_id true)
      sh.par.malloc_todo
    (forLoop 0 n_elts (fun i (s : (Nat → Bool) × (Nat → ℚ)) =>
      let c_id := elt_ids i
      forLoop (c2f.idx c_id) (c2f.idx (c_id + 1)) (fun j s =>
        let f_id := c2f.ids j
        if s.1 f_id = true then
          let todo := Function.update s.1 f_id false
          let values := pf_face_integral D E sh ana compute_integral f_id (3 * f_id) s.2
          (todo, pfva_scale sh f_id values)
        else s) s) (todo, values)).2

/-! ## Choice of the quadrature rule -/

/-- The `switch (def->qtype)` choosing a scalar rule on tetrahedra; `none`
is the `default` label, which stops with the invalid-quadrature error. -/
def tet_scal_rule (D : cs_defs_t) (E : cs_extern_t) (qtype : Nat) :
    Option cs_quadrature_tetra_integral_t :=
  if qtype = D.CS_QUADRATURE_BARY ∨ qtype = D.CS_QUADRATURE_BARY_SUBDIV then
    some E.cs_quadrature_tet_1pt_scal
  else if qtype = D.CS_QUADRATURE_HIGHER then some E.cs_quadrature_tet_4pts_scal
  else if qtype = D.CS_QUADRATURE_HIGHEST then some E.cs_quadrature_tet_5pts_scal
  else none

/-- The `switch (def->qtype)` choosing a vector rule on tetrahedra. -/
def tet_vect_rule (D : cs_defs_t) (E : cs_extern_t) (qtype : Nat) :
    Option cs_quadrature_tetra_integral_t :=
  if qtype = D.CS_QUADRATURE_BARY ∨ qtype = D.CS_QUADRATURE_BARY_SUBDIV then
    some E.cs_quadrature_tet_1pt_vect
  else if qtype = D.CS_QUADRATURE_HIGHER then some E.cs_quadrature_tet_4pts_vect
  else if qtype = D.CS_QUADRATURE_HIGHEST then some E.cs_quadrature_tet_5pts_vect
  else none

/-- The `switch (def->qtype)` choosing a scalar rule on triangles. -/
def tria_scal_rule (D : cs_defs_t) (E : cs_extern_t) (qtype : Nat) :
    Option cs_quadrature_tria_integral_t :=
  if qtype = D.CS_QUADRATURE_BARY ∨ qtype = D.CS_QUADRATURE_BARY_SUBDIV then
    some E.cs_quadrature_tria_1pt_scal
  else if qtype = D.CS_QUADRATURE_HIGHER then some E.cs_quadrature_tria_3pts_scal
  else if qtype = D.CS_QUADRATURE_HIGHEST then some E.cs_quadrature_tria_4pts_scal
  else none

/-- The `switch (def->qtype)` choosing a vector rule on triangles. -/
def tria_vect_rule (D : cs_defs_t) (E : cs_extern_t) (qtype : Nat) :
    Option cs_quadrature_tria_integral_t :=
  if qtype = D.CS_QUADRATURE_BARY ∨ qtype = D.CS_QUADRATURE_BARY_SUBDIV then
    some E.cs_quadrature_tria_1pt_vect
  else if qtype = D.CS_QUADRATURE_HIGHER then some E.cs_quadrature_tria_3pts_vect
  else if qtype = D.CS_QUADRATURE_HIGHEST then some E.cs_quadrature_tria_4pts_vect
  else none

/-! ## Public evaluators by analytic function -/

/-- `cs_evaluate_density_by_analytic`. -/
def cs_evaluate_density_by_analytic (D : cs_defs_t) (E : cs_extern_t) (sh : cs_shared_t)
    (dof_flag : Nat) (d : Option cs_xdef_t) (retval : Option (Nat → ℚ)) :
    Except cs_error (Nat → ℚ) :=
  match retval with
  | none => .error .empty_array
  | some retval =>
    match d with
    | none => .error .assert_failed
    | some d =>
      if d.support ≠ D.CS_XDEF_SUPPORT_VOLUME then .error .assert_failed
      else
        let z := E.cs_volume_zone_by_id d.z_id
        match tet_scal_rule D E d.qtype with
        | none => .error .invalid_quad
        | some qfunc =>
          if dof_flag &&& D.CS_FLAG_SCALAR ≠ 0 then
            if D.cs_flag_test dof_flag D.cs_flag_primal_cell = true then
              match d.input with
              | .analytic func =>
                .ok (_pcsd_by_analytic E sh func z.n_elts z.elt_ids qfunc retval)
              | _ => .error .bad_cast
            else if D.cs_flag_test dof_flag D.cs_flag_dual_cell = true then
              match d.input with
              | .analytic func =>
                .ok (_dcsd_by_analytic sh func z.n_elts z.elt_ids qfunc retval)
              | _ => .error .bad_cast
            else .error .not_handled
          else .error .not_handled

/-- `cs_evaluate_average_on_cells_by_analytic`. -/
def cs_evaluate_average_on_cells_by_analytic (D : cs_defs_t) (E : cs_extern_t)
    (sh : cs_shared_t) (dof_flag : Nat) (d : Option cs_xdef_t) (retval : Option (Nat → ℚ)) :
    Except cs_error (Nat → ℚ) :=
  match retval with
  | none => .error .empty_array
  | some retval =>
    match d with
    | none => .error .assert_failed
    | some d =>
      if d.support ≠ D.CS_XDEF_SUPPORT_VOLUME then .error .assert_failed
      else if D.cs_flag_test dof_flag D.cs_flag_primal_cell = false then .error .assert_failed
      else
        let z := E.cs_volume_zone_by_id d.z_id
        if d.dim = 1 then
          if dof_flag &&& D.CS_FLAG_SCALAR = 0 then .error .assert_failed
          else
            match tet_scal_rule D E d.qtype with
            | none => .error .invalid_quad
            | some qfunc =>
              match d.input with
              | .analytic func =>
                .ok (_pcsa_by_analytic E sh func z.n_elts z.elt_ids qfunc retval)
              | _ => .error .bad_cast
        else if d.dim = 3 then
          if dof_flag &&& D.CS_FLAG_VECTOR = 0 then .error .assert_failed
          else
            match tet_vect_rule D E d.qtype with
            | none => .error .invalid_quad
            | some qfunc =>
              match d.input with
              | .analytic func =>
                .ok (_pcva_by_analytic E sh func z.n_elts z.elt_ids qfunc retval)
              | _ => .error .bad_cast
        else .error .invalid_dim

/-- `cs_evaluate_average_on_faces_by_analytic`. -/
def cs_evaluate_average_on_faces_by_analytic (D : cs_defs_t) (E : cs_extern_t)
    (sh : cs_shared_t) (dof_flag : Nat) (d : Option cs_xdef_t) (retval : Option (Nat → ℚ)) :
    Except cs_error (Nat → ℚ) :=
  match retval with
  | none => .error .empty_array
  | some retval =>
    match d with
    | none => .error .assert_failed
    | some d =>
      if d.support ≠ D.CS_XDEF_SUPPORT_VOLUME then .error .assert_failed
      else if D.cs_flag_test dof_flag D.cs_flag_primal_face = false then .error .assert_failed
      else
        let z := E.cs_volume_zone_by_id d.z_id
        let sync := fun (r : Nat → ℚ) =>
          if sh.par.n_ranks > 1 then E.cs_range_set_sync d.dim r else r
        if d.dim = 1 then
          if dof_flag &&& D.CS_FLAG_SCALAR = 0 then .error .assert_failed
          else
            match tria_scal_rule D E d.qtype with
            | none => .error .invalid_quad
            | some qfunc =>
              match d.input with
              | .analytic func =>
                .ok (sync (_pfsa_by_analytic D E sh func z.n_elts z.elt_ids qfunc retval))
              | _ => .error .bad_cast
        else if d.dim = 3 then
          if dof_flag &&& D.CS_FLAG_VECTOR = 0 then .error .assert_failed
          else
            match tria_vect_rule D E d.qtype with
            | none => .error .invalid_quad
            | some qfunc =>
              match d.input with
              | .analytic func =>
                .ok (sync (_pfva_by_analytic D E sh func z.n_elts z.elt_ids qfunc retval))
              | _ => .error .bad_cast
        else .error .invalid_dim

/-- Definition by the analytic function `func` with quadrature type `qtype`
and dimension `dim`, on the volume, zone `0`. -/
def xdef_by_analytic (func : cs_analytic_func_t) (dim qtype : Nat) : cs_xdef_t where
  dim := dim
  z_id := 0
  support := sample_defs.CS_XDEF_SUPPORT_VOLUME
  qtype := qtype
  meta := 0
  input := .analytic func

/-- A buffer transformer that only touches entry `off`, whose new content
depends on its old content alone. -/
def LocalAt (off : Nat) (f : (Nat → ℚ) → (Nat → ℚ)) : Prop :=
  ∃ g : ℚ → ℚ, ∀ vals, f vals = Function.update vals off (g (vals off))

/-- A quadrature rule for a scalar function: it reads and writes `results[0]`
only. -/
def ScalarRule (ci : cs_quadrature_tetra_integral_t) : Prop :=
  ∀ t a b c d vol ana off, LocalAt off (fun vals => ci t a b c d vol ana vals off)

/-- The unit cube as one hexahedral cell: vertex `x + 2y + 4z` at `(x, y, z)`,
faces `x = 0, x = 1, y = 0, y = 1, z = 0, z = 1` (all boundary faces, of area
`1`, with outward unit normals), dual edge vectors from the cell centre to
the face centres, cell volume `1`. -/
def unit_cube : cs_shared_t where
  m := {
    n_cells_with_ghosts := 1
    n_i_faces := 0
    i_face_cells := fun _ => (0, 0)
    i_face_vtx_idx := fun _ => 0
    i_face_vtx_lst := fun _ => 0
    halo := none }
  quant := {
    n_cells := 1
    n_faces := 6
    n_vertices := 8
    cell_vol := ofList 0 [1]
    dcell_vol := ofList 0 [1/8, 1/8, 1/8, 1/8, 1/8, 1/8, 1/8, 1/8]
    vtx_coord := ofList (0, 0, 0) [(0, 0, 0), (1, 0, 0), (0, 1, 0), (1, 1, 0),
      (0, 0, 1), (1, 0, 1), (0, 1, 1), (1, 1, 1)]
    cell_centers := ofList (0, 0, 0) [(1/2, 1/2, 1/2)]
    dedge_vector := ofList (0, 0, 0) [(-1/2, 0, 0), (1/2, 0, 0), (0, -1/2, 0), (0, 1/2, 0),
      (0, 0, -1/2), (0, 0, 1/2)]
    face := ofList { meas := 0, unitv := (0, 0, 0), center := (0, 0, 0) } [
      { meas := 1, unitv := (-1, 0, 0), center := (0, 1/2, 1/2) },
      { meas := 1, unitv := (1, 0, 0), center := (1, 1/2, 1/2) },
      { meas := 1, unitv := (0, -1, 0), center := (1/2, 0, 1/2) },
      { meas := 1, unitv := (0, 1, 0), center := (1/2, 1, 1/2) },
      { meas := 1, unitv := (0, 0, -1), center := (1/2, 1/2, 0) },
      { meas := 1, unitv := (0, 0, 1), center := (1/2, 1/2, 1) }] }
  connect := {
    c2v := { idx := ofList 8 [0, 8], ids := ofList 0 [0, 1, 2, 3, 4, 5, 6, 7] }
    c2f := { idx := ofList 6 [0, 6], ids := ofList 0 [0, 1, 2, 3, 4, 5] }
    f2e := { idx := ofList 24 [0, 4, 8, 12, 16, 20, 24],
             ids := ofList 0 [4, 10, 6, 8, 5, 11, 7, 9, 0, 9, 2, 8, 1, 11, 3, 10,
               0, 5, 1, 4, 2, 7, 3, 6] }
    e2v := { idx := ofList 24 [0, 2, 4, 6, 8, 10, 12, 14, 16, 18, 20, 22, 24],
             ids := ofList 0 [0, 1, 2, 3, 4, 5, 6, 7, 0, 2, 1, 3, 4, 6, 5, 7,
               0, 4, 1, 5, 2, 6, 3, 7] }
    c2e := { idx := ofList 12 [0, 12], ids := ofList 0 [0, 1, 2, 3, 4, 5, 6, 7, 8, 9, 10, 11] }
    cell_type := fun _ => .FVM_CELL_HEXA }
  par := serial
  t_cur := 0

/-! ## Potentials at faces and vertices -/

/-- `_pfp_by_analytic`: one call of the analytic function per face of the
selected cells, guarded by the `todo` array. -/
def _pfp_by_analytic (sh : cs_shared_t) (ana : cs_analytic_func_t) (n_elts : Nat)
    (elt_ids : Option (Nat → Nat)) (values : Nat → ℚ) : Except cs_error (Nat → ℚ) :=
  let tcur := sh.t_cur
  let quant := sh.quant
  let c2f := sh.connect.c2f
  let todo := forLoop 0 quant.n_faces (fun f_id t => Function.update t f_id true)
    sh.par.malloc_todo
  match read_elt_ids n_elts elt_ids with
  | .error e => .error e
  | .ok elt_ids =>
    .ok (forLoop 0 n_elts (fun i (s : (Nat → Bool) × (Nat → ℚ)) =>
      let c_id := elt_ids i
      forLoop (c2f.idx c_id) (c2f.idx (c_id + 1)) (fun j s =>
        let f_id := c2f.ids j
        if s.1 f_id = true then
          let xf := (quant.face f_id).center
          (Function.update s.1 f_id false, ana tcur 1 none (fun _ => xf) false s.2 f_id)
        else s) s) (todo, values)).2

/-- `_pfsp_by_value`: `values[f_id] = const_val` for the faces of the selected
cells, guarded by the `todo` array. -/
def _pfsp_by_value (sh : cs_shared_t) (const_val : ℚ) (n_elts : Nat)
    (elt_ids : Option (Nat → Nat)) (values : Nat → ℚ) : Except cs_error (Nat → ℚ) :=
  let quant := sh.quant
  let c2f := sh.connect.c2f
  let todo := forLoop 0 quant.n_faces (fun f_id t => Function.update t f_id true)
    sh.par.malloc_todo
  match read_elt_ids n_elts elt_ids with
  | .error e => .error e
  | .ok elt_ids =>
    .ok (forLoop 0 n_elts (fun i (s : (Nat → Bool) × (Nat → ℚ)) =>
      let c_id := elt_ids i
      forLoop (c2f.idx c_id) (c2f.idx (c_id + 1)) (fun j s =>
        let f_id := c2f.ids j
        if s.1 f_id = true then
          (Function.update s.1 f_id false, Function.update s.2 f_id const_val)
        else s) s) (todo, values)).2

/-- The copy `memcpy(values + 3*f_id, const_vec, 3*sizeof(double))`. -/
def memcpy3 (values : Nat → ℚ) (f_id : Nat) (const_vec : Nat → ℚ) : Nat → ℚ :=
  forLoop 0 3 (fun k values => Function.update values (3 * f_id + k) (const_vec k)) values

/-- `_pfvp_by_value`: vector counterpart of `_pfsp_by_value`. -/
def _pfvp_by_value (sh : cs_shared_t) (const_vec : Nat → ℚ) (n_elts : Nat)
    (elt_ids : Option (Nat → Nat)) (values : Nat → ℚ) : Except cs_error (Nat → ℚ) :=
  let quant := sh.quant
  let c2f := sh.connect.c2f
  let todo := forLoop 0 quant.n_faces (fun f_id t => Function.update t f_id true)
    sh.par.malloc_todo
  match read_elt_ids n_elts elt_ids with
  | .error e => .error e
  | .ok elt_ids =>
    .ok (forLoop 0 n_elts (fun i (s : (Nat → Bool) × (Nat → ℚ)) =>
      let c_id := elt_ids i
      forLoop (c2f.idx c_id) (c2f.idx (c_id + 1)) (fun j s =>
        let f_id := c2f.ids j
        if s.1 f_id = true then
          (Function.update s.1 f_id false, memcpy3 s.2 f_id const_vec)
        else s) s) (todo, values)).2

/-- `_pvsp_by_value`: `values[v_id] = const_val` for the vertices of the
selected cells, guarded by the `todo` array. -/
def _pvsp_by_value (sh : cs_shared_t) (const_val : ℚ) (n_elts : Nat)
    (elt_ids : Option (Nat → Nat)) (values : Nat → ℚ) : Except cs_error (Nat → ℚ) :=
  let quant := sh.quant
  let c2v := sh.connect.c2v
  let todo := forLoop 0 quant.n_vertices (fun v_id t => Function.update t v_id true)
    sh.par.malloc_todo
  match read_elt_ids n_elts elt_ids with
  | .error e => .error e
  | .ok elt_ids =>
    .ok (forLoop 0 n_elts (fun i (s : (Nat → Bool) × (Nat → ℚ)) =>
      let c_id := elt_ids i
      forLoop (c2v.idx c_id) (c2v.idx (c_id + 1)) (fun j s =>
        let v_id := c2v.ids j
        if s.1 v_id = true then
          (Function.update s.1 v_id false, Function.update s.2 v_id const_val)
        else s) s) (todo, values)).2

/-- Scratch array `vtx_lst` of `_pvp_by_analytic` after the loop on the
selected cells (`vtx_lst[v_id] = v_id` for a vertex met, `-1` otherwise). -/
def pvp_flags (sh : cs_shared_t) (n_elts : Nat) (elt_ids : Nat → Nat) : Nat → Int :=
  let quant := sh.quant
  let c2v := sh.connect.c2v
  let vtx_lst := forLoop 0 quant.n_vertices (fun v_id t => Function.update t v_id (-1))
    sh.par.malloc_vtx_lst
  forLoop 0 n_elts (fun i t =>
    let c_id := elt_ids i
    forLoop (c2v.idx c_id) (c2v.idx (c_id + 1)) (fun j t =>
      let v_id := c2v.ids j
      if t v_id = -1 then Function.update t v_id (v_id : Int) else t) t) vtx_lst

/-- Compaction of `_pvp_by_analytic`: the scratch array and
`n_selected_vertices` after the loop
`if (vtx_lst[v_id] == v_id) vtx_lst[n_selected_vertices++] = v_id`. -/
def pvp_compact (n_vertices : Nat) (vtx_lst : Nat → Int) : (Nat → Int) × Nat :=
  forLoop 0 n_vertices (fun v_id (s : (Nat → Int) × Nat) =>
    if s.1 v_id = (v_id : Int) then (Function.update s.1 s.2 (v_id : Int), s.2 + 1) else s)
    (vtx_lst, 0)

/-- `_pvp_by_analytic`: one call of the analytic function for the list of the
vertices of the selected cells. -/
def _pvp_by_analytic (sh : cs_shared_t) (ana : cs_analytic_func_t) (n_elts : Nat)
    (elt_ids : Option (Nat → Nat)) (values : Nat → ℚ) : Except cs_error (Nat → ℚ) :=
  match read_elt_ids n_elts elt_ids with
  | .error e => .error e
  | .ok elt_ids =>
    let s := pvp_compact sh.quant.n_vertices (pvp_flags sh n_elts elt_ids)
    .ok (ana sh.t_cur s.2 (some (fun i => (s.1 i).toNat)) sh.quant.vtx_coord false values 0)

/-- Ids met by the loops on the selected cells and on their slices, in the
order of the visits. -/
def visited (a : cs_adjacency_t) (cells : List Nat) : List Nat :=
  cells.foldr (fun c acc => (slice a c).map a.ids ++ acc) []

/-- One step of a loop guarded by a `todo` array: the first visit of `x`
performs the write `w x` and clears the flag. -/
def visit_step {β : Type} (w : Nat → β → β) (s : (Nat → Bool) × β) (x : Nat) :
    (Nat → Bool) × β :=
  if s.1 x = true then (Function.update s.1 x false, w x s.2) else s

/-! ## Averages on primal cells by value and by array -/

/-- `_pcsa_by_value`: `values[c_id] = const_val` on the selection. -/
def _pcsa_by_value (sh : cs_shared_t) (const_val : ℚ) (n_elts : Nat)
    (elt_ids : Option (Nat → Nat)) (values : Nat → ℚ) : Nat → ℚ :=
  let quant := sh.quant
  match elt_ids with
  | none =>
    forLoop 0 quant.n_cells (fun c_id values => Function.update values c_id const_val) values
  | some elt_ids =>
    forLoop 0 n_elts (fun i values =>
      let c_id := elt_ids i
      Function.update values c_id const_val) values

/-- `_pcva_by_value`: `memcpy(values+3*c_id, const_vec, 3*sizeof(double))` on
the selection. -/
def _pcva_by_value (sh : cs_shared_t) (const_vec : Nat → ℚ) (n_elts : Nat)
    (elt_ids : Option (Nat → Nat)) (values : Nat → ℚ) : Nat → ℚ :=
  match elt_ids with
  | none =>
    forLoop 0 sh.quant.n_cells (fun c_id values => memcpy3 values c_id const_vec) values
  | some elt_ids =>
    forLoop 0 n_elts (fun i values =>
      let c_id := elt_ids i
      memcpy3 values c_id const_vec) values

/-- The copy `memcpy(dst + off, src + off, n*sizeof(double))` of `n` reals. -/
def memcpy_reals (dst : Nat → ℚ) (off : Nat) (src : Nat → ℚ) (n : Nat) : Nat → ℚ :=
  forLoop 0 n (fun k dst => Function.update dst (off + k) (src (off + k))) dst

/-- `cs_evaluate_average_on_cells_by_array`.  The location `array_input->loc`
is not read. -/
def cs_evaluate_average_on_cells_by_array (D : cs_defs_t) (E : cs_extern_t) (sh : cs_shared_t)
    (dof_flag : Nat) (d : Option cs_xdef_t) (retval : Option (Nat → ℚ)) :
    Except cs_error (Nat → ℚ) :=
  match retval with
  | none => .error .empty_array
  | some retval =>
    if D.cs_flag_test dof_flag D.cs_flag_primal_cell = false then .error .assert_failed
    else
      match d with
      | none => .error .assert_failed
      | some d =>
        if d.support ≠ D.CS_XDEF_SUPPORT_VOLUME then .error .assert_failed
        else
          let z := E.cs_volume_zone_by_id d.z_id
          match d.input with
          | .array array_input =>
            let stride := array_input.stride
            let val := array_input.values
            if stride = 1 then
              if d.meta &&& D.CS_FLAG_FULL_LOC ≠ 0 then
                .ok (forLoop 0 sh.quant.n_cells (fun c_id retval =>
                  Function.update retval c_id (val c_id)) retval)
              else
                match z.elt_ids with
                | none => .error .assert_failed
                | some elt_ids =>
                  .ok (forLoop 0 z.n_elts (fun i retval =>
                    let c_id := elt_ids i
                    Function.update retval c_id (val c_id)) retval)
            else
              if d.meta &&& D.CS_FLAG_FULL_LOC ≠ 0 then
                .ok (forLoop 0 sh.quant.n_cells (fun c_id retval =>
                  memcpy_reals retval (stride * c_id) val stride) retval)
              else
                match z.elt_ids with
                | none => .error .assert_failed
                | some elt_ids =>
                  .ok (forLoop 0 z.n_elts (fun i retval =>
                    let c_id := elt_ids i
                    memcpy_reals retval (stride * c_id) val stride) retval)
          | _ => .error .bad_cast

/-- Definition by the array `a`, on the volume, zone `0`, with the
metadata flag `meta`. -/
def xdef_by_array (a : cs_xdef_array_input_t) (meta : Nat) : cs_xdef_t where
  dim := a.stride
  z_id := 0
  support := sample_defs.CS_XDEF_SUPPORT_VOLUME
  qtype := sample_defs.CS_QUADRATURE_BARY
  meta := meta
  input := .array a

/-! ## Evaluators of `cs_xdef_eval.c` -/

/-- Constants of `cs_cdo.h` and the inline predicate `cs_test_flag`, which are
not part of the sources at hand: they are parameters of the embedding. -/
structure cs_cdo_defs_t where
  cs_cdo_primal_vtx : Nat
  cs_cdo_primal_cell : Nat
  cs_cdo_dual_face_byc : Nat
  CS_CDO_LOCAL_PVQ : Nat
  cs_test_flag : Nat → Nat → Bool

/-- Fields of `cs_cell_mesh_t` read by the cell-wise evaluators, in the local
numbering of the cell: `xv v` stands for the three reals at `xv + 3*v`,
`face f` for `cm->face[f]`. -/
structure cs_cell_mesh_t where
  flag : Nat
  c_id : Nat
  xc : cs_real_3_t
  vol_c : ℚ
  n_vc : Nat
  v_ids : Nat → Nat
  xv : Nat → cs_real_3_t
  wvc : Nat → ℚ
  n_fc : Nat
  face : Nat → cs_quant_t
  hfc : Nat → ℚ
  e2v_ids : Nat → Nat
  f2e_idx : Nat → Nat
  f2e_ids : Nat → Nat
  tef : Nat → ℚ

/-- Local view of cell `0` reduced to its vertices: their number, their ids
and their weights, with the flag `CS_CDO_LOCAL_PVQ` of `sample_cdo_defs`. -/
def vtx_cell_mesh (n_vc : Nat) (v_ids : Nat → Nat) (wvc : Nat → ℚ) : cs_cell_mesh_t where
  flag := 2
  c_id := 0
  xc := (0, 0, 0)
  vol_c := 0
  n_vc := n_vc
  v_ids := v_ids
  xv := fun _ => (0, 0, 0)
  wvc := wvc
  n_fc := 0
  face := fun _ => { meas := 0, unitv := (0, 0, 0), center := (0, 0, 0) }
  hfc := fun _ => 0
  e2v_ids := fun _ => 0
  f2e_idx := fun _ => 0
  f2e_ids := fun _ => 0
  tef := fun _ => 0

/-- Fields of `cs_field_t` read by the evaluators. -/
structure cs_field_t where
  dim : Nat
  location_id : Int
  val : Nat → ℚ

/-- Functions of other files used by `cs_xdef_eval.c` (`cs_reco.c`,
`cs_mesh_location.c`) and facts of the platform: they are parameters of the
embedding.  The reconstruction functions take the output buffer and the
offset at which their last argument points into it; `cs_reco_dfbyc_in_cell`
takes the array and the offset at which its second argument points into it.
`splice n s d` is the real whose first `n` bytes are those of `s` and whose
other bytes are those of `d`, and `stack_cell_vector` is the content of the
automatic array `cell_vector` before it is written. -/
structure cs_xdef_extern_t where
  cs_reco_pv_at_cell_center :
    Nat → cs_adjacency_t → cs_cdo_quantities_t → (Nat → ℚ) → (Nat → ℚ) → Nat → (Nat → ℚ)
  cs_reco_dfbyc_at_cell_center :
    Nat → cs_adjacency_t → cs_cdo_quantities_t → (Nat → ℚ) → (Nat → ℚ) → Nat → (Nat → ℚ)
  cs_reco_dfbyc_in_cell : cs_cell_mesh_t → (Nat → ℚ) → Nat → (Nat → ℚ) → (Nat → ℚ)
  cs_mesh_location_get_id_by_name : String → Int
  splice : Nat → ℚ → ℚ → ℚ
  stack_cell_vector : Nat → ℚ

/-- `memcpy(dst, src, n)` between two arrays of `cs_real_t`: `n` is a number
of BYTES and a real takes `sizeof(cs_real_t) = 8` of them, so the first
`n / 8` reals are copied and, when `n % 8` is not zero, the next real gets
its first `n % 8` bytes from the source. -/
def memcpy (splice : Nat → ℚ → ℚ → ℚ) (dst src : Nat → ℚ) (n : Nat) : Nat → ℚ :=
  fun i =>
    if i < n / 8 then src i
    else if i = n / 8 ∧ n % 8 ≠ 0 then splice (n % 8) (src i) (dst i)
    else dst i

/-- `cs_xdef_eval_at_vertices_by_array`. -/
def cs_xdef_eval_at_vertices_by_array (C : cs_cdo_defs_t) (X : cs_xdef_extern_t)
    (n_elts : Nat) (elt_ids : Option (Nat → Nat)) (compact : Bool)
    (array_input : cs_xdef_array_input_t) (eval : Nat → ℚ) : Except cs_error (Nat → ℚ) :=
  if array_input.stride ≠ 1 then .error .assert_failed
  else if C.cs_test_flag array_input.loc C.cs_cdo_primal_vtx = true then
    match elt_ids, compact with
    | some elt_ids, false =>
      .ok (forLoop 0 n_elts (fun i eval =>
        let v_id := elt_ids i
        Function.update eval v_id (array_input.values v_id)) eval)
    | some elt_ids, true =>
      .ok (forLoop 0 n_elts (fun i eval =>
        Function.update eval i (array_input.values (elt_ids i))) eval)
    | none, _ => .ok (memcpy X.splice eval array_input.values n_elts)
  else .error .invalid_support

/-- `cs_xdef_eval_scalar_at_cells_by_array`. -/
def cs_xdef_eval_scalar_at_cells_by_array (C : cs_cdo_defs_t) (X : cs_xdef_extern_t)
    (n_elts : Nat) (elt_ids : Option (Nat → Nat)) (compact : Bool)
    (connect : cs_cdo_connect_t) (quant : cs_cdo_quantities_t)
    (array_input : cs_xdef_array_input_t) (eval : Nat → ℚ) : Except cs_error (Nat → ℚ) :=
  if array_input.stride ≠ 1 then .error .assert_failed
  else if array_input.loc &&& C.cs_cdo_primal_cell = C.cs_cdo_primal_cell then
    match elt_ids, compact with
    | some elt_ids, false =>
      .ok (forLoop 0 n_elts (fun i eval =>
        let c_id := elt_ids i
        Function.update eval c_id (array_input.values c_id)) eval)
    | some elt_ids, true =>
      .ok (forLoop 0 n_elts (fun i eval =>
        Function.update eval i (array_input.values (elt_ids i))) eval)
    | none, _ => .ok (memcpy X.splice eval array_input.values n_elts)
  else if array_input.loc &&& C.cs_cdo_primal_vtx = C.cs_cdo_primal_vtx then
    match elt_ids, compact with
    | some elt_ids, false =>
      .ok (forLoop 0 n_elts (fun i eval =>
        let c_id := elt_ids i
        X.cs_reco_pv_at_cell_center c_id connect.c2v quant array_input.values eval c_id) eval)
    | some elt_ids, true =>
      .ok (forLoop 0 n_elts (fun i eval =>
        X.cs_reco_pv_at_cell_center (elt_ids i) connect.c2v quant array_input.values eval i)
        eval)
    | none, _ =>
      .ok (forLoop 0 n_elts (fun i eval =>
        X.cs_reco_pv_at_cell_center i connect.c2v quant array_input.values eval i) eval)
  else .error .invalid_support

/-- `cs_xdef_eval_nd_at_cells_by_array`. -/
def cs_xdef_eval_nd_at_cells_by_array (C : cs_cdo_defs_t) (X : cs_xdef_extern_t)
    (n_elts : Nat) (elt_ids : Option (Nat → Nat)) (compact : Bool)
    (connect : cs_cdo_connect_t) (quant : cs_cdo_quantities_t)
    (array_input : cs_xdef_array_input_t) (eval : Nat → ℚ) : Except cs_error (Nat → ℚ) :=
  let stride := array_input.stride
  if ¬ 1 < stride then .error .assert_failed
  else if C.cs_test_flag array_input.loc C.cs_cdo_primal_cell = true then
    match elt_ids, compact with
    | some elt_ids, false =>
      .ok (forLoop 0 n_elts (fun i eval =>
        let c_id := elt_ids i
        forLoop 0 stride (fun k eval =>
          Function.update eval (stride * c_id + k) (array_input.values (stride * c_id + k)))
          eval) eval)
    | some elt_ids, true =>
      .ok (forLoop 0 n_elts (fun i eval =>
        let c_id := elt_ids i
        forLoop 0 stride (fun k eval =>
          Function.update eval (stride * i + k) (array_input.values (stride * c_id + k)))
          eval) eval)
    | none, _ => .ok (memcpy X.splice eval array_input.values (stride * n_elts))
  else if C.cs_test_flag array_input.loc C.cs_cdo_dual_face_byc = true then
    if stride ≠ 3 then .error .assert_failed
    else
      match array_input.index with
      | none => .error .assert_failed
      | some index =>
        if index.is_c2e_idx = false then .error .assert_failed
        else
          match elt_ids, compact with
          | some elt_ids, false =>
            .ok (forLoop 0 n_elts (fun i eval =>
              let c_id := elt_ids i
              X.cs_reco_dfbyc_at_cell_center c_id connect.c2e quant array_input.values eval
                (c_id * stride)) eval)
          | some elt_ids, true =>
            .ok (forLoop 0 n_elts (fun i eval =>
              X.cs_reco_dfbyc_at_cell_center (elt_ids i) connect.c2e quant array_input.values
                eval (i * stride)) eval)
          | none, _ =>
            .ok (forLoop 0 n_elts (fun i eval =>
              X.cs_reco_dfbyc_at_cell_center i connect.c2e quant array_input.values eval
                (i * stride)) eval)
  else .error .invalid_support

/-- Loop on the vertices of cell `c_id` in `cs_xdef_eval_3_at_all_vertices_by_array`:
`dc_vol[v_id] += vol_vc[v]` and `v_val[k] += vol_vc[v] * cell_vector[k]`
with `v_val = eval + 3*v_id`, on the pair `(dc_vol, eval)`.  The counter `v`
is a `short int`: a cell has fewer than `2^15` vertices. -/
def vtx_accumulate (connect : cs_cdo_connect_t) (quant : cs_cdo_quantities_t) (c_id : Nat)
    (cell_vector : Nat → ℚ) (s : (Nat → ℚ) × (Nat → ℚ)) : (Nat → ℚ) × (Nat → ℚ) :=
  let c2v_idx := fun i => connect.c2v.idx (c_id + i)
  let c2v_ids := fun i => connect.c2v.ids (c2v_idx 0 + i)
  let vol_vc := fun i => quant.dcell_vol (c2v_idx 0 + i)
  forLoop 0 (c2v_idx 1 - c2v_idx 0) (fun v s =>
    let v_id := c2v_ids v
    (Function.update s.1 v_id (s.1 v_id + vol_vc v),
     forLoop 0 3 (fun k eval =>
       Function.update eval (3 * v_id + k) (eval (3 * v_id + k) + vol_vc v * cell_vector k))
       s.2)) s

/-- Loop on the vertices that ends `cs_xdef_eval_3_at_all_vertices_by_array`:
`v_val[k] *= 1/dc_vol[v_id]` with `v_val = eval + 3*v_id`. -/
def vtx_scale (quant : cs_cdo_quantities_t) (dc_vol eval : Nat → ℚ) : Nat → ℚ :=
  forLoop 0 quant.n_vertices (fun v_id eval =>
    let inv_dcvol := 1 / dc_vol v_id
    forLoop 0 3 (fun k eval =>
      Function.update eval (3 * v_id + k) (eval (3 * v_id + k) * inv_dcvol)) eval) eval

/-- `cs_xdef_eval_3_at_all_vertices_by_array`. -/
def cs_xdef_eval_3_at_all_vertices_by_array (C : cs_cdo_defs_t) (X : cs_xdef_extern_t)
    (par : cs_parall_t) (n_elts : Nat) (elt_ids : Option (Nat → Nat))
    (connect : cs_cdo_connect_t) (quant : cs_cdo_quantities_t)
    (array_input : cs_xdef_array_input_t) (eval : Nat → ℚ) : Except cs_error (Nat → ℚ) :=
  let stride := array_input.stride
  if elt_ids.isSome = true ∨ n_elts < quant.n_vertices then .error .invalid_support
  else
    let dc_vol := forLoop 0 quant.n_vertices (fun i dc_vol => Function.update dc_vol i 0)
      par.malloc_dc_vol
    if C.cs_test_flag array_input.loc C.cs_cdo_primal_cell = true then
      if stride ≠ 3 then .error .assert_failed
      else
        let s := forLoop 0 quant.n_cells (fun c_id s =>
          let cell_vector := forLoop 0 stride (fun k cell_vector =>
            Function.update cell_vector k (array_input.values (stride * c_id + k)))
            X.stack_cell_vector
          vtx_accumulate connect quant c_id cell_vector s) (dc_vol, eval)
        .ok (vtx_scale quant s.1 s.2)
    else if C.cs_test_flag array_input.loc C.cs_cdo_dual_face_byc = true then
      let s := forLoop 0 quant.n_cells (fun c_id s =>
        let cell_vector := X.cs_reco_dfbyc_at_cell_center c_id connect.c2e quant
          array_input.values X.stack_cell_vector 0
        vtx_accumulate connect quant c_id cell_vector s) (dc_vol, eval)
      .ok (vtx_scale quant s.1 s.2)
    else .error .invalid_support

/-- `cs_xdef_eval_cw_cell_by_array`.  The counter of the loop on the vertices
is a `short int`, as `cm->n_vc` is. -/
def cs_xdef_eval_cw_cell_by_array (C : cs_cdo_defs_t) (X : cs_xdef_extern_t)
    (cm : cs_cell_mesh_t) (array_input : cs_xdef_array_input_t) (eval : Nat → ℚ) :
    Except cs_error (Nat → ℚ) :=
  let stride := array_input.stride
  if C.cs_test_flag array_input.loc C.cs_cdo_primal_cell = true then
    .ok (forLoop 0 stride (fun k eval =>
      Function.update eval k (array_input.values (stride * cm.c_id + k))) eval)
  else if C.cs_test_flag array_input.loc C.cs_cdo_primal_vtx = true then
    if C.cs_test_flag cm.flag C.CS_CDO_LOCAL_PVQ = false then .error .assert_failed
    else
      .ok (forLoop 0 cm.n_vc (fun v eval =>
        forLoop 0 stride (fun k eval =>
          Function.update eval k
            (eval k + cm.wvc v * array_input.values (stride * cm.v_ids v + k))) eval) eval)
  else if C.cs_test_flag array_input.loc C.cs_cdo_dual_face_byc = true then
    match array_input.index with
    | none => .error .assert_failed
    | some index =>
      .ok (X.cs_reco_dfbyc_in_cell cm array_input.values (index.val cm.c_id) eval)
  else .error .invalid_support

/-- `cs_xdef_eval_cell_by_field`. -/
def cs_xdef_eval_cell_by_field (X : cs_xdef_extern_t)
    (n_elts : Nat) (elt_ids : Option (Nat → Nat)) (compact : Bool)
    (connect : cs_cdo_connect_t) (quant : cs_cdo_quantities_t)
    (input : Option cs_field_t) (eval : Nat → ℚ) : Except cs_error (Nat → ℚ) :=
  match input with
  | none => .error .assert_failed
  | some field =>
    let values := field.val
    let c_ml_id := X.cs_mesh_location_get_id_by_name "cells"
    let v_ml_id := X.cs_mesh_location_get_id_by_name "vertices"
    if field.location_id = c_ml_id then
      match elt_ids, compact with
      | some elt_ids, false =>
        .ok (forLoop 0 n_elts (fun i eval =>
          let c_id := elt_ids i
          forLoop 0 field.dim (fun k eval =>
            Function.update eval (field.dim * c_id + k) (values (field.dim * c_id + k)))
            eval) eval)
      | some elt_ids, true =>
        .ok (forLoop 0 n_elts (fun i eval =>
          let c_id := elt_ids i
          forLoop 0 field.dim (fun k eval =>
            Function.update eval (field.dim * i + k) (values (field.dim * c_id + k)))
            eval) eval)
      | none, _ => .ok (memcpy X.splice eval values (field.dim * n_elts))
    else if field.location_id = v_ml_id then
      if field.dim ≠ 1 then .error .assert_failed
      else
        match elt_ids, compact with
        | some elt_ids, false =>
          .ok (forLoop 0 n_elts (fun i eval =>
            let c_id := elt_ids i
            X.cs_reco_pv_at_cell_center c_id connect.c2v quant values eval c_id) eval)
        | some elt_ids, true =>
          .ok (forLoop 0 n_elts (fun i eval =>
            let c_id := elt_ids i
            X.cs_reco_pv_at_cell_center c_id connect.c2v quant values eval i) eval)
        | none, _ =>
          .ok (forLoop 0 n_elts (fun i eval =>
            X.cs_reco_pv_at_cell_center i connect.c2v quant values eval i) eval)
    else .error .invalid_support

/-- `cs_xdef_eval_cw_cell_by_field`. -/
def cs_xdef_eval_cw_cell_by_field (C : cs_cdo_defs_t) (X : cs_xdef_extern_t)
    (cm : cs_cell_mesh_t) (input : Option cs_field_t) (eval : Nat → ℚ) :
    Except cs_error (Nat → ℚ) :=
  match input with
  | none => .error .assert_failed
  | some field =>
    let values := field.val
    let c_ml_id := X.cs_mesh_location_get_id_by_name "cells"
    let v_ml_id := X.cs_mesh_location_get_id_by_name "vertices"
    if field.location_id = c_ml_id then
      .ok (forLoop 0 field.dim (fun k eval =>
        Function.update eval k (values (field.dim * cm.c_id + k))) eval)
    else if field.location_id = v_ml_id then
      if field.dim ≠ 1 then .error .assert_failed
      else if C.cs_test_flag cm.flag C.CS_CDO_LOCAL_PVQ = false then .error .assert_failed
      else
        .ok (forLoop 0 cm.n_vc (fun v eval =>
          Function.update eval 0 (eval 0 + cm.wvc v * values (cm.v_ids v))) eval)
    else .error .invalid_support

/-- `cs_xdef_eval_cw_vector_at_xyz_by_val`: the third write of each point
goes to `eval[2*i + 2]`. -/
def cs_xdef_eval_cw_vector_at_xyz_by_val (n_points : Nat) (constant_val : Nat → ℚ)
    (eval : Nat → ℚ) : Nat → ℚ :=
  forLoop 0 n_points (fun i eval =>
    let eval := Function.update eval (3 * i) (constant_val 0)
    let eval := Function.update eval (3 * i + 1) (constant_val 1)
    Function.update eval (2 * i + 2) (constant_val 2)) eval

/-- Sample values of the constants of `cs_cdo.h`, with the bitwise
`cs_test_flag` (`(flag & reference) == reference`). -/
def sample_cdo_defs : cs_cdo_defs_t where
  cs_cdo_primal_vtx := 256 + 1024
  cs_cdo_primal_cell := 256 + 8192
  cs_cdo_dual_face_byc := 512 + 4096 + 32
  CS_CDO_LOCAL_PVQ := 2
  cs_test_flag := fun flag_to_check reference => (flag_to_check &&& reference) == reference

/-- Stand-ins for the functions of other files: every reconstruction writes
`0` at its offset, cells are location `1` and vertices location `3`, and a
partial copy of a real gives the real `s + d`. -/
def sample_xdef_ext : cs_xdef_extern_t where
  cs_reco_pv_at_cell_center := fun _ _ _ _ eval off => Function.update eval off 0
  cs_reco_dfbyc_at_cell_center := fun _ _ _ _ eval off => Function.update eval off 0
  cs_reco_dfbyc_in_cell := fun _ _ _ eval => Function.update eval 0 0
  cs_mesh_location_get_id_by_name := fun name =>
    if name = "cells" then 1 else if name = "vertices" then 3 else -1
  splice := fun _ s d => s + d
  stack_cell_vector := fun _ => 7

/-- Rule on tetrahedra that ignores the function and adds `n` to the entry it
is given: it records which rule was called. -/
def tet_tag (n : ℚ) : cs_quadrature_tetra_integral_t :=
  fun _ _ _ _ _ _ _ results off => Function.update results off (results off + n)

/-- Rule on triangles that ignores the function and adds `n` to the entry it
is given: it records which rule was called. -/
def tria_tag (n : ℚ) : cs_quadrature_tria_integral_t :=
  fun _ _ _ _ _ _ results off => Function.update results off (results off + n)

/-- External functions of `sample_ext` in which every rule records its number
of points, plus `10` for the vector variants. -/
def tagged_ext (z : cs_zone_t) : cs_extern_t :=
  { sample_ext z with
    cs_quadrature_tet_1pt_scal := tet_tag 1
    cs_quadrature_tet_4pts_scal := tet_tag 4
    cs_quadrature_tet_5pts_scal := tet_tag 5
    cs_quadrature_tet_1pt_vect := tet_tag 11
    cs_quadrature_tet_4pts_vect := tet_tag 14
    cs_quadrature_tet_5pts_vect := tet_tag 15
    cs_quadrature_tria_1pt_scal := tria_tag 1
    cs_quadrature_tria_3pts_scal := tria_tag 3
    cs_quadrature_tria_4pts_scal := tria_tag 4
    cs_quadrature_tria_1pt_vect := tria_tag 11
    cs_quadrature_tria_3pts_vect := tria_tag 13
    cs_quadrature_tria_4pts_vect := tria_tag 14 }

/-- Sum of `w c j` over the incidences `(c, j)` of the cells `cells`, `j` in
the slice of `c`, that satisfy `p j`. -/
def incidence_sum2 (a : cs_adjacency_t) (cells : List Nat) (p : Nat → Bool)
    (w : Nat → Nat → ℚ) : ℚ :=
  (cells.map (fun c => (((slice a c).filter p).map (w c)).sum)).sum

/-! ## Name to id map (`cs_map.c`) -/

/-- Loop `for (i = hi; i > lo; i--) s = body i s`. -/
def downLoop {σ : Type} (hi lo : Nat) (body : Nat → σ → σ) (s : σ) : σ :=
  ((List.range' (lo + 1) (hi - lo)).reverse).foldl (fun acc i => body i acc) s

/-- `strcmp` of the C library on two strings given by their bytes before the
terminating NUL: negative, zero or positive as the first string is before,
equal to or after the second in the lexicographic order of the bytes. -/
def strcmp : List Nat → List Nat → Int
  | [], [] => 0
  | [], _ :: _ => -1
  | _ :: _, [] => 1
  | a :: s, b :: t => if a < b then -1 else if b < a then 1 else strcmp s t

/-- `strcpy(block + off, s)`: the bytes of `s`, then a NUL. -/
def strcpy (block : Nat → Nat) (off : Nat) (s : List Nat) : Nat → Nat :=
  fun i =>
    if off ≤ i ∧ i < off + s.length then s.getD (i - off) 0
    else if i = off + s.length then 0
    else block i

/-- Bytes of the C string that starts at offset `off` of a block, at most
`len` bytes before the end of the block: the bytes before the first NUL, or
`none` when the block ends before a NUL is met. -/
def read_string (block : Nat → Nat) : Nat → Nat → Option (List Nat)
  | 0, _ => none
  | len + 1, off =>
    if block off = 0 then some []
    else (read_string block len (off + 1)).map (fun s => block off :: s)

/-- The structure `_cs_map_name_to_id_t`.  The block `keys` is given by its
address `keys_addr` and its bytes `keys` (by offset); the entries of `key` are
addresses (`0` is NULL). -/
structure cs_map_name_to_id_t where
  size : Nat
  max_size : Nat
  max_keys_size : Nat
  keys_size : Nat
  keys_addr : Nat
  keys : Nat → Nat
  key : Nat → Nat
  id : Nat → Int

/-- The allocator (`BFT_MALLOC`, `BFT_REALLOC` of `bft_mem.c`) as far as the
map depends on it: address and unspecified content of the fresh block `keys`,
unspecified content of the fresh arrays `key` and `id`, and address of the
block `keys` after a reallocation, given its former address and its new size.
A reallocation keeps the content of the block; when it moves the block, the
former addresses are not valid any more. -/
structure cs_mem_t where
  malloc_keys_addr : Nat
  malloc_keys : Nat → Nat
  malloc_key : Nat → Nat
  malloc_id : Nat → Int
  realloc_keys_addr : Nat → Nat → Nat

/-- Read of the C string at address `p`, as `strcmp(m->key[i], ...)` does: it
is defined when `p` lies in the block `keys` and a NUL ends the string inside
the block. -/
def deref_key (m : cs_map_name_to_id_t) (p : Nat) : Except cs_error (List Nat) :=
  if m.keys_addr ≤ p ∧ p < m.keys_addr + m.max_keys_size then
    match read_string m.keys (m.keys_addr + m.max_keys_size - p) (p - m.keys_addr) with
    | some s => .ok s
    | none => .error .invalid_read
  else .error .invalid_read

/-- `_name_to_id_insert_key`.  After `BFT_REALLOC(m->keys, ...)` the entries of
`m->key` are left as they are. -/
def _name_to_id_insert_key (M : cs_mem_t) (m : cs_map_name_to_id_t) (key : List Nat)
    (id : Int) (index : Nat) : cs_map_name_to_id_t :=
  let key_size := key.length
  let m : cs_map_name_to_id_t :=
    if m.size ≥ m.max_size then
      let prev_size := m.max_size
      let max_size := m.max_size * 2
      { m with
        max_size := max_size
        key := forLoop prev_size max_size (fun i k => Function.update k i 0) m.key
        id := forLoop prev_size max_size (fun i a => Function.update a i (-1)) m.id }
    else m
  let m : cs_map_name_to_id_t :=
    if m.keys_size + key_size + 1 ≥ m.max_keys_size then
      let min_size := m.keys_size + key_size + 1
      let prev_size := m.max_keys_size
      let max_keys_size := if m.max_keys_size * 2 < min_size then min_size
        else m.max_keys_size * 2
      { m with
        max_keys_size := max_keys_size
        keys_addr := M.realloc_keys_addr m.keys_addr max_keys_size
        keys := forLoop prev_size max_keys_size (fun i b => Function.update b i 0) m.keys }
    else m
  let m : cs_map_name_to_id_t :=
    downLoop m.size index (fun i (m : cs_map_name_to_id_t) =>
      { m with
        key := Function.update m.key i (m.key (i - 1))
        id := Function.update m.id i (m.id (i - 1)) }) m
  { m with
    keys := strcpy m.keys m.keys_size key
    key := Function.update m.key index (m.keys_addr + m.keys_size)
    id := Function.update m.id index id
    keys_size := m.keys_size + (key_size + 1)
    size := m.size + 1 }

/-- `cs_map_name_to_id_create`. -/
def cs_map_name_to_id_create (M : cs_mem_t) : cs_map_name_to_id_t where
  size := 0
  max_size := 8
  max_keys_size := 128
  keys_size := 0
  keys_addr := M.malloc_keys_addr
  keys := M.malloc_keys
  key := M.malloc_key
  id := M.malloc_id

/-- The `while (start_id <= end_id)` loop of `cs_map_name_to_id`, run for at
most `fuel` iterations, on the state `(start_id, end_id, mid_id, cmp_ret)`;
it returns `(mid_id, cmp_ret)`.  The division of `int` truncates. -/
def name_to_id_search (m : cs_map_name_to_id_t) (key : List Nat) :
    Nat → Int → Int → Int → Int → Except cs_error (Int × Int)
  | 0, start_id, end_id, mid_id, cmp_ret =>
    if start_id ≤ end_id then .error .fuel else .ok (mid_id, cmp_ret)
  | fuel + 1, start_id, end_id, mid_id, cmp_ret =>
    if start_id ≤ end_id then
      match deref_key m (m.key mid_id.toNat) with
      | .error e => .error e
      | .ok s =>
        let cmp_ret := strcmp s key
        if cmp_ret < 0 then
          let start_id := mid_id + 1
          name_to_id_search m key fuel start_id end_id
            (start_id + Int.tdiv (end_id - start_id) 2) cmp_ret
        else if cmp_ret > 0 then
          let end_id := mid_id - 1
          name_to_id_search m key fuel start_id end_id
            (start_id + Int.tdiv (end_id - start_id) 2) cmp_ret
        else .ok (mid_id, cmp_ret)
    else .ok (mid_id, cmp_ret)

/-- `cs_map_name_to_id`, its loop being run for at most `fuel` iterations: the
id returned and the map it leaves.  Sizes are below `2^31`, so that the
conversions between `size_t` and `int` keep the values. -/
def cs_map_name_to_id (M : cs_mem_t) (fuel : Nat) (m : cs_map_name_to_id_t)
    (key : List Nat) : Except cs_error (Int × cs_map_name_to_id_t) :=
  let start_id : Int := 0
  let end_id : Int := (m.size : Int) - 1
  let mid_id : Int := start_id + Int.tdiv (end_id - start_id) 2
  match name_to_id_search m key fuel start_id end_id mid_id 1 with
  | .error e => .error e
  | .ok (mid_id, cmp_ret) =>
    let m := if cmp_ret ≠ 0 then _name_to_id_insert_key M m key (m.size : Int) mid_id.toNat
      else m
    .ok (m.id mid_id.toNat, m)

/-- `cs_map_name_to_id_size`. -/
def cs_map_name_to_id_size (m : Option cs_map_name_to_id_t) : Nat :=
  match m with
  | some m => m.size
  | none => 0

/-- `cs_map_name_to_id_key`: the pointer returned (`0` is NULL). -/
def cs_map_name_to_id_key (m : Option cs_map_name_to_id_t) (id : Nat) : Nat :=
  match m with
  | none => 0
  | some m => if id < m.size then m.key id else 0

/-- An allocator that gives the block `keys` the address `1000` and moves it
by `4096` bytes at every reallocation. -/
def moving_mem : cs_mem_t where
  malloc_keys_addr := 1000
  malloc_keys := fun _ => 7
  malloc_key := fun _ => 7
  malloc_id := fun _ => 7
  realloc_keys_addr := fun addr _ => addr + 4096

/-- An allocator that gives the block `keys` the address `1000` and extends
it in place at every reallocation. -/
def fixed_mem : cs_mem_t where
  malloc_keys_addr := 1000
  malloc_keys := fun _ => 7
  malloc_key := fun _ => 7
  malloc_id := fun _ => 7
  realloc_keys_addr := fun addr _ => addr

/-! ## Cell-wise vector at points of a cell, by array and by field -/

/-- `cs_xdef_eval_cw_3_at_xyz_by_array`: in the branch of the cell-located
data the third write of each point goes to `eval[2*i + 2]`. -/
def cs_xdef_eval_cw_3_at_xyz_by_array (C : cs_cdo_defs_t) (X : cs_xdef_extern_t)
    (cm : cs_cell_mesh_t) (n_points : Nat) (array_input : cs_xdef_array_input_t)
    (eval : Nat → ℚ) : Except cs_error (Nat → ℚ) :=
  let stride := array_input.stride
  if C.cs_test_flag array_input.loc C.cs_cdo_primal_cell = true then
    if stride ≠ 3 then .error .assert_failed
    else
      let cell_vector := forLoop 0 stride (fun k cell_vector =>
        Function.update cell_vector k (array_input.values (stride * cm.c_id + k)))
        X.stack_cell_vector
      .ok (forLoop 0 n_points (fun i eval =>
        let eval := Function.update eval (3 * i) (cell_vector 0)
        let eval := Function.update eval (3 * i + 1) (cell_vector 1)
        Function.update eval (2 * i + 2) (cell_vector 2)) eval)
  else if C.cs_test_flag array_input.loc C.cs_cdo_primal_vtx = true then
    if C.cs_test_flag cm.flag C.CS_CDO_LOCAL_PVQ = false then .error .assert_failed
    else if stride ≠ 3 then .error .assert_failed
    else
      .ok (forLoop 0 stride (fun k eval =>
        forLoop 0 cm.n_vc (fun v eval =>
          Function.update eval k
            (eval k + cm.wvc v * array_input.values (stride * cm.v_ids v + k))) eval) eval)
  else if C.cs_test_flag array_input.loc C.cs_cdo_dual_face_byc = true then
    match array_input.index with
    | none => .error .assert_failed
    | some index =>
      let cell_vector := X.cs_reco_dfbyc_in_cell cm array_input.values (index.val cm.c_id)
        X.stack_cell_vector
      .ok (forLoop 0 n_points (fun i eval =>
        let eval := Function.update eval (3 * i) (cell_vector 0)
        let eval := Function.update eval (3 * i + 1) (cell_vector 1)
        Function.update eval (3 * i + 2) (cell_vector 2)) eval)
  else .error .invalid_support

/-- `cs_xdef_eval_cw_3_at_xyz_by_field`.  `field->val` is read before the
assertion on `field`. -/
def cs_xdef_eval_cw_3_at_xyz_by_field (C : cs_cdo_defs_t) (X : cs_xdef_extern_t)
    (cm : cs_cell_mesh_t) (n_points : Nat) (input : Option cs_field_t)
    (eval : Nat → ℚ) : Except cs_error (Nat → ℚ) :=
  match input with
  | none => .error .null_pointer
  | some field =>
    let values := field.val
    if field.dim ≠ 3 then .error .assert_failed
    else
      let c_ml_id := X.cs_mesh_location_get_id_by_name "cells"
      let v_ml_id := X.cs_mesh_location_get_id_by_name "vertices"
      if field.location_id = c_ml_id then
        let cell_vector := forLoop 0 3 (fun k cell_vector =>
          Function.update cell_vector k (values (3 * cm.c_id + k))) X.stack_cell_vector
        .ok (forLoop 0 n_points (fun i eval =>
          let eval := Function.update eval (3 * i) (cell_vector 0)
          let eval := Function.update eval (3 * i + 1) (cell_vector 1)
          Function.update eval (3 * i + 2) (cell_vector 2)) eval)
      else if field.location_id = v_ml_id then
        if C.cs_test_flag cm.flag C.CS_CDO_LOCAL_PVQ = false then .error .assert_failed
        else
          .ok (forLoop 0 3 (fun k eval =>
            forLoop 0 cm.n_vc (fun v eval =>
              Function.update eval k (eval k + cm.wvc v * values (3 * cm.v_ids v + k))) eval)
            eval)
      else .error .invalid_support

/-! ## Integral on one cell from its local view -/

/-- `_cellwise_pcsd_by_analytic`: the integral on the cell of the local view
`cm`.  `&retval` is entry `0` of the buffer given to the rule. -/
def _cellwise_pcsd_by_analytic (E : cs_extern_t) (sh : cs_shared_t) (cm : cs_cell_mesh_t)
    (ana : cs_analytic_func_t) (compute_integral : cs_quadrature_tetra_integral_t) : ℚ :=
  let tcur := sh.t_cur
  let retval : Nat → ℚ := fun _ => 0
  let retval : Nat → ℚ :=
    if sh.connect.cell_type cm.c_id = .FVM_CELL_TETRA then
      compute_integral tcur (cm.xv 0) (cm.xv 1) (cm.xv 2) (cm.xv 3) cm.vol_c ana retval 0
    else
      forLoop 0 cm.n_fc (fun f retval =>
        let hf_coef := E.cs_math_onethird * cm.hfc f
        let start := cm.f2e_idx f
        let n_ef := cm.f2e_idx (f + 1) - start
        if n_ef = 3 then
          let v := E.cs_cell_mesh_get_next_3_vertices cm.f2e_ids cm.e2v_ids (cm.f2e_idx f)
          compute_integral tcur (cm.xv v.1) (cm.xv v.2.1) (cm.xv v.2.2) cm.xc
            (hf_coef * (cm.face f).meas) ana retval 0
        else
          let xf := (cm.face f).center
          forLoop 0 n_ef (fun i retval =>
            let _2e := 2 * cm.f2e_ids (cm.f2e_idx f + i)
            let xv1 := cm.xv (cm.e2v_ids _2e)
            let xv2 := cm.xv (cm.e2v_ids (_2e + 1))
            compute_integral tcur xv1 xv2 xf cm.xc (hf_coef * cm.tef (start + i))
              ana retval 0) retval) retval
  retval 0

/-- Local view of the cell of `unit_cube`, in the numbering of the mesh: same
vertices, faces and edges, `hfc[f]` the distance `1/2` from the centre to the
face, `tef` the area `1/4` of each of the four sub-triangles of a face. -/
def unit_cube_cm : cs_cell_mesh_t where
  flag := 2
  c_id := 0
  xc := unit_cube.quant.cell_centers 0
  vol_c := unit_cube.quant.cell_vol 0
  n_vc := 8
  v_ids := fun v => v
  xv := unit_cube.quant.vtx_coord
  wvc := fun _ => 1/8
  n_fc := 6
  face := unit_cube.quant.face
  hfc := fun _ => 1/2
  e2v_ids := unit_cube.connect.e2v.ids
  f2e_idx := unit_cube.connect.f2e.idx
  f2e_ids := unit_cube.connect.f2e.ids
  tef := fun _ => 1/4

/-! ## Navier-Stokes system (`cs_navsto_system.c`) -/

/-- Fields of `cs_navsto_param_t` read by `cs_navsto_system.c`; the
enumerations are kept as their integer values. -/
structure cs_navsto_param_t where
  space_scheme : Nat
  time_scheme : Nat
  theta : ℚ
  dof_reduction_mode : Nat
  time_state : Nat
  coupling : Nat
  ac_zeta_coef : ℚ

/-- What `navsto->context` points to: one of the four coupling contexts.
Equations and properties are given by their addresses. -/
inductive cs_navsto_context_t where
  | uzawa (momentum mass : Nat) (energy : Option Nat)
  | ac (momentum zeta : Nat)
  | ac_vpp (momentum graddiv zeta : Nat)
  | projection (prediction correction : Nat)

/-- The structure `cs_navsto_system_t`, for a state `W` of the other modules:
pointers are `Option`s (`none` is NULL), properties, fields and the advection
field are given by their addresses. -/
structure cs_navsto_system_t (W : Type) where
  param : Option cs_navsto_param_t
  adv_field : Option Nat
  velocity : Option Nat
  pressure : Option Nat
  temperature : Option Nat
  density : Option Nat
  lami_viscosity : Option Nat
  context : Option cs_navsto_context_t
  init : Option (Option cs_navsto_param_t → Option cs_navsto_context_t → W → W)
  free : Option (Option cs_navsto_param_t → W → W)
  compute : Option (cs_mesh_t → ℚ → Option cs_navsto_param_t → Option cs_navsto_context_t →
    W → W)

/-- Constants of the headers used by `cs_navsto_system.c` (`cs_navsto_param.h`,
`cs_param.h`, `cs_equation_param.h`, `cs_property.h`, `cs_field.h`, `cs_log.h`),
which are not part of the sources at hand: they are parameters of the
embedding. -/
structure cs_navsto_defs_t where
  CS_NAVSTO_N_MODELS : Nat
  CS_NAVSTO_COUPLING_UZAWA : Nat
  CS_NAVSTO_COUPLING_ARTIFICIAL_COMPRESSIBILITY : Nat
  CS_NAVSTO_COUPLING_ARTIFICIAL_COMPRESSIBILITY_VPP : Nat
  CS_NAVSTO_COUPLING_PROJECTION : Nat
  CS_NAVSTO_TIME_STATE_UNSTEADY : Nat
  CS_NAVSTO_TIME_STATE_LIMIT_STEADY : Nat
  CS_SPACE_SCHEME_CDOFB : Nat
  CS_SPACE_SCHEME_HHO_P0 : Nat
  CS_SPACE_SCHEME_HHO_P1 : Nat
  CS_SPACE_SCHEME_HHO_P2 : Nat
  CS_TIME_SCHEME_THETA : Nat
  CS_EQUATION_TYPE_PREDEFINED : Nat
  CS_PARAM_BC_HMG_DIRICHLET : Nat
  CS_PARAM_BC_HMG_NEUMANN : Nat
  CS_EQKEY_PRECOND : Nat
  CS_EQKEY_ITSOL : Nat
  CS_EQKEY_SPACE_SCHEME : Nat
  CS_EQKEY_TIME_SCHEME : Nat
  CS_EQKEY_TIME_THETA : Nat
  CS_EQKEY_DOF_REDUCTION : Nat
  CS_PROPERTY_ISO : Nat
  CS_FIELD_INTENSIVE : Nat
  CS_FIELD_VARIABLE : Nat
  CS_FIELD_STEADY : Nat
  CS_LOG_SETUP : Nat
  lsepline : String

/-- Functions of the other modules called by `cs_navsto_system.c`, acting on
their state `W`: they are parameters of the embedding.  A function that
returns a pointer returns the address; `cs_property_n_definitions` reads the
field `n_definitions` of a property, and `snprintf_g` is the text that
`snprintf(..., "%g", x)` writes. -/
structure cs_navsto_extern_t (W : Type) where
  cs_navsto_param_create : Nat → Nat → Nat → W → cs_navsto_param_t × W
  cs_navsto_param_free : Option cs_navsto_param_t → W → W
  cs_navsto_param_is_steady : cs_navsto_param_t → Bool
  cs_navsto_param_log : Option cs_navsto_param_t → W → W
  cs_property_add : String → Nat → W → Nat × W
  cs_property_by_name : String → W → Nat
  cs_property_n_definitions : Nat → W → Nat
  cs_property_def_iso_by_value : Nat → Option String → ℚ → W → W
  cs_advection_field_add : String → W → Nat × W
  cs_equation_add : String → String → Nat → Nat → Nat → W → Nat × W
  cs_equation_get_param : Nat → W → Nat
  cs_equation_set_param : Nat → Nat → String → W → W
  cs_equation_add_time : Nat → Nat → W → W
  cs_equation_add_diffusion : Nat → Option Nat → W → W
  cs_field_find_or_create : String → Nat → Int → Nat → Bool → W → Nat × W
  cs_mesh_location_get_id_by_name : String → Int
  cs_post_add_time_mesh_dep_output : cs_navsto_system_t W → W → W
  cs_log_printf : Nat → String → W → W
  snprintf_g : ℚ → String
  cs_cdofb_navsto_init_uzawa_context :
    Option cs_navsto_param_t → Option cs_navsto_context_t → W → W
  cs_cdofb_navsto_init_ac_context :
    Option cs_navsto_param_t → Option cs_navsto_context_t → W → W
  cs_cdofb_navsto_init_ac_vpp_context :
    Option cs_navsto_param_t → Option cs_navsto_context_t → W → W
  cs_cdofb_navsto_init_proj_context :
    Option cs_navsto_param_t → Option cs_navsto_context_t → W → W
  cs_cdofb_navsto_uzawa_compute :
    cs_mesh_t → ℚ → Option cs_navsto_param_t → Option cs_navsto_context_t → W → W
  cs_cdofb_navsto_ac_compute :
    cs_mesh_t → ℚ → Option cs_navsto_param_t → Option cs_navsto_context_t → W → W
  cs_cdofb_navsto_ac_vpp_compute :
    cs_mesh_t → ℚ → Option cs_navsto_param_t → Option cs_navsto_context_t → W → W
  cs_cdofb_navsto_proj_compute :
    cs_mesh_t → ℚ → Option cs_navsto_param_t → Option cs_navsto_context_t → W → W
  cs_cdofb_navsto_free_context : Option cs_navsto_param_t → W → W

/-- The table `_space_scheme_key`. -/
def _space_scheme_key : List String :=
  ["fv", "cdo_vb", "cdo_vcb", "cdo_fb", "hho_p0", "hho_p1", "hho_p2"]

/-- The table `_time_scheme_key`. -/
def _time_scheme_key : List String :=
  ["implicit", "explicit", "crank_nicolson", "theta_scheme"]

/-- The table `_dof_reduction_key`. -/
def _dof_reduction_key : List String := ["derham", "average"]

/-- Read of entry `i` of a table of keys. -/
def read_key_table (table : List String) (i : Nat) : Except cs_error String :=
  match table.get? i with
  | some key => .ok key
  | none => .error .out_of_bounds

/-- `_allocate_navsto_system`. -/
def _allocate_navsto_system (W : Type) : cs_navsto_system_t W where
  param := none
  adv_field := none
  velocity := none
  pressure := none
  temperature := none
  density := none
  lami_viscosity := none
  context := none
  init := none
  free := none
  compute := none

/-- `_apply_param`: `eqp` is an address, `0` being NULL. -/
def _apply_param {W : Type} (N : cs_navsto_defs_t) (X : cs_navsto_extern_t W)
    (nsp : cs_navsto_param_t) (eqp : Nat) (w : W) : Except cs_error W :=
  if eqp = 0 then .error .assert_failed
  else
    match read_key_table _space_scheme_key nsp.space_scheme with
    | .error e => .error e
    | .ok ss_key =>
      let w := X.cs_equation_set_param eqp N.CS_EQKEY_SPACE_SCHEME ss_key w
      match read_key_table _time_scheme_key nsp.time_scheme with
      | .error e => .error e
      | .ok ts_key =>
        let w := X.cs_equation_set_param eqp N.CS_EQKEY_TIME_SCHEME ts_key w
        let w :=
          if nsp.time_scheme = N.CS_TIME_SCHEME_THETA then
            X.cs_equation_set_param eqp N.CS_EQKEY_TIME_THETA (X.snprintf_g nsp.theta) w
          else w
        match read_key_table _dof_reduction_key nsp.dof_reduction_mode with
        | .error e => .error e
        | .ok dof_key => .ok (X.cs_equation_set_param eqp N.CS_EQKEY_DOF_REDUCTION dof_key w)

/-- `_create_uzawa_context`. -/
def _create_uzawa_context {W : Type} (N : cs_navsto_defs_t) (X : cs_navsto_extern_t W)
    (w : W) : cs_navsto_context_t × W :=
  let r := X.cs_equation_add "Momentum" "velocity" N.CS_EQUATION_TYPE_PREDEFINED 3
    N.CS_PARAM_BC_HMG_DIRICHLET w
  let momentum := r.1
  let w := r.2
  let eqp := X.cs_equation_get_param momentum w
  let w := X.cs_equation_set_param eqp N.CS_EQKEY_PRECOND "jacobi" w
  let w := X.cs_equation_set_param eqp N.CS_EQKEY_ITSOL "bicg" w
  let r := X.cs_equation_add "Mass" "pressure" N.CS_EQUATION_TYPE_PREDEFINED 1
    N.CS_PARAM_BC_HMG_NEUMANN w
  let mass := r.1
  let w := r.2
  let eqp := X.cs_equation_get_param mass w
  let w := X.cs_equation_set_param eqp N.CS_EQKEY_PRECOND "amg" w
  let w := X.cs_equation_set_param eqp N.CS_EQKEY_ITSOL "cg" w
  (.uzawa momentum mass none, w)

/-- `_create_ac_context`. -/
def _create_ac_context {W : Type} (N : cs_navsto_defs_t) (X : cs_navsto_extern_t W)
    (w : W) : cs_navsto_context_t × W :=
  let r := X.cs_equation_add "Momentum" "velocity" N.CS_EQUATION_TYPE_PREDEFINED 3
    N.CS_PARAM_BC_HMG_DIRICHLET w
  let momentum := r.1
  let w := r.2
  let eqp := X.cs_equation_get_param momentum w
  let w := X.cs_equation_set_param eqp N.CS_EQKEY_PRECOND "jacobi" w
  let w := X.cs_equation_set_param eqp N.CS_EQKEY_ITSOL "bicg" w
  let r := X.cs_property_add "ac_coefficient" N.CS_PROPERTY_ISO w
  (.ac momentum r.1, r.2)

/-- `_create_ac_vpp_context`. -/
def _create_ac_vpp_context {W : Type} (N : cs_navsto_defs_t) (X : cs_navsto_extern_t W)
    (w : W) : cs_navsto_context_t × W :=
  let r := X.cs_equation_add "Momentum" "Utilde" N.CS_EQUATION_TYPE_PREDEFINED 3
    N.CS_PARAM_BC_HMG_DIRICHLET w
  let momentum := r.1
  let w := r.2
  let r := X.cs_equation_add "Graddiv" "Uhat" N.CS_EQUATION_TYPE_PREDEFINED 3
    N.CS_PARAM_BC_HMG_DIRICHLET w
  let graddiv := r.1
  let w := r.2
  let eqp := X.cs_equation_get_param momentum w
  let w := X.cs_equation_set_param eqp N.CS_EQKEY_PRECOND "jacobi" w
  let w := X.cs_equation_set_param eqp N.CS_EQKEY_ITSOL "bicg" w
  let eqp := X.cs_equation_get_param graddiv w
  let w := X.cs_equation_set_param eqp N.CS_EQKEY_PRECOND "jacobi" w
  let w := X.cs_equation_set_param eqp N.CS_EQKEY_ITSOL "bicg" w
  let r := X.cs_property_add "ac_coefficient" N.CS_PROPERTY_ISO w
  (.ac_vpp momentum graddiv r.1, r.2)

/-- `_create_projection_context`. -/
def _create_projection_context {W : Type} (N : cs_navsto_defs_t) (X : cs_navsto_extern_t W)
    (w : W) : cs_navsto_context_t × W :=
  let r := X.cs_equation_add "Velocity_Prediction" "velocity" N.CS_EQUATION_TYPE_PREDEFINED 3
    N.CS_PARAM_BC_HMG_DIRICHLET w
  let prediction := r.1
  let w := r.2
  let eqp := X.cs_equation_get_param prediction w
  let w := X.cs_equation_set_param eqp N.CS_EQKEY_PRECOND "jacobi" w
  let w := X.cs_equation_set_param eqp N.CS_EQKEY_ITSOL "bicg" w
  let r := X.cs_equation_add "Pressure_Correction" "phi" N.CS_EQUATION_TYPE_PREDEFINED 1
    N.CS_PARAM_BC_HMG_NEUMANN w
  let correction := r.1
  let w := r.2
  let eqp := X.cs_equation_get_param correction w
  let w := X.cs_equation_set_param eqp N.CS_EQKEY_PRECOND "amg" w
  let w := X.cs_equation_set_param eqp N.CS_EQKEY_ITSOL "cg" w
  (.projection prediction correction, w)

/-- `_free_uzawa_context`, `_free_ac_context`, `_free_ac_vpp_context` and
`_free_projection_context`: the four functions assert `nsp != NULL`, free the
context whatever it points to, and return NULL. -/
def _free_context (nsp : Option cs_navsto_param_t) (_context : Option cs_navsto_context_t) :
    Except cs_error (Option cs_navsto_context_t) :=
  match nsp with
  | none => .error .assert_failed
  | some _ => .ok none

/-- `_uzawa_init_setup`. -/
def _uzawa_init_setup {W : Type} (N : cs_navsto_defs_t) (X : cs_navsto_extern_t W)
    (ns : cs_navsto_system_t W) (w : W) : Except cs_error W :=
  match ns.param, ns.context with
  | some nsp, some (.uzawa momentum mass energy) =>
    match _apply_param N X nsp (X.cs_equation_get_param momentum w) w with
    | .error e => .error e
    | .ok w =>
      match _apply_param N X nsp (X.cs_equation_get_param mass w) w with
      | .error e => .error e
      | .ok w =>
        match energy with
        | some energy => _apply_param N X nsp (X.cs_equation_get_param energy w) w
        | none => .ok w
  | some _, some _ => .error .bad_cast
  | _, _ => .error .assert_failed

/-- The `switch (nsp->time_state)` of `_ac_init_setup` and `_ac_vpp_init_setup`. -/
def time_state_is_valid (N : cs_navsto_defs_t) (nsp : cs_navsto_param_t) : Bool :=
  nsp.time_state = N.CS_NAVSTO_TIME_STATE_UNSTEADY ∨
    nsp.time_state = N.CS_NAVSTO_TIME_STATE_LIMIT_STEADY

/-- `_ac_init_setup`. -/
def _ac_init_setup {W : Type} (N : cs_navsto_defs_t) (X : cs_navsto_extern_t W)
    (ns : cs_navsto_system_t W) (w : W) : Except cs_error W :=
  match ns.param, ns.context with
  | some nsp, some (.ac momentum _) =>
    let mom_eqp := X.cs_equation_get_param momentum w
    match _apply_param N X nsp mom_eqp w with
    | .error e => .error e
    | .ok w =>
      if time_state_is_valid N nsp = true then
        let w := X.cs_equation_add_time mom_eqp (X.cs_property_by_name "unity" w) w
        .ok (X.cs_equation_add_diffusion mom_eqp ns.lami_viscosity w)
      else .error .invalid_time_state
  | some _, some _ => .error .bad_cast
  | _, _ => .error .assert_failed

/-- `_ac_vpp_init_setup`. -/
def _ac_vpp_init_setup {W : Type} (N : cs_navsto_defs_t) (X : cs_navsto_extern_t W)
    (ns : cs_navsto_system_t W) (w : W) : Except cs_error W :=
  match ns.param, ns.context with
  | some nsp, some (.ac_vpp momentum graddiv _) =>
    let mom_eqp := X.cs_equation_get_param momentum w
    let grd_eqp := X.cs_equation_get_param graddiv w
    match _apply_param N X nsp mom_eqp w with
    | .error e => .error e
    | .ok w =>
      match _apply_param N X nsp grd_eqp w with
      | .error e => .error e
      | .ok w =>
        if time_state_is_valid N nsp = true then
          let w := X.cs_equation_add_time mom_eqp (X.cs_property_by_name "unity" w) w
          let w := X.cs_equation_add_time grd_eqp (X.cs_property_by_name "unity" w) w
          let w := X.cs_equation_add_diffusion mom_eqp ns.lami_viscosity w
          .ok (X.cs_equation_add_diffusion grd_eqp ns.lami_viscosity w)
        else .error .invalid_time_state
  | some _, some _ => .error .bad_cast
  | _, _ => .error .assert_failed

/-- `_projection_init_setup`. -/
def _projection_init_setup {W : Type} (N : cs_navsto_defs_t) (X : cs_navsto_extern_t W)
    (ns : cs_navsto_system_t W) (w : W) : Except cs_error W :=
  match ns.param, ns.context with
  | some nsp, some (.projection prediction correction) =>
    let p_eqp := X.cs_equation_get_param prediction w
    match _apply_param N X nsp p_eqp w with
    | .error e => .error e
    | .ok w =>
      let w := X.cs_equation_add_time p_eqp (X.cs_property_by_name "unity" w) w
      _apply_param N X nsp (X.cs_equation_get_param correction w) w
  | some _, some _ => .error .bad_cast
  | _, _ => .error .assert_failed

/-- `_uzawa_last_setup` and `_projection_last_setup`: the assertions only. -/
def _assert_last_setup {W : Type} (ns : cs_navsto_system_t W) (w : W) : Except cs_error W :=
  match ns.param, ns.context with
  | some _, some _ => .ok w
  | _, _ => .error .assert_failed

/-- `_ac_last_setup` and `_ac_vpp_last_setup`: a value for the coefficient
`zeta` when it has no definition. -/
def _ac_last_setup {W : Type} (X : cs_navsto_extern_t W)
    (ns : cs_navsto_system_t W) (w : W) : Except cs_error W :=
  match ns.param, ns.context with
  | some nsp, some (.ac _ zeta) =>
    .ok (if X.cs_property_n_definitions zeta w = 0 then
      X.cs_property_def_iso_by_value zeta none nsp.ac_zeta_coef w else w)
  | some nsp, some (.ac_vpp _ _ zeta) =>
    .ok (if X.cs_property_n_definitions zeta w = 0 then
      X.cs_property_def_iso_by_value zeta none nsp.ac_zeta_coef w else w)
  | some _, some _ => .error .bad_cast
  | _, _ => .error .assert_failed

/-- `cs_navsto_system_is_activated`, on the static pointer `cs_navsto_system`. -/
def cs_navsto_system_is_activated {W : Type} (cs_navsto_system : Option (cs_navsto_system_t W)) :
    Bool :=
  match cs_navsto_system with
  | none => false
  | some _ => true

/-- `cs_navsto_system_activate`: the new value of the static pointer
`cs_navsto_system` and the state of the other modules. -/
def cs_navsto_system_activate {W : Type} (N : cs_navsto_defs_t) (X : cs_navsto_extern_t W)
    (model time_state algo_coupling : Nat) (w : W) :
    Except cs_error (Option (cs_navsto_system_t W) × W) :=
  if model = N.CS_NAVSTO_N_MODELS then .error .invalid_model
  else
    let navsto := _allocate_navsto_system W
    let r := X.cs_navsto_param_create model time_state algo_coupling w
    let navsto := { navsto with param := some r.1 }
    let w := r.2
    let r := X.cs_property_add "density" N.CS_PROPERTY_ISO w
    let navsto := { navsto with density := some r.1 }
    let w := r.2
    let r := X.cs_property_add "laminar_viscosity" N.CS_PROPERTY_ISO w
    let navsto := { navsto with lami_viscosity := some r.1 }
    let w := r.2
    let r := X.cs_advection_field_add "velocity_field" w
    let navsto := { navsto with adv_field := some r.1 }
    let w := r.2
    match navsto.param with
    | none => .error .null_pointer
    | some nsp =>
      if nsp.coupling = N.CS_NAVSTO_COUPLING_UZAWA then
        let r := _create_uzawa_context N X w
        .ok (some { navsto with context := some r.1 }, r.2)
      else if nsp.coupling = N.CS_NAVSTO_COUPLING_ARTIFICIAL_COMPRESSIBILITY then
        let r := _create_ac_context N X w
        .ok (some { navsto with context := some r.1 }, r.2)
      else if nsp.coupling = N.CS_NAVSTO_COUPLING_ARTIFICIAL_COMPRESSIBILITY_VPP then
        let r := _create_ac_vpp_context N X w
        .ok (some { navsto with context := some r.1 }, r.2)
      else if nsp.coupling = N.CS_NAVSTO_COUPLING_PROJECTION then
        let r := _create_projection_context N X w
        .ok (some { navsto with context := some r.1 }, r.2)
      else .error .invalid_coupling

/-- `cs_navsto_system_destroy`: the new value of the static pointer and the
state of the other modules.  `navsto->free` is called without a test. -/
def cs_navsto_system_destroy {W : Type} (N : cs_navsto_defs_t) (X : cs_navsto_extern_t W)
    (cs_navsto_system : Option (cs_navsto_system_t W)) (w : W) :
    Except cs_error (Option (cs_navsto_system_t W) × W) :=
  match cs_navsto_system with
  | none => .ok (none, w)
  | some navsto =>
    match navsto.param with
    | none => .error .null_pointer
    | some p =>
      let nsp := navsto.param
      if p.coupling = N.CS_NAVSTO_COUPLING_UZAWA ∨
          p.coupling = N.CS_NAVSTO_COUPLING_ARTIFICIAL_COMPRESSIBILITY ∨
          p.coupling = N.CS_NAVSTO_COUPLING_ARTIFICIAL_COMPRESSIBILITY_VPP ∨
          p.coupling = N.CS_NAVSTO_COUPLING_PROJECTION then
        match _free_context nsp navsto.context with
        | .error e => .error e
        | .ok context =>
          let navsto := { navsto with context := context }
          match navsto.free with
          | none => .error .null_call
          | some free =>
            let w := free nsp w
            let w := X.cs_navsto_param_free nsp w
            .ok (none, w)
      else .error .invalid_coupling

/-- `cs_navsto_system_get_param`. -/
def cs_navsto_system_get_param {W : Type} (cs_navsto_system : Option (cs_navsto_system_t W)) :
    Option cs_navsto_param_t :=
  match cs_navsto_system with
  | none => none
  | some navsto => navsto.param

/-- `cs_navsto_system_init_setup`. -/
def cs_navsto_system_init_setup {W : Type} (N : cs_navsto_defs_t) (X : cs_navsto_extern_t W)
    (cs_navsto_system : Option (cs_navsto_system_t W)) (w : W) :
    Except cs_error (Option (cs_navsto_system_t W) × W) :=
  match cs_navsto_system with
  | none => .error .empty_ns
  | some navsto =>
    match navsto.param with
    | none => .error .null_pointer
    | some nsp =>
      let field_mask := N.CS_FIELD_INTENSIVE ||| N.CS_FIELD_VARIABLE
      let has_previous := if X.cs_navsto_param_is_steady nsp = true then false else true
      let field_mask := if has_previous = false then field_mask ||| N.CS_FIELD_STEADY
        else field_mask
      if nsp.space_scheme = N.CS_SPACE_SCHEME_CDOFB ∨
          nsp.space_scheme = N.CS_SPACE_SCHEME_HHO_P0 ∨
          nsp.space_scheme = N.CS_SPACE_SCHEME_HHO_P1 ∨
          nsp.space_scheme = N.CS_SPACE_SCHEME_HHO_P2 then
        let location_id := X.cs_mesh_location_get_id_by_name "cells"
        let r := X.cs_field_find_or_create "velocity" field_mask location_id 3 has_previous w
        let navsto := { navsto with velocity := some r.1 }
        let w := r.2
        let r := X.cs_field_find_or_create "pressure" field_mask location_id 1 has_previous w
        let navsto := { navsto with pressure := some r.1 }
        let w := r.2
        let setup :=
          if nsp.coupling = N.CS_NAVSTO_COUPLING_UZAWA then _uzawa_init_setup N X navsto w
          else if nsp.coupling = N.CS_NAVSTO_COUPLING_ARTIFICIAL_COMPRESSIBILITY then
            _ac_init_setup N X navsto w
          else if nsp.coupling = N.CS_NAVSTO_COUPLING_ARTIFICIAL_COMPRESSIBILITY_VPP then
            _ac_vpp_init_setup N X navsto w
          else if nsp.coupling = N.CS_NAVSTO_COUPLING_PROJECTION then
            _projection_init_setup N X navsto w
          else .error .invalid_coupling
        match setup with
        | .error e => .error e
        | .ok w => .ok (some navsto, w)
      else .error .invalid_scheme

/-- The `switch (nsp->coupling)` on the last set-up functions, in
`cs_navsto_system_finalize_setup`. -/
def navsto_last_setup {W : Type} (N : cs_navsto_defs_t) (X : cs_navsto_extern_t W)
    (nsp : cs_navsto_param_t) (navsto : cs_navsto_system_t W) (w : W) : Except cs_error W :=
  if nsp.coupling = N.CS_NAVSTO_COUPLING_UZAWA then _assert_last_setup navsto w
  else if nsp.coupling = N.CS_NAVSTO_COUPLING_ARTIFICIAL_COMPRESSIBILITY then
    _ac_last_setup X navsto w
  else if nsp.coupling = N.CS_NAVSTO_COUPLING_ARTIFICIAL_COMPRESSIBILITY_VPP then
    _ac_last_setup X navsto w
  else if nsp.coupling = N.CS_NAVSTO_COUPLING_PROJECTION then _assert_last_setup navsto w
  else .error .invalid_coupling

/-- The function pointers `init` and `compute` that
`cs_navsto_system_finalize_setup` sets for the lowest-order face-based
schemes, according to the coupling. -/
def navsto_set_cdofb_functions {W : Type} (N : cs_navsto_defs_t) (X : cs_navsto_extern_t W)
    (nsp : cs_navsto_param_t) (navsto : cs_navsto_system_t W) : cs_navsto_system_t W :=
  if nsp.coupling = N.CS_NAVSTO_COUPLING_UZAWA then
    { navsto with
      init := some X.cs_cdofb_navsto_init_uzawa_context
      compute := some X.cs_cdofb_navsto_uzawa_compute }
  else if nsp.coupling = N.CS_NAVSTO_COUPLING_ARTIFICIAL_COMPRESSIBILITY then
    { navsto with
      init := some X.cs_cdofb_navsto_init_ac_context
      compute := some X.cs_cdofb_navsto_ac_compute }
  else if nsp.coupling = N.CS_NAVSTO_COUPLING_ARTIFICIAL_COMPRESSIBILITY_VPP then
    { navsto with
      init := some X.cs_cdofb_navsto_init_ac_vpp_context
      compute := some X.cs_cdofb_navsto_ac_vpp_compute }
  else if nsp.coupling = N.CS_NAVSTO_COUPLING_PROJECTION then
    { navsto with
      init := some X.cs_cdofb_navsto_init_proj_context
      compute := some X.cs_cdofb_navsto_proj_compute }
  else navsto

/-- `cs_navsto_system_finalize_setup`.  For the schemes `HHO_P1` and `HHO_P2`
no function pointer is set. -/
def cs_navsto_system_finalize_setup {W : Type} (N : cs_navsto_defs_t)
    (X : cs_navsto_extern_t W) (cs_navsto_system : Option (cs_navsto_system_t W)) (w : W)
    (connect : Option cs_cdo_connect_t) (quant : Option cs_cdo_quantities_t) :
    Except cs_error (Option (cs_navsto_system_t W) × W) :=
  if connect.isNone = true ∨ quant.isNone = true then .error .assert_failed
  else
    match cs_navsto_system with
    | none => .error .empty_ns
    | some navsto =>
      match navsto.density, navsto.lami_viscosity with
      | some density, some lami_viscosity =>
        let w := if X.cs_property_n_definitions density w = 0 then
          X.cs_property_def_iso_by_value density none 1 w else w
        let w := if X.cs_property_n_definitions lami_viscosity w = 0 then
          X.cs_property_def_iso_by_value lami_viscosity none 1 w else w
        match navsto.param with
        | none => .error .null_pointer
        | some nsp =>
          if nsp.space_scheme = N.CS_SPACE_SCHEME_CDOFB ∨
              nsp.space_scheme = N.CS_SPACE_SCHEME_HHO_P0 then
            let navsto := navsto_set_cdofb_functions N X nsp navsto
            match navsto_last_setup N X nsp navsto w with
            | .error e => .error e
            | .ok w =>
              let navsto := { navsto with free := some X.cs_cdofb_navsto_free_context }
              .ok (some navsto, X.cs_post_add_time_mesh_dep_output navsto w)
          else if nsp.space_scheme = N.CS_SPACE_SCHEME_HHO_P1 ∨
              nsp.space_scheme = N.CS_SPACE_SCHEME_HHO_P2 then
            match navsto_last_setup N X nsp navsto w with
            | .error e => .error e
            | .ok w => .ok (some navsto, X.cs_post_add_time_mesh_dep_output navsto w)
          else .error .invalid_scheme
      | _, _ => .error .null_pointer

/-- `cs_navsto_system_initialize`. -/
def cs_navsto_system_initialize {W : Type}
    (cs_navsto_system : Option (cs_navsto_system_t W)) (w : W) : Except cs_error W :=
  match cs_navsto_system with
  | none => .error .empty_ns
  | some navsto =>
    match navsto.init with
    | none => .error .null_call
    | some init => .ok (init navsto.param navsto.context w)

/-- `cs_navsto_system_compute`. -/
def cs_navsto_system_compute {W : Type}
    (cs_navsto_system : Option (cs_navsto_system_t W)) (w : W) (mesh : cs_mesh_t)
    (dt_cur : ℚ) : Except cs_error W :=
  match cs_navsto_system with
  | none => .error .empty_ns
  | some navsto =>
    match navsto.compute with
    | none => .error .null_call
    | some compute => .ok (compute mesh dt_cur navsto.param navsto.context w)

/-- `cs_navsto_system_log_setup`. -/
def cs_navsto_system_log_setup {W : Type} (N : cs_navsto_defs_t) (X : cs_navsto_extern_t W)
    (cs_navsto_system : Option (cs_navsto_system_t W)) (w : W) : W :=
  match cs_navsto_system with
  | none => w
  | some navsto =>
    let w := X.cs_log_printf N.CS_LOG_SETUP "\n" w
    let w := X.cs_log_printf N.CS_LOG_SETUP N.lsepline w
    let w := X.cs_log_printf N.CS_LOG_SETUP "\tSummary of the Navier-Stokes system\n" w
    let w := X.cs_log_printf N.CS_LOG_SETUP N.lsepline w
    X.cs_navsto_param_log navsto.param w

/-- Sample values of the constants used by `cs_navsto_system.c`. -/
def sample_navsto_defs : cs_navsto_defs_t where
  CS_NAVSTO_N_MODELS := 3
  CS_NAVSTO_COUPLING_UZAWA := 0
  CS_NAVSTO_COUPLING_ARTIFICIAL_COMPRESSIBILITY := 1
  CS_NAVSTO_COUPLING_ARTIFICIAL_COMPRESSIBILITY_VPP := 2
  CS_NAVSTO_COUPLING_PROJECTION := 3
  CS_NAVSTO_TIME_STATE_UNSTEADY := 1
  CS_NAVSTO_TIME_STATE_LIMIT_STEADY := 2
  CS_SPACE_SCHEME_CDOFB := 3
  CS_SPACE_SCHEME_HHO_P0 := 4
  CS_SPACE_SCHEME_HHO_P1 := 5
  CS_SPACE_SCHEME_HHO_P2 := 6
  CS_TIME_SCHEME_THETA := 3
  CS_EQUATION_TYPE_PREDEFINED := 2
  CS_PARAM_BC_HMG_DIRICHLET := 0
  CS_PARAM_BC_HMG_NEUMANN := 2
  CS_EQKEY_PRECOND := 10
  CS_EQKEY_ITSOL := 11
  CS_EQKEY_SPACE_SCHEME := 12
  CS_EQKEY_TIME_SCHEME := 13
  CS_EQKEY_TIME_THETA := 14
  CS_EQKEY_DOF_REDUCTION := 15
  CS_PROPERTY_ISO := 1
  CS_FIELD_INTENSIVE := 1
  CS_FIELD_VARIABLE := 4
  CS_FIELD_STEADY := 64
  CS_LOG_SETUP := 1
  lsepline := "----"

/-- Stand-ins for the other modules: their state is the number of calls made
so far, every new object gets this number plus one as its address, the
parameters are created with the space scheme `scheme` and the coupling that
is asked for, and a property has no definition. -/
def sample_navsto_ext (scheme : Nat) : cs_navsto_extern_t Nat where
  cs_navsto_param_create := fun _ time_state algo_coupling w =>
    ({ space_scheme := scheme, time_scheme := 0, theta := 1, dof_reduction_mode := 0,
       time_state := time_state, coupling := algo_coupling, ac_zeta_coef := 1 }, w + 1)
  cs_navsto_param_free := fun _ w => w + 1
  cs_navsto_param_is_steady := fun _ => false
  cs_navsto_param_log := fun _ w => w + 1
  cs_property_add := fun _ _ w => (w + 1, w + 1)
  cs_property_by_name := fun _ w => w + 1
  cs_property_n_definitions := fun _ _ => 0
  cs_property_def_iso_by_value := fun _ _ _ w => w + 1
  cs_advection_field_add := fun _ w => (w + 1, w + 1)
  cs_equation_add := fun _ _ _ _ _ w => (w + 1, w + 1)
  cs_equation_get_param := fun eq _ => eq
  cs_equation_set_param := fun _ _ _ w => w + 1
  cs_equation_add_time := fun _ _ w => w + 1
  cs_equation_add_diffusion := fun _ _ w => w + 1
  cs_field_find_or_create := fun _ _ _ _ _ w => (w + 1, w + 1)
  cs_mesh_location_get_id_by_name := fun name =>
    if name = "cells" then 1 else if name = "vertices" then 3 else -1
  cs_post_add_time_mesh_dep_output := fun _ w => w + 1
  cs_log_printf := fun _ _ w => w + 1
  snprintf_g := fun _ => "1"
  cs_cdofb_navsto_init_uzawa_context := fun _ _ w => w + 1
  cs_cdofb_navsto_init_ac_context := fun _ _ w => w + 1
  cs_cdofb_navsto_init_ac_vpp_context := fun _ _ w => w + 1
  cs_cdofb_navsto_init_proj_context := fun _ _ w => w + 1
  cs_cdofb_navsto_uzawa_compute := fun _ _ _ _ w => w + 1
  cs_cdofb_navsto_ac_compute := fun _ _ _ _ w => w + 1
  cs_cdofb_navsto_ac_vpp_compute := fun _ _ _ _ w => w + 1
  cs_cdofb_navsto_proj_compute := fun _ _ _ _ w => w + 1
  cs_cdofb_navsto_free_context := fun _ w => w + 1

/-! ## Array accesses of `_pvsp_by_qov` with their bounds -/

/-- Counted loop `for (j = lo; j < hi; j++)` whose body may stop the run. -/
def forLoopM {σ : Type} (lo hi : Nat) (body : Nat → σ → Except cs_error σ) (s : σ) :
    Except cs_error σ :=
  (List.range' lo (hi - lo)).foldlM (fun acc j => body j acc) s

/-- Read of `a[i]`, the array `a` having `n` entries. -/
def rd {α : Type} (n : Nat) (a : Nat → α) (i : Nat) : Except cs_error α :=
  if i < n then .ok (a i) else .error .out_of_bounds

/-- Write `a[i] = x`, the array `a` having `n` entries. -/
def wr {α : Type} (n : Nat) (a : Nat → α) (i : Nat) (x : α) : Except cs_error (Nat → α) :=
  if i < n then .ok (Function.update a i x) else .error .out_of_bounds

/-- Read of `elt_ids[i]`, the list having `n_elts` entries. -/
def rd_elt (n_elts : Nat) (elt_ids : Option (Nat → Nat)) (i : Nat) : Except cs_error Nat :=
  match elt_ids with
  | some ids => rd n_elts ids i
  | none => .error .null_pointer

/-- `_untag_frontier_vertices`, every array access being checked against the
size of the array: `c2f->idx` has `n_cells + 1` entries, `c2f->ids` has
`c2f->idx[n_cells]`, `i_face_cells` has `n_i_faces` rows, `i_face_vtx_idx` has
`n_i_faces + 1` entries, `i_face_vtx_lst` has `i_face_vtx_idx[n_i_faces]`,
`cell_tag` has `n_cells_with_ghosts` and `vtx_tag` has `n_vertices`.  The
second operand of `||` is read only when the first one is false. -/
def _untag_frontier_vertices_checked (sh : cs_shared_t) (c_id : Nat)
    (cell_tag : Nat → Bool) (vtx_tag : Nat → Int) : Except cs_error (Nat → Int) := do
  let lo ← rd (sh.quant.n_cells + 1) sh.connect.c2f.idx c_id
  let hi ← rd (sh.quant.n_cells + 1) sh.connect.c2f.idx (c_id + 1)
  forLoopM lo hi (fun j vtx_tag => do
    let f_id ← rd (sh.connect.c2f.idx sh.quant.n_cells) sh.connect.c2f.ids j
    if f_id < sh.m.n_i_faces then do
      let cells ← rd sh.m.n_i_faces sh.m.i_face_cells f_id
      let t0 ← rd sh.m.n_cells_with_ghosts cell_tag cells.1
      let frontier ← (if t0 = false then pure true else do
        let t1 ← rd sh.m.n_cells_with_ghosts cell_tag cells.2
        pure (t1 == false))
      if frontier then do
        let lo ← rd (sh.m.n_i_faces + 1) sh.m.i_face_vtx_idx f_id
        let hi ← rd (sh.m.n_i_faces + 1) sh.m.i_face_vtx_idx (f_id + 1)
        forLoopM lo hi (fun i vtx_tag => do
          let v ← rd (sh.m.i_face_vtx_idx sh.m.n_i_faces) sh.m.i_face_vtx_lst i
          wr sh.quant.n_vertices vtx_tag v 0) vtx_tag
      else pure vtx_tag
    else pure vtx_tag) vtx_tag

/-- First pass of `_pvsp_by_qov` with checked accesses: `c2v->idx` has
`n_cells + 1` entries and `c2v->ids` has `c2v->idx[n_cells]`. -/
def qov_first_pass_checked (sh : cs_shared_t) (n_elts : Nat) (elt_ids : Option (Nat → Nat)) :
    Except cs_error ((Nat → Bool) × (Nat → Int)) := do
  if n_elts < sh.quant.n_cells then do
    let vtx_tag ← forLoopM 0 sh.quant.n_vertices
      (fun v_id t => wr sh.quant.n_vertices t v_id 0) sh.par.malloc_vtx_tag
    let cell_tag ← forLoopM 0 sh.m.n_cells_with_ghosts
      (fun c_id t => wr sh.m.n_cells_with_ghosts t c_id false) sh.par.malloc_cell_tag
    forLoopM 0 n_elts (fun i (s : (Nat → Bool) × (Nat → Int)) => do
      let c_id ← rd_elt n_elts elt_ids i
      let cell_tag ← wr sh.m.n_cells_with_ghosts s.1 c_id true
      let lo ← rd (sh.quant.n_cells + 1) sh.connect.c2v.idx c_id
      let hi ← rd (sh.quant.n_cells + 1) sh.connect.c2v.idx (c_id + 1)
      let vtx_tag ← forLoopM lo hi (fun j t => do
        let v ← rd (sh.connect.c2v.idx sh.quant.n_cells) sh.connect.c2v.ids j
        wr sh.quant.n_vertices t v (-1)) s.2
      pure (cell_tag, vtx_tag)) (cell_tag, vtx_tag)
  else if sh.quant.n_cells = n_elts then do
    let vtx_tag ← forLoopM 0 sh.quant.n_vertices
      (fun v_id t => wr sh.quant.n_vertices t v_id (-1)) sh.par.malloc_vtx_tag
    let cell_tag ← forLoopM 0 sh.quant.n_cells
      (fun c_id t => wr sh.m.n_cells_with_ghosts t c_id true) sh.par.malloc_cell_tag
    let cell_tag ← forLoopM sh.quant.n_cells sh.m.n_cells_with_ghosts
      (fun c_id t => wr sh.m.n_cells_with_ghosts t c_id false) cell_tag
    pure (cell_tag, vtx_tag)
  else .error .assert_failed

/-- Tags of `_pvsp_by_qov` after the halo synchronisation, the second pass and
the reduction over ranks, with checked accesses. -/
def qov_vtx_tag_checked (sh : cs_shared_t) (n_elts : Nat) (elt_ids : Option (Nat → Nat)) :
    Except cs_error (Nat → Int) := do
  let tags ← qov_first_pass_checked sh n_elts elt_ids
  let cell_tag := match sh.m.halo with
    | some h => h.sync tags.1
    | none => tags.1
  let vtx_tag ← (if n_elts < sh.quant.n_cells then
      forLoopM 0 n_elts (fun i t => do
        let c_id ← rd_elt n_elts elt_ids i
        _untag_frontier_vertices_checked sh c_id cell_tag t) tags.2
    else
      forLoopM 0 sh.quant.n_cells
        (fun i t => _untag_frontier_vertices_checked sh i cell_tag t) tags.2)
  pure (if sh.par.n_ranks > 1 then sh.par.interface_set_max vtx_tag else vtx_tag)

/-- Sum of one cell in the third pass of `_pvsp_by_qov`, with checked
accesses: `dcell_vol` has `c2v->idx[n_cells]` entries. -/
def qov_cell_sum_checked (sh : cs_shared_t) (vtx_tag : Nat → Int) (c_id : Nat)
    (volume_marked : ℚ) : Except cs_error ℚ := do
  let lo ← rd (sh.quant.n_cells + 1) sh.connect.c2v.idx c_id
  let hi ← rd (sh.quant.n_cells + 1) sh.connect.c2v.idx (c_id + 1)
  forLoopM lo hi (fun j vol => do
    let v ← rd (sh.connect.c2v.idx sh.quant.n_cells) sh.connect.c2v.ids j
    let t ← rd sh.quant.n_vertices vtx_tag v
    if t = -1 then do
      let d ← rd (sh.connect.c2v.idx sh.quant.n_cells) sh.quant.dcell_vol j
      pure (vol + d)
    else pure vol) volume_marked

/-- Third pass of `_pvsp_by_qov` with checked accesses. -/
def qov_volume_marked_checked (sh : cs_shared_t) (n_elts : Nat)
    (elt_ids : Option (Nat → Nat)) (vtx_tag : Nat → Int) : Except cs_error ℚ := do
  let volume_marked ← (match elt_ids with
    | some ids => forLoopM 0 n_elts (fun i vol => do
        let c_id ← rd n_elts ids i
        qov_cell_sum_checked sh vtx_tag c_id vol) 0
    | none => forLoopM 0 sh.quant.n_cells
        (fun c_id vol => qov_cell_sum_checked sh vtx_tag c_id vol) 0)
  pure (if sh.par.n_ranks > 1 then sh.par.parall_sum volume_marked else volume_marked)

/-- `_pvsp_by_qov` with checked accesses: `values` has `n_vertices` entries. -/
def _pvsp_by_qov_checked (sh : cs_shared_t) (quantity_val : ℚ) (n_elts : Nat)
    (elt_ids : Option (Nat → Nat)) (values : Nat → ℚ) : Except cs_error (Nat → ℚ) := do
  let vtx_tag ← qov_vtx_tag_checked sh n_elts elt_ids
  let volume_marked ← qov_volume_marked_checked sh n_elts elt_ids vtx_tag
  let val_to_set := qov_val_to_set quantity_val volume_marked
  if n_elts < sh.quant.n_cells then
    forLoopM 0 sh.quant.n_vertices (fun v_id vals => do
      let t ← rd sh.quant.n_vertices vtx_tag v_id
      if t = -1 then wr sh.quant.n_vertices vals v_id val_to_set else pure vals) values
  else
    forLoopM 0 sh.quant.n_vertices
      (fun v_id vals => wr sh.quant.n_vertices vals v_id val_to_set) values

/-! ## Arithmetic of `double` -/

/-- Arithmetic of the type `double` (`cs_real_t`): the values that `a + b`,
`a * b` and `a / b` give in the type, for two values `a` and `b` of the type. -/
structure cs_real_arith where
  add : ℚ → ℚ → ℚ
  mul : ℚ → ℚ → ℚ
  div : ℚ → ℚ → ℚ

/-- Arithmetic without rounding. -/
def exact_arith : cs_real_arith where
  add := fun a b => a + b
  mul := fun a b => a * b
  div := fun a b => a / b

/-- Nearest integer of `n / d` for `d > 0`, a tie going to the even one. -/
def round_half_even (n : Int) (d : Nat) : Int :=
  let q := n / (d : Int)
  let r := n % (d : Int)
  if 2 * r < (d : Int) then q
  else if (d : Int) < 2 * r then q + 1
  else if q % 2 = 0 then q else q + 1

/-- Number of times `n` can be halved before it is below `2`, in at most
`fuel` steps: the integer part of `log2 n` when `fuel` is at least `n`. -/
def ilog2 : Nat → Nat → Nat
  | 0, _ => 0
  | fuel + 1, n => if n < 2 then 0 else ilog2 fuel (n / 2) + 1

/-- Exponent `e` of the positive rational `n / d`: `2^e ≤ n / d < 2^(e+1)`. -/
def binary_exponent (n d : Nat) : Int :=
  let e0 : Int := (ilog2 n n : Int) - (ilog2 d d : Int)
  if n * 2 ^ (- e0).toNat < d * 2 ^ e0.toNat then e0 - 1 else e0

/-- Value of the type `double` (IEEE 754 binary64) nearest to a rational, a tie
going to the value whose last bit is `0`: 53 bits for the normal values,
multiples of `2^-1074` below `2^-1022`.  Overflow is not modelled: the
magnitudes are below `2^1024`. -/
def round_double (x : ℚ) : ℚ :=
  if x.num = 0 then 0
  else
    let e := binary_exponent x.num.natAbs x.den
    let k : Int := (if e < -1022 then -1022 else e) - 52
    if 0 ≤ k then
      ((round_half_even x.num (x.den * 2 ^ k.toNat) * (2 ^ k.toNat : Nat) : Int) : ℚ)
    else
      mkRat (round_half_even (x.num * (2 ^ (- k).toNat : Nat)) x.den) (2 ^ (- k).toNat)

/-- Arithmetic of IEEE 754 binary64 in the default rounding mode: every
operation gives the value of the type nearest to its exact result.  The
division by zero and the overflow are not modelled. -/
def double_arith : cs_real_arith where
  add := fun a b => round_double (a + b)
  mul := fun a b => round_double (a * b)
  div := fun a b => round_double (a / b)

/-- Incidences `(c, j)` of the vertex `v` in the listed cells: the positions
`j` of the slice of `c` with `ids[j] = v`, in the order in which the loops on
the cells and on their slices meet them. -/
def incidences_of (a : cs_adjacency_t) (v : Nat) : List Nat → List (Nat × Nat)
  | [] => []
  | c :: cells =>
    ((slice a c).filter (fun j => decide (a.ids j = v))).map (fun j => (c, j)) ++
      incidences_of a v cells

/-- `_dcsd_by_value` in the arithmetic `A`: the product `dual_vol[j]*const_val`
and the sum `values[c2v->ids[j]] += ...` are two operations of the type. -/
def _dcsd_by_value_rounded (A : cs_real_arith) (sh : cs_shared_t) (const_val : ℚ)
    (n_elts : Nat) (elt_ids : Option (Nat → Nat)) (values : Nat → ℚ) :
    Except cs_error (Nat → ℚ) :=
  let c2v := sh.connect.c2v
  let dual_vol := sh.quant.dcell_vol
  match elt_ids with
  | none =>
    if n_elts = sh.quant.n_cells then
      .ok (forLoop 0 n_elts (fun c_id values =>
        forLoop (c2v.idx c_id) (c2v.idx (c_id + 1)) (fun j values =>
          Function.update values (c2v.ids j)
            (A.add (values (c2v.ids j)) (A.mul (dual_vol j) const_val)))
          values) values)
    else .error .assert_failed
  | some elt_ids =>
    .ok (forLoop 0 n_elts (fun i values =>
      let c_id := elt_ids i
      forLoop (c2v.idx c_id) (c2v.idx (c_id + 1)) (fun j values =>
        Function.update values (c2v.ids j)
          (A.add (values (c2v.ids j)) (A.mul (dual_vol j) const_val)))
        values) values)

/-- The three writes `values[3*v_id + k] += vol_vc*const_vec[k]` of
`_dcvd_by_value` in the arithmetic `A`. -/
def dcvd_add_rounded (A : cs_real_arith) (const_vec : Nat → ℚ) (v_id : Nat) (vol_vc : ℚ)
    (values : Nat → ℚ) : Nat → ℚ :=
  let values := Function.update values (3 * v_id)
    (A.add (values (3 * v_id)) (A.mul vol_vc (const_vec 0)))
  let values := Function.update values (3 * v_id + 1)
    (A.add (values (3 * v_id + 1)) (A.mul vol_vc (const_vec 1)))
  Function.update values (3 * v_id + 2)
    (A.add (values (3 * v_id + 2)) (A.mul vol_vc (const_vec 2)))

/-- `_dcvd_by_value` in the arithmetic `A`. -/
def _dcvd_by_value_rounded (A : cs_real_arith) (sh : cs_shared_t) (const_vec : Nat → ℚ)
    (n_elts : Nat) (elt_ids : Option (Nat → Nat)) (values : Nat → ℚ) : Nat → ℚ :=
  let c2v := sh.connect.c2v
  let dual_vol := sh.quant.dcell_vol
  match elt_ids with
  | none =>
    forLoop 0 n_elts (fun c_id values =>
      forLoop (c2v.idx c_id) (c2v.idx (c_id + 1)) (fun j values =>
        dcvd_add_rounded A const_vec (c2v.ids j) (dual_vol j) values) values) values
  | some elt_ids =>
    forLoop 0 n_elts (fun i values =>
      let c_id := elt_ids i
      forLoop (c2v.idx c_id) (c2v.idx (c_id + 1)) (fun j values =>
        dcvd_add_rounded A const_vec (c2v.ids j) (dual_vol j) values) values) values

/-- Loop on the vertices of cell `c_id` in
`cs_xdef_eval_3_at_all_vertices_by_array`, in the arithmetic `A`:
`dc_vol[v_id] += vol_vc[v]` and `v_val[k] += vol_vc[v] * cell_vector[k]`. -/
def vtx_accumulate_rounded (A : cs_real_arith) (connect : cs_cdo_connect_t)
    (quant : cs_cdo_quantities_t) (c_id : Nat) (cell_vector : Nat → ℚ)
    (s : (Nat → ℚ) × (Nat → ℚ)) : (Nat → ℚ) × (Nat → ℚ) :=
  let c2v_idx := fun i => connect.c2v.idx (c_id + i)
  let c2v_ids := fun i => connect.c2v.ids (c2v_idx 0 + i)
  let vol_vc := fun i => quant.dcell_vol (c2v_idx 0 + i)
  forLoop 0 (c2v_idx 1 - c2v_idx 0) (fun v s =>
    let v_id := c2v_ids v
    (Function.update s.1 v_id (A.add (s.1 v_id) (vol_vc v)),
     forLoop 0 3 (fun k eval =>
       Function.update eval (3 * v_id + k)
         (A.add (eval (3 * v_id + k)) (A.mul (vol_vc v) (cell_vector k))))
       s.2)) s

/-- Loop on the vertices that ends `cs_xdef_eval_3_at_all_vertices_by_array`,
in the arithmetic `A`: `inv_dcvol = 1/dc_vol[v_id]` then
`v_val[k] *= inv_dcvol`. -/
def vtx_scale_rounded (A : cs_real_arith) (quant : cs_cdo_quantities_t)
    (dc_vol eval : Nat → ℚ) : Nat → ℚ :=
  forLoop 0 quant.n_vertices (fun v_id eval =>
    let inv_dcvol := A.div 1 (dc_vol v_id)
    forLoop 0 3 (fun k eval =>
      Function.update eval (3 * v_id + k) (A.mul (eval (3 * v_id + k)) inv_dcvol)) eval) eval

/-- `cs_xdef_eval_3_at_all_vertices_by_array` in the arithmetic `A`. -/
def cs_xdef_eval_3_at_all_vertices_by_array_rounded (A : cs_real_arith) (C : cs_cdo_defs_t)
    (X : cs_xdef_extern_t) (par : cs_parall_t) (n_elts : Nat) (elt_ids : Option (Nat → Nat))
    (connect : cs_cdo_connect_t) (quant : cs_cdo_quantities_t)
    (array_input : cs_xdef_array_input_t) (eval : Nat → ℚ) : Except cs_error (Nat → ℚ) :=
  let stride := array_input.stride
  if elt_ids.isSome = true ∨ n_elts < quant.n_vertices then .error .invalid_support
  else
    let dc_vol := forLoop 0 quant.n_vertices (fun i dc_vol => Function.update dc_vol i 0)
      par.malloc_dc_vol
    if C.cs_test_flag array_input.loc C.cs_cdo_primal_cell = true then
      if stride ≠ 3 then .error .assert_failed
      else
        let s := forLoop 0 quant.n_cells (fun c_id s =>
          let cell_vector := forLoop 0 stride (fun k cell_vector =>
            Function.update cell_vector k (array_input.values (stride * c_id + k)))
            X.stack_cell_vector
          vtx_accumulate_rounded A connect quant c_id cell_vector s) (dc_vol, eval)
        .ok (vtx_scale_rounded A quant s.1 s.2)
    else if C.cs_test_flag array_input.loc C.cs_cdo_dual_face_byc = true then
      let s := forLoop 0 quant.n_cells (fun c_id s =>
        let cell_vector := X.cs_reco_dfbyc_at_cell_center c_id connect.c2e quant
          array_input.values X.stack_cell_vector 0
        vtx_accumulate_rounded A connect quant c_id cell_vector s) (dc_vol, eval)
      .ok (vtx_scale_rounded A quant s.1 s.2)
    else .error .invalid_support

/-- The mesh `two_tetra` with the dual-volume fractions `d` in place of its
own: the vertex `1` has the two incidences `j = 1` (cell `0`) and `j = 4`
(cell `1`). -/
def two_tetra_with (d : Nat → ℚ) : cs_shared_t :=
  { two_tetra with quant := { two_tetra.quant with dcell_vol := d } }

/-! # Verified properties -/

/-! ## Loop lemmas -/

theorem writesConst_update {α : Type} (c : α) (k : Nat) :
    WritesConst c (fun x => x = k) (fun t => Function.update t k c) := by
  intro t x
  constructor
  · intro h
    subst h
    exact Function.update_same _ _ _
  · intro h
    exact Function.update_noteq h _ _

theorem writesConst_skip {α : Type} (c : α) :
    WritesConst c (fun _ => False) (fun t : Nat → α => t) := by
  intro t x
  simp

theorem writesConst_congr {α : Type} {c : α} {S S2 : Nat → Prop}
    {f : (Nat → α) → (Nat → α)} (h : WritesConst c S f) (hS : ∀ x, S x ↔ S2 x) :
    WritesConst c S2 f := by
  intro t x
  rw [← hS x]
  exact h t x

theorem writesConst_ite {α : Type} {c : α} {S : Nat → Prop}
    {f : (Nat → α) → (Nat → α)} (p : Prop) [Decidable p] (h : WritesConst c S f) :
    WritesConst c (fun x => p ∧ S x) (fun t => if p then f t else t) := by
  intro t x
  by_cases hp : p
  · simp only [hp, true_and, if_true]
    exact h t x
  · simp [hp]

theorem writesConst_foldl {α ι : Type} {c : α} (S : ι → Nat → Prop)
    (f : ι → (Nat → α) → (Nat → α)) (l : List ι)
    (h : ∀ i ∈ l, WritesConst c (S i) (f i)) :
    WritesConst c (fun x => ∃ i ∈ l, S i x) (fun t => l.foldl (fun acc i => f i acc) t) := by
  induction l with
  | nil => intro t x; simp
  | cons a l ih =>
    have ih2 := ih (fun i hi => h i (List.mem_cons_of_mem a hi))
    have ha := h a (List.mem_cons_self a l)
    intro t x
    simp only [List.foldl_cons, List.mem_cons, exists_eq_or_imp]
    constructor
    · intro hx
      by_cases hl : ∃ i ∈ l, S i x
      · exact (ih2 (f a t) x).1 hl
      · refine ((ih2 (f a t) x).2 hl).trans ?_
        rcases hx with hx | hx
        · exact (ha t x).1 hx
        · exact absurd hx hl
    · intro hx
      push_neg at hx
      have hl : ¬ ∃ i ∈ l, S i x := by
        rintro ⟨i, hi, hs⟩
        exact hx.2 i hi hs
      exact ((ih2 (f a t) x).2 hl).trans ((ha t x).2 hx.1)

theorem writesConst_forLoop {α : Type} {c : α} (S : Nat → Nat → Prop)
    (f : Nat → (Nat → α) → (Nat → α)) (lo hi : Nat)
    (h : ∀ i, lo ≤ i → i < hi → WritesConst c (S i) (f i)) :
    WritesConst c (fun x => ∃ i, lo ≤ i ∧ i < hi ∧ S i x) (fun t => forLoop lo hi f t) := by
  have hm : ∀ i, i ∈ List.range' lo (hi - lo) ↔ lo ≤ i ∧ i < hi := by
    intro i
    rw [List.mem_range'_1]
    omega
  have := writesConst_foldl S f (List.range' lo (hi - lo))
    (fun i hi2 => h i ((hm i).1 hi2).1 ((hm i).1 hi2).2)
  refine writesConst_congr this ?_
  intro x
  constructor
  · rintro ⟨i, hi2, hs⟩
    exact ⟨i, ((hm i).1 hi2).1, ((hm i).1 hi2).2, hs⟩
  · rintro ⟨i, h1, h2, hs⟩
    exact ⟨i, (hm i).2 ⟨h1, h2⟩, hs⟩

/-- A loop whose body adds `g j` to a real accumulator adds the sum of the `g j`. -/
theorem foldl_add_scalar {ι : Type} (g : ι → ℚ) (f : ι → ℚ → ℚ) (l : List ι)
    (h : ∀ i ∈ l, ∀ v, f i v = v + g i) (v0 : ℚ) :
    l.foldl (fun acc i => f i acc) v0 = v0 + (l.map g).sum := by
  induction l generalizing v0 with
  | nil => simp
  | cons a l ih =>
    simp only [List.foldl_cons, List.map_cons, List.sum_cons]
    rw [ih (fun i hi => h i (List.mem_cons_of_mem a hi)), h a (List.mem_cons_self a l)]
    ring

/-- A loop whose body adds `g j x` to entry `x` of a buffer adds the sum over `j`. -/
theorem foldl_add_buffer {ι : Type} (g : ι → Nat → ℚ) (f : ι → (Nat → ℚ) → (Nat → ℚ))
    (l : List ι) (h : ∀ i ∈ l, ∀ t x, f i t x = t x + g i x) (t0 : Nat → ℚ) (x : Nat) :
    l.foldl (fun acc i => f i acc) t0 x = t0 x + (l.map (fun i => g i x)).sum := by
  induction l generalizing t0 with
  | nil => simp
  | cons a l ih =>
    simp only [List.foldl_cons, List.map_cons, List.sum_cons]
    rw [ih (fun i hi => h i (List.mem_cons_of_mem a hi)), h a (List.mem_cons_self a l)]
    ring

/-! ## Loops on the selected cells and on slices -/

theorem forLoop_slice {σ : Type} (a : cs_adjacency_t) (c : Nat) (body : Nat → σ → σ) (s : σ) :
    forLoop (a.idx c) (a.idx (c + 1)) body s = (slice a c).foldl (fun acc j => body j acc) s :=
  rfl

theorem forLoop_range {σ : Type} (n : Nat) (body : Nat → σ → σ) (s : σ) :
    forLoop 0 n body s = (List.range n).foldl (fun acc j => body j acc) s := by
  unfold forLoop
  rw [List.range_eq_range', Nat.sub_zero]

theorem forLoop_selected_some {σ : Type} (n : Nat) (ids : Nat → Nat) (F : Nat → σ → σ) (s : σ) :
    forLoop 0 n (fun i acc => F (ids i) acc) s =
      (selected_cells n (some ids)).foldl (fun acc c => F c acc) s := by
  rw [forLoop_range]
  unfold selected_cells
  rw [List.foldl_map]

theorem forLoop_selected_none {σ : Type} (n : Nat) (F : Nat → σ → σ) (s : σ) :
    forLoop 0 n F s = (selected_cells n none).foldl (fun acc c => F c acc) s := by
  rw [forLoop_range]
  rfl

theorem sum_map_ite_eq_filter {ι : Type} (l : List ι) (p : ι → Bool) (w : ι → ℚ) :
    (l.map (fun j => if p j = true then w j else 0)).sum = ((l.filter p).map w).sum := by
  induction l with
  | nil => simp
  | cons a l ih =>
    by_cases h : p a = true
    · simp [List.filter_cons, h, ih]
    · simp [List.filter_cons, h, ih]

/-- Two nested accumulating loops on a real add the incidence sum. -/
theorem nested_scalar_sum (a : cs_adjacency_t) (cells : List Nat) (p : Nat → Bool)
    (w : Nat → ℚ) (v0 : ℚ) :
    cells.foldl (fun acc c =>
      (slice a c).foldl (fun vol j => if p j = true then vol + w j else vol) acc) v0 =
      v0 + incidence_sum a cells p w := by
  unfold incidence_sum
  refine foldl_add_scalar (fun c => (((slice a c).filter p).map w).sum)
    (fun c acc => (slice a c).foldl (fun vol j => if p j = true then vol + w j else vol) acc)
    cells ?_ v0
  intro c _ v
  show _ = v + (((slice a c).filter p).map w).sum
  rw [← sum_map_ite_eq_filter]
  refine foldl_add_scalar (fun j => if p j = true then w j else 0)
    (fun j vol => if p j = true then vol + w j else vol) (slice a c) ?_ v
  intro j _ vol
  by_cases h : p j = true
  · simp [h]
  · simp [h]

/-! ## Quantity over volume: tags and marked volume -/

/-- The tagging passes of `_pvsp_by_qov` return when the selection is given by
a list, or is the whole mesh. -/
theorem qov_vtx_tag_ok (sh : cs_shared_t) (n_elts : Nat) (elt_ids : Option (Nat → Nat))
    (hn : n_elts ≤ sh.quant.n_cells)
    (hids : n_elts < sh.quant.n_cells → elt_ids.isSome = true) :
    ∃ tags, qov_vtx_tag sh n_elts elt_ids = .ok tags := by
  unfold qov_vtx_tag qov_first_pass
  by_cases h : n_elts < sh.quant.n_cells
  · obtain ⟨ids, rfl⟩ := Option.isSome_iff_exists.mp (hids h)
    simp only [h, if_true, read_elt_ids]
    exact ⟨_, rfl⟩
  · have h2 : sh.quant.n_cells = n_elts := by omega
    simp only [h2, lt_self_iff_false, if_false]
    exact ⟨_, rfl⟩

/-- On one rank the marked volume is the sum of `dcell_vol[j]` over the
positions `j` of the selected cells whose vertex is still tagged. -/
theorem qov_volume_marked_eq (sh : cs_shared_t) (n_elts : Nat) (elt_ids : Option (Nat → Nat))
    (tags : Nat → Int) (hr : sh.par.n_ranks ≤ 1)
    (hnone : elt_ids = none → n_elts = sh.quant.n_cells) :
    qov_volume_marked sh n_elts elt_ids tags =
      incidence_sum sh.connect.c2v (selected_cells n_elts elt_ids)
        (fun j => decide (tags (sh.connect.c2v.ids j) = -1)) sh.quant.dcell_vol := by
  unfold qov_volume_marked
  have hr2 : ¬ sh.par.n_ranks > 1 := by omega
  simp only [hr2, if_false]
  cases elt_ids with
  | none =>
    rw [← hnone rfl]
    simp only []
    rw [forLoop_selected_none]
    simp only [forLoop_slice]
    have := nested_scalar_sum sh.connect.c2v (selected_cells n_elts none)
      (fun j => decide (tags (sh.connect.c2v.ids j) = -1)) sh.quant.dcell_vol 0
    simp only [decide_eq_true_eq, zero_add] at this
    exact this
  | some ids =>
    simp only []
    rw [forLoop_selected_some n_elts ids (fun c vol =>
      forLoop (sh.connect.c2v.idx c) (sh.connect.c2v.idx (c + 1))
        (fun j vol => if tags (sh.connect.c2v.ids j) = -1 then vol + sh.quant.dcell_vol j
          else vol) vol)]
    simp only [forLoop_slice]
    have := nested_scalar_sum sh.connect.c2v (selected_cells n_elts (some ids))
      (fun j => decide (tags (sh.connect.c2v.ids j) = -1)) sh.quant.dcell_vol 0
    simp only [decide_eq_true_eq, zero_add] at this
    exact this

/-! ## Quantity over volume -/

/-- Result of `_pvsp_by_qov` once the tags are known: the value to set is
stored at the vertices `x < n_vertices` that are still tagged (every vertex
when all cells are selected), the other entries keep their content. -/
theorem pvsp_by_qov_result (sh : cs_shared_t) (q : ℚ) (n_elts : Nat)
    (elt_ids : Option (Nat → Nat)) (values : Nat → ℚ) (tags : Nat → Int)
    (h : qov_vtx_tag sh n_elts elt_ids = .ok tags) :
    ∃ vals, _pvsp_by_qov sh q n_elts elt_ids values = .ok vals ∧
      ∀ x, ((x < sh.quant.n_vertices ∧ (n_elts < sh.quant.n_cells → tags x = -1)) →
              vals x = qov_val_to_set q (qov_volume_marked sh n_elts elt_ids tags)) ∧
           (¬ (x < sh.quant.n_vertices ∧ (n_elts < sh.quant.n_cells → tags x = -1)) →
              vals x = values x) := by
  unfold _pvsp_by_qov
  rw [h]
  by_cases hn : n_elts < sh.quant.n_cells
  · simp only [hn, if_true]
    refine ⟨_, rfl, ?_⟩
    have hw := writesConst_forLoop
      (c := qov_val_to_set q (qov_volume_marked sh n_elts elt_ids tags))
      (fun i x => tags i = -1 ∧ x = i)
      (fun v_id vals => if tags v_id = -1 then
        Function.update vals v_id (qov_val_to_set q (qov_volume_marked sh n_elts elt_ids tags))
        else vals) 0 sh.quant.n_vertices
      (fun i _ _ => writesConst_ite (tags i = -1) (writesConst_update _ i))
    intro x
    have hx := hw values x
    constructor
    · rintro ⟨h1, h2⟩
      exact hx.1 ⟨x, Nat.zero_le x, h1, h2 trivial, rfl⟩
    · intro hneg
      apply hx.2
      rintro ⟨i, _, h1, h2, h3⟩
      subst h3
      exact hneg ⟨h1, fun _ => h2⟩
  · simp only [hn, if_false]
    refine ⟨_, rfl, ?_⟩
    have hw := writesConst_forLoop
      (c := qov_val_to_set q (qov_volume_marked sh n_elts elt_ids tags))
      (fun i x => x = i)
      (fun v_id vals =>
        Function.update vals v_id (qov_val_to_set q (qov_volume_marked sh n_elts elt_ids tags)))
      0 sh.quant.n_vertices (fun i _ _ => writesConst_update _ i)
    intro x
    have hx := hw values x
    constructor
    · rintro ⟨h1, _⟩
      exact hx.1 ⟨x, Nat.zero_le x, h1, rfl⟩
    · intro hneg
      apply hx.2
      rintro ⟨i, _, h1, h3⟩
      subst h3
      exact hneg ⟨h1, fun h => h.elim⟩

/-- C1 (as stated, refuted): on a flat tetrahedron (all dual-volume fractions
zero) with every cell selected, the marked volume is `0`, vertex `0` is still
a candidate, and `_pvsp_by_qov` stores the quantity `5` there, not `0`. -/
theorem qov_zero_volume_counterexample :
    ∃ tags vals, qov_vtx_tag (one_tetra 0) 1 none = .ok tags ∧
      qov_volume_marked (one_tetra 0) 1 none tags ≤ 0 ∧ tags 0 = -1 ∧
      _pvsp_by_qov (one_tetra 0) 5 1 none (fun _ => 0) = .ok vals ∧ vals 0 = 5 ∧
      vals 0 ≠ 0 := by
  refine ⟨_, _, rfl, ?_, ?_, rfl, ?_, ?_⟩
  · decide!
  · decide
  · decide!
  · decide!

/-- C1 (amended): when the marked volume is `≤ 0`, `_pvsp_by_qov` returns and
every remaining candidate vertex holds `quantity_val` itself (the division is
skipped, the quantity is not replaced by zero). -/
theorem qov_nonpositive_volume_sets_quantity (sh : cs_shared_t) (q : ℚ) (n_elts : Nat)
    (elt_ids : Option (Nat → Nat)) (values : Nat → ℚ) (tags : Nat → Int)
    (htags : qov_vtx_tag sh n_elts elt_ids = .ok tags)
    (hvol : qov_volume_marked sh n_elts elt_ids tags ≤ 0) :
    ∃ vals, _pvsp_by_qov sh q n_elts elt_ids values = .ok vals ∧
      ∀ v, v < sh.quant.n_vertices → tags v = -1 → vals v = q := by
  obtain ⟨vals, hv, hspec⟩ := pvsp_by_qov_result sh q n_elts elt_ids values tags htags
  refine ⟨vals, hv, ?_⟩
  intro v hvn htag
  rw [(hspec v).1 ⟨hvn, fun _ => htag⟩]
  unfold qov_val_to_set
  rw [if_neg (not_lt.mpr hvol)]

/-- Witness of `qov_nonpositive_volume_sets_quantity` on the flat tetrahedron. -/
theorem qov_nonpositive_volume_sets_quantity_witness :
    ∃ vals, _pvsp_by_qov (one_tetra 0) 5 1 none (fun _ => 0) = .ok vals ∧
      ∀ v, v < (one_tetra 0).quant.n_vertices →
        (forLoop 0 4 (fun v_id t => Function.update t v_id (-1)) serial.malloc_vtx_tag) v = -1 →
        vals v = 5 :=
  qov_nonpositive_volume_sets_quantity (one_tetra 0) 5 1 none (fun _ => 0)
    (forLoop 0 4 (fun v_id t => Function.update t v_id (-1)) serial.malloc_vtx_tag)
    (by rfl) (by decide!)

/-- C5: with a strict sub-selection of cells given by a list, `_pvsp_by_qov`
returns and the entry of every vertex that is not a remaining candidate (its
tag after the two passes is not `-1`), like every entry beyond the vertices,
keeps its prior content. -/
theorem qov_frame (sh : cs_shared_t) (q : ℚ) (n_elts : Nat) (ids : Nat → Nat)
    (values : Nat → ℚ) (hn : n_elts < sh.quant.n_cells) :
    ∃ tags vals, qov_vtx_tag sh n_elts (some ids) = .ok tags ∧
      _pvsp_by_qov sh q n_elts (some ids) values = .ok vals ∧
      ∀ v, (tags v ≠ -1 ∨ sh.quant.n_vertices ≤ v) → vals v = values v := by
  obtain ⟨tags, htags⟩ := qov_vtx_tag_ok sh n_elts (some ids) (le_of_lt hn) (fun _ => rfl)
  obtain ⟨vals, hv, hspec⟩ := pvsp_by_qov_result sh q n_elts (some ids) values tags htags
  refine ⟨tags, vals, htags, hv, ?_⟩
  intro v hv2
  apply (hspec v).2
  rintro ⟨h1, h2⟩
  rcases hv2 with h | h
  · exact h (h2 hn)
  · omega

/-- Witness of `qov_frame`: cell `0` of the two-cell mesh. -/
theorem qov_frame_witness :
    ∃ tags vals, qov_vtx_tag two_tetra 1 (some (ofList 0 [0])) = .ok tags ∧
      _pvsp_by_qov two_tetra 5 1 (some (ofList 0 [0])) (fun _ => 0) = .ok vals ∧
      ∀ v, (tags v ≠ -1 ∨ two_tetra.quant.n_vertices ≤ v) → vals v = (fun _ => (0 : ℚ)) v :=
  qov_frame two_tetra 5 1 (ofList 0 [0]) (fun _ => 0) (by decide)

/-! ## Quantity over volume: the two tagging passes -/

theorem foldl_pair {α β ι : Type} (f : ι → α → α) (g : ι → β → β) (l : List ι) (a : α) (b : β) :
    l.foldl (fun (s : α × β) i => (f i s.1, g i s.2)) (a, b) =
      (l.foldl (fun x i => f i x) a, l.foldl (fun y i => g i y) b) := by
  induction l generalizing a b with
  | nil => rfl
  | cons i l ih => simp only [List.foldl_cons, ih]

theorem forLoop_pair {α β : Type} (lo hi : Nat) (f : Nat → α → α) (g : Nat → β → β)
    (a : α) (b : β) :
    forLoop lo hi (fun i (s : α × β) => (f i s.1, g i s.2)) (a, b) =
      (forLoop lo hi f a, forLoop lo hi g b) := by
  unfold forLoop
  exact foldl_pair f g _ a b

/-- `_untag_frontier_vertices` stores `0` at the vertices of the interior
faces of `c_id` having an adjacent cell with a false tag, and nothing else. -/
theorem untag_frontier_writes (sh : cs_shared_t) (c_id : Nat) (cell_tag : Nat → Bool) :
    WritesConst (0 : Int)
      (fun x => ∃ j, sh.connect.c2f.idx c_id ≤ j ∧ j < sh.connect.c2f.idx (c_id + 1) ∧
        (sh.connect.c2f.ids j < sh.m.n_i_faces ∧
          ((cell_tag (sh.m.i_face_cells (sh.connect.c2f.ids j)).1 = false ∨
            cell_tag (sh.m.i_face_cells (sh.connect.c2f.ids j)).2 = false) ∧
           ∃ k, sh.m.i_face_vtx_idx (sh.connect.c2f.ids j) ≤ k ∧
             k < sh.m.i_face_vtx_idx (sh.connect.c2f.ids j + 1) ∧
             x = sh.m.i_face_vtx_lst k)))
      (fun t => _untag_frontier_vertices sh c_id cell_tag t) := by
  unfold _untag_frontier_vertices
  exact writesConst_forLoop _ _ _ _ (fun j _ _ =>
    writesConst_ite _ (writesConst_ite _
      (writesConst_forLoop _ _ _ _ (fun k _ _ => writesConst_update _ _))))

/-- First pass of `_pvsp_by_qov` on a strict sub-selection: the two tag arrays. -/
theorem qov_first_pass_strict (sh : cs_shared_t) (n_elts : Nat) (ids : Nat → Nat)
    (hn : n_elts < sh.quant.n_cells) :
    qov_first_pass sh n_elts (some ids) = .ok
      (forLoop 0 n_elts (fun i t => Function.update t (ids i) true)
        (forLoop 0 sh.m.n_cells_with_ghosts (fun c_id t => Function.update t c_id false)
          sh.par.malloc_cell_tag),
       forLoop 0 n_elts (fun i t =>
          forLoop (sh.connect.c2v.idx (ids i)) (sh.connect.c2v.idx (ids i + 1))
            (fun j t => Function.update t (sh.connect.c2v.ids j) (-1)) t)
        (forLoop 0 sh.quant.n_vertices (fun v_id t => Function.update t v_id 0)
          sh.par.malloc_vtx_tag)) := by
  unfold qov_first_pass
  simp only [hn, if_true, read_elt_ids]
  congr 1
  exact forLoop_pair 0 n_elts (fun i (t : Nat → Bool) => Function.update t (ids i) true)
    (fun i (t : Nat → Int) =>
      forLoop (sh.connect.c2v.idx (ids i)) (sh.connect.c2v.idx (ids i + 1))
        (fun j t => Function.update t (sh.connect.c2v.ids j) (-1)) t) _ _

/-- C3: on one rank, without halo, for a strict sub-selection of cells
(`n_elts < n_cells`) and with the two cells of every interior face inside the
cell-tag array, the tagging pass and the frontier pass of `_pvsp_by_qov`
return, and a vertex is a candidate (tag `-1`) if and only if it is incident
(cell->vertex) to a listed cell and belongs to no interior face of a listed
cell whose two adjacent cells are not both listed; faces `f_id >= n_i_faces`
(boundary faces) never reset a tag. -/
theorem qov_candidate_iff (sh : cs_shared_t) (n_elts : Nat) (ids : Nat → Nat)
    (hn : n_elts < sh.quant.n_cells) (hr : sh.par.n_ranks ≤ 1) (hh : sh.m.halo = none)
    (hadj : ∀ f, f < sh.m.n_i_faces →
      (sh.m.i_face_cells f).1 < sh.m.n_cells_with_ghosts ∧
      (sh.m.i_face_cells f).2 < sh.m.n_cells_with_ghosts) :
    ∃ tags, qov_vtx_tag sh n_elts (some ids) = .ok tags ∧
      ∀ v, v < sh.quant.n_vertices →
        (tags v = -1 ↔ qov_incident sh n_elts ids v ∧ ¬ qov_frontier sh n_elts ids v) := by
  have hr2 : ¬ sh.par.n_ranks > 1 := by omega
  unfold qov_vtx_tag
  rw [qov_first_pass_strict sh n_elts ids hn]
  simp only [hn, if_true, read_elt_ids, hh, hr2, if_false]
  refine ⟨_, rfl, ?_⟩
  intro v hv
  -- cell tags
  have hc0 := writesConst_forLoop (c := false) (fun i x => x = i)
    (fun c_id t => Function.update t c_id false) 0 sh.m.n_cells_with_ghosts
    (fun i _ _ => writesConst_update _ i)
  have hc1 := writesConst_forLoop (c := true) (fun i x => x = ids i)
    (fun i t => Function.update t (ids i) true) 0 n_elts
    (fun i _ _ => writesConst_update _ (ids i))
  have hct : ∀ c, c < sh.m.n_cells_with_ghosts →
      ((forLoop 0 n_elts (fun i t => Function.update t (ids i) true)
        (forLoop 0 sh.m.n_cells_with_ghosts (fun c_id t => Function.update t c_id false)
          sh.par.malloc_cell_tag)) c = false ↔ ¬ qov_selected n_elts ids c) := by
    intro c hc
    by_cases hs : qov_selected n_elts ids c
    · obtain ⟨i, hi, hic⟩ := hs
      have := (hc1 (forLoop 0 sh.m.n_cells_with_ghosts
        (fun c_id t => Function.update t c_id false) sh.par.malloc_cell_tag) c).1
        ⟨i, Nat.zero_le i, hi, hic.symm⟩
      simp only [this]
      constructor
      · intro h
        exact absurd h (by decide)
      · intro h
        exact absurd ⟨i, hi, hic⟩ h
    · have h1 := (hc1 (forLoop 0 sh.m.n_cells_with_ghosts
        (fun c_id t => Function.update t c_id false) sh.par.malloc_cell_tag) c).2
        (by
          rintro ⟨i, _, hi, hic⟩
          exact hs ⟨i, hi, hic.symm⟩)
      have h2 := (hc0 sh.par.malloc_cell_tag c).1 ⟨c, Nat.zero_le c, hc, rfl⟩
      simp only [h1, h2, hs, not_false_eq_true]
  -- vertex tags after the first pass
  have hv0 := writesConst_forLoop (c := (0 : Int)) (fun i x => x = i)
    (fun v_id t => Function.update t v_id 0) 0 sh.quant.n_vertices
    (fun i _ _ => writesConst_update _ i)
  have hv1 := writesConst_forLoop (c := (-1 : Int))
    (fun i x => ∃ j, sh.connect.c2v.idx (ids i) ≤ j ∧ j < sh.connect.c2v.idx (ids i + 1) ∧
      x = sh.connect.c2v.ids j)
    (fun i t => forLoop (sh.connect.c2v.idx (ids i)) (sh.connect.c2v.idx (ids i + 1))
      (fun j t => Function.update t (sh.connect.c2v.ids j) (-1)) t) 0 n_elts
    (fun i _ _ => writesConst_forLoop _ _ _ _ (fun j _ _ => writesConst_update _ _))
  have hvt : (forLoop 0 n_elts (fun i t =>
          forLoop (sh.connect.c2v.idx (ids i)) (sh.connect.c2v.idx (ids i + 1))
            (fun j t => Function.update t (sh.connect.c2v.ids j) (-1)) t)
        (forLoop 0 sh.quant.n_vertices (fun v_id t => Function.update t v_id 0)
          sh.par.malloc_vtx_tag)) v = -1 ↔ qov_incident sh n_elts ids v := by
    by_cases hs : qov_incident sh n_elts ids v
    · obtain ⟨i, hi, j, hj1, hj2, hj3⟩ := hs
      have := (hv1 (forLoop 0 sh.quant.n_vertices (fun v_id t => Function.update t v_id 0)
          sh.par.malloc_vtx_tag) v).1 ⟨i, Nat.zero_le i, hi, j, hj1, hj2, hj3.symm⟩
      simp only [this, true_iff]
      exact ⟨i, hi, j, hj1, hj2, hj3⟩
    · have h1 := (hv1 (forLoop 0 sh.quant.n_vertices (fun v_id t => Function.update t v_id 0)
          sh.par.malloc_vtx_tag) v).2
        (by
          rintro ⟨i, _, hi, j, hj1, hj2, hj3⟩
          exact hs ⟨i, hi, j, hj1, hj2, hj3.symm⟩)
      have h2 := (hv0 sh.par.malloc_vtx_tag v).1 ⟨v, Nat.zero_le v, hv, rfl⟩
      simp only [h1, h2, hs, iff_false]
      decide
  -- second pass
  have hu := writesConst_forLoop (c := (0 : Int)) _
    (fun i t => _untag_frontier_vertices sh (ids i)
      (forLoop 0 n_elts (fun i t => Function.update t (ids i) true)
        (forLoop 0 sh.m.n_cells_with_ghosts (fun c_id t => Function.update t c_id false)
          sh.par.malloc_cell_tag)) t) 0 n_elts
    (fun i _ _ => untag_frontier_writes sh (ids i) _)
  have hu2 := hu (forLoop 0 n_elts (fun i t =>
          forLoop (sh.connect.c2v.idx (ids i)) (sh.connect.c2v.idx (ids i + 1))
            (fun j t => Function.update t (sh.connect.c2v.ids j) (-1)) t)
        (forLoop 0 sh.quant.n_vertices (fun v_id t => Function.update t v_id 0)
          sh.par.malloc_vtx_tag)) v
  beta_reduce at hu2
  by_cases hf : qov_frontier sh n_elts ids v
  · obtain ⟨i, hi, j, hj1, hj2, hj3, hj4, k, hk1, hk2, hk3⟩ := hf
    have h0 := hu2.1 ⟨i, Nat.zero_le i, hi, j, hj1, hj2, hj3,
      (by
        rcases hj4 with h | h
        · exact Or.inl ((hct _ (hadj _ hj3).1).2 h)
        · exact Or.inr ((hct _ (hadj _ hj3).2).2 h)), k, hk1, hk2, hk3.symm⟩
    constructor
    · intro h
      rw [h0] at h
      exact absurd h (by decide)
    · rintro ⟨_, h⟩
      exact absurd ⟨i, hi, j, hj1, hj2, hj3, hj4, k, hk1, hk2, hk3⟩ h
  · have h0 := hu2.2 (by
      rintro ⟨i, _, hi, j, hj1, hj2, hj3, hj4, k, hk1, hk2, hk3⟩
      apply hf
      refine ⟨i, hi, j, hj1, hj2, hj3, ?_, k, hk1, hk2, hk3.symm⟩
      rcases hj4 with h | h
      · exact Or.inl ((hct _ (hadj _ hj3).1).1 h)
      · exact Or.inr ((hct _ (hadj _ hj3).2).1 h))
    rw [h0, hvt]
    constructor
    · intro h
      exact ⟨h, hf⟩
    · intro h
      exact h.1

/-- Witness of `qov_candidate_iff`: cell `0` of the two-cell mesh. -/
theorem qov_candidate_iff_witness :
    ∃ tags, qov_vtx_tag two_tetra 1 (some (ofList 0 [0])) = .ok tags ∧
      ∀ v, v < two_tetra.quant.n_vertices →
        (tags v = -1 ↔ qov_incident two_tetra 1 (ofList 0 [0]) v ∧
          ¬ qov_frontier two_tetra 1 (ofList 0 [0]) v) :=
  qov_candidate_iff two_tetra 1 (ofList 0 [0]) (by decide) (by decide) rfl
    (fun _ _ => ⟨Nat.zero_lt_two, Nat.one_lt_two⟩)

/-! ## Quantity over volume: the whole mesh -/

theorem incidence_sum_congr (a : cs_adjacency_t) (cells : List Nat) (p p2 : Nat → Bool)
    (w w2 : Nat → ℚ)
    (h : ∀ c ∈ cells, ∀ j ∈ slice a c, p j = p2 j ∧ w j = w2 j) :
    incidence_sum a cells p w = incidence_sum a cells p2 w2 := by
  unfold incidence_sum
  congr 1
  apply List.map_congr_left
  intro c hc
  rw [← sum_map_ite_eq_filter, ← sum_map_ite_eq_filter]
  congr 1
  apply List.map_congr_left
  intro j hj
  rw [(h c hc j hj).1, (h c hc j hj).2]

theorem incidence_sum_mul_left (a : cs_adjacency_t) (cells : List Nat) (p : Nat → Bool)
    (w : Nat → ℚ) (k : ℚ) :
    incidence_sum a cells p (fun j => k * w j) = k * incidence_sum a cells p w := by
  unfold incidence_sum
  rw [← List.sum_map_mul_left]
  congr 1
  apply List.map_congr_left
  intro c _
  rw [← List.sum_map_mul_left]

/-- With all cells selected, on one rank, without halo and with both cells of
every interior face inside the mesh, the two passes of `_pvsp_by_qov` leave
every vertex tagged. -/
theorem qov_tags_full (sh : cs_shared_t) (elt_ids : Option (Nat → Nat))
    (hr : sh.par.n_ranks ≤ 1) (hh : sh.m.halo = none)
    (hadj : ∀ f, f < sh.m.n_i_faces →
      (sh.m.i_face_cells f).1 < sh.quant.n_cells ∧ (sh.m.i_face_cells f).2 < sh.quant.n_cells) :
    ∃ tags, qov_vtx_tag sh sh.quant.n_cells elt_ids = .ok tags ∧
      ∀ v, v < sh.quant.n_vertices → tags v = -1 := by
  have hr2 : ¬ sh.par.n_ranks > 1 := by omega
  unfold qov_vtx_tag qov_first_pass
  simp only [lt_self_iff_false, if_false, if_true, hh, hr2]
  refine ⟨_, rfl, ?_⟩
  intro v hv
  have hc1 := writesConst_forLoop (c := true) (fun i x => x = i)
    (fun c_id t => Function.update t c_id true) 0 sh.quant.n_cells
    (fun i _ _ => writesConst_update _ i)
  have hc2 := writesConst_forLoop (c := false) (fun i x => x = i)
    (fun c_id t => Function.update t c_id false) sh.quant.n_cells sh.m.n_cells_with_ghosts
    (fun i _ _ => writesConst_update _ i)
  have hct : ∀ c, c < sh.quant.n_cells →
      (forLoop sh.quant.n_cells sh.m.n_cells_with_ghosts
        (fun c_id t => Function.update t c_id false)
        (forLoop 0 sh.quant.n_cells (fun c_id t => Function.update t c_id true)
          sh.par.malloc_cell_tag)) c = true := by
    intro c hc
    have h2 := (hc2 (forLoop 0 sh.quant.n_cells (fun c_id t => Function.update t c_id true)
          sh.par.malloc_cell_tag) c).2 (by
        rintro ⟨i, h1, _, h3⟩
        omega)
    have h1 := (hc1 sh.par.malloc_cell_tag c).1 ⟨c, Nat.zero_le c, hc, rfl⟩
    beta_reduce at h1 h2
    rw [h2, h1]
  have hv0 := writesConst_forLoop (c := (-1 : Int)) (fun i x => x = i)
    (fun v_id t => Function.update t v_id (-1)) 0 sh.quant.n_vertices
    (fun i _ _ => writesConst_update _ i)
  have hu := writesConst_forLoop (c := (0 : Int)) _
    (fun i t => _untag_frontier_vertices sh i
      (forLoop sh.quant.n_cells sh.m.n_cells_with_ghosts
        (fun c_id t => Function.update t c_id false)
        (forLoop 0 sh.quant.n_cells (fun c_id t => Function.update t c_id true)
          sh.par.malloc_cell_tag)) t) 0 sh.quant.n_cells
    (fun i _ _ => untag_frontier_writes sh i _)
  have hu2 := (hu (forLoop 0 sh.quant.n_vertices (fun v_id t => Function.update t v_id (-1))
    sh.par.malloc_vtx_tag) v).2 (by
      rintro ⟨i, _, _, j, _, _, hj3, hj4, _⟩
      rcases hj4 with h | h
      · rw [hct _ (hadj _ hj3).1] at h
        exact absurd h (by decide)
      · rw [hct _ (hadj _ hj3).2] at h
        exact absurd h (by decide))
  have hv1 := (hv0 sh.par.malloc_vtx_tag v).1 ⟨v, Nat.zero_le v, hv, rfl⟩
  beta_reduce at hu2 hv1
  rw [hu2, hv1]

/-- C4: on one rank, without halo and with both cells of every interior face
inside the mesh (no ghost cell), with all cells selected (`elt_ids = NULL`,
`n_elts = n_cells`), valid cell->vertex ids and a positive total dual volume
`V` (sum of `dcell_vol` over all cell-vertex incidences), `_pvsp_by_qov` with
quantity `Q` stores `Q / V` at every vertex, and the sum over all cell-vertex
incidences of `value[v] * dcell_vol` is `Q`. -/
theorem qov_full_mesh_conservation (sh : cs_shared_t) (Q : ℚ) (values : Nat → ℚ)
    (hr : sh.par.n_ranks ≤ 1) (hh : sh.m.halo = none)
    (hadj : ∀ f, f < sh.m.n_i_faces →
      (sh.m.i_face_cells f).1 < sh.quant.n_cells ∧ (sh.m.i_face_cells f).2 < sh.quant.n_cells)
    (hc2v : ∀ c, c < sh.quant.n_cells → ∀ j ∈ slice sh.connect.c2v c,
      sh.connect.c2v.ids j < sh.quant.n_vertices)
    (hV : 0 < incidence_sum sh.connect.c2v (List.range sh.quant.n_cells) (fun _ => true)
      sh.quant.dcell_vol) :
    ∃ vals, _pvsp_by_qov sh Q sh.quant.n_cells none values = .ok vals ∧
      (∀ v, v < sh.quant.n_vertices →
        vals v = Q / incidence_sum sh.connect.c2v (List.range sh.quant.n_cells)
          (fun _ => true) sh.quant.dcell_vol) ∧
      incidence_sum sh.connect.c2v (List.range sh.quant.n_cells) (fun _ => true)
        (fun j => vals (sh.connect.c2v.ids j) * sh.quant.dcell_vol j) = Q := by
  obtain ⟨tags, htags, hall⟩ := qov_tags_full sh none hr hh hadj
  obtain ⟨vals, hv, hspec⟩ := pvsp_by_qov_result sh Q sh.quant.n_cells none values tags htags
  have hvol : qov_volume_marked sh sh.quant.n_cells none tags =
      incidence_sum sh.connect.c2v (List.range sh.quant.n_cells) (fun _ => true)
        sh.quant.dcell_vol := by
    rw [qov_volume_marked_eq sh sh.quant.n_cells none tags hr (fun _ => rfl)]
    apply incidence_sum_congr
    intro c hc j hj
    have hc2 : c < sh.quant.n_cells := List.mem_range.mp hc
    exact ⟨by simp [hall _ (hc2v c hc2 j hj)], rfl⟩
  have hval : ∀ v, v < sh.quant.n_vertices →
      vals v = Q / incidence_sum sh.connect.c2v (List.range sh.quant.n_cells)
        (fun _ => true) sh.quant.dcell_vol := by
    intro v hvn
    rw [(hspec v).1 ⟨hvn, fun h => absurd h (lt_irrefl _)⟩, hvol]
    unfold qov_val_to_set
    rw [if_pos hV]
  refine ⟨vals, hv, hval, ?_⟩
  rw [incidence_sum_congr sh.connect.c2v (List.range sh.quant.n_cells) (fun _ => true)
    (fun _ => true) _ (fun j => (Q / incidence_sum sh.connect.c2v
      (List.range sh.quant.n_cells) (fun _ => true) sh.quant.dcell_vol) * sh.quant.dcell_vol j)
    (fun c hc j hj => ⟨rfl, by rw [hval _ (hc2v c (List.mem_range.mp hc) j hj)]⟩),
    incidence_sum_mul_left]
  exact div_mul_cancel₀ Q (ne_of_gt hV)

/-- Witness of `qov_full_mesh_conservation`: the two-cell mesh, whose total
dual volume is `36`. -/
theorem qov_full_mesh_conservation_witness :
    ∃ vals, _pvsp_by_qov two_tetra 72 two_tetra.quant.n_cells none (fun _ => 0) = .ok vals ∧
      (∀ v, v < two_tetra.quant.n_vertices →
        vals v = 72 / incidence_sum two_tetra.connect.c2v
          (List.range two_tetra.quant.n_cells) (fun _ => true) two_tetra.quant.dcell_vol) ∧
      incidence_sum two_tetra.connect.c2v (List.range two_tetra.quant.n_cells) (fun _ => true)
        (fun j => vals (two_tetra.connect.c2v.ids j) * two_tetra.quant.dcell_vol j) = 72 :=
  qov_full_mesh_conservation two_tetra 72 (fun _ => 0) (by decide) rfl
    (fun _ _ => ⟨Nat.zero_lt_two, Nat.one_lt_two⟩) (by decide) (by decide!)

/-! ## Constant-value evaluators -/

theorem writesFn_update {α : Type} (g : Nat → α) (k : Nat) :
    WritesFn g (fun x => x = k) (fun t => Function.update t k (g k)) := by
  intro t x
  constructor
  · intro h
    subst h
    exact Function.update_same _ _ _
  · intro h
    exact Function.update_noteq h _ _

theorem writesFn_foldl {α ι : Type} {g : Nat → α} (S : ι → Nat → Prop)
    (f : ι → (Nat → α) → (Nat → α)) (l : List ι)
    (h : ∀ i ∈ l, WritesFn g (S i) (f i)) :
    WritesFn g (fun x => ∃ i ∈ l, S i x) (fun t => l.foldl (fun acc i => f i acc) t) := by
  induction l with
  | nil => intro t x; simp
  | cons a l ih =>
    have ih2 := ih (fun i hi => h i (List.mem_cons_of_mem a hi))
    have ha := h a (List.mem_cons_self a l)
    intro t x
    simp only [List.foldl_cons, List.mem_cons, exists_eq_or_imp]
    constructor
    · intro hx
      by_cases hl : ∃ i ∈ l, S i x
      · exact (ih2 (f a t) x).1 hl
      · refine ((ih2 (f a t) x).2 hl).trans ?_
        rcases hx with hx | hx
        · exact (ha t x).1 hx
        · exact absurd hx hl
    · intro hx
      push_neg at hx
      have hl : ¬ ∃ i ∈ l, S i x := by
        rintro ⟨i, hi, hs⟩
        exact hx.2 i hi hs
      exact ((ih2 (f a t) x).2 hl).trans ((ha t x).2 hx.1)

theorem sum_map_eq_zero {ι : Type} (l : List ι) (f : ι → ℚ) (h : ∀ i ∈ l, f i = 0) :
    (l.map f).sum = 0 := by
  induction l with
  | nil => rfl
  | cons a l ih =>
    rw [List.map_cons, List.sum_cons, h a (List.mem_cons_self a l),
      ih (fun i hi => h i (List.mem_cons_of_mem a hi)), add_zero]

/-- The incidence sum restricted to the positions of `x` vanishes when no
listed cell reaches `x`. -/
theorem incidence_sum_not_reached (a : cs_adjacency_t) (cells : List Nat) (w : Nat → ℚ)
    (x : Nat) (h : ¬ reached a cells x) :
    incidence_sum a cells (fun j => decide (a.ids j = x)) w = 0 := by
  unfold incidence_sum
  apply sum_map_eq_zero
  intro c hc
  rw [← sum_map_ite_eq_filter]
  apply sum_map_eq_zero
  intro j hj
  have hne : a.ids j ≠ x := fun e => h ⟨c, hc, j, hj, e⟩
  simp [hne]

/-- Two nested loops whose inner body adds `g j x` to entry `x`. -/
theorem nested_buffer_sum (a : cs_adjacency_t) (cells : List Nat)
    (step : Nat → (Nat → ℚ) → (Nat → ℚ)) (g : Nat → Nat → ℚ)
    (h : ∀ j t x, step j t x = t x + g j x) (t0 : Nat → ℚ) (x : Nat) :
    cells.foldl (fun acc c => (slice a c).foldl (fun t j => step j t) acc) t0 x =
      t0 x + (cells.map (fun c => ((slice a c).map (fun j => g j x)).sum)).sum := by
  refine foldl_add_buffer (fun c x => ((slice a c).map (fun j => g j x)).sum)
    (fun c acc => (slice a c).foldl (fun t j => step j t) acc) cells ?_ t0 x
  intro c _ t y
  exact foldl_add_buffer g step (slice a c) (fun j _ t x => h j t x) t y

theorem dcsd_step_apply (ids : Nat → Nat) (d : Nat → ℚ) (k : ℚ) (j : Nat) (t : Nat → ℚ)
    (x : Nat) :
    Function.update t (ids j) (t (ids j) + d j * k) x =
      t x + (if decide (ids j = x) = true then k * d j else 0) := by
  by_cases h : ids j = x
  · subst h
    simp [mul_comm]
  · simp [h, Function.update_noteq (Ne.symm h)]

/-- Effect of the nested loops of `_dcsd_by_value` on one entry. -/
theorem dcsd_loops_apply (a : cs_adjacency_t) (d : Nat → ℚ) (k : ℚ) (cells : List Nat)
    (t0 : Nat → ℚ) (x : Nat) :
    cells.foldl (fun acc c => (slice a c).foldl
      (fun t j => Function.update t (a.ids j) (t (a.ids j) + d j * k)) acc) t0 x =
      t0 x + k * incidence_sum a cells (fun j => decide (a.ids j = x)) d := by
  rw [nested_buffer_sum a cells
    (fun j t => Function.update t (a.ids j) (t (a.ids j) + d j * k))
    (fun j x => if decide (a.ids j = x) = true then k * d j else 0)
    (fun j t x => dcsd_step_apply a.ids d k j t x) t0 x]
  rw [← incidence_sum_mul_left]
  unfold incidence_sum
  congr 2
  apply List.map_congr_left
  intro c _
  exact sum_map_ite_eq_filter (slice a c) (fun j => decide (a.ids j = x)) (fun j => k * d j)

/-- Result of `_dcsd_by_value`, entry by entry. -/
theorem dcsd_by_value_apply (sh : cs_shared_t) (k : ℚ) (n_elts : Nat)
    (elt_ids : Option (Nat → Nat)) (values : Nat → ℚ)
    (hnone : elt_ids = none → n_elts = sh.quant.n_cells) :
    ∃ vals, _dcsd_by_value sh k n_elts elt_ids values = .ok vals ∧
      ∀ v, vals v = values v + k * incidence_sum sh.connect.c2v
        (selected_cells n_elts elt_ids) (fun j => decide (sh.connect.c2v.ids j = v))
        sh.quant.dcell_vol := by
  unfold _dcsd_by_value
  cases elt_ids with
  | none =>
    simp only [hnone rfl, if_true]
    refine ⟨_, rfl, ?_⟩
    intro v
    rw [forLoop_selected_none]
    simp only [forLoop_slice]
    exact dcsd_loops_apply sh.connect.c2v sh.quant.dcell_vol k _ values v
  | some ids =>
    simp only []
    refine ⟨_, rfl, ?_⟩
    intro v
    rw [forLoop_selected_some n_elts ids (fun c (values : Nat → ℚ) =>
      forLoop (sh.connect.c2v.idx c) (sh.connect.c2v.idx (c + 1)) (fun j values =>
        Function.update values (sh.connect.c2v.ids j)
          (values (sh.connect.c2v.ids j) + sh.quant.dcell_vol j * k)) values)]
    simp only [forLoop_slice]
    exact dcsd_loops_apply sh.connect.c2v sh.quant.dcell_vol k _ values v

theorem dcvd_add_apply (vec : Nat → ℚ) (v : Nat) (vol : ℚ) (t : Nat → ℚ) (x : Nat) :
    dcvd_add vec v vol t x =
      t x + (if decide (v = x / 3) = true then vol * vec (x % 3) else 0) := by
  unfold dcvd_add
  by_cases h2 : x = 3 * v + 2
  · have e1 : (3 * v + 2) / 3 = v := by omega
    have e2 : (3 * v + 2) % 3 = 2 := by omega
    subst h2
    simp [e1, e2, Function.update_apply]
  · by_cases h1 : x = 3 * v + 1
    · have e1 : (3 * v + 1) / 3 = v := by omega
      have e2 : (3 * v + 1) % 3 = 1 := by omega
      subst h1
      simp [e1, e2, Function.update_apply]
    · by_cases h0 : x = 3 * v
      · have e1 : (3 * v) / 3 = v := by omega
        have e2 : (3 * v) % 3 = 0 := by omega
        subst h0
        simp [e1, e2, Function.update_apply]
      · have hne : ¬ v = x / 3 := by omega
        simp [hne, Function.update_apply, h0, h1, h2]

/-- Effect of the nested loops of `_dcvd_by_value` on one entry. -/
theorem dcvd_loops_apply (a : cs_adjacency_t) (d : Nat → ℚ) (vec : Nat → ℚ) (cells : List Nat)
    (t0 : Nat → ℚ) (x : Nat) :
    cells.foldl (fun acc c => (slice a c).foldl
      (fun t j => dcvd_add vec (a.ids j) (d j) t) acc) t0 x =
      t0 x + vec (x % 3) * incidence_sum a cells (fun j => decide (a.ids j = x / 3)) d := by
  rw [nested_buffer_sum a cells (fun j t => dcvd_add vec (a.ids j) (d j) t)
    (fun j x => if decide (a.ids j = x / 3) = true then vec (x % 3) * d j else 0)
    (fun j t x => by
      show dcvd_add vec (a.ids j) (d j) t x = _
      rw [dcvd_add_apply, mul_comm]) t0 x]
  rw [← incidence_sum_mul_left]
  unfold incidence_sum
  congr 2
  apply List.map_congr_left
  intro c _
  exact sum_map_ite_eq_filter (slice a c) (fun j => decide (a.ids j = x / 3))
    (fun j => vec (x % 3) * d j)

/-- Result of `_dcvd_by_value`, entry by entry. -/
theorem dcvd_by_value_apply (sh : cs_shared_t) (vec : Nat → ℚ) (n_elts : Nat)
    (elt_ids : Option (Nat → Nat)) (values : Nat → ℚ) (x : Nat) :
    _dcvd_by_value sh vec n_elts elt_ids values x =
      values x + vec (x % 3) * incidence_sum sh.connect.c2v
        (selected_cells n_elts elt_ids) (fun j => decide (sh.connect.c2v.ids j = x / 3))
        sh.quant.dcell_vol := by
  unfold _dcvd_by_value
  cases elt_ids with
  | none =>
    simp only []
    rw [forLoop_selected_none]
    simp only [forLoop_slice]
    exact dcvd_loops_apply sh.connect.c2v sh.quant.dcell_vol vec _ values x
  | some ids =>
    simp only []
    rw [forLoop_selected_some n_elts ids (fun c values =>
      forLoop (sh.connect.c2v.idx c) (sh.connect.c2v.idx (c + 1)) (fun j values =>
        dcvd_add vec (sh.connect.c2v.ids j) (sh.quant.dcell_vol j) values) values)]
    simp only [forLoop_slice]
    exact dcvd_loops_apply sh.connect.c2v sh.quant.dcell_vol vec _ values x

theorem writesFn_forLoop {α : Type} {g : Nat → α} (S : Nat → Nat → Prop)
    (f : Nat → (Nat → α) → (Nat → α)) (lo hi : Nat)
    (h : ∀ i, lo ≤ i → i < hi → WritesFn g (S i) (f i)) :
    WritesFn g (fun x => ∃ i, lo ≤ i ∧ i < hi ∧ S i x) (fun t => forLoop lo hi f t) := by
  have hm : ∀ i, i ∈ List.range' lo (hi - lo) ↔ lo ≤ i ∧ i < hi := by
    intro i
    rw [List.mem_range'_1]
    omega
  have h2 := writesFn_foldl S f (List.range' lo (hi - lo))
    (fun i hi2 => h i ((hm i).1 hi2).1 ((hm i).1 hi2).2)
  intro t x
  have h3 := h2 t x
  constructor
  · rintro ⟨i, h4, h5, hs⟩
    exact h3.1 ⟨i, (hm i).2 ⟨h4, h5⟩, hs⟩
  · intro hneg
    apply h3.2
    rintro ⟨i, hi2, hs⟩
    exact hneg ⟨i, ((hm i).1 hi2).1, ((hm i).1 hi2).2, hs⟩

/-- Without rounding, `_dcsd_by_value` returns (the whole mesh is asserted
when there is no list) and, for every vertex `v`, `values[v]` is its prior
content plus `const_val` times the sum of `dcell_vol[j]` over every selected
cell `c` and every position `j` of the cell->vertex slice of `c` with
`c2v.ids[j] = v` (cells sharing `v` add up), so the entry of a vertex of no
selected cell is unchanged; `_dcvd_by_value` does the same for the components
`3v, 3v+1, 3v+2`. -/
theorem dual_density_by_value_accumulates (sh : cs_shared_t) (k : ℚ) (vec : Nat → ℚ)
    (n_elts : Nat) (elt_ids : Option (Nat → Nat)) (values : Nat → ℚ)
    (hnone : elt_ids = none → n_elts = sh.quant.n_cells) :
    (∃ vals, _dcsd_by_value sh k n_elts elt_ids values = .ok vals ∧ ∀ v,
      vals v = values v + k * incidence_sum sh.connect.c2v (selected_cells n_elts elt_ids)
        (fun j => decide (sh.connect.c2v.ids j = v)) sh.quant.dcell_vol ∧
      (¬ reached sh.connect.c2v (selected_cells n_elts elt_ids) v → vals v = values v)) ∧
    (∀ v i, i < 3 →
      _dcvd_by_value sh vec n_elts elt_ids values (3 * v + i) =
        values (3 * v + i) + vec i * incidence_sum sh.connect.c2v
          (selected_cells n_elts elt_ids) (fun j => decide (sh.connect.c2v.ids j = v))
          sh.quant.dcell_vol ∧
      (¬ reached sh.connect.c2v (selected_cells n_elts elt_ids) v →
        _dcvd_by_value sh vec n_elts elt_ids values (3 * v + i) = values (3 * v + i))) := by
  constructor
  · obtain ⟨vals, hv, hspec⟩ := dcsd_by_value_apply sh k n_elts elt_ids values hnone
    refine ⟨vals, hv, ?_⟩
    intro v
    refine ⟨hspec v, ?_⟩
    intro hnr
    rw [hspec v, incidence_sum_not_reached _ _ _ _ hnr, mul_zero, add_zero]
  · intro v i hi
    have e1 : (3 * v + i) / 3 = v := by omega
    have e2 : (3 * v + i) % 3 = i := by omega
    have h := dcvd_by_value_apply sh vec n_elts elt_ids values (3 * v + i)
    rw [e1, e2] at h
    refine ⟨h, ?_⟩
    intro hnr
    rw [h, incidence_sum_not_reached _ _ _ _ hnr, mul_zero, add_zero]

/-- Witness of `dual_density_by_value_accumulates`: both cells of the two-cell mesh. -/
theorem dual_density_by_value_accumulates_witness :
    (∃ vals, _dcsd_by_value two_tetra 2 2 none (fun _ => 0) = .ok vals ∧ ∀ v,
      vals v = (fun _ => (0 : ℚ)) v + 2 * incidence_sum two_tetra.connect.c2v
        (selected_cells 2 none)
        (fun j => decide (two_tetra.connect.c2v.ids j = v)) two_tetra.quant.dcell_vol ∧
      (¬ reached two_tetra.connect.c2v (selected_cells 2 none) v →
        vals v = (fun _ => (0 : ℚ)) v)) ∧
    (∀ v i, i < 3 →
      _dcvd_by_value two_tetra (ofList 0 [1, 2, 3]) 2 none (fun _ => 0) (3 * v + i) =
        (fun _ => (0 : ℚ)) (3 * v + i) + (ofList 0 [1, 2, 3] : Nat → ℚ) i *
          incidence_sum two_tetra.connect.c2v
          (selected_cells 2 none) (fun j => decide (two_tetra.connect.c2v.ids j = v))
          two_tetra.quant.dcell_vol ∧
      (¬ reached two_tetra.connect.c2v (selected_cells 2 none) v →
        _dcvd_by_value two_tetra (ofList 0 [1, 2, 3]) 2 none (fun _ => 0) (3 * v + i) =
          (fun _ => (0 : ℚ)) (3 * v + i))) :=
  dual_density_by_value_accumulates two_tetra 2 (ofList 0 [1, 2, 3]) 2 none (fun _ => 0)
    (fun _ => rfl)

/-! ## Global conservation on the constant-value path -/

theorem sum_range_ite (n a : Nat) (h : a < n) (y : ℚ) :
    ((List.range n).map (fun v => if a = v then y else 0)).sum = y := by
  induction n with
  | zero => omega
  | succ n ih =>
    rw [List.range_succ, List.map_append, List.sum_append]
    by_cases ha : a = n
    · subst ha
      have : ((List.range a).map (fun v => if a = v then y else 0)).sum = 0 := by
        apply sum_map_eq_zero
        intro i hi
        have := List.mem_range.mp hi
        have hne : ¬ a = i := by omega
        simp [hne]
      rw [this]
      simp
    · rw [ih (by omega)]
      simp [ha]

theorem sum_filter_over_range (l : List Nat) (ids : Nat → Nat) (d : Nat → ℚ) (n : Nat)
    (h : ∀ j ∈ l, ids j < n) :
    ((List.range n).map (fun v => ((l.filter (fun j => decide (ids j = v))).map d).sum)).sum =
      (l.map d).sum := by
  induction l with
  | nil => simp
  | cons j l ih =>
    have e : ∀ v, (((j :: l).filter (fun j => decide (ids j = v))).map d).sum =
        (if ids j = v then d j else 0) +
          ((l.filter (fun j => decide (ids j = v))).map d).sum := by
      intro v
      by_cases hv : ids j = v
      · simp [List.filter_cons, hv]
      · simp [List.filter_cons, hv]
    simp only [e]
    rw [List.sum_map_add, sum_range_ite n (ids j) (h j (List.mem_cons_self j l)),
      ih (fun i hi => h i (List.mem_cons_of_mem j hi)), List.map_cons, List.sum_cons]

/-- Summed over all vertices, the per-vertex incidence sums give the whole
incidence sum when every visited vertex id is below `n`. -/
theorem sum_incidence_over_vertices (a : cs_adjacency_t) (cells : List Nat) (d : Nat → ℚ)
    (n : Nat) (h : ∀ c ∈ cells, ∀ j ∈ slice a c, a.ids j < n) :
    ((List.range n).map (fun v =>
      incidence_sum a cells (fun j => decide (a.ids j = v)) d)).sum =
      (cells.map (fun c => ((slice a c).map d).sum)).sum := by
  induction cells with
  | nil => simp [incidence_sum]
  | cons c cells ih =>
    have e : ∀ v, incidence_sum a (c :: cells) (fun j => decide (a.ids j = v)) d =
        (((slice a c).filter (fun j => decide (a.ids j = v))).map d).sum +
          incidence_sum a cells (fun j => decide (a.ids j = v)) d := by
      intro v
      simp [incidence_sum]
    simp only [e]
    rw [List.sum_map_add, ih (fun c2 hc j hj => h c2 (List.mem_cons_of_mem c hc) j hj),
      sum_filter_over_range (slice a c) a.ids d n (h c (List.mem_cons_self c cells)),
      List.map_cons, List.sum_cons]

/-- Result of `_pcsd_by_value` without list, entry by entry. -/
theorem pcsd_by_value_all (sh : cs_shared_t) (k : ℚ) (n_elts : Nat) :
    WritesFn (fun x => sh.quant.cell_vol x * k) (fun x => x < sh.quant.n_cells)
      (fun t => _pcsd_by_value sh k n_elts none t) := by
  have h := writesFn_forLoop (g := fun x => sh.quant.cell_vol x * k) (fun i x => x = i)
    (fun c_id t => Function.update t c_id (sh.quant.cell_vol c_id * k)) 0 sh.quant.n_cells
    (fun i _ _ => writesFn_update _ i)
  intro t x
  have h2 := h t x
  constructor
  · intro hx
    exact h2.1 ⟨x, Nat.zero_le x, hx, rfl⟩
  · intro hx
    apply h2.2
    rintro ⟨i, _, h3, h4⟩
    subst h4
    exact hx h3

/-- C6: for a mesh whose cell->vertex ids are valid and whose dual-volume
fractions sum to `cell_vol[c]` inside each cell `c`, with all cells selected
and zero-initialised buffers, `_dcsd_by_value` returns and the sum of its
result over all vertices equals the sum over all cells of the result of
`_pcsd_by_value` for the same constant. -/
theorem value_density_global_conservation (sh : cs_shared_t) (k : ℚ)
    (hc2v : ∀ c, c < sh.quant.n_cells → ∀ j ∈ slice sh.connect.c2v c,
      sh.connect.c2v.ids j < sh.quant.n_vertices)
    (hvol : ∀ c, c < sh.quant.n_cells →
      ((slice sh.connect.c2v c).map sh.quant.dcell_vol).sum = sh.quant.cell_vol c) :
    ∃ dvals, _dcsd_by_value sh k sh.quant.n_cells none (fun _ => 0) = .ok dvals ∧
      ((List.range sh.quant.n_vertices).map dvals).sum =
        ((List.range sh.quant.n_cells).map
          (_pcsd_by_value sh k sh.quant.n_cells none (fun _ => 0))).sum := by
  obtain ⟨dvals, hd, hspec⟩ :=
    dcsd_by_value_apply sh k sh.quant.n_cells none (fun _ => 0) (fun _ => rfl)
  refine ⟨dvals, hd, ?_⟩
  have e1 : (List.range sh.quant.n_vertices).map dvals =
      (List.range sh.quant.n_vertices).map (fun v => k * incidence_sum sh.connect.c2v
        (List.range sh.quant.n_cells) (fun j => decide (sh.connect.c2v.ids j = v))
        sh.quant.dcell_vol) := by
    apply List.map_congr_left
    intro v _
    rw [hspec v, zero_add]
    rfl
  have e2 : (List.range sh.quant.n_cells).map
      (_pcsd_by_value sh k sh.quant.n_cells none (fun _ => 0)) =
      (List.range sh.quant.n_cells).map (fun c => k *
        ((slice sh.connect.c2v c).map sh.quant.dcell_vol).sum) := by
    apply List.map_congr_left
    intro c hc
    have hc2 := List.mem_range.mp hc
    have := (pcsd_by_value_all sh k sh.quant.n_cells (fun _ => 0) c).1 hc2
    beta_reduce at this
    rw [this, hvol c hc2, mul_comm]
  rw [e1, e2, List.sum_map_mul_left, List.sum_map_mul_left,
    sum_incidence_over_vertices sh.connect.c2v (List.range sh.quant.n_cells)
      sh.quant.dcell_vol sh.quant.n_vertices
      (fun c hc j hj => hc2v c (List.mem_range.mp hc) j hj)]

/-- Witness of `value_density_global_conservation`: the two-cell mesh. -/
theorem value_density_global_conservation_witness :
    ∃ dvals, _dcsd_by_value two_tetra 3 two_tetra.quant.n_cells none (fun _ => 0) = .ok dvals ∧
      ((List.range two_tetra.quant.n_vertices).map dvals).sum =
        ((List.range two_tetra.quant.n_cells).map
          (_pcsd_by_value two_tetra 3 two_tetra.quant.n_cells none (fun _ => 0))).sum :=
  value_density_global_conservation two_tetra 3 (by decide) (by decide!)

/-! ## Primal-cell densities by value -/

theorem pcvd_set_writes (vol : Nat → ℚ) (vec : Nat → ℚ) (c : Nat) :
    WritesFn (fun x => vol (x / 3) * vec (x % 3)) (fun x => x / 3 = c)
      (fun t => pcvd_set vec c (vol c) t) := by
  intro t x
  unfold pcvd_set
  by_cases h2 : x = 3 * c + 2
  · have e1 : (3 * c + 2) / 3 = c := by omega
    have e2 : (3 * c + 2) % 3 = 2 := by omega
    subst h2
    simp [e1, e2, Function.update_apply]
  · by_cases h1 : x = 3 * c + 1
    · have e1 : (3 * c + 1) / 3 = c := by omega
      have e2 : (3 * c + 1) % 3 = 1 := by omega
      subst h1
      simp [e1, e2, Function.update_apply]
    · by_cases h0 : x = 3 * c
      · have e1 : (3 * c) / 3 = c := by omega
        have e2 : (3 * c) % 3 = 0 := by omega
        subst h0
        simp [e1, e2, Function.update_apply]
      · have hne : ¬ x / 3 = c := by omega
        simp [hne, Function.update_apply, h0, h1, h2]

/-- C9: for every selected cell `c`, `_pcsd_by_value` stores
`cell_vol[c] * const_val` in `values[c]` and `_pcvd_by_value` stores
`cell_vol[c] * const_vec[i]` in `values[3c+i]`, `i = 0, 1, 2`, whatever the
prior content; with a list of ids neither modifies an entry of an unlisted cell. -/
theorem primal_density_by_value_overwrites (sh : cs_shared_t) (k : ℚ) (vec : Nat → ℚ)
    (n_elts : Nat) (ids : Nat → Nat) (values : Nat → ℚ) :
    (∀ i, i < n_elts →
      _pcsd_by_value sh k n_elts (some ids) values (ids i) = sh.quant.cell_vol (ids i) * k) ∧
    (∀ c, c < sh.quant.n_cells →
      _pcsd_by_value sh k n_elts none values c = sh.quant.cell_vol c * k) ∧
    (∀ x, (∀ i, i < n_elts → ids i ≠ x) →
      _pcsd_by_value sh k n_elts (some ids) values x = values x) ∧
    (∀ i, i < n_elts → ∀ m, m < 3 →
      _pcvd_by_value sh vec n_elts (some ids) values (3 * ids i + m) =
        sh.quant.cell_vol (ids i) * vec m) ∧
    (∀ c, c < sh.quant.n_cells → ∀ m, m < 3 →
      _pcvd_by_value sh vec n_elts none values (3 * c + m) = sh.quant.cell_vol c * vec m) ∧
    (∀ x, (∀ i, i < n_elts → ids i ≠ x / 3) →
      _pcvd_by_value sh vec n_elts (some ids) values x = values x) := by
  have hs := writesFn_forLoop (g := fun x => sh.quant.cell_vol x * k) (fun i x => x = ids i)
    (fun i t => Function.update t (ids i) (sh.quant.cell_vol (ids i) * k)) 0 n_elts
    (fun i _ _ => writesFn_update _ (ids i))
  have hv := writesFn_forLoop (g := fun x => sh.quant.cell_vol (x / 3) * vec (x % 3))
    (fun i x => x / 3 = ids i)
    (fun i t => pcvd_set vec (ids i) (sh.quant.cell_vol (ids i)) t) 0 n_elts
    (fun i _ _ => pcvd_set_writes sh.quant.cell_vol vec (ids i))
  have hva := writesFn_forLoop (g := fun x => sh.quant.cell_vol (x / 3) * vec (x % 3))
    (fun i x => x / 3 = i)
    (fun i t => pcvd_set vec i (sh.quant.cell_vol i) t) 0 sh.quant.n_cells
    (fun i _ _ => pcvd_set_writes sh.quant.cell_vol vec i)
  refine ⟨?_, ?_, ?_, ?_, ?_, ?_⟩
  · intro i hi
    exact (hs values (ids i)).1 ⟨i, Nat.zero_le i, hi, rfl⟩
  · intro c hc
    exact (pcsd_by_value_all sh k n_elts values c).1 hc
  · intro x hx
    apply (hs values x).2
    rintro ⟨i, _, h1, h2⟩
    exact hx i h1 h2.symm
  · intro i hi m hm
    have e1 : (3 * ids i + m) / 3 = ids i := by omega
    have e2 : (3 * ids i + m) % 3 = m := by omega
    have := (hv values (3 * ids i + m)).1 ⟨i, Nat.zero_le i, hi, e1⟩
    beta_reduce at this
    rw [e1, e2] at this
    exact this
  · intro c hc m hm
    have e1 : (3 * c + m) / 3 = c := by omega
    have e2 : (3 * c + m) % 3 = m := by omega
    have := (hva values (3 * c + m)).1 ⟨c, Nat.zero_le c, hc, e1⟩
    beta_reduce at this
    rw [e1, e2] at this
    exact this
  · intro x hx
    apply (hv values x).2
    rintro ⟨i, _, h1, h2⟩
    exact hx i h1 h2.symm

/-! ## End to end on one tetrahedron -/

theorem sum_filter_unique (l : List Nat) (ids : Nat → Nat) (d : Nat → ℚ) (j0 : Nat)
    (hnd : l.Nodup) (hinj : ∀ a ∈ l, ∀ b ∈ l, ids a = ids b → a = b) (hj : j0 ∈ l) :
    ((l.filter (fun j => decide (ids j = ids j0))).map d).sum = d j0 := by
  induction l with
  | nil => exact absurd hj (List.not_mem_nil j0)
  | cons a l ih =>
    have hnd2 := List.nodup_cons.mp hnd
    by_cases ha : a = j0
    · subst ha
      have hrest : ((l.filter (fun j => decide (ids j = ids a))).map d).sum = 0 := by
        rw [← sum_map_ite_eq_filter]
        apply sum_map_eq_zero
        intro b hb
        have hne : ¬ ids b = ids a := by
          intro e
          have := hinj b (List.mem_cons_of_mem a hb) a (List.mem_cons_self a l) e
          subst this
          exact hnd2.1 hb
        simp [hne]
      simp [List.filter_cons, hrest]
    · have hj2 : j0 ∈ l := by
        rcases List.mem_cons.mp hj with h | h
        · exact absurd h.symm ha
        · exact h
      have hne : ¬ ids a = ids j0 := by
        intro e
        exact ha (hinj a (List.mem_cons_self a l) j0 hj e)
      have := ih hnd2.2 (fun x hx y hy => hinj x (List.mem_cons_of_mem a hx) y
        (List.mem_cons_of_mem a hy)) hj2
      simp [List.filter_cons, hne, this]

/-- C8: on a mesh made of one cell whose cell->vertex slice has four distinct
vertices, for the constant scalar value `2`, the whole mesh as zone and
zero-initialised buffers, `cs_evaluate_density_by_value` returns
`2 * cell_vol[0]` at primal cells; at dual cells it returns
`2 * dcell_vol[j]` at the `j`-th vertex of the cell, and these four values
sum to `2 * cell_vol[0]` when the four fractions sum to the cell volume. -/
theorem density_by_value_single_tetra (D : cs_defs_t) (E : cs_extern_t) (sh : cs_shared_t)
    (dof_p dof_d : Nat) (d : cs_xdef_t) (val : Nat → ℚ)
    (hcells : sh.quant.n_cells = 1)
    (hslice : sh.connect.c2v.idx 1 = sh.connect.c2v.idx 0 + 4)
    (hdist : ∀ a, a < 4 → ∀ b, b < 4 →
      sh.connect.c2v.ids (sh.connect.c2v.idx 0 + a) =
        sh.connect.c2v.ids (sh.connect.c2v.idx 0 + b) → a = b)
    (hsup : d.support = D.CS_XDEF_SUPPORT_VOLUME)
    (hin : d.input = .reals val) (hval : val 0 = 2)
    (hz : E.cs_volume_zone_by_id d.z_id = { n_elts := 1, elt_ids := none })
    (hps : dof_p &&& D.CS_FLAG_SCALAR ≠ 0)
    (hpc : D.cs_flag_test dof_p D.cs_flag_primal_cell = true)
    (hds : dof_d &&& D.CS_FLAG_SCALAR ≠ 0)
    (hdp : D.cs_flag_test dof_d D.cs_flag_primal_cell = false)
    (hdc : D.cs_flag_test dof_d D.cs_flag_dual_cell = true) :
    (∃ rp, cs_evaluate_density_by_value D E sh dof_p (some d) (some (fun _ => 0)) = .ok rp ∧
      rp 0 = 2 * sh.quant.cell_vol 0) ∧
    (∃ rd, cs_evaluate_density_by_value D E sh dof_d (some d) (some (fun _ => 0)) = .ok rd ∧
      (∀ j, j < 4 → rd (sh.connect.c2v.ids (sh.connect.c2v.idx 0 + j)) =
        2 * sh.quant.dcell_vol (sh.connect.c2v.idx 0 + j)) ∧
      (((List.range 4).map (fun j => sh.quant.dcell_vol (sh.connect.c2v.idx 0 + j))).sum =
          sh.quant.cell_vol 0 →
        ((List.range 4).map (fun j =>
          rd (sh.connect.c2v.ids (sh.connect.c2v.idx 0 + j)))).sum =
          2 * sh.quant.cell_vol 0)) := by
  constructor
  · unfold cs_evaluate_density_by_value
    simp only [hsup, ne_eq, not_true_eq_false, if_false, hps, not_false_eq_true, if_true,
      hpc, hin, hz, hval]
    refine ⟨_, rfl, ?_⟩
    have := (pcsd_by_value_all sh 2 1 (fun _ => 0) 0).1 (by omega)
    beta_reduce at this
    rw [this, mul_comm]
  · obtain ⟨rd, hrd, hspec⟩ := dcsd_by_value_apply sh 2 1 none (fun _ => 0)
      (fun _ => hcells.symm)
    have hval2 : ∀ j, j < 4 → rd (sh.connect.c2v.ids (sh.connect.c2v.idx 0 + j)) =
        2 * sh.quant.dcell_vol (sh.connect.c2v.idx 0 + j) := by
      intro j hj
      rw [hspec]
      have hs : slice sh.connect.c2v 0 = List.range' (sh.connect.c2v.idx 0) 4 := by
        unfold slice
        rw [hslice]
        congr 1
        omega
      have hmem : ∀ a, a ∈ List.range' (sh.connect.c2v.idx 0) 4 ↔
          ∃ k, k < 4 ∧ a = sh.connect.c2v.idx 0 + k := by
        intro a
        rw [List.mem_range'_1]
        constructor
        · intro h
          exact ⟨a - sh.connect.c2v.idx 0, by omega, by omega⟩
        · rintro ⟨k, hk, rfl⟩
          omega
      have hu := sum_filter_unique (List.range' (sh.connect.c2v.idx 0) 4) sh.connect.c2v.ids
        sh.quant.dcell_vol (sh.connect.c2v.idx 0 + j) (List.nodup_range' _ _)
        (by
          intro a ha b hb e
          obtain ⟨ka, hka, rfl⟩ := (hmem a).1 ha
          obtain ⟨kb, hkb, rfl⟩ := (hmem b).1 hb
          rw [hdist ka hka kb hkb e])
        ((hmem _).2 ⟨j, hj, rfl⟩)
      have hsel : selected_cells 1 none = [0] := rfl
      unfold incidence_sum
      rw [hsel, List.map_cons, List.map_nil, List.sum_cons, List.sum_nil, add_zero, hs, hu,
        zero_add]
    unfold cs_evaluate_density_by_value
    simp only [hsup, ne_eq, not_true_eq_false, if_false, hds, not_false_eq_true, if_true,
      hdp, hdc, hin, hz, hval, Bool.false_eq_true]
    refine ⟨rd, hrd, hval2, ?_⟩
    intro hsum
    rw [← hsum, ← List.sum_map_mul_left]
    congr 1
    apply List.map_congr_left
    intro j hj
    exact hval2 j (List.mem_range.mp hj)

/-- Witness of `density_by_value_single_tetra`: the one-cell mesh with dual
fractions `3`, flags scalar at primal cells and scalar at dual cells. -/
theorem density_by_value_single_tetra_witness :
    (∃ rp, cs_evaluate_density_by_value sample_defs
        (sample_ext { n_elts := 1, elt_ids := none }) (one_tetra 3) (2 + 256 + 8192)
        (some (xdef_by_value (fun _ => 2))) (some (fun _ => 0)) = .ok rp ∧
      rp 0 = 2 * (one_tetra 3).quant.cell_vol 0) ∧
    (∃ rd, cs_evaluate_density_by_value sample_defs
        (sample_ext { n_elts := 1, elt_ids := none }) (one_tetra 3) (2 + 512 + 8192)
        (some (xdef_by_value (fun _ => 2))) (some (fun _ => 0)) = .ok rd ∧
      (∀ j, j < 4 → rd ((one_tetra 3).connect.c2v.ids ((one_tetra 3).connect.c2v.idx 0 + j)) =
        2 * (one_tetra 3).quant.dcell_vol ((one_tetra 3).connect.c2v.idx 0 + j)) ∧
      (((List.range 4).map (fun j =>
          (one_tetra 3).quant.dcell_vol ((one_tetra 3).connect.c2v.idx 0 + j))).sum =
          (one_tetra 3).quant.cell_vol 0 →
        ((List.range 4).map (fun j =>
          rd ((one_tetra 3).connect.c2v.ids ((one_tetra 3).connect.c2v.idx 0 + j)))).sum =
          2 * (one_tetra 3).quant.cell_vol 0)) :=
  density_by_value_single_tetra sample_defs (sample_ext { n_elts := 1, elt_ids := none })
    (one_tetra 3) (2 + 256 + 8192) (2 + 512 + 8192) (xdef_by_value (fun _ => 2)) (fun _ => 2)
    rfl rfl (by decide) rfl rfl rfl rfl (by decide) (by decide) (by decide) (by decide)
    (by decide)

/-! ## Error handling of the public evaluators -/

/-- C19: for a definition by value on a volume whose zone is the whole mesh
when it has no list (the facts asserted by the code),
`cs_evaluate_density_by_value` fails if and only if the output buffer is
null, or the DoF flag is neither scalar nor vector, or its location is
neither primal cells nor dual cells; a failure is one of the two stops of the
dispatcher (empty array, case not handled), which precede every call of an
evaluator, so that no entry of the buffer is written. -/
theorem density_by_value_fails_iff (D : cs_defs_t) (E : cs_extern_t) (sh : cs_shared_t)
    (dof_flag : Nat) (d : cs_xdef_t) (val : Nat → ℚ) (retval : Option (Nat → ℚ))
    (hsup : d.support = D.CS_XDEF_SUPPORT_VOLUME) (hin : d.input = .reals val)
    (hz : (E.cs_volume_zone_by_id d.z_id).elt_ids = none →
      (E.cs_volume_zone_by_id d.z_id).n_elts = sh.quant.n_cells) :
    ((∃ e, cs_evaluate_density_by_value D E sh dof_flag (some d) retval = .error e) ↔
      (retval = none ∨
       (dof_flag &&& D.CS_FLAG_SCALAR = 0 ∧ dof_flag &&& D.CS_FLAG_VECTOR = 0) ∨
       (D.cs_flag_test dof_flag D.cs_flag_primal_cell = false ∧
        D.cs_flag_test dof_flag D.cs_flag_dual_cell = false))) ∧
    (∀ e, cs_evaluate_density_by_value D E sh dof_flag (some d) retval = .error e →
      e = .empty_array ∨ e = .not_handled) := by
  unfold cs_evaluate_density_by_value
  cases retval with
  | none => simp
  | some r =>
    obtain ⟨vals, hd, _⟩ := dcsd_by_value_apply sh (val 0)
      (E.cs_volume_zone_by_id d.z_id).n_elts (E.cs_volume_zone_by_id d.z_id).elt_ids r hz
    simp only [hsup, ne_eq, not_true_eq_false, if_false, hin, hd]
    by_cases hs : dof_flag &&& D.CS_FLAG_SCALAR = 0 <;>
    by_cases hv : dof_flag &&& D.CS_FLAG_VECTOR = 0 <;>
    by_cases hp : D.cs_flag_test dof_flag D.cs_flag_primal_cell = true <;>
    by_cases hc : D.cs_flag_test dof_flag D.cs_flag_dual_cell = true <;>
    simp [hs, hv, hp, hc]

/-- Witness of `density_by_value_fails_iff`: a scalar flag without location. -/
theorem density_by_value_fails_iff_witness :
    ((∃ e, cs_evaluate_density_by_value sample_defs
        (sample_ext { n_elts := 1, elt_ids := none }) (one_tetra 3) 2
        (some (xdef_by_value (fun _ => 2))) (some (fun _ => 0)) = .error e) ↔
      ((some (fun _ => (0 : ℚ)) : Option (Nat → ℚ)) = none ∨
       (2 &&& sample_defs.CS_FLAG_SCALAR = 0 ∧ 2 &&& sample_defs.CS_FLAG_VECTOR = 0) ∨
       (sample_defs.cs_flag_test 2 sample_defs.cs_flag_primal_cell = false ∧
        sample_defs.cs_flag_test 2 sample_defs.cs_flag_dual_cell = false))) ∧
    (∀ e, cs_evaluate_density_by_value sample_defs
        (sample_ext { n_elts := 1, elt_ids := none }) (one_tetra 3) 2
        (some (xdef_by_value (fun _ => 2))) (some (fun _ => 0)) = .error e →
      e = .empty_array ∨ e = .not_handled) :=
  density_by_value_fails_iff sample_defs (sample_ext { n_elts := 1, elt_ids := none })
    (one_tetra 3) 2 (xdef_by_value (fun _ => 2)) (fun _ => 2) (some (fun _ => 0)) rfl rfl
    (fun _ => rfl)

/-- C18 (divergence): for a definition by value on a volume and a non-null
buffer, every scalar DoF flag that is not located at primal vertices makes
`cs_evaluate_potential_by_qov` return without failure and without computing
anything: the buffer comes back unchanged. -/
theorem potential_by_qov_scalar_elsewhere_returns (D : cs_defs_t) (E : cs_extern_t)
    (sh : cs_shared_t) (dof_flag : Nat) (d : cs_xdef_t) (val : Nat → ℚ) (retval : Nat → ℚ)
    (hsup : d.support = D.CS_XDEF_SUPPORT_VOLUME) (hin : d.input = .reals val)
    (hs : dof_flag &&& D.CS_FLAG_SCALAR ≠ 0)
    (hv : D.cs_flag_test dof_flag D.cs_flag_primal_vtx = false) :
    cs_evaluate_potential_by_qov D E sh dof_flag (some d) (some retval) = .ok retval := by
  unfold cs_evaluate_potential_by_qov
  simp only [hsup, ne_eq, not_true_eq_false, if_false, hs, not_false_eq_true, if_true, hin,
    hv, Bool.false_eq_true]

/-- Witness of `potential_by_qov_scalar_elsewhere_returns`: a flag scalar at
primal cells. -/
theorem potential_by_qov_scalar_elsewhere_returns_witness :
    cs_evaluate_potential_by_qov sample_defs (sample_ext { n_elts := 1, elt_ids := none })
      (one_tetra 3) (2 + 256 + 8192) (some (xdef_by_value (fun _ => 5)))
      (some (fun _ => 0)) = .ok (fun _ => 0) :=
  potential_by_qov_scalar_elsewhere_returns sample_defs
    (sample_ext { n_elts := 1, elt_ids := none }) (one_tetra 3) (2 + 256 + 8192)
    (xdef_by_value (fun _ => 5)) (fun _ => 5) (fun _ => 0) rfl rfl (by decide) (by decide)

theorem tet_scal_rule_none (D : cs_defs_t) (E : cs_extern_t) (qtype : Nat)
    (h1 : qtype ≠ D.CS_QUADRATURE_BARY) (h2 : qtype ≠ D.CS_QUADRATURE_BARY_SUBDIV)
    (h3 : qtype ≠ D.CS_QUADRATURE_HIGHER) (h4 : qtype ≠ D.CS_QUADRATURE_HIGHEST) :
    tet_scal_rule D E qtype = none := by
  unfold tet_scal_rule
  simp [h1, h2, h3, h4]

theorem tet_vect_rule_none (D : cs_defs_t) (E : cs_extern_t) (qtype : Nat)
    (h1 : qtype ≠ D.CS_QUADRATURE_BARY) (h2 : qtype ≠ D.CS_QUADRATURE_BARY_SUBDIV)
    (h3 : qtype ≠ D.CS_QUADRATURE_HIGHER) (h4 : qtype ≠ D.CS_QUADRATURE_HIGHEST) :
    tet_vect_rule D E qtype = none := by
  unfold tet_vect_rule
  simp [h1, h2, h3, h4]

theorem tria_scal_rule_none (D : cs_defs_t) (E : cs_extern_t) (qtype : Nat)
    (h1 : qtype ≠ D.CS_QUADRATURE_BARY) (h2 : qtype ≠ D.CS_QUADRATURE_BARY_SUBDIV)
    (h3 : qtype ≠ D.CS_QUADRATURE_HIGHER) (h4 : qtype ≠ D.CS_QUADRATURE_HIGHEST) :
    tria_scal_rule D E qtype = none := by
  unfold tria_scal_rule
  simp [h1, h2, h3, h4]

theorem tria_vect_rule_none (D : cs_defs_t) (E : cs_extern_t) (qtype : Nat)
    (h1 : qtype ≠ D.CS_QUADRATURE_BARY) (h2 : qtype ≠ D.CS_QUADRATURE_BARY_SUBDIV)
    (h3 : qtype ≠ D.CS_QUADRATURE_HIGHER) (h4 : qtype ≠ D.CS_QUADRATURE_HIGHEST) :
    tria_vect_rule D E qtype = none := by
  unfold tria_vect_rule
  simp [h1, h2, h3, h4]

/-- C20: for a quadrature type other than barycenter, barycenter-subdivision,
higher and highest, a non-null buffer and a definition on a volume,
`cs_evaluate_density_by_analytic` stops with the invalid-quadrature error,
and so do `cs_evaluate_average_on_cells_by_analytic` and
`cs_evaluate_average_on_faces_by_analytic` for the dimensions 1 and 3 when
the flag satisfies their assertions (primal cells, respectively primal faces,
scalar for dimension 1 and vector for dimension 3).  The stop is the
`default` label of the `switch` on the quadrature type, which precedes every
call of a rule and every write: whatever the rules, the input and the zone,
the result is this error. -/
theorem invalid_quadrature_type_fails (D : cs_defs_t) (E : cs_extern_t) (sh : cs_shared_t)
    (dof_flag : Nat) (d : cs_xdef_t) (retval : Nat → ℚ)
    (hsup : d.support = D.CS_XDEF_SUPPORT_VOLUME)
    (h1 : d.qtype ≠ D.CS_QUADRATURE_BARY) (h2 : d.qtype ≠ D.CS_QUADRATURE_BARY_SUBDIV)
    (h3 : d.qtype ≠ D.CS_QUADRATURE_HIGHER) (h4 : d.qtype ≠ D.CS_QUADRATURE_HIGHEST) :
    cs_evaluate_density_by_analytic D E sh dof_flag (some d) (some retval) =
      .error .invalid_quad ∧
    (D.cs_flag_test dof_flag D.cs_flag_primal_cell = true →
      ((d.dim = 1 ∧ dof_flag &&& D.CS_FLAG_SCALAR ≠ 0) ∨
       (d.dim = 3 ∧ dof_flag &&& D.CS_FLAG_VECTOR ≠ 0)) →
      cs_evaluate_average_on_cells_by_analytic D E sh dof_flag (some d) (some retval) =
        .error .invalid_quad) ∧
    (D.cs_flag_test dof_flag D.cs_flag_primal_face = true →
      ((d.dim = 1 ∧ dof_flag &&& D.CS_FLAG_SCALAR ≠ 0) ∨
       (d.dim = 3 ∧ dof_flag &&& D.CS_FLAG_VECTOR ≠ 0)) →
      cs_evaluate_average_on_faces_by_analytic D E sh dof_flag (some d) (some retval) =
        .error .invalid_quad) := by
  refine ⟨?_, ?_, ?_⟩
  · unfold cs_evaluate_density_by_analytic
    simp only [hsup, ne_eq, not_true_eq_false, if_false,
      tet_scal_rule_none D E d.qtype h1 h2 h3 h4]
  · intro hf hdim
    unfold cs_evaluate_average_on_cells_by_analytic
    rcases hdim with ⟨hd, hs⟩ | ⟨hd, hs⟩
    · simp only [hsup, ne_eq, not_true_eq_false, if_false, hf, Bool.true_eq_false, hd, if_true,
        hs, tet_scal_rule_none D E d.qtype h1 h2 h3 h4]
    · simp only [hsup, ne_eq, not_true_eq_false, if_false, hf, Bool.true_eq_false, hd, if_true,
        hs, tet_vect_rule_none D E d.qtype h1 h2 h3 h4, OfNat.ofNat_ne_one]
  · intro hf hdim
    unfold cs_evaluate_average_on_faces_by_analytic
    rcases hdim with ⟨hd, hs⟩ | ⟨hd, hs⟩
    · simp only [hsup, ne_eq, not_true_eq_false, if_false, hf, Bool.true_eq_false, hd, if_true,
        hs, tria_scal_rule_none D E d.qtype h1 h2 h3 h4]
    · simp only [hsup, ne_eq, not_true_eq_false, if_false, hf, Bool.true_eq_false, hd, if_true,
        hs, tria_vect_rule_none D E d.qtype h1 h2 h3 h4, OfNat.ofNat_ne_one]

/-- Witness of `invalid_quadrature_type_fails`: quadrature type `7`, dimension 1. -/
theorem invalid_quadrature_type_fails_witness :
    cs_evaluate_density_by_analytic sample_defs
        (sample_ext { n_elts := 1, elt_ids := none }) (one_tetra 3) (2 + 256 + 8192)
        (some (xdef_by_analytic (ana_const 1) 1 7)) (some (fun _ => 0)) =
      .error .invalid_quad ∧
    (sample_defs.cs_flag_test (2 + 256 + 8192) sample_defs.cs_flag_primal_cell = true →
      (((xdef_by_analytic (ana_const 1) 1 7).dim = 1 ∧
          (2 + 256 + 8192) &&& sample_defs.CS_FLAG_SCALAR ≠ 0) ∨
       ((xdef_by_analytic (ana_const 1) 1 7).dim = 3 ∧
          (2 + 256 + 8192) &&& sample_defs.CS_FLAG_VECTOR ≠ 0)) →
      cs_evaluate_average_on_cells_by_analytic sample_defs
        (sample_ext { n_elts := 1, elt_ids := none }) (one_tetra 3) (2 + 256 + 8192)
        (some (xdef_by_analytic (ana_const 1) 1 7)) (some (fun _ => 0)) =
        .error .invalid_quad) ∧
    (sample_defs.cs_flag_test (2 + 256 + 8192) sample_defs.cs_flag_primal_face = true →
      (((xdef_by_analytic (ana_const 1) 1 7).dim = 1 ∧
          (2 + 256 + 8192) &&& sample_defs.CS_FLAG_SCALAR ≠ 0) ∨
       ((xdef_by_analytic (ana_const 1) 1 7).dim = 3 ∧
          (2 + 256 + 8192) &&& sample_defs.CS_FLAG_VECTOR ≠ 0)) →
      cs_evaluate_average_on_faces_by_analytic sample_defs
        (sample_ext { n_elts := 1, elt_ids := none }) (one_tetra 3) (2 + 256 + 8192)
        (some (xdef_by_analytic (ana_const 1) 1 7)) (some (fun _ => 0)) =
        .error .invalid_quad) :=
  invalid_quadrature_type_fails sample_defs (sample_ext { n_elts := 1, elt_ids := none })
    (one_tetra 3) (2 + 256 + 8192) (xdef_by_analytic (ana_const 1) 1 7) (fun _ => 0) rfl
    (by decide) (by decide) (by decide) (by decide)

/-! ## Analytic evaluators: concrete runs -/

/-- C10 (divergence): on the unit cube taken as one hexahedral cell, whose
volume `1` is the sum over its faces of one third of the face height times
the face area and whose faces have the area of their four sub-triangles,
`_pcsd_by_analytic` with the one-point rule and the constant function `2`
gives `6` from a zero entry, three times the value `2 = cell_vol[0] * 2` that
`_pcsd_by_value` writes: the measure passed to the rule is `hfc * area`,
without the factor one third. -/
theorem pcsd_by_analytic_hexa_divergence :
    _pcsd_by_analytic (sample_ext { n_elts := 1, elt_ids := none }) unit_cube
        (ana_const 2) 1 none tet_1pt_scal (fun _ => 0) 0 = 6 ∧
    _pcsd_by_value unit_cube 2 1 none (fun _ => 0) 0 = 2 ∧
    unit_cube.quant.cell_vol 0 =
      ((slice unit_cube.connect.c2f 0).map (fun i =>
        1/3 * (sample_ext { n_elts := 1, elt_ids := none }).cs_math_3_dot_product
          (unit_cube.quant.face (unit_cube.connect.c2f.ids i)).unitv
          (unit_cube.quant.dedge_vector (unit_cube.connect.c2f.ids i)) *
          (unit_cube.quant.face (unit_cube.connect.c2f.ids i)).meas)).sum ∧
    (∀ f ∈ List.range 6, (unit_cube.quant.face f).meas =
      ((slice unit_cube.connect.f2e f).map (fun j =>
        (sample_ext { n_elts := 1, elt_ids := none }).cs_math_surftri
          (unit_cube.quant.vtx_coord
            (unit_cube.connect.e2v.ids (2 * unit_cube.connect.f2e.ids j)))
          (unit_cube.quant.vtx_coord
            (unit_cube.connect.e2v.ids (2 * unit_cube.connect.f2e.ids j + 1)))
          (unit_cube.quant.face f).center)).sum) := by
  refine ⟨?_, ?_, ?_, ?_⟩
  · decide!
  · decide!
  · decide!
  · decide!

/-- C11 (divergence): on the two-cell mesh with cell `1` selected, the rule
that adds the measure it receives is called six times for vertex `4` and
leaves `30 = 6 * dcell_vol[4]` in `values[4]`: the measure passed is
`dcell_vol` at the vertex id `4`, whereas the incidence (cell `1`, vertex `4`)
is position `7` of the cell->vertex adjacency, where the fraction is `8`. -/
theorem dcsd_by_analytic_measure_divergence :
    _dcsd_by_analytic two_tetra (ana_const 1) 1 (some (ofList 0 [1])) scal_probe
        (fun _ => 0) 4 = 6 * two_tetra.quant.dcell_vol 4 ∧
    two_tetra.quant.dcell_vol 4 = 5 ∧
    7 ∈ slice two_tetra.connect.c2v 1 ∧ two_tetra.connect.c2v.ids 7 = 4 ∧
    two_tetra.quant.dcell_vol 7 = 8 := by
  refine ⟨?_, ?_, ?_, ?_, ?_⟩
  · decide!
  · decide!
  · decide
  · decide
  · decide!

/-- C13 (divergence): on the two-cell mesh with cell `1` selected (volume
`26`) and a rule adding `vol * (1, 2, 3)` at the address it is given,
`_pcva_by_analytic` leaves `26` and `52` in the entries `1` and `2`, which
belong to cell `0`, and `3, 0, 0` in the entries `3, 4, 5` of cell `1`
instead of the average `1, 2, 3`: the rule is given `values + c_id`, the
scaling is applied at `values + 3*c_id`. -/
theorem pcva_by_analytic_address_divergence :
    _pcva_by_analytic (sample_ext { n_elts := 1, elt_ids := some (ofList 0 [1]) })
        two_tetra (ana_const 1) 1 (some (ofList 0 [1])) (vect_probe (ofList 0 [1, 2, 3]))
        (fun _ => 0) 1 = 26 ∧
    _pcva_by_analytic (sample_ext { n_elts := 1, elt_ids := some (ofList 0 [1]) })
        two_tetra (ana_const 1) 1 (some (ofList 0 [1])) (vect_probe (ofList 0 [1, 2, 3]))
        (fun _ => 0) 2 = 52 ∧
    _pcva_by_analytic (sample_ext { n_elts := 1, elt_ids := some (ofList 0 [1]) })
        two_tetra (ana_const 1) 1 (some (ofList 0 [1])) (vect_probe (ofList 0 [1, 2, 3]))
        (fun _ => 0) 3 = 3 ∧
    _pcva_by_analytic (sample_ext { n_elts := 1, elt_ids := some (ofList 0 [1]) })
        two_tetra (ana_const 1) 1 (some (ofList 0 [1])) (vect_probe (ofList 0 [1, 2, 3]))
        (fun _ => 0) 4 = 0 ∧
    _pcva_by_analytic (sample_ext { n_elts := 1, elt_ids := some (ofList 0 [1]) })
        two_tetra (ana_const 1) 1 (some (ofList 0 [1])) (vect_probe (ofList 0 [1, 2, 3]))
        (fun _ => 0) 5 = 0 := by
  refine ⟨?_, ?_, ?_, ?_, ?_⟩
  · decide!
  · decide!
  · decide!
  · decide!
  · decide!

/-! ## Averages on primal cells by analytic function -/

theorem forLoop_elt_id {σ : Type} (n : Nat) (elt_ids : Option (Nat → Nat)) (F : Nat → σ → σ)
    (s : σ) :
    forLoop 0 n (fun id acc => F (elt_id elt_ids id) acc) s =
      (selected_cells n elt_ids).foldl (fun acc c => F c acc) s := by
  cases elt_ids with
  | none => exact forLoop_selected_none n F s
  | some ids => exact forLoop_selected_some n ids F s

theorem localAt_foldl {ι : Type} (off : Nat) (step : ι → (Nat → ℚ) → (Nat → ℚ)) (l : List ι)
    (h : ∀ i ∈ l, LocalAt off (step i)) :
    LocalAt off (fun vals => l.foldl (fun acc i => step i acc) vals) := by
  induction l with
  | nil => exact ⟨fun y => y, fun vals => (Function.update_eq_self off vals).symm⟩
  | cons a l ih =>
    obtain ⟨ga, hga⟩ := h a (List.mem_cons_self a l)
    obtain ⟨gl, hgl⟩ := ih (fun i hi => h i (List.mem_cons_of_mem a hi))
    refine ⟨fun y => gl (ga y), fun vals => ?_⟩
    simp only [List.foldl_cons]
    have hgl2 := hgl (step a vals)
    beta_reduce at hgl2
    rw [hgl2, hga vals, Function.update_same, Function.update_idem]

theorem localAt_forLoop (off lo hi : Nat) (step : Nat → (Nat → ℚ) → (Nat → ℚ))
    (h : ∀ i, LocalAt off (step i)) :
    LocalAt off (fun vals => forLoop lo hi step vals) :=
  localAt_foldl off step _ (fun i _ => h i)

theorem localAt_apply (off : Nat) (f : (Nat → ℚ) → (Nat → ℚ)) (h : LocalAt off f)
    (vals : Nat → ℚ) :
    f vals = Function.update vals off (f (fun _ => vals off) off) := by
  obtain ⟨g, hg⟩ := h
  rw [hg vals, hg (fun _ => vals off), Function.update_same]

/-- With a scalar rule, the integral on a cell only touches the entry of the cell. -/
theorem pc_cell_integral_local (E : cs_extern_t) (sh : cs_shared_t) (ana : cs_analytic_func_t)
    (ci : cs_quadrature_tetra_integral_t)
    (hci : ∀ t a b c d vol off, LocalAt off (fun vals => ci t a b c d vol ana vals off))
    (c : Nat) :
    LocalAt c (fun vals => pc_cell_integral E sh ana ci c vals) := by
  unfold pc_cell_integral
  by_cases ht : sh.connect.cell_type c = .FVM_CELL_TETRA
  · simp only [ht, if_true]
    exact hci _ _ _ _ _ _ _
  · simp only [ht, if_false]
    refine localAt_forLoop c _ _ _ (fun i => ?_)
    by_cases h3 : sh.connect.f2e.idx (sh.connect.c2f.ids i + 1) -
        sh.connect.f2e.idx (sh.connect.c2f.ids i) = 3
    · simp only [h3, if_true]
      exact hci _ _ _ _ _ _ _
    · simp only [h3, if_false]
      exact localAt_forLoop c _ _ _ (fun j => hci _ _ _ _ _ _ _)

theorem foldl_local_nodup (l : List Nat) (H : Nat → ℚ → ℚ) (hnd : l.Nodup)
    (values : Nat → ℚ) (x : Nat) :
    l.foldl (fun vals c => Function.update vals c (H c (vals c))) values x =
      if x ∈ l then H x (values x) else values x := by
  induction l generalizing values with
  | nil => simp
  | cons a l ih =>
    have hnd2 := List.nodup_cons.mp hnd
    rw [List.foldl_cons, ih hnd2.2]
    by_cases hx : x ∈ l
    · have hne : x ≠ a := fun e => hnd2.1 (e ▸ hx)
      simp [hx, Function.update_noteq hne]
    · by_cases hxa : x = a
      · subst hxa
        simp [hx]
      · simp [hx, hxa, Function.update_noteq hxa]

/-- Result of `_pcsd_by_analytic` with a scalar rule on a list without
duplicates: at a selected cell, the integral on the cell started from the
prior content of its entry. -/
theorem pcsd_by_analytic_apply (E : cs_extern_t) (sh : cs_shared_t) (ana : cs_analytic_func_t)
    (n_elts : Nat) (elt_ids : Option (Nat → Nat)) (ci : cs_quadrature_tetra_integral_t)
    (values : Nat → ℚ)
    (hci : ∀ t a b c d vol off, LocalAt off (fun vals => ci t a b c d vol ana vals off))
    (hnd : (selected_cells n_elts elt_ids).Nodup)
    (c : Nat) (hc : c ∈ selected_cells n_elts elt_ids) :
    _pcsd_by_analytic E sh ana n_elts elt_ids ci values c =
      pc_cell_integral E sh ana ci c (fun _ => values c) c := by
  unfold _pcsd_by_analytic
  rw [forLoop_elt_id n_elts elt_ids (fun c vals => pc_cell_integral E sh ana ci c vals)]
  have e : (fun (acc : Nat → ℚ) c => pc_cell_integral E sh ana ci c acc) =
      (fun vals c => Function.update vals c
        ((fun c y => pc_cell_integral E sh ana ci c (fun _ => y) c) c (vals c))) := by
    funext vals c
    exact localAt_apply c _ (pc_cell_integral_local E sh ana ci hci c) vals
  rw [e, foldl_local_nodup (selected_cells n_elts elt_ids)
    (fun c y => pc_cell_integral E sh ana ci c (fun _ => y) c) hnd values c, if_pos hc]

/-- C12: with a rule for scalar functions (it reads and writes `results[0]`
only), a zone list without duplicates and non-zero cell volumes,
`_pcsa_by_analytic` gives at every selected cell `c` the value that
`_pcsd_by_analytic` gives for the same function and rule divided by
`cell_vol[c]`: the integral on the whole cell, started from the prior content
of `values[c]`, then one division. -/
theorem pcsa_eq_pcsd_div_volume (E : cs_extern_t) (sh : cs_shared_t)
    (ana : cs_analytic_func_t) (n_elts : Nat) (elt_ids : Option (Nat → Nat))
    (ci : cs_quadrature_tetra_integral_t) (values : Nat → ℚ) (hci : ScalarRule ci)
    (hnd : (selected_cells n_elts elt_ids).Nodup)
    (hvol : ∀ c ∈ selected_cells n_elts elt_ids, sh.quant.cell_vol c ≠ 0) :
    ∀ c ∈ selected_cells n_elts elt_ids,
      _pcsa_by_analytic E sh ana n_elts elt_ids ci values c =
        _pcsd_by_analytic E sh ana n_elts elt_ids ci values c / sh.quant.cell_vol c ∧
      _pcsa_by_analytic E sh ana n_elts elt_ids ci values c =
        pc_cell_integral E sh ana ci c (fun _ => values c) c / sh.quant.cell_vol c := by
  intro c hc
  have _ := hvol c hc
  have hci2 : ∀ t a b c d vol off,
      LocalAt off (fun vals => ci t a b c d vol ana vals off) :=
    fun t a b c d vol off => hci t a b c d vol ana off
  have hd := pcsd_by_analytic_apply E sh ana n_elts elt_ids ci values hci2 hnd c hc
  have ha : _pcsa_by_analytic E sh ana n_elts elt_ids ci values c =
      pc_cell_integral E sh ana ci c (fun _ => values c) c / sh.quant.cell_vol c := by
    unfold _pcsa_by_analytic
    rw [forLoop_elt_id n_elts elt_ids (fun c vals =>
      Function.update (pc_cell_integral E sh ana ci c vals) c
        (pc_cell_integral E sh ana ci c vals c / sh.quant.cell_vol c))]
    have e : (fun (acc : Nat → ℚ) c =>
        Function.update (pc_cell_integral E sh ana ci c acc) c
          (pc_cell_integral E sh ana ci c acc c / sh.quant.cell_vol c)) =
        (fun vals c => Function.update vals c
          ((fun c y => pc_cell_integral E sh ana ci c (fun _ => y) c / sh.quant.cell_vol c)
            c (vals c))) := by
      funext vals c
      have hl := localAt_apply c _ (pc_cell_integral_local E sh ana ci hci2 c) vals
      beta_reduce at hl
      rw [hl, Function.update_same, Function.update_idem]
    rw [e, foldl_local_nodup (selected_cells n_elts elt_ids)
      (fun c y => pc_cell_integral E sh ana ci c (fun _ => y) c / sh.quant.cell_vol c)
      hnd values c, if_pos hc]
  exact ⟨by rw [ha, hd], ha⟩

theorem tet_1pt_scal_scalarRule : ScalarRule tet_1pt_scal := by
  intro t a b c d vol ana off
  exact ⟨fun y => y + vol * (ana t 1 none (fun _ =>
    ((1/4 * (a.1 + b.1 + c.1 + d.1), 1/4 * (a.2.1 + b.2.1 + c.2.1 + d.2.1),
      1/4 * (a.2.2 + b.2.2 + c.2.2 + d.2.2)) : cs_real_3_t)) false (fun _ => 0) 0) 0,
    fun _ => rfl⟩

/-- Witness of `pcsa_eq_pcsd_div_volume`: cell `1` of the two-cell mesh, both
cells selected, one-point rule, constant function `3`. -/
theorem pcsa_eq_pcsd_div_volume_witness :
    _pcsa_by_analytic (sample_ext { n_elts := 2, elt_ids := none }) two_tetra
        (ana_const 3) 2 none tet_1pt_scal (fun _ => 0) 1 =
      _pcsd_by_analytic (sample_ext { n_elts := 2, elt_ids := none }) two_tetra
        (ana_const 3) 2 none tet_1pt_scal (fun _ => 0) 1 / two_tetra.quant.cell_vol 1 ∧
    _pcsa_by_analytic (sample_ext { n_elts := 2, elt_ids := none }) two_tetra
        (ana_const 3) 2 none tet_1pt_scal (fun _ => 0) 1 =
      pc_cell_integral (sample_ext { n_elts := 2, elt_ids := none }) two_tetra
        (ana_const 3) tet_1pt_scal 1 (fun _ => (fun _ => (0 : ℚ)) 1) 1 /
        two_tetra.quant.cell_vol 1 :=
  pcsa_eq_pcsd_div_volume (sample_ext { n_elts := 2, elt_ids := none }) two_tetra
    (ana_const 3) 2 none tet_1pt_scal (fun _ => 0) tet_1pt_scal_scalarRule (by decide)
    (by decide!) 1 (by decide)

/-! ## Loops guarded by a `todo` array -/

theorem visited_cons (a : cs_adjacency_t) (c : Nat) (cells : List Nat) :
    visited a (c :: cells) = (slice a c).map a.ids ++ visited a cells :=
  rfl

theorem mem_visited (a : cs_adjacency_t) (cells : List Nat) (x : Nat) :
    x ∈ visited a cells ↔ reached a cells x := by
  unfold reached
  induction cells with
  | nil => simp [visited]
  | cons c cells ih =>
    rw [visited_cons, List.mem_append, ih, List.mem_map]
    simp only [List.mem_cons, exists_eq_or_imp]

theorem nested_foldl_visited {σ : Type} (a : cs_adjacency_t) (cells : List Nat)
    (step : σ → Nat → σ) (s0 : σ) :
    cells.foldl (fun s c => (slice a c).foldl (fun s j => step s (a.ids j)) s) s0 =
      (visited a cells).foldl step s0 := by
  induction cells generalizing s0 with
  | nil => rfl
  | cons c cells ih =>
    rw [visited_cons, List.foldl_append, List.foldl_cons, ih, List.foldl_map]

/-- The loops on the selected cells and on their slices, with a guarded body,
are one loop on the ids met. -/
theorem guarded_loops_eq {β : Type} (a : cs_adjacency_t) (w : Nat → β → β) (n_elts : Nat)
    (ids : Nat → Nat) (s0 : (Nat → Bool) × β) :
    forLoop 0 n_elts (fun i s =>
      forLoop (a.idx (ids i)) (a.idx (ids i + 1)) (fun j s => visit_step w s (a.ids j)) s) s0 =
      (visited a (selected_cells n_elts (some ids))).foldl (visit_step w) s0 := by
  rw [forLoop_selected_some n_elts ids (fun c s =>
    forLoop (a.idx c) (a.idx (c + 1)) (fun j s => visit_step w s (a.ids j)) s)]
  simp only [forLoop_slice]
  exact nested_foldl_visited a _ (visit_step w) s0

/-- A guarded loop performs the write of each id met with a true flag exactly
once, at its first visit: the ids written form a list without duplicates that
does not depend on the write. -/
theorem visit_foldl (L : List Nat) (t : Nat → Bool) :
    ∃ l : List Nat, l.Nodup ∧ (∀ x, x ∈ l ↔ x ∈ L ∧ t x = true) ∧
      ∀ (β : Type) (w : Nat → β → β) (vals : β),
        (L.foldl (visit_step w) (t, vals)).2 = l.foldl (fun v x => w x v) vals := by
  induction L generalizing t with
  | nil => exact ⟨[], List.nodup_nil, by simp, fun _ _ _ => rfl⟩
  | cons a L ih =>
    by_cases ha : t a = true
    · obtain ⟨l, hnd, hmem, hfold⟩ := ih (Function.update t a false)
      refine ⟨a :: l, ?_, ?_, ?_⟩
      · refine List.nodup_cons.mpr ⟨?_, hnd⟩
        intro h
        have := ((hmem a).1 h).2
        simp at this
      · intro x
        rw [List.mem_cons, hmem x, List.mem_cons]
        by_cases hx : x = a
        · subst hx
          simp [ha]
        · simp [hx, Function.update_noteq hx]
      · intro β w vals
        have e : visit_step w (t, vals) a = (Function.update t a false, w a vals) := by
          unfold visit_step
          simp [ha]
        rw [List.foldl_cons, e, hfold, List.foldl_cons]
    · obtain ⟨l, hnd, hmem, hfold⟩ := ih t
      refine ⟨l, hnd, ?_, ?_⟩
      · intro x
        rw [hmem x, List.mem_cons]
        by_cases hx : x = a
        · subst hx
          simp [ha]
        · simp [hx]
      · intro β w vals
        have e : visit_step w (t, vals) a = (t, vals) := by
          unfold visit_step
          simp [ha]
        rw [List.foldl_cons, e, hfold]

/-- After its initialisation the `todo` array is true below `n`. -/
theorem todo_init (n : Nat) (t0 : Nat → Bool) (x : Nat) (hx : x < n) :
    forLoop 0 n (fun f_id t => Function.update t f_id true) t0 x = true :=
  ((writesConst_forLoop (c := true) (fun i x => x = i)
    (fun f_id t => Function.update t f_id true) 0 n
    (fun i _ _ => writesConst_update _ i)) t0 x).1 ⟨x, Nat.zero_le x, hx, rfl⟩

/-- The guarded loops of the evaluators: the ids written are, each once, the
ids reached from the selected cells when these ids are below `n`. -/
theorem guarded_loops_spec (a : cs_adjacency_t) (n_elts : Nat) (ids : Nat → Nat) (n : Nat)
    (t0 : Nat → Bool)
    (hvalid : ∀ x, reached a (selected_cells n_elts (some ids)) x → x < n) :
    ∃ l : List Nat, l.Nodup ∧
      (∀ x, x ∈ l ↔ reached a (selected_cells n_elts (some ids)) x) ∧
      ∀ (β : Type) (w : Nat → β → β) (vals : β), (forLoop 0 n_elts (fun i s =>
          forLoop (a.idx (ids i)) (a.idx (ids i + 1))
            (fun j s => visit_step w s (a.ids j)) s)
          (forLoop 0 n (fun f_id t => Function.update t f_id true) t0, vals)).2 =
        l.foldl (fun v x => w x v) vals := by
  obtain ⟨l, hnd, hmem, hfold⟩ := visit_foldl
    (visited a (selected_cells n_elts (some ids)))
    (forLoop 0 n (fun f_id t => Function.update t f_id true) t0)
  refine ⟨l, hnd, ?_, ?_⟩
  · intro x
    rw [hmem x, mem_visited]
    constructor
    · intro h
      exact h.1
    · intro h
      exact ⟨h, todo_init n t0 x (hvalid x h)⟩
  · intro β w vals
    rw [guarded_loops_eq, hfold]

/-- C14: for every zone list whose cells have valid face ids (cells may share
faces, a cell may be listed twice), there is a list without duplicates of the
faces bounding at least one selected cell such that, whatever the analytic
function and the buffer, `_pfp_by_analytic` returns the result of calling the
function once per face of this list, at the centre of the face and with the
address of the entry of the face, and of no other call. -/
theorem pfp_by_analytic_once_per_face (sh : cs_shared_t) (n_elts : Nat) (ids : Nat → Nat)
    (hvalid : ∀ f, reached sh.connect.c2f (selected_cells n_elts (some ids)) f →
      f < sh.quant.n_faces) :
    ∃ l : List Nat, l.Nodup ∧
      (∀ f, f ∈ l ↔ reached sh.connect.c2f (selected_cells n_elts (some ids)) f) ∧
      ∀ (ana : cs_analytic_func_t) (values : Nat → ℚ),
        _pfp_by_analytic sh ana n_elts (some ids) values =
          .ok (l.foldl (fun vals f =>
            ana sh.t_cur 1 none (fun _ => (sh.quant.face f).center) false vals f) values) := by
  obtain ⟨l, hnd, hmem, hfold⟩ := guarded_loops_spec sh.connect.c2f n_elts ids
    sh.quant.n_faces sh.par.malloc_todo hvalid
  refine ⟨l, hnd, hmem, ?_⟩
  intro ana values
  rw [← hfold (Nat → ℚ) (fun f v =>
    ana sh.t_cur 1 none (fun _ => (sh.quant.face f).center) false v f) values]
  rfl

/-- Witness of `pfp_by_analytic_once_per_face`: cell `0` listed twice, then
cell `1`, on the two-cell mesh. -/
theorem pfp_by_analytic_once_per_face_witness :
    ∃ l : List Nat, l.Nodup ∧
      (∀ f, f ∈ l ↔ reached two_tetra.connect.c2f
        (selected_cells 3 (some (ofList 0 [0, 0, 1]))) f) ∧
      ∀ (ana : cs_analytic_func_t) (values : Nat → ℚ),
        _pfp_by_analytic two_tetra ana 3 (some (ofList 0 [0, 0, 1])) values =
          .ok (l.foldl (fun vals f =>
            ana two_tetra.t_cur 1 none (fun _ => (two_tetra.quant.face f).center) false vals f)
            values) :=
  pfp_by_analytic_once_per_face two_tetra 3 (ofList 0 [0, 0, 1]) (by
    intro f hf
    obtain ⟨c, hc, j, hj, rfl⟩ := hf
    have hc2 : c = 0 ∨ c = 1 := by
      simp [selected_cells, ofList, List.range, List.range.loop] at hc
      omega
    rcases hc2 with rfl | rfl
    · have : j ∈ [0, 1, 2, 3] := hj
      simp at this
      rcases this with rfl | rfl | rfl | rfl <;> decide
    · have : j ∈ [4, 5, 6, 7] := hj
      simp at this
      rcases this with rfl | rfl | rfl | rfl <;> decide)

/-- Guarded loops writing a constant: the entries of the ids reached hold the
constant, the other entries keep their content. -/
theorem guarded_const_spec (a : cs_adjacency_t) (n_elts : Nat) (ids : Nat → Nat) (n : Nat)
    (t0 : Nat → Bool) (c : ℚ) (values : Nat → ℚ)
    (hvalid : ∀ x, reached a (selected_cells n_elts (some ids)) x → x < n) (y : Nat) :
    (reached a (selected_cells n_elts (some ids)) y →
      (forLoop 0 n_elts (fun i s =>
          forLoop (a.idx (ids i)) (a.idx (ids i + 1))
            (fun j s => visit_step (fun x v => Function.update v x c) s (a.ids j)) s)
          (forLoop 0 n (fun f_id t => Function.update t f_id true) t0, values)).2 y = c) ∧
    (¬ reached a (selected_cells n_elts (some ids)) y →
      (forLoop 0 n_elts (fun i s =>
          forLoop (a.idx (ids i)) (a.idx (ids i + 1))
            (fun j s => visit_step (fun x v => Function.update v x c) s (a.ids j)) s)
          (forLoop 0 n (fun f_id t => Function.update t f_id true) t0, values)).2 y =
        values y) := by
  obtain ⟨l, _, hmem, hfold⟩ := guarded_loops_spec a n_elts ids n t0 hvalid
  rw [hfold (Nat → ℚ) (fun x v => Function.update v x c) values]
  have hw := writesConst_foldl (c := c) (fun x y => y = x)
    (fun x (v : Nat → ℚ) => Function.update v x c) l (fun x _ => writesConst_update c x)
  have hy := hw values y
  constructor
  · intro h
    exact hy.1 ⟨y, (hmem y).2 h, rfl⟩
  · intro h
    apply hy.2
    rintro ⟨x, hx, rfl⟩
    exact h ((hmem _).1 hx)

theorem memcpy3_writes (vec : Nat → ℚ) (x : Nat) :
    WritesFn (fun y => vec (y % 3)) (fun y => y / 3 = x) (fun v => memcpy3 v x vec) := by
  intro t y
  have e : memcpy3 t x vec = Function.update (Function.update (Function.update t (3 * x)
      (vec 0)) (3 * x + 1) (vec 1)) (3 * x + 2) (vec 2) := rfl
  beta_reduce
  rw [e]
  by_cases h2 : y = 3 * x + 2
  · have e1 : (3 * x + 2) / 3 = x := by omega
    have e2 : (3 * x + 2) % 3 = 2 := by omega
    subst h2
    simp [e1, e2, Function.update_apply]
  · by_cases h1 : y = 3 * x + 1
    · have e1 : (3 * x + 1) / 3 = x := by omega
      have e2 : (3 * x + 1) % 3 = 1 := by omega
      subst h1
      simp [e1, e2, Function.update_apply]
    · by_cases h0 : y = 3 * x
      · have e1 : (3 * x) / 3 = x := by omega
        have e2 : (3 * x) % 3 = 0 := by omega
        subst h0
        simp [e1, e2, Function.update_apply]
      · have hne : ¬ y / 3 = x := by omega
        simp [hne, Function.update_apply, h0, h1, h2]

/-- Result of `_pvsp_by_value` on a list of cells with valid vertex ids. -/
theorem pvsp_by_value_spec (sh : cs_shared_t) (c : ℚ) (n_elts : Nat) (ids : Nat → Nat)
    (values : Nat → ℚ)
    (hvalid : ∀ v, reached sh.connect.c2v (selected_cells n_elts (some ids)) v →
      v < sh.quant.n_vertices) :
    ∃ vals, _pvsp_by_value sh c n_elts (some ids) values = .ok vals ∧
      ∀ v, (reached sh.connect.c2v (selected_cells n_elts (some ids)) v → vals v = c) ∧
        (¬ reached sh.connect.c2v (selected_cells n_elts (some ids)) v →
          vals v = values v) :=
  ⟨_, rfl, fun v => guarded_const_spec sh.connect.c2v n_elts ids sh.quant.n_vertices
    sh.par.malloc_todo c values hvalid v⟩

/-- C15: for every zone list whose cells have valid vertex ids,
`_pvsp_by_value` returns a buffer in which every vertex incident to at least
one selected cell holds exactly `const_val`, whatever the number of selected
cells sharing the vertex and whatever the prior content of the entry, and a
second run on this buffer returns the same buffer. -/
theorem pvsp_by_value_idempotent (sh : cs_shared_t) (c : ℚ) (n_elts : Nat) (ids : Nat → Nat)
    (values : Nat → ℚ)
    (hvalid : ∀ v, reached sh.connect.c2v (selected_cells n_elts (some ids)) v →
      v < sh.quant.n_vertices) :
    ∃ vals, _pvsp_by_value sh c n_elts (some ids) values = .ok vals ∧
      (∀ v, reached sh.connect.c2v (selected_cells n_elts (some ids)) v → vals v = c) ∧
      _pvsp_by_value sh c n_elts (some ids) vals = .ok vals := by
  obtain ⟨vals, hv, hspec⟩ := pvsp_by_value_spec sh c n_elts ids values hvalid
  obtain ⟨vals2, hv2, hspec2⟩ := pvsp_by_value_spec sh c n_elts ids vals hvalid
  refine ⟨vals, hv, fun v h => (hspec v).1 h, ?_⟩
  rw [hv2]
  congr 1
  funext v
  by_cases h : reached sh.connect.c2v (selected_cells n_elts (some ids)) v
  · rw [(hspec2 v).1 h, (hspec v).1 h]
  · exact (hspec2 v).2 h

theorem two_tetra_vertices_valid (n_elts : Nat) (ids : Nat → Nat)
    (hids : ∀ c ∈ selected_cells n_elts (some ids), c = 0 ∨ c = 1) :
    ∀ v, reached two_tetra.connect.c2v (selected_cells n_elts (some ids)) v →
      v < two_tetra.quant.n_vertices := by
  intro v hv
  obtain ⟨c, hc, j, hj, rfl⟩ := hv
  rcases hids c hc with rfl | rfl
  · have : j ∈ [0, 1, 2, 3] := hj
    simp at this
    rcases this with rfl | rfl | rfl | rfl <;> decide
  · have : j ∈ [4, 5, 6, 7] := hj
    simp at this
    rcases this with rfl | rfl | rfl | rfl <;> decide

theorem two_tetra_faces_valid (n_elts : Nat) (ids : Nat → Nat)
    (hids : ∀ c ∈ selected_cells n_elts (some ids), c = 0 ∨ c = 1) :
    ∀ f, reached two_tetra.connect.c2f (selected_cells n_elts (some ids)) f →
      f < two_tetra.quant.n_faces := by
  intro f hf
  obtain ⟨c, hc, j, hj, rfl⟩ := hf
  rcases hids c hc with rfl | rfl
  · have : j ∈ [0, 1, 2, 3] := hj
    simp at this
    rcases this with rfl | rfl | rfl | rfl <;> decide
  · have : j ∈ [4, 5, 6, 7] := hj
    simp at this
    rcases this with rfl | rfl | rfl | rfl <;> decide

/-- Witness of `pvsp_by_value_idempotent`: both cells of the two-cell mesh,
which share three vertices. -/
theorem pvsp_by_value_idempotent_witness :
    ∃ vals, _pvsp_by_value two_tetra 7 2 (some (ofList 0 [0, 1])) (fun _ => 1) = .ok vals ∧
      (∀ v, reached two_tetra.connect.c2v (selected_cells 2 (some (ofList 0 [0, 1]))) v →
        vals v = 7) ∧
      _pvsp_by_value two_tetra 7 2 (some (ofList 0 [0, 1])) vals = .ok vals :=
  pvsp_by_value_idempotent two_tetra 7 2 (ofList 0 [0, 1]) (fun _ => 1)
    (two_tetra_vertices_valid 2 (ofList 0 [0, 1]) (by decide))

/-- C16: for a zone list whose cells have valid face and vertex ids,
`_pfsp_by_value` stores the constant at every face bounding a selected cell
and `_pfvp_by_value` its three components at `3f, 3f+1, 3f+2`, and both leave
every entry of every other face unchanged; `_pvsp_by_value` leaves the entry
of every vertex incident to no selected cell unchanged. -/
theorem potential_by_value_frame (sh : cs_shared_t) (c : ℚ) (vec : Nat → ℚ) (n_elts : Nat)
    (ids : Nat → Nat) (values : Nat → ℚ)
    (hf : ∀ f, reached sh.connect.c2f (selected_cells n_elts (some ids)) f →
      f < sh.quant.n_faces)
    (hv : ∀ v, reached sh.connect.c2v (selected_cells n_elts (some ids)) v →
      v < sh.quant.n_vertices) :
    (∃ vals, _pfsp_by_value sh c n_elts (some ids) values = .ok vals ∧
      (∀ f, reached sh.connect.c2f (selected_cells n_elts (some ids)) f → vals f = c) ∧
      (∀ f, ¬ reached sh.connect.c2f (selected_cells n_elts (some ids)) f →
        vals f = values f)) ∧
    (∃ vals, _pfvp_by_value sh vec n_elts (some ids) values = .ok vals ∧
      (∀ f, reached sh.connect.c2f (selected_cells n_elts (some ids)) f →
        ∀ k, k < 3 → vals (3 * f + k) = vec k) ∧
      (∀ f, ¬ reached sh.connect.c2f (selected_cells n_elts (some ids)) f →
        ∀ k, k < 3 → vals (3 * f + k) = values (3 * f + k))) ∧
    (∃ vals, _pvsp_by_value sh c n_elts (some ids) values = .ok vals ∧
      ∀ v, ¬ reached sh.connect.c2v (selected_cells n_elts (some ids)) v →
        vals v = values v) := by
  refine ⟨?_, ?_, ?_⟩
  · exact ⟨_, rfl,
      fun f h => (guarded_const_spec sh.connect.c2f n_elts ids sh.quant.n_faces
        sh.par.malloc_todo c values hf f).1 h,
      fun f h => (guarded_const_spec sh.connect.c2f n_elts ids sh.quant.n_faces
        sh.par.malloc_todo c values hf f).2 h⟩
  · obtain ⟨l, _, hmem, hfold⟩ := guarded_loops_spec sh.connect.c2f n_elts ids
      sh.quant.n_faces sh.par.malloc_todo hf
    have hw := writesFn_foldl (g := fun y => vec (y % 3)) (fun x y => y / 3 = x)
      (fun x (v : Nat → ℚ) => memcpy3 v x vec) l (fun x _ => memcpy3_writes vec x)
    have hr : _pfvp_by_value sh vec n_elts (some ids) values =
        .ok (l.foldl (fun v x => memcpy3 v x vec) values) := by
      rw [← hfold (Nat → ℚ) (fun x v => memcpy3 v x vec) values]
      rfl
    refine ⟨_, hr, ?_, ?_⟩
    · intro f h k hk
      have e1 : (3 * f + k) / 3 = f := by omega
      have e2 : (3 * f + k) % 3 = k := by omega
      have := (hw values (3 * f + k)).1 ⟨f, (hmem f).2 h, e1⟩
      beta_reduce at this
      rw [e2] at this
      exact this
    · intro f h k hk
      have e1 : (3 * f + k) / 3 = f := by omega
      apply (hw values (3 * f + k)).2
      rintro ⟨x, hx, hx2⟩
      rw [e1] at hx2
      subst hx2
      exact h ((hmem _).1 hx)
  · obtain ⟨vals, hvals, hspec⟩ := pvsp_by_value_spec sh c n_elts ids values hv
    exact ⟨vals, hvals, fun v h => (hspec v).2 h⟩

/-- Witness of `potential_by_value_frame`: cell `0` of the two-cell mesh. -/
theorem potential_by_value_frame_witness :
    (∃ vals, _pfsp_by_value two_tetra 7 1 (some (ofList 0 [0])) (fun _ => 1) = .ok vals ∧
      (∀ f, reached two_tetra.connect.c2f (selected_cells 1 (some (ofList 0 [0]))) f →
        vals f = 7) ∧
      (∀ f, ¬ reached two_tetra.connect.c2f (selected_cells 1 (some (ofList 0 [0]))) f →
        vals f = (fun _ => (1 : ℚ)) f)) ∧
    (∃ vals, _pfvp_by_value two_tetra (ofList 0 [1, 2, 3]) 1 (some (ofList 0 [0]))
        (fun _ => 1) = .ok vals ∧
      (∀ f, reached two_tetra.connect.c2f (selected_cells 1 (some (ofList 0 [0]))) f →
        ∀ k, k < 3 → vals (3 * f + k) = (ofList 0 [1, 2, 3] : Nat → ℚ) k) ∧
      (∀ f, ¬ reached two_tetra.connect.c2f (selected_cells 1 (some (ofList 0 [0]))) f →
        ∀ k, k < 3 → vals (3 * f + k) = (fun _ => (1 : ℚ)) (3 * f + k))) ∧
    (∃ vals, _pvsp_by_value two_tetra 7 1 (some (ofList 0 [0])) (fun _ => 1) = .ok vals ∧
      ∀ v, ¬ reached two_tetra.connect.c2v (selected_cells 1 (some (ofList 0 [0]))) v →
        vals v = (fun _ => (1 : ℚ)) v) :=
  potential_by_value_frame two_tetra 7 (ofList 0 [1, 2, 3]) 1 (ofList 0 [0]) (fun _ => 1)
    (two_tetra_faces_valid 1 (ofList 0 [0]) (by decide))
    (two_tetra_vertices_valid 1 (ofList 0 [0]) (by decide))

/-! ## The vertex list of `_pvp_by_analytic` -/

theorem flag_foldl (L : List Nat) (t : Nat → Int) (x : Nat) :
    (L.foldl (fun (t : Nat → Int) (v : Nat) => if t v = -1 then Function.update t v (v : Int) else t) t) x =
      if x ∈ L ∧ t x = -1 then (x : Int) else t x := by
  induction L generalizing t with
  | nil => simp
  | cons a L ih =>
    rw [List.foldl_cons, ih]
    have hneg : ∀ n : Nat, ¬ ((n : Int) = -1) := fun n => by omega
    by_cases hta : t a = -1
    · by_cases hx : x = a
      · subst hx
        simp [hta, hneg]
      · simp [hta, hx, Function.update_noteq hx]
    · by_cases hx : x = a
      · subst hx
        simp [hta]
      · simp [hta, hx]

/-- After the loop on the selected cells, `vtx_lst[v] = v` exactly for the
vertices `v < n_vertices` incident to a selected cell. -/
theorem pvp_flags_spec (sh : cs_shared_t) (n_elts : Nat) (ids : Nat → Nat) (v : Nat)
    (hv : v < sh.quant.n_vertices) :
    pvp_flags sh n_elts ids v = (v : Int) ↔
      reached sh.connect.c2v (selected_cells n_elts (some ids)) v := by
  have hinit : forLoop 0 sh.quant.n_vertices (fun v_id t => Function.update t v_id (-1))
      sh.par.malloc_vtx_lst v = -1 :=
    ((writesConst_forLoop (c := (-1 : Int)) (fun i x => x = i)
      (fun v_id t => Function.update t v_id (-1)) 0 sh.quant.n_vertices
      (fun i _ _ => writesConst_update _ i)) sh.par.malloc_vtx_lst v).1
      ⟨v, Nat.zero_le v, hv, rfl⟩
  have e : pvp_flags sh n_elts ids =
      (visited sh.connect.c2v (selected_cells n_elts (some ids))).foldl
        (fun (t : Nat → Int) (v : Nat) => if t v = -1 then Function.update t v (v : Int) else t)
        (forLoop 0 sh.quant.n_vertices (fun v_id t => Function.update t v_id (-1))
          sh.par.malloc_vtx_lst) := by
    unfold pvp_flags
    simp only []
    rw [forLoop_selected_some n_elts ids (fun c (t : Nat → Int) =>
      forLoop (sh.connect.c2v.idx c) (sh.connect.c2v.idx (c + 1)) (fun j t =>
        if t (sh.connect.c2v.ids j) = -1 then
          Function.update t (sh.connect.c2v.ids j) ((sh.connect.c2v.ids j : Nat) : Int)
        else t) t)]
    simp only [forLoop_slice]
    exact nested_foldl_visited sh.connect.c2v _
      (fun (t : Nat → Int) (v : Nat) => if t v = -1 then Function.update t v (v : Int) else t) _
  rw [e, flag_foldl]
  have hneg : ¬ ((-1 : Int) = (v : Int)) := by omega
  by_cases h : reached sh.connect.c2v (selected_cells n_elts (some ids)) v
  · have hm := (mem_visited sh.connect.c2v _ v).2 h
    simp [h, hm, hinit]
  · have hm : ¬ v ∈ visited sh.connect.c2v (selected_cells n_elts (some ids)) :=
      fun hm => h ((mem_visited sh.connect.c2v _ v).1 hm)
    simp [h, hm, hinit, hneg]

/-- Invariant of the compaction loop after `k` steps. -/
theorem pvp_compact_spec (f : Nat → Int) (k : Nat) :
    (pvp_compact k f).2 ≤ k ∧ (∀ x, k ≤ x → (pvp_compact k f).1 x = f x) ∧
      (List.range (pvp_compact k f).2).map (pvp_compact k f).1 =
        ((List.range k).filter (fun (v : Nat) => decide (f v = (v : Int)))).map (fun (v : Nat) => (v : Int)) := by
  induction k with
  | zero =>
    refine ⟨Nat.le_refl 0, fun x _ => rfl, rfl⟩
  | succ k ih =>
    obtain ⟨h1, h2, h3⟩ := ih
    have estep : pvp_compact (k + 1) f =
        (if (pvp_compact k f).1 k = (k : Int) then
          (Function.update (pvp_compact k f).1 (pvp_compact k f).2 (k : Int),
            (pvp_compact k f).2 + 1)
        else pvp_compact k f) := by
      unfold pvp_compact
      rw [forLoop_range, forLoop_range, List.range_succ, List.foldl_append]
      rfl
    rw [estep, h2 k (Nat.le_refl k)]
    by_cases hk : f k = (k : Int)
    · simp only [hk, if_true]
      refine ⟨by omega, ?_, ?_⟩
      · intro x hx
        rw [Function.update_noteq (by omega), h2 x (by omega)]
      · rw [List.range_succ, List.map_append, List.range_succ, List.filter_append,
          List.map_append]
        have e1 : (List.range (pvp_compact k f).2).map
            (Function.update (pvp_compact k f).1 (pvp_compact k f).2 (k : Int)) =
            (List.range (pvp_compact k f).2).map (pvp_compact k f).1 := by
          apply List.map_congr_left
          intro i hi
          have := List.mem_range.mp hi
          exact Function.update_noteq (by omega) _ _
        rw [e1, h3]
        simp [hk]
    · simp only [hk, if_false]
      refine ⟨by omega, fun x hx => h2 x (by omega), ?_⟩
      rw [h3, List.range_succ, List.filter_append]
      simp [hk]

/-- C17: for every zone list, `_pvp_by_analytic` returns the result of one
call of the analytic function with the first `n_selected_vertices` entries of
the compacted scratch array as list of ids, and these entries are a strictly
increasing list, without duplicates, whose members are exactly the vertices
incident to at least one selected cell, `n_selected_vertices` being the
length of this list. -/
theorem pvp_by_analytic_vertex_list (sh : cs_shared_t) (ana : cs_analytic_func_t)
    (n_elts : Nat) (ids : Nat → Nat) (values : Nat → ℚ) :
    _pvp_by_analytic sh ana n_elts (some ids) values =
      .ok (ana sh.t_cur (pvp_compact sh.quant.n_vertices (pvp_flags sh n_elts ids)).2
        (some (fun i =>
          ((pvp_compact sh.quant.n_vertices (pvp_flags sh n_elts ids)).1 i).toNat))
        sh.quant.vtx_coord false values 0) ∧
    ∃ l : List Nat,
      (List.range (pvp_compact sh.quant.n_vertices (pvp_flags sh n_elts ids)).2).map
        (pvp_compact sh.quant.n_vertices (pvp_flags sh n_elts ids)).1 =
        l.map (fun (v : Nat) => (v : Int)) ∧
      l.Sorted (· < ·) ∧ l.Nodup ∧
      (∀ v, v ∈ l ↔ v < sh.quant.n_vertices ∧
        reached sh.connect.c2v (selected_cells n_elts (some ids)) v) ∧
      (pvp_compact sh.quant.n_vertices (pvp_flags sh n_elts ids)).2 = l.length := by
  refine ⟨rfl, ?_⟩
  obtain ⟨_, _, h3⟩ := pvp_compact_spec (pvp_flags sh n_elts ids) sh.quant.n_vertices
  refine ⟨(List.range sh.quant.n_vertices).filter
    (fun (v : Nat) => decide (pvp_flags sh n_elts ids v = (v : Int))), h3, ?_, ?_, ?_, ?_⟩
  · exact List.Pairwise.filter _ (List.sorted_lt_range sh.quant.n_vertices)
  · exact (List.nodup_range sh.quant.n_vertices).filter _
  · intro v
    rw [List.mem_filter, List.mem_range, decide_eq_true_eq]
    constructor
    · rintro ⟨hv, hf⟩
      exact ⟨hv, (pvp_flags_spec sh n_elts ids v hv).1 hf⟩
    · rintro ⟨hv, hr⟩
      exact ⟨hv, (pvp_flags_spec sh n_elts ids v hv).2 hr⟩
  · have := congrArg List.length h3
    simpa using this

/-! ## The quadrature path on a cell that is not a tetrahedron -/

theorem addsAt_foldl {ι : Type} (off : Nat) (step : ι → (Nat → ℚ) → (Nat → ℚ)) (g : ι → ℚ)
    (l : List ι)
    (h : ∀ i ∈ l, ∀ vals, step i vals = Function.update vals off (vals off + g i))
    (vals : Nat → ℚ) :
    l.foldl (fun acc i => step i acc) vals =
      Function.update vals off (vals off + (l.map g).sum) := by
  induction l generalizing vals with
  | nil => simp
  | cons a l ih =>
    rw [List.foldl_cons, ih (fun i hi => h i (List.mem_cons_of_mem a hi)),
      h a (List.mem_cons_self a l), Function.update_same, Function.update_idem,
      List.map_cons, List.sum_cons, add_assoc]

/-- With a rule that adds `vol * k` to `results[0]`, the integral on a cell
that is not a tetrahedron adds `k` times the sum over the faces of the cell of
`hfc * area`, when the area of a face that is not a triangle is the sum of the
areas of its sub-triangles. -/
theorem pc_cell_integral_non_tetra (E : cs_extern_t) (sh : cs_shared_t)
    (ana : cs_analytic_func_t) (ci : cs_quadrature_tetra_integral_t) (k : ℚ) (c : Nat)
    (hrule : ∀ t xa xb xc xd vol vals off,
      ci t xa xb xc xd vol ana vals off = Function.update vals off (vals off + vol * k))
    (hnt : sh.connect.cell_type c ≠ .FVM_CELL_TETRA)
    (harea : ∀ i ∈ slice sh.connect.c2f c,
      sh.connect.f2e.idx (sh.connect.c2f.ids i + 1) -
        sh.connect.f2e.idx (sh.connect.c2f.ids i) ≠ 3 →
      (sh.quant.face (sh.connect.c2f.ids i)).meas =
        ((slice sh.connect.f2e (sh.connect.c2f.ids i)).map (fun j =>
          E.cs_math_surftri
            (sh.quant.vtx_coord (sh.connect.e2v.ids (2 * sh.connect.f2e.ids j)))
            (sh.quant.vtx_coord (sh.connect.e2v.ids (2 * sh.connect.f2e.ids j + 1)))
            (sh.quant.face (sh.connect.c2f.ids i)).center)).sum)
    (vals : Nat → ℚ) :
    pc_cell_integral E sh ana ci c vals =
      Function.update vals c (vals c + ((slice sh.connect.c2f c).map (fun i =>
        E.cs_math_3_dot_product (sh.quant.face (sh.connect.c2f.ids i)).unitv
          (sh.quant.dedge_vector (sh.connect.c2f.ids i)) *
          (sh.quant.face (sh.connect.c2f.ids i)).meas * k)).sum) := by
  unfold pc_cell_integral
  simp only [hnt, if_false]
  rw [forLoop_slice]
  refine addsAt_foldl c _ _ _ ?_ vals
  intro i hi v
  by_cases h3 : sh.connect.f2e.idx (sh.connect.c2f.ids i + 1) -
      sh.connect.f2e.idx (sh.connect.c2f.ids i) = 3
  · simp only [h3, if_true]
    rw [hrule]
  · simp only [h3, if_false]
    rw [forLoop_slice, addsAt_foldl c _ (fun j =>
      E.cs_math_3_dot_product (sh.quant.face (sh.connect.c2f.ids i)).unitv
        (sh.quant.dedge_vector (sh.connect.c2f.ids i)) *
        E.cs_math_surftri
          (sh.quant.vtx_coord (sh.connect.e2v.ids (2 * sh.connect.f2e.ids j)))
          (sh.quant.vtx_coord (sh.connect.e2v.ids (2 * sh.connect.f2e.ids j + 1)))
          (sh.quant.face (sh.connect.c2f.ids i)).center * k) _
      (fun j _ w => hrule _ _ _ _ _ _ w c) v]
    have e : (fun j =>
        E.cs_math_3_dot_product (sh.quant.face (sh.connect.c2f.ids i)).unitv
          (sh.quant.dedge_vector (sh.connect.c2f.ids i)) *
        E.cs_math_surftri
          (sh.quant.vtx_coord (sh.connect.e2v.ids (2 * sh.connect.f2e.ids j)))
          (sh.quant.vtx_coord (sh.connect.e2v.ids (2 * sh.connect.f2e.ids j + 1)))
          (sh.quant.face (sh.connect.c2f.ids i)).center * k) =
        (fun j => (E.cs_math_3_dot_product (sh.quant.face (sh.connect.c2f.ids i)).unitv
          (sh.quant.dedge_vector (sh.connect.c2f.ids i)) * k) *
        E.cs_math_surftri
          (sh.quant.vtx_coord (sh.connect.e2v.ids (2 * sh.connect.f2e.ids j)))
          (sh.quant.vtx_coord (sh.connect.e2v.ids (2 * sh.connect.f2e.ids j + 1)))
          (sh.quant.face (sh.connect.c2f.ids i)).center) := by
      funext j
      ring
    rw [e, List.sum_map_mul_left, ← harea i hi h3, mul_right_comm]

/-- C10 (divergence, in general): for a selected cell `c` that is not a
tetrahedron, listed once, starting from a zero entry, with a rule that adds
`measure * k` to the accumulator (the one-point rule on the constant function
`k`) and under the geometric hypotheses of the claim (`cell_vol[c]` is the sum
over the faces of the cell of one third of the face height times the face
area, the area of a face that is not a triangle is the sum of the areas of its
sub-triangles), `_pcsd_by_analytic` yields `3 * (cell_vol[c] * k)`, three
times the value `cell_vol[c] * k` that `_pcsd_by_value` writes: the measure
passed to the rule is `hfc * area`, without the factor one third. -/
theorem pcsd_by_analytic_non_tetra_triple (E : cs_extern_t) (sh : cs_shared_t)
    (ana : cs_analytic_func_t) (ci : cs_quadrature_tetra_integral_t) (k : ℚ) (n_elts : Nat)
    (elt_ids : Option (Nat → Nat)) (values : Nat → ℚ) (c : Nat)
    (hrule : ∀ t xa xb xc xd vol vals off,
      ci t xa xb xc xd vol ana vals off = Function.update vals off (vals off + vol * k))
    (hnd : (selected_cells n_elts elt_ids).Nodup) (hc : c ∈ selected_cells n_elts elt_ids)
    (hnt : sh.connect.cell_type c ≠ .FVM_CELL_TETRA) (hzero : values c = 0)
    (hvol : sh.quant.cell_vol c = ((slice sh.connect.c2f c).map (fun i =>
      1/3 * E.cs_math_3_dot_product (sh.quant.face (sh.connect.c2f.ids i)).unitv
        (sh.quant.dedge_vector (sh.connect.c2f.ids i)) *
        (sh.quant.face (sh.connect.c2f.ids i)).meas)).sum)
    (harea : ∀ i ∈ slice sh.connect.c2f c,
      sh.connect.f2e.idx (sh.connect.c2f.ids i + 1) -
        sh.connect.f2e.idx (sh.connect.c2f.ids i) ≠ 3 →
      (sh.quant.face (sh.connect.c2f.ids i)).meas =
        ((slice sh.connect.f2e (sh.connect.c2f.ids i)).map (fun j =>
          E.cs_math_surftri
            (sh.quant.vtx_coord (sh.connect.e2v.ids (2 * sh.connect.f2e.ids j)))
            (sh.quant.vtx_coord (sh.connect.e2v.ids (2 * sh.connect.f2e.ids j + 1)))
            (sh.quant.face (sh.connect.c2f.ids i)).center)).sum) :
    _pcsd_by_analytic E sh ana n_elts elt_ids ci values c = 3 * (sh.quant.cell_vol c * k) := by
  have hloc : ∀ t a b c d vol off,
      LocalAt off (fun vals => ci t a b c d vol ana vals off) :=
    fun t a b c d vol off => ⟨fun y => y + vol * k, fun vals => hrule t a b c d vol vals off⟩
  rw [pcsd_by_analytic_apply E sh ana n_elts elt_ids ci values hloc hnd c hc,
    pc_cell_integral_non_tetra E sh ana ci k c hrule hnt harea, Function.update_same, hzero,
    zero_add, hvol]
  have e : (fun i => E.cs_math_3_dot_product (sh.quant.face (sh.connect.c2f.ids i)).unitv
        (sh.quant.dedge_vector (sh.connect.c2f.ids i)) *
        (sh.quant.face (sh.connect.c2f.ids i)).meas * k) =
      (fun i => (3 * k) * (1/3 * E.cs_math_3_dot_product
        (sh.quant.face (sh.connect.c2f.ids i)).unitv
        (sh.quant.dedge_vector (sh.connect.c2f.ids i)) *
        (sh.quant.face (sh.connect.c2f.ids i)).meas)) := by
    funext i
    ring
  rw [e, List.sum_map_mul_left]
  ring

/-- Witness of `pcsd_by_analytic_non_tetra_triple`: the unit cube, the
one-point rule and the constant function `2`. -/
theorem pcsd_by_analytic_non_tetra_triple_witness :
    _pcsd_by_analytic (sample_ext { n_elts := 1, elt_ids := none }) unit_cube
        (ana_const 2) 1 none tet_1pt_scal (fun _ => 0) 0 =
      3 * (unit_cube.quant.cell_vol 0 * 2) :=
  pcsd_by_analytic_non_tetra_triple (sample_ext { n_elts := 1, elt_ids := none }) unit_cube
    (ana_const 2) tet_1pt_scal 2 1 none (fun _ => 0) 0 (fun _ _ _ _ _ _ _ _ => rfl)
    (by decide) (by decide) (by decide) rfl (by decide!) (by decide!)


/-! ## Implicit zones and dense ranges -/

theorem foldl_congr_mem {σ α : Type} (l : List α) (f g : σ → α → σ)
    (h : ∀ a ∈ l, ∀ s, f s a = g s a) (s : σ) : l.foldl f s = l.foldl g s := by
  induction l generalizing s with
  | nil => rfl
  | cons a l ih =>
    simp only [List.foldl_cons]
    rw [h a (List.mem_cons_self _ _)]
    exact ih (fun b hb => h b (List.mem_cons_of_mem _ hb)) _

theorem forLoop_congr {σ : Type} (lo hi : Nat) (f g : Nat → σ → σ)
    (h : ∀ j, lo ≤ j → j < hi → ∀ s, f j s = g j s) (s : σ) :
    forLoop lo hi f s = forLoop lo hi g s := by
  unfold forLoop
  apply foldl_congr_mem
  intro j hj t
  rw [List.mem_range'_1] at hj
  exact h j hj.1 (by omega) t

/-- C28: for each of `_pcsd_by_value`, `_pcvd_by_value`, `_pcsa_by_value`,
`_pcva_by_value`, `_dcsd_by_value` and `_dcvd_by_value`, the call without a
list of ids and with `n_elts = n_cells` produces the same buffer as the call
with a list that holds `0, ..., n_cells - 1` in this order. -/
theorem implicit_zone_is_dense_range (sh : cs_shared_t) (ids : Nat → Nat)
    (const_val : ℚ) (const_vec : Nat → ℚ) (values : Nat → ℚ)
    (hid : ∀ i, i < sh.quant.n_cells → ids i = i) :
    _pcsd_by_value sh const_val sh.quant.n_cells none values =
      _pcsd_by_value sh const_val sh.quant.n_cells (some ids) values ∧
    _pcvd_by_value sh const_vec sh.quant.n_cells none values =
      _pcvd_by_value sh const_vec sh.quant.n_cells (some ids) values ∧
    _pcsa_by_value sh const_val sh.quant.n_cells none values =
      _pcsa_by_value sh const_val sh.quant.n_cells (some ids) values ∧
    _pcva_by_value sh const_vec sh.quant.n_cells none values =
      _pcva_by_value sh const_vec sh.quant.n_cells (some ids) values ∧
    _dcsd_by_value sh const_val sh.quant.n_cells none values =
      _dcsd_by_value sh const_val sh.quant.n_cells (some ids) values ∧
    _dcvd_by_value sh const_vec sh.quant.n_cells none values =
      _dcvd_by_value sh const_vec sh.quant.n_cells (some ids) values := by
  refine ⟨?_, ?_, ?_, ?_, ?_, ?_⟩
  · unfold _pcsd_by_value
    exact forLoop_congr _ _ _ _ (fun j _ hj s => by simp only [hid j hj]) _
  · unfold _pcvd_by_value
    exact forLoop_congr _ _ _ _ (fun j _ hj s => by simp only [hid j hj]) _
  · unfold _pcsa_by_value
    exact forLoop_congr _ _ _ _ (fun j _ hj s => by simp only [hid j hj]) _
  · unfold _pcva_by_value
    exact forLoop_congr _ _ _ _ (fun j _ hj s => by simp only [hid j hj]) _
  · unfold _dcsd_by_value
    simp only [if_true]
    exact congrArg _ (forLoop_congr _ _ _ _ (fun j _ hj s => by simp only [hid j hj]) _)
  · unfold _dcvd_by_value
    exact forLoop_congr _ _ _ _ (fun j _ hj s => by simp only [hid j hj]) _

/-- Witness of `implicit_zone_is_dense_range`: the two cells of `two_tetra`
listed as `[0, 1]`. -/
theorem implicit_zone_is_dense_range_witness :
    (∀ i, i < two_tetra.quant.n_cells → ofList 0 [0, 1] i = i) ∧
    (_pcsd_by_value two_tetra 5 two_tetra.quant.n_cells none (fun _ => 1) =
      _pcsd_by_value two_tetra 5 two_tetra.quant.n_cells (some (ofList 0 [0, 1]))
        (fun _ => 1) ∧
    _pcvd_by_value two_tetra (ofList 0 [1, 2, 3]) two_tetra.quant.n_cells none (fun _ => 1) =
      _pcvd_by_value two_tetra (ofList 0 [1, 2, 3]) two_tetra.quant.n_cells
        (some (ofList 0 [0, 1])) (fun _ => 1) ∧
    _pcsa_by_value two_tetra 5 two_tetra.quant.n_cells none (fun _ => 1) =
      _pcsa_by_value two_tetra 5 two_tetra.quant.n_cells (some (ofList 0 [0, 1]))
        (fun _ => 1) ∧
    _pcva_by_value two_tetra (ofList 0 [1, 2, 3]) two_tetra.quant.n_cells none (fun _ => 1) =
      _pcva_by_value two_tetra (ofList 0 [1, 2, 3]) two_tetra.quant.n_cells
        (some (ofList 0 [0, 1])) (fun _ => 1) ∧
    _dcsd_by_value two_tetra 5 two_tetra.quant.n_cells none (fun _ => 1) =
      _dcsd_by_value two_tetra 5 two_tetra.quant.n_cells (some (ofList 0 [0, 1]))
        (fun _ => 1) ∧
    _dcvd_by_value two_tetra (ofList 0 [1, 2, 3]) two_tetra.quant.n_cells none (fun _ => 1) =
      _dcvd_by_value two_tetra (ofList 0 [1, 2, 3]) two_tetra.quant.n_cells
        (some (ofList 0 [0, 1])) (fun _ => 1)) :=
  ⟨fun i hi => by
      have h2 : i < 2 := hi
      interval_cases i <;> rfl,
   implicit_zone_is_dense_range two_tetra (ofList 0 [0, 1]) 5 (ofList 0 [1, 2, 3])
     (fun _ => 1) (fun i hi => by
      have h2 : i < 2 := hi
      interval_cases i <;> rfl)⟩

/-! ## Constant vector at points of a cell -/

/-- C29 (divergence): with two points, the constant vector `(1, 2, 3)` and a
zero buffer, `cs_xdef_eval_cw_vector_at_xyz_by_val` leaves
`[1, 2, 3, 1, 3, 0]`: the third component of point `1` is stored at index
`2*1 + 2 = 4`, over the second component, and `eval[5]` is never written. -/
theorem cw_vector_at_xyz_by_val_index_divergence :
    cs_xdef_eval_cw_vector_at_xyz_by_val 2 (ofList 0 [1, 2, 3]) (fun _ => 0) 0 = 1 ∧
    cs_xdef_eval_cw_vector_at_xyz_by_val 2 (ofList 0 [1, 2, 3]) (fun _ => 0) 1 = 2 ∧
    cs_xdef_eval_cw_vector_at_xyz_by_val 2 (ofList 0 [1, 2, 3]) (fun _ => 0) 2 = 3 ∧
    cs_xdef_eval_cw_vector_at_xyz_by_val 2 (ofList 0 [1, 2, 3]) (fun _ => 0) 3 = 1 ∧
    cs_xdef_eval_cw_vector_at_xyz_by_val 2 (ofList 0 [1, 2, 3]) (fun _ => 0) 4 = 3 ∧
    cs_xdef_eval_cw_vector_at_xyz_by_val 2 (ofList 0 [1, 2, 3]) (fun _ => 0) 5 = 0 := by
  decide!


/-! ## Array and field evaluators: the copy without a list of ids -/

theorem memcpy_below (splice : Nat → ℚ → ℚ → ℚ) (dst src : Nat → ℚ) (n i : Nat)
    (h : i < n / 8) : memcpy splice dst src n i = src i := by
  unfold memcpy
  simp only [h, if_true]

theorem memcpy_above (splice : Nat → ℚ → ℚ → ℚ) (dst src : Nat → ℚ) (n i : Nat)
    (h : n / 8 < i) : memcpy splice dst src n i = dst i := by
  unfold memcpy
  have h1 : ¬ i < n / 8 := by omega
  have h2 : ¬ (i = n / 8 ∧ n % 8 ≠ 0) := fun hh => by omega
  simp only [h1, h2, if_false]

/-- C23 (what the code does): without a list of ids, the same-location branch
of `cs_xdef_eval_at_vertices_by_array`, `cs_xdef_eval_scalar_at_cells_by_array`,
`cs_xdef_eval_nd_at_cells_by_array` and `cs_xdef_eval_cell_by_field` is one
`memcpy` whose length is the number `n` of reals to copy (`n_elts`, or
`stride*n_elts`, or `dim*n_elts`), taken as a number of bytes: the entries of
index below `n / 8` are copied and every entry of index above `n / 8` keeps
the content it had on entry. -/
theorem same_location_copy_counts_bytes (C : cs_cdo_defs_t) (X : cs_xdef_extern_t)
    (n_elts : Nat) (compact : Bool) (connect : cs_cdo_connect_t) (quant : cs_cdo_quantities_t)
    (a_v a_s a_n : cs_xdef_array_input_t) (field : cs_field_t) (eval : Nat → ℚ)
    (hv1 : a_v.stride = 1) (hv : C.cs_test_flag a_v.loc C.cs_cdo_primal_vtx = true)
    (hs1 : a_s.stride = 1) (hs : a_s.loc &&& C.cs_cdo_primal_cell = C.cs_cdo_primal_cell)
    (hn1 : 1 < a_n.stride) (hn : C.cs_test_flag a_n.loc C.cs_cdo_primal_cell = true)
    (hf : field.location_id = X.cs_mesh_location_get_id_by_name "cells") :
    (∃ r, cs_xdef_eval_at_vertices_by_array C X n_elts none compact a_v eval = .ok r ∧
      (∀ i, i < n_elts / 8 → r i = a_v.values i) ∧
      (∀ i, n_elts / 8 < i → r i = eval i)) ∧
    (∃ r, cs_xdef_eval_scalar_at_cells_by_array C X n_elts none compact connect quant a_s eval
        = .ok r ∧
      (∀ i, i < n_elts / 8 → r i = a_s.values i) ∧
      (∀ i, n_elts / 8 < i → r i = eval i)) ∧
    (∃ r, cs_xdef_eval_nd_at_cells_by_array C X n_elts none compact connect quant a_n eval
        = .ok r ∧
      (∀ i, i < a_n.stride * n_elts / 8 → r i = a_n.values i) ∧
      (∀ i, a_n.stride * n_elts / 8 < i → r i = eval i)) ∧
    (∃ r, cs_xdef_eval_cell_by_field X n_elts none compact connect quant (some field) eval
        = .ok r ∧
      (∀ i, i < field.dim * n_elts / 8 → r i = field.val i) ∧
      (∀ i, field.dim * n_elts / 8 < i → r i = eval i)) := by
  refine ⟨⟨memcpy X.splice eval a_v.values n_elts, ?_, fun i hi => memcpy_below _ _ _ _ _ hi,
      fun i hi => memcpy_above _ _ _ _ _ hi⟩,
    ⟨memcpy X.splice eval a_s.values n_elts, ?_, fun i hi => memcpy_below _ _ _ _ _ hi,
      fun i hi => memcpy_above _ _ _ _ _ hi⟩,
    ⟨memcpy X.splice eval a_n.values (a_n.stride * n_elts), ?_,
      fun i hi => memcpy_below _ _ _ _ _ hi, fun i hi => memcpy_above _ _ _ _ _ hi⟩,
    ⟨memcpy X.splice eval field.val (field.dim * n_elts), ?_,
      fun i hi => memcpy_below _ _ _ _ _ hi, fun i hi => memcpy_above _ _ _ _ _ hi⟩⟩
  · unfold cs_xdef_eval_at_vertices_by_array
    simp only [hv1, ne_eq, not_true_eq_false, if_false, hv, if_true]
  · unfold cs_xdef_eval_scalar_at_cells_by_array
    simp only [hs1, ne_eq, not_true_eq_false, if_false, hs, if_true]
  · unfold cs_xdef_eval_nd_at_cells_by_array
    simp only [hn1, not_true_eq_false, if_false, hn, if_true]
  · unfold cs_xdef_eval_cell_by_field
    simp only [hf, if_true]

/-- Witness of `same_location_copy_counts_bytes`: `n_elts = 8`, so that 8 bytes
are copied where there is one value per entity (one real out of the eight
to copy) and 16 bytes where there are two (two reals out of sixteen). -/
theorem same_location_copy_counts_bytes_witness :
    (∃ r, cs_xdef_eval_at_vertices_by_array sample_cdo_defs sample_xdef_ext 8 none false
        { stride := 1, loc := 256 + 1024, values := fun i => i + 1, index := none }
        (fun _ => 0) = .ok r ∧
      (∀ i, i < 8 / 8 → r i = (fun (i : Nat) => (i : ℚ) + 1) i) ∧
      (∀ i, 8 / 8 < i → r i = (fun _ => (0 : ℚ)) i)) ∧
    (∃ r, cs_xdef_eval_scalar_at_cells_by_array sample_cdo_defs sample_xdef_ext 8 none false
        two_tetra.connect two_tetra.quant
        { stride := 1, loc := 256 + 8192, values := fun i => i + 1, index := none }
        (fun _ => 0) = .ok r ∧
      (∀ i, i < 8 / 8 → r i = (fun (i : Nat) => (i : ℚ) + 1) i) ∧
      (∀ i, 8 / 8 < i → r i = (fun _ => (0 : ℚ)) i)) ∧
    (∃ r, cs_xdef_eval_nd_at_cells_by_array sample_cdo_defs sample_xdef_ext 8 none false
        two_tetra.connect two_tetra.quant
        { stride := 2, loc := 256 + 8192, values := fun i => i + 1, index := none }
        (fun _ => 0) = .ok r ∧
      (∀ i, i < 2 * 8 / 8 → r i = (fun (i : Nat) => (i : ℚ) + 1) i) ∧
      (∀ i, 2 * 8 / 8 < i → r i = (fun _ => (0 : ℚ)) i)) ∧
    (∃ r, cs_xdef_eval_cell_by_field sample_xdef_ext 8 none false
        two_tetra.connect two_tetra.quant
        (some { dim := 1, location_id := 1, val := fun i => i + 1 }) (fun _ => 0) = .ok r ∧
      (∀ i, i < 1 * 8 / 8 → r i = (fun (i : Nat) => (i : ℚ) + 1) i) ∧
      (∀ i, 1 * 8 / 8 < i → r i = (fun _ => (0 : ℚ)) i)) :=
  same_location_copy_counts_bytes sample_cdo_defs sample_xdef_ext 8 false
    two_tetra.connect two_tetra.quant
    { stride := 1, loc := 256 + 1024, values := fun i => i + 1, index := none }
    { stride := 1, loc := 256 + 8192, values := fun i => i + 1, index := none }
    { stride := 2, loc := 256 + 8192, values := fun i => i + 1, index := none }
    { dim := 1, location_id := 1, val := fun i => i + 1 } (fun _ => 0)
    rfl (by decide) rfl (by decide) (by decide) (by decide) (by decide)

/-! ## Array evaluators: unsupported locations -/

/-- C26: each of the four array evaluators stops with the error "invalid
support" exactly when the location of the array is none of those it handles
(the asserted strides being as asserted): primal vertices for
`cs_xdef_eval_at_vertices_by_array`; primal cells or primal vertices for
`cs_xdef_eval_scalar_at_cells_by_array`; primal cells or dual faces by cell
for `cs_xdef_eval_nd_at_cells_by_array`; primal cells, primal vertices or dual
faces by cell for `cs_xdef_eval_cw_cell_by_array`.  A stop returns no buffer:
`eval` is not written. -/
theorem unsupported_array_location_fails (C : cs_cdo_defs_t) (X : cs_xdef_extern_t)
    (n_elts : Nat) (elt_ids : Option (Nat → Nat)) (compact : Bool)
    (connect : cs_cdo_connect_t) (quant : cs_cdo_quantities_t) (cm : cs_cell_mesh_t)
    (a a_n : cs_xdef_array_input_t) (eval : Nat → ℚ)
    (h1 : a.stride = 1) (hn1 : 1 < a_n.stride) :
    (cs_xdef_eval_at_vertices_by_array C X n_elts elt_ids compact a eval =
        .error .invalid_support ↔
      C.cs_test_flag a.loc C.cs_cdo_primal_vtx = false) ∧
    (cs_xdef_eval_scalar_at_cells_by_array C X n_elts elt_ids compact connect quant a eval =
        .error .invalid_support ↔
      (a.loc &&& C.cs_cdo_primal_cell ≠ C.cs_cdo_primal_cell ∧
       a.loc &&& C.cs_cdo_primal_vtx ≠ C.cs_cdo_primal_vtx)) ∧
    (cs_xdef_eval_nd_at_cells_by_array C X n_elts elt_ids compact connect quant a_n eval =
        .error .invalid_support ↔
      (C.cs_test_flag a_n.loc C.cs_cdo_primal_cell = false ∧
       C.cs_test_flag a_n.loc C.cs_cdo_dual_face_byc = false)) ∧
    (cs_xdef_eval_cw_cell_by_array C X cm a eval = .error .invalid_support ↔
      (C.cs_test_flag a.loc C.cs_cdo_primal_cell = false ∧
       C.cs_test_flag a.loc C.cs_cdo_primal_vtx = false ∧
       C.cs_test_flag a.loc C.cs_cdo_dual_face_byc = false)) := by
  refine ⟨?_, ?_, ?_, ?_⟩
  · unfold cs_xdef_eval_at_vertices_by_array
    simp only [h1, ne_eq, not_true_eq_false, if_false]
    cases hv : C.cs_test_flag a.loc C.cs_cdo_primal_vtx
    · simp
    · rcases elt_ids with _ | ids <;> cases compact <;> simp
  · unfold cs_xdef_eval_scalar_at_cells_by_array
    simp only [h1, ne_eq, not_true_eq_false, if_false]
    by_cases hc : a.loc &&& C.cs_cdo_primal_cell = C.cs_cdo_primal_cell
    · rcases elt_ids with _ | ids <;> cases compact <;> simp [hc]
    · by_cases hv : a.loc &&& C.cs_cdo_primal_vtx = C.cs_cdo_primal_vtx
      · rcases elt_ids with _ | ids <;> cases compact <;> simp [hc, hv]
      · simp [hc, hv]
  · unfold cs_xdef_eval_nd_at_cells_by_array
    simp only [hn1, not_true_eq_false, if_false]
    cases hc : C.cs_test_flag a_n.loc C.cs_cdo_primal_cell
    · cases hd : C.cs_test_flag a_n.loc C.cs_cdo_dual_face_byc
      · simp
      · by_cases h3 : a_n.stride = 3
        · rcases hi : a_n.index with _ | index
          · simp [h3]
          · cases hb : index.is_c2e_idx
            · simp [h3, hb]
            · rcases elt_ids with _ | ids <;> cases compact <;> simp [h3, hb]
        · simp [h3]
    · rcases elt_ids with _ | ids <;> cases compact <;> simp
  · unfold cs_xdef_eval_cw_cell_by_array
    cases hc : C.cs_test_flag a.loc C.cs_cdo_primal_cell
    · cases hv : C.cs_test_flag a.loc C.cs_cdo_primal_vtx
      · cases hd : C.cs_test_flag a.loc C.cs_cdo_dual_face_byc
        · simp
        · rcases hi : a.index with _ | index <;> simp
      · cases hq : C.cs_test_flag cm.flag C.CS_CDO_LOCAL_PVQ <;> simp
    · simp

/-- Witness of `unsupported_array_location_fails`: an array located at the
primal faces (flag `256 + 4096`), which no evaluator handles. -/
theorem unsupported_array_location_fails_witness :
    (cs_xdef_eval_at_vertices_by_array sample_cdo_defs sample_xdef_ext 2 none false
        { stride := 1, loc := 256 + 4096, values := fun _ => 1, index := none } (fun _ => 0) =
        .error .invalid_support ↔
      sample_cdo_defs.cs_test_flag (256 + 4096) sample_cdo_defs.cs_cdo_primal_vtx = false) ∧
    (cs_xdef_eval_scalar_at_cells_by_array sample_cdo_defs sample_xdef_ext 2 none false
        two_tetra.connect two_tetra.quant
        { stride := 1, loc := 256 + 4096, values := fun _ => 1, index := none } (fun _ => 0) =
        .error .invalid_support ↔
      ((256 + 4096) &&& sample_cdo_defs.cs_cdo_primal_cell ≠
          sample_cdo_defs.cs_cdo_primal_cell ∧
       (256 + 4096) &&& sample_cdo_defs.cs_cdo_primal_vtx ≠
          sample_cdo_defs.cs_cdo_primal_vtx)) ∧
    (cs_xdef_eval_nd_at_cells_by_array sample_cdo_defs sample_xdef_ext 2 none false
        two_tetra.connect two_tetra.quant
        { stride := 3, loc := 256 + 4096, values := fun _ => 1, index := none } (fun _ => 0) =
        .error .invalid_support ↔
      (sample_cdo_defs.cs_test_flag (256 + 4096) sample_cdo_defs.cs_cdo_primal_cell = false ∧
       sample_cdo_defs.cs_test_flag (256 + 4096) sample_cdo_defs.cs_cdo_dual_face_byc
         = false)) ∧
    (cs_xdef_eval_cw_cell_by_array sample_cdo_defs sample_xdef_ext
        (vtx_cell_mesh 0 (fun _ => 0) (fun _ => 0))
        { stride := 1, loc := 256 + 4096, values := fun _ => 1, index := none } (fun _ => 0) =
        .error .invalid_support ↔
      (sample_cdo_defs.cs_test_flag (256 + 4096) sample_cdo_defs.cs_cdo_primal_cell = false ∧
       sample_cdo_defs.cs_test_flag (256 + 4096) sample_cdo_defs.cs_cdo_primal_vtx = false ∧
       sample_cdo_defs.cs_test_flag (256 + 4096) sample_cdo_defs.cs_cdo_dual_face_byc
         = false)) :=
  unsupported_array_location_fails sample_cdo_defs sample_xdef_ext 2 none false
    two_tetra.connect two_tetra.quant
    (vtx_cell_mesh 0 (fun _ => 0) (fun _ => 0))
    { stride := 1, loc := 256 + 4096, values := fun _ => 1, index := none }
    { stride := 3, loc := 256 + 4096, values := fun _ => 1, index := none } (fun _ => 0)
    rfl (by decide)


/-! ## Array evaluators: the copy with a list of ids -/

theorem writesFn_congr {α : Type} {g : Nat → α} {S S2 : Nat → Prop}
    {f : (Nat → α) → (Nat → α)} (h : WritesFn g S f) (hS : ∀ x, S x ↔ S2 x) :
    WritesFn g S2 f := by
  intro t x
  refine ⟨fun hx => (h t x).1 ((hS x).2 hx), fun hx => (h t x).2 (fun hh => hx ((hS x).1 hh))⟩

/-- The loop `for (k = 0; k < n; k++) t[off + k] = g (off + k)`. -/
theorem writesFn_block {α : Type} (g : Nat → α) (off n : Nat) :
    WritesFn g (fun x => off ≤ x ∧ x < off + n)
      (fun t => forLoop 0 n (fun k t => Function.update t (off + k) (g (off + k))) t) := by
  refine writesFn_congr (writesFn_forLoop (fun k x => x = off + k) _ 0 n
    (fun k _ _ => writesFn_update g (off + k))) ?_
  intro x
  constructor
  · rintro ⟨k, _, hk, rfl⟩
    omega
  · rintro ⟨h1, h2⟩
    exact ⟨x - off, Nat.zero_le _, by omega, by omega⟩

theorem block_index (stride i k : Nat) (hk : k < stride) :
    (stride * i + k) / stride = i ∧ (stride * i + k) % stride = k := by
  have hpos : 0 < stride := by omega
  constructor
  · rw [Nat.add_comm, Nat.add_mul_div_left _ _ hpos, Nat.div_eq_of_lt hk, Nat.zero_add]
  · rw [Nat.add_comm, Nat.add_mul_mod_self_left, Nat.mod_eq_of_lt hk]

/-- The compacted copy: block `i` of the output receives block `ids i` of
the source. -/
theorem compact_copy_apply (values : Nat → ℚ) (ids : Nat → Nat) (stride n : Nat)
    (eval : Nat → ℚ) (i k : Nat) (hi : i < n) (hk : k < stride) :
    forLoop 0 n (fun i eval =>
      forLoop 0 stride (fun k eval =>
        Function.update eval (stride * i + k) (values (stride * ids i + k))) eval) eval
      (stride * i + k) = values (stride * ids i + k) := by
  have hw := writesFn_forLoop (α := ℚ)
    (g := fun x => values (stride * ids (x / stride) + x % stride))
    (fun i x => stride * i ≤ x ∧ x < stride * i + stride)
    (fun i eval => forLoop 0 stride (fun k eval =>
        Function.update eval (stride * i + k) (values (stride * ids i + k))) eval) 0 n
    (fun i _ _ => by
      have hb := writesFn_block (fun x => values (stride * ids (x / stride) + x % stride))
        (stride * i) stride
      intro t x
      have hbx := hb t x
      beta_reduce at hbx
      have e : (fun t : Nat → ℚ => forLoop 0 stride (fun k t =>
          Function.update t (stride * i + k)
            (values (stride * ids ((stride * i + k) / stride) + (stride * i + k) % stride))) t)
          t = forLoop 0 stride (fun k eval =>
            Function.update eval (stride * i + k) (values (stride * ids i + k))) t := by
        beta_reduce
        apply forLoop_congr
        intro k _ hk2 s
        rw [(block_index stride i k hk2).1, (block_index stride i k hk2).2]
      beta_reduce at e
      beta_reduce
      rw [← e]
      exact hbx)
  have h := (hw eval (stride * i + k)).1 ⟨i, Nat.zero_le _, hi, by omega, by omega⟩
  beta_reduce at h
  rw [h, (block_index stride i k hk).1, (block_index stride i k hk).2]

/-- The copy in place: the blocks of the listed entities receive the blocks
of the source, and nothing else is written. -/
theorem indirect_copy_writes (values : Nat → ℚ) (ids : Nat → Nat) (stride n : Nat) :
    WritesFn values (fun x => ∃ i, i < n ∧ ∃ k, k < stride ∧ x = stride * ids i + k)
      (fun eval => forLoop 0 n (fun i eval =>
        forLoop 0 stride (fun k eval =>
          Function.update eval (stride * ids i + k) (values (stride * ids i + k))) eval)
        eval) := by
  refine writesFn_congr (writesFn_forLoop
    (fun i x => stride * ids i ≤ x ∧ x < stride * ids i + stride) _ 0 n
    (fun i _ _ => writesFn_block values (stride * ids i) stride)) ?_
  intro x
  constructor
  · rintro ⟨i, _, hi, h1, h2⟩
    exact ⟨i, hi, x - stride * ids i, by omega, by omega⟩
  · rintro ⟨i, hi, k, hk, rfl⟩
    exact ⟨i, Nat.zero_le _, hi, by omega, by omega⟩

/-- C22: with a list of ids and an array located at the cells,
`cs_xdef_eval_scalar_at_cells_by_array` (one value per cell) and
`cs_xdef_eval_nd_at_cells_by_array` (`stride > 1` values per cell) return,
and `values[stride*elt_ids[i] + k]` is found at `eval[stride*i + k]` when
`compact` is true, at `eval[stride*elt_ids[i] + k]` when it is false; in the
second case every other entry of `eval` keeps its content. -/
theorem array_copy_with_id_list (C : cs_cdo_defs_t) (X : cs_xdef_extern_t)
    (n_elts : Nat) (ids : Nat → Nat) (connect : cs_cdo_connect_t)
    (quant : cs_cdo_quantities_t) (a_s a_n : cs_xdef_array_input_t) (eval : Nat → ℚ)
    (hs1 : a_s.stride = 1) (hs : a_s.loc &&& C.cs_cdo_primal_cell = C.cs_cdo_primal_cell)
    (hn1 : 1 < a_n.stride) (hn : C.cs_test_flag a_n.loc C.cs_cdo_primal_cell = true) :
    (∃ r, cs_xdef_eval_scalar_at_cells_by_array C X n_elts (some ids) true connect quant
        a_s eval = .ok r ∧
      ∀ i, i < n_elts → r i = a_s.values (ids i)) ∧
    (∃ r, cs_xdef_eval_scalar_at_cells_by_array C X n_elts (some ids) false connect quant
        a_s eval = .ok r ∧
      (∀ i, i < n_elts → r (ids i) = a_s.values (ids i)) ∧
      (∀ x, (∀ i, i < n_elts → x ≠ ids i) → r x = eval x)) ∧
    (∃ r, cs_xdef_eval_nd_at_cells_by_array C X n_elts (some ids) true connect quant
        a_n eval = .ok r ∧
      ∀ i, i < n_elts → ∀ k, k < a_n.stride →
        r (a_n.stride * i + k) = a_n.values (a_n.stride * ids i + k)) ∧
    (∃ r, cs_xdef_eval_nd_at_cells_by_array C X n_elts (some ids) false connect quant
        a_n eval = .ok r ∧
      (∀ i, i < n_elts → ∀ k, k < a_n.stride →
        r (a_n.stride * ids i + k) = a_n.values (a_n.stride * ids i + k)) ∧
      (∀ x, (∀ i, i < n_elts → ∀ k, k < a_n.stride → x ≠ a_n.stride * ids i + k) →
        r x = eval x)) := by
  refine ⟨⟨forLoop 0 n_elts (fun i eval =>
        Function.update eval i (a_s.values (ids i))) eval, ?_, ?_⟩,
    ⟨forLoop 0 n_elts (fun i eval =>
        Function.update eval (ids i) (a_s.values (ids i))) eval, ?_, ?_, ?_⟩,
    ⟨forLoop 0 n_elts (fun i eval =>
        forLoop 0 a_n.stride (fun k eval =>
          Function.update eval (a_n.stride * i + k) (a_n.values (a_n.stride * ids i + k)))
          eval) eval, ?_, ?_⟩,
    ⟨forLoop 0 n_elts (fun i eval =>
        forLoop 0 a_n.stride (fun k eval =>
          Function.update eval (a_n.stride * ids i + k)
            (a_n.values (a_n.stride * ids i + k))) eval) eval, ?_, ?_, ?_⟩⟩
  · unfold cs_xdef_eval_scalar_at_cells_by_array
    simp only [hs1, ne_eq, not_true_eq_false, if_false, hs, if_true]
  · intro i hi
    have hw := writesFn_forLoop (α := ℚ) (g := fun x => a_s.values (ids x))
      (fun i x => x = i)
      (fun i eval => Function.update eval i (a_s.values (ids i))) 0 n_elts
      (fun i _ _ => writesFn_update (fun x => a_s.values (ids x)) i)
    exact (hw eval i).1 ⟨i, Nat.zero_le _, hi, rfl⟩
  · unfold cs_xdef_eval_scalar_at_cells_by_array
    simp only [hs1, ne_eq, not_true_eq_false, if_false, hs, if_true]
  · intro i hi
    have hw := writesFn_forLoop (α := ℚ) (g := a_s.values)
      (fun i x => x = ids i)
      (fun i eval => Function.update eval (ids i) (a_s.values (ids i))) 0 n_elts
      (fun i _ _ => writesFn_update a_s.values (ids i))
    exact (hw eval (ids i)).1 ⟨i, Nat.zero_le _, hi, rfl⟩
  · intro x hx
    have hw := writesFn_forLoop (α := ℚ) (g := a_s.values)
      (fun i x => x = ids i)
      (fun i eval => Function.update eval (ids i) (a_s.values (ids i))) 0 n_elts
      (fun i _ _ => writesFn_update a_s.values (ids i))
    exact (hw eval x).2 (fun ⟨i, _, hi, e⟩ => hx i hi e)
  · unfold cs_xdef_eval_nd_at_cells_by_array
    simp only [hn1, not_true_eq_false, if_false, hn, if_true]
  · intro i hi k hk
    exact compact_copy_apply a_n.values ids a_n.stride n_elts eval i k hi hk
  · unfold cs_xdef_eval_nd_at_cells_by_array
    simp only [hn1, not_true_eq_false, if_false, hn, if_true]
  · intro i hi k hk
    exact (indirect_copy_writes a_n.values ids a_n.stride n_elts eval _).1 ⟨i, hi, k, hk, rfl⟩
  · intro x hx
    exact (indirect_copy_writes a_n.values ids a_n.stride n_elts eval x).2
      (fun ⟨i, hi, k, hk, e⟩ => hx i hi k hk e)


/-- Witness of `array_copy_with_id_list`: the list `[3, 1]`, one value per
cell and then two values per cell, on an array located at the primal cells. -/
theorem array_copy_with_id_list_witness :
    (∃ r, cs_xdef_eval_scalar_at_cells_by_array sample_cdo_defs sample_xdef_ext 2
        (some (ofList 0 [3, 1])) true two_tetra.connect two_tetra.quant
        { stride := 1, loc := 256 + 8192, values := fun i => i + 1, index := none }
        (fun _ => 0) = .ok r ∧
      ∀ i, i < 2 → r i = (fun (i : Nat) => (i : ℚ) + 1) (ofList 0 [3, 1] i)) ∧
    (∃ r, cs_xdef_eval_scalar_at_cells_by_array sample_cdo_defs sample_xdef_ext 2
        (some (ofList 0 [3, 1])) false two_tetra.connect two_tetra.quant
        { stride := 1, loc := 256 + 8192, values := fun i => i + 1, index := none }
        (fun _ => 0) = .ok r ∧
      (∀ i, i < 2 → r (ofList 0 [3, 1] i) = (fun (i : Nat) => (i : ℚ) + 1) (ofList 0 [3, 1] i)) ∧
      (∀ x, (∀ i, i < 2 → x ≠ ofList 0 [3, 1] i) → r x = (fun _ => (0 : ℚ)) x)) ∧
    (∃ r, cs_xdef_eval_nd_at_cells_by_array sample_cdo_defs sample_xdef_ext 2
        (some (ofList 0 [3, 1])) true two_tetra.connect two_tetra.quant
        { stride := 2, loc := 256 + 8192, values := fun i => i + 1, index := none }
        (fun _ => 0) = .ok r ∧
      ∀ i, i < 2 → ∀ k, k < 2 →
        r (2 * i + k) = (fun (i : Nat) => (i : ℚ) + 1) (2 * ofList 0 [3, 1] i + k)) ∧
    (∃ r, cs_xdef_eval_nd_at_cells_by_array sample_cdo_defs sample_xdef_ext 2
        (some (ofList 0 [3, 1])) false two_tetra.connect two_tetra.quant
        { stride := 2, loc := 256 + 8192, values := fun i => i + 1, index := none }
        (fun _ => 0) = .ok r ∧
      (∀ i, i < 2 → ∀ k, k < 2 →
        r (2 * ofList 0 [3, 1] i + k) =
          (fun (i : Nat) => (i : ℚ) + 1) (2 * ofList 0 [3, 1] i + k)) ∧
      (∀ x, (∀ i, i < 2 → ∀ k, k < 2 → x ≠ 2 * ofList 0 [3, 1] i + k) →
        r x = (fun _ => (0 : ℚ)) x)) :=
  array_copy_with_id_list sample_cdo_defs sample_xdef_ext 2 (ofList 0 [3, 1])
    two_tetra.connect two_tetra.quant
    { stride := 1, loc := 256 + 8192, values := fun i => i + 1, index := none }
    { stride := 2, loc := 256 + 8192, values := fun i => i + 1, index := none }
    (fun _ => 0) rfl (by decide) (by decide) (by decide)


/-! ## Cell-wise evaluators: the reconstruction from the vertices -/

theorem sum_range_ite_fn (n x : Nat) (c : Nat → ℚ) :
    ((List.range n).map (fun k => if x = k then c k else 0)).sum = if x < n then c x else 0 := by
  have e : (fun k => if x = k then c k else 0) = (fun k => if x = k then c x else 0) := by
    funext k
    by_cases h : x = k
    · simp only [h, if_true]
    · simp only [h, if_false]
  rw [e]
  by_cases hx : x < n
  · rw [sum_range_ite n x hx, if_pos hx]
  · rw [if_neg hx]
    apply sum_map_eq_zero
    intro k hk
    have hk2 : k < n := List.mem_range.1 hk
    have hne : x ≠ k := by omega
    simp only [hne, if_false]

/-- The loop `for (k = 0; k < n; k++) t[k] += c k`. -/
theorem block_add_apply (n : Nat) (c : Nat → ℚ) (t : Nat → ℚ) (x : Nat) :
    forLoop 0 n (fun k t => Function.update t k (t k + c k)) t x =
      t x + (if x < n then c x else 0) := by
  rw [forLoop_range, foldl_add_buffer (fun k x => if x = k then c k else 0)
    (fun k t => Function.update t k (t k + c k)) (List.range n) (fun k _ t x => by
      beta_reduce
      rw [Function.update_apply]
      by_cases h : x = k
      · simp only [h, if_true]
      · simp only [h, if_false, add_zero]) t x, sum_range_ite_fn]

/-- The two nested loops of the vertex branch of `cs_xdef_eval_cw_cell_by_array`. -/
theorem cw_vertex_loops_apply (n_vc stride : Nat) (wvc : Nat → ℚ) (v_ids : Nat → Nat)
    (values eval : Nat → ℚ) (k : Nat) (hk : k < stride) :
    forLoop 0 n_vc (fun v eval =>
      forLoop 0 stride (fun k eval =>
        Function.update eval k (eval k + wvc v * values (stride * v_ids v + k))) eval) eval k =
      eval k + ((List.range n_vc).map (fun v => wvc v * values (stride * v_ids v + k))).sum := by
  rw [forLoop_range, foldl_add_buffer
    (fun v x => if x < stride then wvc v * values (stride * v_ids v + x) else 0)
    (fun v eval => forLoop 0 stride (fun k eval =>
        Function.update eval k (eval k + wvc v * values (stride * v_ids v + k))) eval)
    (List.range n_vc)
    (fun v _ t x => block_add_apply stride (fun k => wvc v * values (stride * v_ids v + k)) t x)
    eval k]
  simp only [hk, if_true]

/-- C24 (what the code does): in the branch of the vertex-located data,
`cs_xdef_eval_cw_cell_by_array` and `cs_xdef_eval_cw_cell_by_field` (one value
per vertex) ADD the weighted sum of the vertex values to `eval`: on return
`eval[k]` is its content on entry plus the sum over the vertices `v` of the
cell of `wvc[v] * values[stride*v_ids[v] + k]`.  Unlike the branch of the
cell-located data, which assigns, the result depends on the content of
`eval` on entry. -/
theorem cw_cell_vertex_branch_accumulates (C : cs_cdo_defs_t) (X : cs_xdef_extern_t)
    (cm : cs_cell_mesh_t) (a : cs_xdef_array_input_t) (field : cs_field_t) (eval : Nat → ℚ)
    (hc : C.cs_test_flag a.loc C.cs_cdo_primal_cell = false)
    (hv : C.cs_test_flag a.loc C.cs_cdo_primal_vtx = true)
    (hq : C.cs_test_flag cm.flag C.CS_CDO_LOCAL_PVQ = true)
    (hfc : field.location_id ≠ X.cs_mesh_location_get_id_by_name "cells")
    (hfv : field.location_id = X.cs_mesh_location_get_id_by_name "vertices")
    (hd : field.dim = 1) :
    (∃ r, cs_xdef_eval_cw_cell_by_array C X cm a eval = .ok r ∧
      ∀ k, k < a.stride →
        r k = eval k + ((List.range cm.n_vc).map
          (fun v => cm.wvc v * a.values (a.stride * cm.v_ids v + k))).sum) ∧
    (∃ r, cs_xdef_eval_cw_cell_by_field C X cm (some field) eval = .ok r ∧
      r 0 = eval 0 + ((List.range cm.n_vc).map
          (fun v => cm.wvc v * field.val (cm.v_ids v))).sum) := by
  refine ⟨⟨forLoop 0 cm.n_vc (fun v eval =>
        forLoop 0 a.stride (fun k eval =>
          Function.update eval k
            (eval k + cm.wvc v * a.values (a.stride * cm.v_ids v + k))) eval) eval, ?_, ?_⟩,
    ⟨forLoop 0 cm.n_vc (fun v eval =>
          Function.update eval 0 (eval 0 + cm.wvc v * field.val (cm.v_ids v))) eval, ?_, ?_⟩⟩
  · unfold cs_xdef_eval_cw_cell_by_array
    simp only [hc, hv, hq, Bool.false_eq_true, Bool.true_eq_false, if_false, if_true]
  · intro k hk
    exact cw_vertex_loops_apply cm.n_vc a.stride cm.wvc cm.v_ids a.values eval k hk
  · unfold cs_xdef_eval_cw_cell_by_field
    have hfc2 : ¬ X.cs_mesh_location_get_id_by_name "vertices" =
        X.cs_mesh_location_get_id_by_name "cells" := fun h => hfc (hfv.trans h)
    simp only [hfv, hfc2, hd, hq, ne_eq, not_true_eq_false, Bool.true_eq_false, if_false,
      if_true]
  · rw [forLoop_range, addsAt_foldl 0
      (fun v eval => Function.update eval 0 (eval 0 + cm.wvc v * field.val (cm.v_ids v)))
      (fun v => cm.wvc v * field.val (cm.v_ids v)) (List.range cm.n_vc)
      (fun v _ vals => rfl) eval, Function.update_same]

/-- Witness of `cw_cell_vertex_branch_accumulates`: a cell with two vertices
of weight `1/2` carrying the values `4` and `6`, and a buffer that holds `10`
on entry: the result is `10 + 5`, not the reconstruction `5`. -/
theorem cw_cell_vertex_branch_accumulates_witness :
    (∃ r, cs_xdef_eval_cw_cell_by_array sample_cdo_defs sample_xdef_ext
        (vtx_cell_mesh 2 (ofList 0 [0, 1]) (fun _ => 1/2))
        { stride := 1, loc := 256 + 1024, values := ofList 0 [4, 6], index := none }
        (fun _ => 10) = .ok r ∧
      ∀ k, k < 1 →
        r k = (fun _ => (10 : ℚ)) k + ((List.range 2).map
          (fun v => (fun _ => (1/2 : ℚ)) v *
            ofList (0 : ℚ) [4, 6] (1 * ofList 0 [0, 1] v + k))).sum) ∧
    (∃ r, cs_xdef_eval_cw_cell_by_field sample_cdo_defs sample_xdef_ext
        (vtx_cell_mesh 2 (ofList 0 [0, 1]) (fun _ => 1/2))
        (some { dim := 1, location_id := 3, val := ofList 0 [4, 6] }) (fun _ => 10) = .ok r ∧
      r 0 = (fun _ => (10 : ℚ)) 0 + ((List.range 2).map
          (fun v => (fun _ => (1/2 : ℚ)) v * ofList (0 : ℚ) [4, 6] (ofList 0 [0, 1] v))).sum) :=
  cw_cell_vertex_branch_accumulates sample_cdo_defs sample_xdef_ext
    (vtx_cell_mesh 2 (ofList 0 [0, 1]) (fun _ => 1/2))
    { stride := 1, loc := 256 + 1024, values := ofList 0 [4, 6], index := none }
    { dim := 1, location_id := 3, val := ofList 0 [4, 6] } (fun _ => 10)
    (by decide) (by decide) (by decide) (by decide) (by decide) rfl


/-! ## Averages on primal cells by array -/

/-- C27 (divergence): `cs_evaluate_average_on_cells_by_array` called with an
array whose declared location is the primal vertices, or the primal faces,
does not reject it: it returns, with the values of the array copied for the
two cells.  The evaluator `cs_xdef_eval_scalar_at_cells_by_array` tests the
location and stops with "invalid support" on the same array located at the
primal faces. -/
theorem average_on_cells_by_array_accepts_vertex_array :
    sample_cdo_defs.cs_test_flag (256 + 1024) sample_cdo_defs.cs_cdo_primal_cell = false ∧
    sample_cdo_defs.cs_test_flag (256 + 4096) sample_cdo_defs.cs_cdo_primal_cell = false ∧
    (∃ r, cs_evaluate_average_on_cells_by_array sample_defs
        (sample_ext { n_elts := 2, elt_ids := none }) two_tetra (256 + 8192)
        (some (xdef_by_array
          { stride := 1, loc := 256 + 1024, values := ofList 0 [4, 6], index := none } 1))
        (some (fun _ => 0)) = .ok r ∧ r 0 = 4 ∧ r 1 = 6) ∧
    (∃ r, cs_evaluate_average_on_cells_by_array sample_defs
        (sample_ext { n_elts := 2, elt_ids := none }) two_tetra (256 + 8192)
        (some (xdef_by_array
          { stride := 1, loc := 256 + 4096, values := ofList 0 [4, 6], index := none } 1))
        (some (fun _ => 0)) = .ok r ∧ r 0 = 4 ∧ r 1 = 6) ∧
    cs_xdef_eval_scalar_at_cells_by_array sample_cdo_defs sample_xdef_ext 2 none false
        two_tetra.connect two_tetra.quant
        { stride := 1, loc := 256 + 4096, values := ofList 0 [4, 6], index := none }
        (fun _ => 0) = .error .invalid_support :=
  ⟨by decide, by decide, ⟨_, rfl, by decide!, by decide!⟩, ⟨_, rfl, by decide!, by decide!⟩,
    rfl⟩

theorem memcpy_reals_writes (src : Nat → ℚ) (off n : Nat) :
    WritesFn src (fun x => off ≤ x ∧ x < off + n) (fun dst => memcpy_reals dst off src n) :=
  writesFn_block src off n

/-- The loops of `cs_evaluate_average_on_cells_by_array` for `stride` values
per cell, on the cells `c i`, `i < n`. -/
theorem average_copy_writes (val : Nat → ℚ) (c : Nat → Nat) (stride n : Nat) :
    WritesFn val (fun x => ∃ i, i < n ∧ ∃ k, k < stride ∧ x = stride * c i + k)
      (fun retval => forLoop 0 n (fun i retval =>
        memcpy_reals retval (stride * c i) val stride) retval) := by
  refine writesFn_congr (writesFn_forLoop
    (fun i x => stride * c i ≤ x ∧ x < stride * c i + stride) _ 0 n
    (fun i _ _ => memcpy_reals_writes val (stride * c i) stride)) ?_
  intro x
  constructor
  · rintro ⟨i, _, hi, h1, h2⟩
    exact ⟨i, hi, x - stride * c i, by omega, by omega⟩
  · rintro ⟨i, hi, k, hk, rfl⟩
    exact ⟨i, Nat.zero_le _, hi, by omega, by omega⟩

/-- The scalar loops of `cs_evaluate_average_on_cells_by_array`, on the cells
`c i`, `i < n`. -/
theorem average_copy_scalar_writes (val : Nat → ℚ) (c : Nat → Nat) (n : Nat) :
    WritesFn val (fun x => ∃ i, i < n ∧ x = c i)
      (fun retval => forLoop 0 n (fun i retval =>
        Function.update retval (c i) (val (c i))) retval) := by
  refine writesFn_congr (writesFn_forLoop (fun i x => x = c i) _ 0 n
    (fun i _ _ => writesFn_update val (c i))) ?_
  intro x
  constructor
  · rintro ⟨i, _, hi, h⟩
    exact ⟨i, hi, h⟩
  · rintro ⟨i, hi, h⟩
    exact ⟨i, Nat.zero_le _, hi, h⟩

/-- The declared location of the array is not read by
`cs_evaluate_average_on_cells_by_array`: when its assertions hold (flag of the
primal cells, volume support, and a list of ids unless the definition covers
the full location), the call returns, the entry `stride*c + k` of the array is
copied to `retval[stride*c + k]` for every selected cell `c` (every cell of
the mesh on the full location, the listed cells otherwise) and `k < stride`,
and the call with any other declared location returns the same buffer. -/
theorem average_on_cells_by_array_ignores_location (D : cs_defs_t) (E : cs_extern_t)
    (sh : cs_shared_t) (dof_flag : Nat) (d : cs_xdef_t) (a : cs_xdef_array_input_t)
    (ids : Nat → Nat) (retval : Nat → ℚ)
    (hflag : D.cs_flag_test dof_flag D.cs_flag_primal_cell = true)
    (hsup : d.support = D.CS_XDEF_SUPPORT_VOLUME) (hin : d.input = .array a)
    (hz : d.meta &&& D.CS_FLAG_FULL_LOC ≠ 0 ∨
      (E.cs_volume_zone_by_id d.z_id).elt_ids = some ids) :
    ∃ r, cs_evaluate_average_on_cells_by_array D E sh dof_flag (some d) (some retval) = .ok r ∧
      (∀ c, (if d.meta &&& D.CS_FLAG_FULL_LOC ≠ 0 then c < sh.quant.n_cells
            else ∃ i, i < (E.cs_volume_zone_by_id d.z_id).n_elts ∧ c = ids i) →
        ∀ k, k < a.stride → r (a.stride * c + k) = a.values (a.stride * c + k)) ∧
      ∀ loc, cs_evaluate_average_on_cells_by_array D E sh dof_flag
        (some { d with input := .array { a with loc := loc } }) (some retval) = .ok r := by
  by_cases h1 : a.stride = 1
  · by_cases hfull : d.meta &&& D.CS_FLAG_FULL_LOC ≠ 0
    · refine ⟨forLoop 0 sh.quant.n_cells (fun c_id retval =>
          Function.update retval c_id (a.values c_id)) retval, ?_, ?_, ?_⟩
      · unfold cs_evaluate_average_on_cells_by_array
        simp only [hflag, hsup, hin, h1, hfull, ne_eq, not_true_eq_false, not_false_eq_true,
          Bool.true_eq_false, if_false, if_true]
      · intro c hc k hk
        rw [if_pos hfull] at hc
        rw [h1] at hk ⊢
        have hk0 : k = 0 := by omega
        subst hk0
        rw [Nat.one_mul, Nat.add_zero]
        exact (average_copy_scalar_writes a.values (fun i => i) sh.quant.n_cells retval c).1
          ⟨c, hc, rfl⟩
      · intro loc
        unfold cs_evaluate_average_on_cells_by_array
        simp only [hflag, hsup, h1, hfull, ne_eq, not_true_eq_false, not_false_eq_true,
          Bool.true_eq_false, if_false, if_true]
    · have hids : (E.cs_volume_zone_by_id d.z_id).elt_ids = some ids := by
        rcases hz with h | h
        · exact absurd h hfull
        · exact h
      refine ⟨forLoop 0 (E.cs_volume_zone_by_id d.z_id).n_elts (fun i retval =>
          Function.update retval (ids i) (a.values (ids i))) retval, ?_, ?_, ?_⟩
      · unfold cs_evaluate_average_on_cells_by_array
        simp only [hflag, hsup, hin, h1, hfull, hids, ne_eq, not_true_eq_false,
          Bool.true_eq_false, if_false, if_true]
      · intro c hc k hk
        rw [if_neg hfull] at hc
        rw [h1] at hk ⊢
        have hk0 : k = 0 := by omega
        subst hk0
        rw [Nat.one_mul, Nat.add_zero]
        exact (average_copy_scalar_writes a.values ids _ retval c).1 hc
      · intro loc
        unfold cs_evaluate_average_on_cells_by_array
        simp only [hflag, hsup, h1, hfull, hids, ne_eq, not_true_eq_false,
          Bool.true_eq_false, if_false, if_true]
  · by_cases hfull : d.meta &&& D.CS_FLAG_FULL_LOC ≠ 0
    · refine ⟨forLoop 0 sh.quant.n_cells (fun c_id retval =>
          memcpy_reals retval (a.stride * c_id) a.values a.stride) retval, ?_, ?_, ?_⟩
      · unfold cs_evaluate_average_on_cells_by_array
        simp only [hflag, hsup, hin, h1, hfull, ne_eq, not_true_eq_false, not_false_eq_true,
          Bool.true_eq_false, if_false, if_true]
      · intro c hc k hk
        rw [if_pos hfull] at hc
        exact (average_copy_writes a.values (fun i => i) a.stride sh.quant.n_cells retval _).1
          ⟨c, hc, k, hk, rfl⟩
      · intro loc
        unfold cs_evaluate_average_on_cells_by_array
        simp only [hflag, hsup, h1, hfull, ne_eq, not_true_eq_false, not_false_eq_true,
          Bool.true_eq_false, if_false, if_true]
    · have hids : (E.cs_volume_zone_by_id d.z_id).elt_ids = some ids := by
        rcases hz with h | h
        · exact absurd h hfull
        · exact h
      refine ⟨forLoop 0 (E.cs_volume_zone_by_id d.z_id).n_elts (fun i retval =>
          memcpy_reals retval (a.stride * ids i) a.values a.stride) retval, ?_, ?_, ?_⟩
      · unfold cs_evaluate_average_on_cells_by_array
        simp only [hflag, hsup, hin, h1, hfull, hids, ne_eq, not_true_eq_false,
          Bool.true_eq_false, if_false, if_true]
      · intro c hc k hk
        rw [if_neg hfull] at hc
        obtain ⟨i, hi, rfl⟩ := hc
        exact (average_copy_writes a.values ids a.stride _ retval _).1 ⟨i, hi, k, hk, rfl⟩
      · intro loc
        unfold cs_evaluate_average_on_cells_by_array
        simp only [hflag, hsup, h1, hfull, hids, ne_eq, not_true_eq_false,
          Bool.true_eq_false, if_false, if_true]


/-- Witness of `average_on_cells_by_array_ignores_location`: an array with two
values per entity declared at the primal vertices, on the zone that lists
cell `1` of `two_tetra`. -/
theorem average_on_cells_by_array_ignores_location_witness :
    ∃ r, cs_evaluate_average_on_cells_by_array sample_defs
        (sample_ext { n_elts := 1, elt_ids := some (ofList 0 [1]) }) two_tetra (256 + 8192)
        (some (xdef_by_array
          { stride := 2, loc := 256 + 1024, values := ofList 0 [4, 6, 8, 10], index := none } 0))
        (some (fun _ => 0)) = .ok r ∧
      (∀ c, (if (xdef_by_array
          { stride := 2, loc := 256 + 1024, values := ofList 0 [4, 6, 8, 10], index := none }
            0).meta &&& sample_defs.CS_FLAG_FULL_LOC ≠ 0 then c < two_tetra.quant.n_cells
            else ∃ i, i < ((sample_ext { n_elts := 1, elt_ids := some (ofList 0 [1]) }
                ).cs_volume_zone_by_id (xdef_by_array
          { stride := 2, loc := 256 + 1024, values := ofList 0 [4, 6, 8, 10], index := none }
            0).z_id).n_elts ∧ c = ofList 0 [1] i) →
        ∀ k, k < 2 → r (2 * c + k) = ofList (0 : ℚ) [4, 6, 8, 10] (2 * c + k)) ∧
      ∀ loc, cs_evaluate_average_on_cells_by_array sample_defs
        (sample_ext { n_elts := 1, elt_ids := some (ofList 0 [1]) }) two_tetra (256 + 8192)
        (some { (xdef_by_array
          { stride := 2, loc := 256 + 1024, values := ofList 0 [4, 6, 8, 10], index := none } 0)
          with input :=
            .array { stride := 2, loc := loc, values := ofList 0 [4, 6, 8, 10], index := none } })
        (some (fun _ => 0)) = .ok r :=
  average_on_cells_by_array_ignores_location sample_defs
    (sample_ext { n_elts := 1, elt_ids := some (ofList 0 [1]) }) two_tetra (256 + 8192)
    (xdef_by_array
      { stride := 2, loc := 256 + 1024, values := ofList 0 [4, 6, 8, 10], index := none } 0)
    { stride := 2, loc := 256 + 1024, values := ofList 0 [4, 6, 8, 10], index := none }
    (ofList 0 [1]) (fun _ => 0) (by decide) rfl rfl (Or.inr rfl)


/-! ## Precision and quadrature rule -/

/-- C21: in `cs_evaluate_average_on_cells_by_analytic` and
`cs_evaluate_average_on_faces_by_analytic`, called as their assertions
require, the precision of the definition selects the rule that is applied:
barycenter and barycenter-subdivision give the one-point rule, `higher` the
4-point rule on tetrahedra and the 3-point rule on triangles, `highest` the
5-point rule on tetrahedra and the 4-point rule on triangles, in the scalar
variant for the dimension 1 and in the vector variant for the dimension 3.
The four precisions are distinct values, as the labels of a `switch` are. -/
theorem precision_selects_quadrature_rule (D : cs_defs_t) (E : cs_extern_t) (sh : cs_shared_t)
    (dof_flag : Nat) (d : cs_xdef_t) (func : cs_analytic_func_t) (retval : Nat → ℚ)
    (hsup : d.support = D.CS_XDEF_SUPPORT_VOLUME) (hin : d.input = .analytic func)
    (h31 : D.CS_QUADRATURE_HIGHER ≠ D.CS_QUADRATURE_BARY)
    (h32 : D.CS_QUADRATURE_HIGHER ≠ D.CS_QUADRATURE_BARY_SUBDIV)
    (h41 : D.CS_QUADRATURE_HIGHEST ≠ D.CS_QUADRATURE_BARY)
    (h42 : D.CS_QUADRATURE_HIGHEST ≠ D.CS_QUADRATURE_BARY_SUBDIV)
    (h43 : D.CS_QUADRATURE_HIGHEST ≠ D.CS_QUADRATURE_HIGHER) :
    (D.cs_flag_test dof_flag D.cs_flag_primal_cell = true → d.dim = 1 →
      dof_flag &&& D.CS_FLAG_SCALAR ≠ 0 →
      (d.qtype = D.CS_QUADRATURE_BARY ∨ d.qtype = D.CS_QUADRATURE_BARY_SUBDIV →
        cs_evaluate_average_on_cells_by_analytic D E sh dof_flag (some d) (some retval) =
          .ok (_pcsa_by_analytic E sh func (E.cs_volume_zone_by_id d.z_id).n_elts
            (E.cs_volume_zone_by_id d.z_id).elt_ids E.cs_quadrature_tet_1pt_scal retval)) ∧
      (d.qtype = D.CS_QUADRATURE_HIGHER →
        cs_evaluate_average_on_cells_by_analytic D E sh dof_flag (some d) (some retval) =
          .ok (_pcsa_by_analytic E sh func (E.cs_volume_zone_by_id d.z_id).n_elts
            (E.cs_volume_zone_by_id d.z_id).elt_ids E.cs_quadrature_tet_4pts_scal retval)) ∧
      (d.qtype = D.CS_QUADRATURE_HIGHEST →
        cs_evaluate_average_on_cells_by_analytic D E sh dof_flag (some d) (some retval) =
          .ok (_pcsa_by_analytic E sh func (E.cs_volume_zone_by_id d.z_id).n_elts
            (E.cs_volume_zone_by_id d.z_id).elt_ids E.cs_quadrature_tet_5pts_scal retval))) ∧
    (D.cs_flag_test dof_flag D.cs_flag_primal_cell = true → d.dim = 3 →
      dof_flag &&& D.CS_FLAG_VECTOR ≠ 0 →
      (d.qtype = D.CS_QUADRATURE_BARY ∨ d.qtype = D.CS_QUADRATURE_BARY_SUBDIV →
        cs_evaluate_average_on_cells_by_analytic D E sh dof_flag (some d) (some retval) =
          .ok (_pcva_by_analytic E sh func (E.cs_volume_zone_by_id d.z_id).n_elts
            (E.cs_volume_zone_by_id d.z_id).elt_ids E.cs_quadrature_tet_1pt_vect retval)) ∧
      (d.qtype = D.CS_QUADRATURE_HIGHER →
        cs_evaluate_average_on_cells_by_analytic D E sh dof_flag (some d) (some retval) =
          .ok (_pcva_by_analytic E sh func (E.cs_volume_zone_by_id d.z_id).n_elts
            (E.cs_volume_zone_by_id d.z_id).elt_ids E.cs_quadrature_tet_4pts_vect retval)) ∧
      (d.qtype = D.CS_QUADRATURE_HIGHEST →
        cs_evaluate_average_on_cells_by_analytic D E sh dof_flag (some d) (some retval) =
          .ok (_pcva_by_analytic E sh func (E.cs_volume_zone_by_id d.z_id).n_elts
            (E.cs_volume_zone_by_id d.z_id).elt_ids E.cs_quadrature_tet_5pts_vect retval))) ∧
    (D.cs_flag_test dof_flag D.cs_flag_primal_face = true → d.dim = 1 →
      dof_flag &&& D.CS_FLAG_SCALAR ≠ 0 →
      (d.qtype = D.CS_QUADRATURE_BARY ∨ d.qtype = D.CS_QUADRATURE_BARY_SUBDIV →
        cs_evaluate_average_on_faces_by_analytic D E sh dof_flag (some d) (some retval) =
          .ok ((fun (r : Nat → ℚ) => if sh.par.n_ranks > 1 then E.cs_range_set_sync d.dim r
              else r)
            (_pfsa_by_analytic D E sh func (E.cs_volume_zone_by_id d.z_id).n_elts
              (E.cs_volume_zone_by_id d.z_id).elt_ids E.cs_quadrature_tria_1pt_scal retval))) ∧
      (d.qtype = D.CS_QUADRATURE_HIGHER →
        cs_evaluate_average_on_faces_by_analytic D E sh dof_flag (some d) (some retval) =
          .ok ((fun (r : Nat → ℚ) => if sh.par.n_ranks > 1 then E.cs_range_set_sync d.dim r
              else r)
            (_pfsa_by_analytic D E sh func (E.cs_volume_zone_by_id d.z_id).n_elts
              (E.cs_volume_zone_by_id d.z_id).elt_ids E.cs_quadrature_tria_3pts_scal retval))) ∧
      (d.qtype = D.CS_QUADRATURE_HIGHEST →
        cs_evaluate_average_on_faces_by_analytic D E sh dof_flag (some d) (some retval) =
          .ok ((fun (r : Nat → ℚ) => if sh.par.n_ranks > 1 then E.cs_range_set_sync d.dim r
              else r)
            (_pfsa_by_analytic D E sh func (E.cs_volume_zone_by_id d.z_id).n_elts
              (E.cs_volume_zone_by_id d.z_id).elt_ids E.cs_quadrature_tria_4pts_scal
              retval)))) ∧
    (D.cs_flag_test dof_flag D.cs_flag_primal_face = true → d.dim = 3 →
      dof_flag &&& D.CS_FLAG_VECTOR ≠ 0 →
      (d.qtype = D.CS_QUADRATURE_BARY ∨ d.qtype = D.CS_QUADRATURE_BARY_SUBDIV →
        cs_evaluate_average_on_faces_by_analytic D E sh dof_flag (some d) (some retval) =
          .ok ((fun (r : Nat → ℚ) => if sh.par.n_ranks > 1 then E.cs_range_set_sync d.dim r
              else r)
            (_pfva_by_analytic D E sh func (E.cs_volume_zone_by_id d.z_id).n_elts
              (E.cs_volume_zone_by_id d.z_id).elt_ids E.cs_quadrature_tria_1pt_vect retval))) ∧
      (d.qtype = D.CS_QUADRATURE_HIGHER →
        cs_evaluate_average_on_faces_by_analytic D E sh dof_flag (some d) (some retval) =
          .ok ((fun (r : Nat → ℚ) => if sh.par.n_ranks > 1 then E.cs_range_set_sync d.dim r
              else r)
            (_pfva_by_analytic D E sh func (E.cs_volume_zone_by_id d.z_id).n_elts
              (E.cs_volume_zone_by_id d.z_id).elt_ids E.cs_quadrature_tria_3pts_vect retval))) ∧
      (d.qtype = D.CS_QUADRATURE_HIGHEST →
        cs_evaluate_average_on_faces_by_analytic D E sh dof_flag (some d) (some retval) =
          .ok ((fun (r : Nat → ℚ) => if sh.par.n_ranks > 1 then E.cs_range_set_sync d.dim r
              else r)
            (_pfva_by_analytic D E sh func (E.cs_volume_zone_by_id d.z_id).n_elts
              (E.cs_volume_zone_by_id d.z_id).elt_ids E.cs_quadrature_tria_4pts_vect
              retval)))) := by
  have e31 : ¬ (D.CS_QUADRATURE_HIGHER = D.CS_QUADRATURE_BARY ∨
      D.CS_QUADRATURE_HIGHER = D.CS_QUADRATURE_BARY_SUBDIV) := fun h => h.elim h31 h32
  have e41 : ¬ (D.CS_QUADRATURE_HIGHEST = D.CS_QUADRATURE_BARY ∨
      D.CS_QUADRATURE_HIGHEST = D.CS_QUADRATURE_BARY_SUBDIV) := fun h => h.elim h41 h42
  refine ⟨?_, ?_, ?_, ?_⟩
  · intro hf hd hs
    unfold cs_evaluate_average_on_cells_by_analytic tet_scal_rule
    refine ⟨fun hq => ?_, fun hq => ?_, fun hq => ?_⟩
    · simp only [hsup, ne_eq, not_true_eq_false, if_false, hf, Bool.true_eq_false, hd, if_true,
        hs, hq, hin]
    · simp only [hsup, ne_eq, not_true_eq_false, if_false, hf, Bool.true_eq_false, hd, if_true,
        hs, hq, e31, hin]
    · simp only [hsup, ne_eq, not_true_eq_false, if_false, hf, Bool.true_eq_false, hd, if_true,
        hs, hq, e41, h43, hin]
  · intro hf hd hs
    unfold cs_evaluate_average_on_cells_by_analytic tet_vect_rule
    refine ⟨fun hq => ?_, fun hq => ?_, fun hq => ?_⟩
    · simp only [hsup, ne_eq, not_true_eq_false, if_false, hf, Bool.true_eq_false, hd, if_true,
        hs, hq, hin, OfNat.ofNat_ne_one]
    · simp only [hsup, ne_eq, not_true_eq_false, if_false, hf, Bool.true_eq_false, hd, if_true,
        hs, hq, e31, hin, OfNat.ofNat_ne_one]
    · simp only [hsup, ne_eq, not_true_eq_false, if_false, hf, Bool.true_eq_false, hd, if_true,
        hs, hq, e41, h43, hin, OfNat.ofNat_ne_one]
  · intro hf hd hs
    unfold cs_evaluate_average_on_faces_by_analytic tria_scal_rule
    refine ⟨fun hq => ?_, fun hq => ?_, fun hq => ?_⟩
    · simp only [hsup, ne_eq, not_true_eq_false, if_false, hf, Bool.true_eq_false, hd, if_true,
        hs, hq, hin]
    · simp only [hsup, ne_eq, not_true_eq_false, if_false, hf, Bool.true_eq_false, hd, if_true,
        hs, hq, e31, hin]
    · simp only [hsup, ne_eq, not_true_eq_false, if_false, hf, Bool.true_eq_false, hd, if_true,
        hs, hq, e41, h43, hin]
  · intro hf hd hs
    unfold cs_evaluate_average_on_faces_by_analytic tria_vect_rule
    refine ⟨fun hq => ?_, fun hq => ?_, fun hq => ?_⟩
    · simp only [hsup, ne_eq, not_true_eq_false, if_false, hf, Bool.true_eq_false, hd, if_true,
        hs, hq, hin, OfNat.ofNat_ne_one]
    · simp only [hsup, ne_eq, not_true_eq_false, if_false, hf, Bool.true_eq_false, hd, if_true,
        hs, hq, e31, hin, OfNat.ofNat_ne_one]
    · simp only [hsup, ne_eq, not_true_eq_false, if_false, hf, Bool.true_eq_false, hd, if_true,
        hs, hq, e41, h43, hin, OfNat.ofNat_ne_one]


/-- Witness of `precision_selects_quadrature_rule`, with rules that record
their number of points: the precision `higher` in dimension 1 on the cells
calls the 4-point scalar rule on tetrahedra, and the precision `highest` in
dimension 3 on the faces calls the 4-point vector rule on triangles. -/
theorem precision_selects_quadrature_rule_witness :
    cs_evaluate_average_on_cells_by_analytic sample_defs
        (tagged_ext { n_elts := 1, elt_ids := none }) (one_tetra 3)
        (2 + 4 + 256 + 4096 + 8192)
        (some (xdef_by_analytic (ana_const 1) 1 sample_defs.CS_QUADRATURE_HIGHER))
        (some (fun _ => 0)) =
      .ok (_pcsa_by_analytic (tagged_ext { n_elts := 1, elt_ids := none }) (one_tetra 3)
        (ana_const 1) 1 none (tet_tag 4) (fun _ => 0)) ∧
    cs_evaluate_average_on_faces_by_analytic sample_defs
        (tagged_ext { n_elts := 1, elt_ids := none }) (one_tetra 3)
        (2 + 4 + 256 + 4096 + 8192)
        (some (xdef_by_analytic (ana_const 1) 3 sample_defs.CS_QUADRATURE_HIGHEST))
        (some (fun _ => 0)) =
      .ok (_pfva_by_analytic sample_defs (tagged_ext { n_elts := 1, elt_ids := none })
        (one_tetra 3) (ana_const 1) 1 none (tria_tag 14) (fun _ => 0)) :=
  ⟨((precision_selects_quadrature_rule sample_defs
      (tagged_ext { n_elts := 1, elt_ids := none }) (one_tetra 3) (2 + 4 + 256 + 4096 + 8192)
      (xdef_by_analytic (ana_const 1) 1 sample_defs.CS_QUADRATURE_HIGHER) (ana_const 1)
      (fun _ => 0) rfl rfl (by decide) (by decide) (by decide) (by decide) (by decide)).1
      (by decide) rfl (by decide)).2.1 rfl,
   ((precision_selects_quadrature_rule sample_defs
      (tagged_ext { n_elts := 1, elt_ids := none }) (one_tetra 3) (2 + 4 + 256 + 4096 + 8192)
      (xdef_by_analytic (ana_const 1) 3 sample_defs.CS_QUADRATURE_HIGHEST) (ana_const 1)
      (fun _ => 0) rfl rfl (by decide) (by decide) (by decide) (by decide)
      (by decide)).2.2.2 (by decide) rfl (by decide)).2.2 rfl⟩


/-! ## Vector at all vertices from a cell-located array -/

theorem forLoop_shift {σ : Type} (lo hi : Nat) (body : Nat → σ → σ) (s : σ) :
    forLoop 0 (hi - lo) (fun v s => body (lo + v) s) s = forLoop lo hi body s := by
  unfold forLoop
  rw [Nat.sub_zero, ← List.range_eq_range', List.range'_eq_map_range lo, List.foldl_map]

theorem nested_buffer_sum2 (a : cs_adjacency_t) (cells : List Nat)
    (step : Nat → Nat → (Nat → ℚ) → (Nat → ℚ)) (g : Nat → Nat → Nat → ℚ)
    (h : ∀ c j t x, step c j t x = t x + g c j x) (t0 : Nat → ℚ) (x : Nat) :
    cells.foldl (fun acc c => (slice a c).foldl (fun t j => step c j t) acc) t0 x =
      t0 x + (cells.map (fun c => ((slice a c).map (fun j => g c j x)).sum)).sum := by
  refine foldl_add_buffer (fun c x => ((slice a c).map (fun j => g c j x)).sum)
    (fun c acc => (slice a c).foldl (fun t j => step c j t) acc) cells ?_ t0 x
  intro c _ t y
  exact foldl_add_buffer (g c) (step c) (slice a c) (fun j _ t x => h c j t x) t y

/-- The loop on the vertices of one cell acts on `dc_vol` and on `eval`
separately. -/
theorem vtx_accumulate_eq (connect : cs_cdo_connect_t) (quant : cs_cdo_quantities_t)
    (c : Nat) (cv : Nat → ℚ) (s : (Nat → ℚ) × (Nat → ℚ)) :
    vtx_accumulate connect quant c cv s =
      ((slice connect.c2v c).foldl (fun t j =>
          Function.update t (connect.c2v.ids j) (t (connect.c2v.ids j) + quant.dcell_vol j))
          s.1,
       (slice connect.c2v c).foldl (fun t j =>
          dcvd_add cv (connect.c2v.ids j) (quant.dcell_vol j) t) s.2) := by
  obtain ⟨dc, ev⟩ := s
  exact (forLoop_shift (connect.c2v.idx c) (connect.c2v.idx (c + 1))
    (fun j (s : (Nat → ℚ) × (Nat → ℚ)) =>
      (Function.update s.1 (connect.c2v.ids j) (s.1 (connect.c2v.ids j) + quant.dcell_vol j),
       dcvd_add cv (connect.c2v.ids j) (quant.dcell_vol j) s.2)) (dc, ev)).trans
    (forLoop_pair (connect.c2v.idx c) (connect.c2v.idx (c + 1))
      (fun j (t : Nat → ℚ) =>
        Function.update t (connect.c2v.ids j) (t (connect.c2v.ids j) + quant.dcell_vol j))
      (fun j (t : Nat → ℚ) => dcvd_add cv (connect.c2v.ids j) (quant.dcell_vol j) t) dc ev)

theorem vtx_accumulate_loops (connect : cs_cdo_connect_t) (quant : cs_cdo_quantities_t)
    (cv : Nat → Nat → ℚ) (n : Nat) (dc ev : Nat → ℚ) :
    forLoop 0 n (fun c s => vtx_accumulate connect quant c (cv c) s) (dc, ev) =
      ((List.range n).foldl (fun acc c => (slice connect.c2v c).foldl (fun t j =>
          Function.update t (connect.c2v.ids j) (t (connect.c2v.ids j) + quant.dcell_vol j))
          acc) dc,
       (List.range n).foldl (fun acc c => (slice connect.c2v c).foldl (fun t j =>
          dcvd_add (cv c) (connect.c2v.ids j) (quant.dcell_vol j) t) acc) ev) := by
  have e : (fun c (s : (Nat → ℚ) × (Nat → ℚ)) => vtx_accumulate connect quant c (cv c) s) =
      (fun c (s : (Nat → ℚ) × (Nat → ℚ)) =>
        ((fun c (t : Nat → ℚ) => (slice connect.c2v c).foldl (fun t j =>
          Function.update t (connect.c2v.ids j)
            (t (connect.c2v.ids j) + quant.dcell_vol j)) t) c s.1,
         (fun c (t : Nat → ℚ) => (slice connect.c2v c).foldl (fun t j =>
          dcvd_add (cv c) (connect.c2v.ids j) (quant.dcell_vol j) t) t) c s.2)) := by
    funext c s
    exact vtx_accumulate_eq connect quant c (cv c) s
  rw [e]
  exact (forLoop_pair 0 n
    (fun c (t : Nat → ℚ) => (slice connect.c2v c).foldl (fun t j =>
      Function.update t (connect.c2v.ids j) (t (connect.c2v.ids j) + quant.dcell_vol j)) t)
    (fun c (t : Nat → ℚ) => (slice connect.c2v c).foldl (fun t j =>
      dcvd_add (cv c) (connect.c2v.ids j) (quant.dcell_vol j) t) t) dc ev).trans
    (by rw [forLoop_range, forLoop_range])

/-- Total dual volume gathered in `dc_vol[x]`. -/
theorem dc_vol_loops_apply (a : cs_adjacency_t) (d : Nat → ℚ) (cells : List Nat)
    (t0 : Nat → ℚ) (x : Nat) :
    cells.foldl (fun acc c => (slice a c).foldl
      (fun t j => Function.update t (a.ids j) (t (a.ids j) + d j)) acc) t0 x =
      t0 x + incidence_sum a cells (fun j => decide (a.ids j = x)) d := by
  rw [nested_buffer_sum a cells (fun j t => Function.update t (a.ids j) (t (a.ids j) + d j))
    (fun j x => if decide (a.ids j = x) = true then d j else 0)
    (fun j t x => by
      by_cases h : a.ids j = x
      · subst h
        simp
      · simp [h, Function.update_noteq (Ne.symm h)]) t0 x]
  unfold incidence_sum
  congr 2
  apply List.map_congr_left
  intro c _
  exact sum_map_ite_eq_filter (slice a c) (fun j => decide (a.ids j = x)) d

/-- Weighted sum gathered in `eval[x]`, for cell vectors `cv c`. -/
theorem eval_loops_apply (a : cs_adjacency_t) (d : Nat → ℚ) (cv : Nat → Nat → ℚ)
    (cells : List Nat) (t0 : Nat → ℚ) (x : Nat) :
    cells.foldl (fun acc c => (slice a c).foldl
      (fun t j => dcvd_add (cv c) (a.ids j) (d j) t) acc) t0 x =
      t0 x + incidence_sum2 a cells (fun j => decide (a.ids j = x / 3))
        (fun c j => d j * cv c (x % 3)) := by
  rw [nested_buffer_sum2 a cells (fun c j t => dcvd_add (cv c) (a.ids j) (d j) t)
    (fun c j x => if decide (a.ids j = x / 3) = true then d j * cv c (x % 3) else 0)
    (fun c j t x => dcvd_add_apply (cv c) (a.ids j) (d j) t x) t0 x]
  unfold incidence_sum2
  congr 2
  apply List.map_congr_left
  intro c _
  exact sum_map_ite_eq_filter (slice a c) (fun j => decide (a.ids j = x / 3))
    (fun j => d j * cv c (x % 3))

theorem scale_block_apply (v : Nat) (inv : ℚ) (e : Nat → ℚ) (x : Nat) :
    forLoop 0 3 (fun k e => Function.update e (3 * v + k) (e (3 * v + k) * inv)) e x =
      if x / 3 = v then e x * inv else e x := by
  show Function.update (Function.update (Function.update e (3 * v + 0) (e (3 * v + 0) * inv))
      (3 * v + 1) _) (3 * v + 2) _ x = _
  by_cases h2 : x = 3 * v + 2
  · have e1 : (3 * v + 2) / 3 = v := by omega
    subst h2
    simp [e1, Function.update_apply]
  · by_cases h1 : x = 3 * v + 1
    · have e1 : (3 * v + 1) / 3 = v := by omega
      subst h1
      simp [e1, Function.update_apply]
    · by_cases h0 : x = 3 * v
      · have e1 : (3 * v) / 3 = v := by omega
        subst h0
        simp [e1, Function.update_apply]
      · have hne : ¬ x / 3 = v := by omega
        simp [hne, Function.update_apply, h0, h1, h2]

theorem scale_loops_apply (n : Nat) (dc e : Nat → ℚ) (x : Nat) :
    forLoop 0 n (fun v_id e =>
      forLoop 0 3 (fun k e =>
        Function.update e (3 * v_id + k) (e (3 * v_id + k) * (1 / dc v_id))) e) e x =
      if x / 3 < n then e x * (1 / dc (x / 3)) else e x := by
  rw [forLoop_range]
  induction n with
  | zero => simp
  | succ n ih =>
    rw [List.range_succ, List.foldl_append, List.foldl_cons, List.foldl_nil,
      scale_block_apply, ih]
    by_cases h : x / 3 = n
    · subst h
      simp
    · by_cases h1 : x / 3 < n
      · have h2 : x / 3 < n + 1 := by omega
        simp only [h, if_false, h1, if_true, h2]
      · have h2 : ¬ x / 3 < n + 1 := by omega
        simp only [h, if_false, h1, h2]

theorem incidence_sum2_congr (a : cs_adjacency_t) (cells : List Nat) (p : Nat → Bool)
    (w w2 : Nat → Nat → ℚ) (h : ∀ c ∈ cells, ∀ j, w c j = w2 c j) :
    incidence_sum2 a cells p w = incidence_sum2 a cells p w2 := by
  unfold incidence_sum2
  congr 1
  apply List.map_congr_left
  intro c hc
  congr 1
  apply List.map_congr_left
  intro j _
  exact h c hc j

theorem incidence_sum2_const (a : cs_adjacency_t) (cells : List Nat) (p : Nat → Bool)
    (d : Nat → ℚ) (u : ℚ) :
    incidence_sum2 a cells p (fun _ j => d j * u) = incidence_sum a cells p d * u := by
  have e := incidence_sum_mul_left a cells p d u
  unfold incidence_sum at e ⊢
  unfold incidence_sum2
  rw [mul_comm, ← e]
  congr 1
  apply List.map_congr_left
  intro c _
  congr 1
  apply List.map_congr_left
  intro j _
  exact mul_comm _ _


theorem cell_vector_apply (values stack : Nat → ℚ) (c k : Nat) (hk : k < 3) :
    forLoop 0 3 (fun k cell_vector =>
      Function.update cell_vector k (values (3 * c + k))) stack k = values (3 * c + k) := by
  have hw := writesFn_forLoop (α := ℚ) (g := fun k => values (3 * c + k))
    (fun i x => x = i)
    (fun k cell_vector => Function.update cell_vector k (values (3 * c + k))) 0 3
    (fun i _ _ => writesFn_update (fun k => values (3 * c + k)) i)
  exact (hw stack k).1 ⟨k, Nat.zero_le _, hk, rfl⟩

theorem dc_vol_init (n : Nat) (malloc : Nat → ℚ) (v : Nat) (hv : v < n) :
    forLoop 0 n (fun i dc_vol => Function.update dc_vol i 0) malloc v = 0 := by
  have hw := writesConst_forLoop (α := ℚ) (c := 0) (fun i x => x = i)
    (fun i dc_vol => Function.update dc_vol i 0) 0 n
    (fun i _ _ => writesConst_update (0 : ℚ) i)
  exact (hw malloc v).1 ⟨v, Nat.zero_le _, hv, rfl⟩

/-- Value left by `cs_xdef_eval_3_at_all_vertices_by_array` at `eval[3*v + k]`
in the branch of the cell-located data, in terms of the content of `eval` on
entry. -/
theorem all_vertices_by_array_apply (C : cs_cdo_defs_t) (X : cs_xdef_extern_t)
    (par : cs_parall_t) (n_elts : Nat) (connect : cs_cdo_connect_t)
    (quant : cs_cdo_quantities_t) (a : cs_xdef_array_input_t) (eval : Nat → ℚ)
    (hn : quant.n_vertices ≤ n_elts)
    (hloc : C.cs_test_flag a.loc C.cs_cdo_primal_cell = true) (hs : a.stride = 3) :
    ∃ r, cs_xdef_eval_3_at_all_vertices_by_array C X par n_elts none connect quant a eval
        = .ok r ∧
      ∀ v, v < quant.n_vertices → ∀ k, k < 3 →
        r (3 * v + k) =
          (eval (3 * v + k) +
            incidence_sum2 connect.c2v (List.range quant.n_cells)
              (fun j => decide (connect.c2v.ids j = v))
              (fun c j => quant.dcell_vol j * a.values (3 * c + k))) *
          (1 / incidence_sum connect.c2v (List.range quant.n_cells)
              (fun j => decide (connect.c2v.ids j = v)) quant.dcell_vol) := by
  have hnl : ¬ n_elts < quant.n_vertices := by omega
  refine ⟨vtx_scale quant
    (forLoop 0 quant.n_cells (fun c_id s =>
      vtx_accumulate connect quant c_id
        (forLoop 0 3 (fun k cell_vector =>
          Function.update cell_vector k (a.values (3 * c_id + k))) X.stack_cell_vector) s)
      (forLoop 0 quant.n_vertices (fun i dc_vol => Function.update dc_vol i 0)
        par.malloc_dc_vol, eval)).1
    (forLoop 0 quant.n_cells (fun c_id s =>
      vtx_accumulate connect quant c_id
        (forLoop 0 3 (fun k cell_vector =>
          Function.update cell_vector k (a.values (3 * c_id + k))) X.stack_cell_vector) s)
      (forLoop 0 quant.n_vertices (fun i dc_vol => Function.update dc_vol i 0)
        par.malloc_dc_vol, eval)).2, ?_, ?_⟩
  · unfold cs_xdef_eval_3_at_all_vertices_by_array
    simp only [Option.isSome_none, Bool.false_eq_true, false_or, hnl, if_false, hloc, if_true,
      hs, ne_eq, not_true_eq_false]
  · intro v hv k hk
    have e1 : (3 * v + k) / 3 = v := by omega
    have e2 : (3 * v + k) % 3 = k := by omega
    rw [vtx_accumulate_loops connect quant
      (fun c => forLoop 0 3 (fun k cell_vector =>
          Function.update cell_vector k (a.values (3 * c + k))) X.stack_cell_vector)]
    have hsc := scale_loops_apply quant.n_vertices
      ((List.range quant.n_cells).foldl (fun acc c => (slice connect.c2v c).foldl (fun t j =>
          Function.update t (connect.c2v.ids j) (t (connect.c2v.ids j) + quant.dcell_vol j))
          acc) (forLoop 0 quant.n_vertices (fun i dc_vol => Function.update dc_vol i 0)
            par.malloc_dc_vol))
      ((List.range quant.n_cells).foldl (fun acc c => (slice connect.c2v c).foldl (fun t j =>
          dcvd_add (forLoop 0 3 (fun k cell_vector =>
            Function.update cell_vector k (a.values (3 * c + k))) X.stack_cell_vector)
            (connect.c2v.ids j) (quant.dcell_vol j) t) acc) eval) (3 * v + k)
    rw [e1, if_pos hv, dc_vol_loops_apply, eval_loops_apply, e1, e2,
      dc_vol_init _ _ _ hv, zero_add] at hsc
    refine hsc.trans ?_
    congr 2
    apply incidence_sum2_congr
    intro c _ j
    rw [cell_vector_apply a.values X.stack_cell_vector c k hk]

/-- Without rounding, `cs_xdef_eval_3_at_all_vertices_by_array` with all the
vertices, no list of ids and an array of three values per cell located at the
cells returns; when `eval` holds zeros on entry, for every vertex `v` whose
total dual volume `sum dcell_vol[j]` (over the incidences `(c, j)` with
`c2v.ids[j] = v`) is not zero and every `k < 3`, `eval[3*v + k]` is the sum
over these incidences of `dcell_vol[j] * values[3*c + k]` divided by the
total dual volume.  A vector that is the same in every cell is reproduced. -/
theorem all_vertices_by_array_weighted_average (C : cs_cdo_defs_t) (X : cs_xdef_extern_t)
    (par : cs_parall_t) (n_elts : Nat) (connect : cs_cdo_connect_t)
    (quant : cs_cdo_quantities_t) (a : cs_xdef_array_input_t) (eval : Nat → ℚ)
    (hn : quant.n_vertices ≤ n_elts)
    (hloc : C.cs_test_flag a.loc C.cs_cdo_primal_cell = true) (hs : a.stride = 3)
    (h0 : ∀ x, x < 3 * quant.n_vertices → eval x = 0) :
    ∃ r, cs_xdef_eval_3_at_all_vertices_by_array C X par n_elts none connect quant a eval
        = .ok r ∧
      (∀ v, v < quant.n_vertices →
        incidence_sum connect.c2v (List.range quant.n_cells)
          (fun j => decide (connect.c2v.ids j = v)) quant.dcell_vol ≠ 0 →
        ∀ k, k < 3 →
          r (3 * v + k) =
            incidence_sum2 connect.c2v (List.range quant.n_cells)
              (fun j => decide (connect.c2v.ids j = v))
              (fun c j => quant.dcell_vol j * a.values (3 * c + k)) /
            incidence_sum connect.c2v (List.range quant.n_cells)
              (fun j => decide (connect.c2v.ids j = v)) quant.dcell_vol) ∧
      (∀ u : Nat → ℚ,
        (∀ c, c < quant.n_cells → ∀ k, k < 3 → a.values (3 * c + k) = u k) →
        ∀ v, v < quant.n_vertices →
          incidence_sum connect.c2v (List.range quant.n_cells)
            (fun j => decide (connect.c2v.ids j = v)) quant.dcell_vol ≠ 0 →
          ∀ k, k < 3 → r (3 * v + k) = u k) := by
  obtain ⟨r, hr, hv⟩ := all_vertices_by_array_apply C X par n_elts connect quant a eval hn hloc hs
  refine ⟨r, hr, ?_, ?_⟩
  · intro v hlt _ k hk
    rw [hv v hlt k hk, h0 (3 * v + k) (by omega), zero_add, mul_one_div]
  · intro u hu v hlt hD k hk
    rw [hv v hlt k hk, h0 (3 * v + k) (by omega), zero_add,
      incidence_sum2_congr connect.c2v (List.range quant.n_cells) _
        (fun c j => quant.dcell_vol j * a.values (3 * c + k))
        (fun _ j => quant.dcell_vol j * u k)
        (fun c hc j => by
          beta_reduce
          rw [hu c (List.mem_range.1 hc) k hk]),
      incidence_sum2_const]
    field_simp


/-- Witness of `all_vertices_by_array_weighted_average`: the two cells of
`two_tetra` carrying the vectors `(1, 2, 3)` and `(4, 5, 6)`, and a zero
buffer. -/
theorem all_vertices_by_array_weighted_average_witness :
    ∃ r, cs_xdef_eval_3_at_all_vertices_by_array sample_cdo_defs sample_xdef_ext serial 5 none
        two_tetra.connect two_tetra.quant
        { stride := 3, loc := 256 + 8192, values := ofList 0 [1, 2, 3, 4, 5, 6], index := none }
        (fun _ => 0) = .ok r ∧
      (∀ v, v < two_tetra.quant.n_vertices →
        incidence_sum two_tetra.connect.c2v (List.range two_tetra.quant.n_cells)
          (fun j => decide (two_tetra.connect.c2v.ids j = v)) two_tetra.quant.dcell_vol ≠ 0 →
        ∀ k, k < 3 →
          r (3 * v + k) =
            incidence_sum2 two_tetra.connect.c2v (List.range two_tetra.quant.n_cells)
              (fun j => decide (two_tetra.connect.c2v.ids j = v))
              (fun c j => two_tetra.quant.dcell_vol j *
                ofList (0 : ℚ) [1, 2, 3, 4, 5, 6] (3 * c + k)) /
            incidence_sum two_tetra.connect.c2v (List.range two_tetra.quant.n_cells)
              (fun j => decide (two_tetra.connect.c2v.ids j = v)) two_tetra.quant.dcell_vol) ∧
      (∀ u : Nat → ℚ,
        (∀ c, c < two_tetra.quant.n_cells → ∀ k, k < 3 →
          ofList (0 : ℚ) [1, 2, 3, 4, 5, 6] (3 * c + k) = u k) →
        ∀ v, v < two_tetra.quant.n_vertices →
          incidence_sum two_tetra.connect.c2v (List.range two_tetra.quant.n_cells)
            (fun j => decide (two_tetra.connect.c2v.ids j = v)) two_tetra.quant.dcell_vol ≠ 0 →
          ∀ k, k < 3 → r (3 * v + k) = u k) :=
  all_vertices_by_array_weighted_average sample_cdo_defs sample_xdef_ext serial 5
    two_tetra.connect two_tetra.quant
    { stride := 3, loc := 256 + 8192, values := ofList 0 [1, 2, 3, 4, 5, 6], index := none }
    (fun _ => 0) (by decide) (by decide) rfl (fun _ _ => rfl)


/-! ## Name to id map: a key that is already present -/

set_option maxRecDepth 8192 in
/-- C30 (divergence): a map built from `cs_map_name_to_id_create` by two calls
of `cs_map_name_to_id`, the first with the key `"a"` (id `0`), the second with
a key of 126 bytes `'b'` (id `1`).  The second insertion reallocates the block
`keys` (`2 + 126 + 1 >= 128`) and leaves `key[0]` as it was.  When the
allocator moves the block, the next call with `"a"`, a key that is present,
reads `key[0]` outside the block and does not return the id `0`, however many
iterations are allowed; when the allocator extends the block in place, the
same call returns `0` and leaves the map as it is. -/
theorem name_to_id_present_key_after_realloc :
    (∃ m1 m2,
      cs_map_name_to_id moving_mem 1 (cs_map_name_to_id_create moving_mem) [97] = .ok (0, m1) ∧
      cs_map_name_to_id moving_mem 2 m1 (List.replicate 126 98) = .ok (1, m2) ∧
      m2.key 0 = 1000 ∧ m2.keys_addr = 5096 ∧
      ∀ fuel, cs_map_name_to_id moving_mem (fuel + 1) m2 [97] = .error .invalid_read) ∧
    (∃ m1 m2,
      cs_map_name_to_id fixed_mem 1 (cs_map_name_to_id_create fixed_mem) [97] = .ok (0, m1) ∧
      cs_map_name_to_id fixed_mem 2 m1 (List.replicate 126 98) = .ok (1, m2) ∧
      cs_map_name_to_id fixed_mem 3 m2 [97] = .ok (0, m2)) :=
  ⟨⟨_, _, rfl, rfl, rfl, rfl, fun _ => rfl⟩, ⟨_, _, rfl, rfl, rfl⟩⟩


/-! ## Cell-wise vector at points of a cell: array against field -/

/-- C35 (divergence): for the cell `0` with the vector `(1, 2, 3)`, two points
and a zero buffer, `cs_xdef_eval_cw_3_at_xyz_by_field` on a cell-located field
of dimension 3 leaves `[1, 2, 3, 1, 2, 3]`, and
`cs_xdef_eval_cw_3_at_xyz_by_array` on a cell-located array of stride 3 with
the same values leaves `[1, 2, 3, 1, 3, 0]`: its third write of point `i` goes
to `eval[2*i + 2]`.  With one point the two results agree. -/
theorem cw_3_at_xyz_array_field_divergence :
    (∃ r_a r_f,
      cs_xdef_eval_cw_3_at_xyz_by_array sample_cdo_defs sample_xdef_ext
        (vtx_cell_mesh 0 (fun _ => 0) (fun _ => 0)) 2
        { stride := 3, loc := 256 + 8192, values := ofList 0 [1, 2, 3], index := none }
        (fun _ => 0) = .ok r_a ∧
      cs_xdef_eval_cw_3_at_xyz_by_field sample_cdo_defs sample_xdef_ext
        (vtx_cell_mesh 0 (fun _ => 0) (fun _ => 0)) 2
        (some { dim := 3, location_id := 1, val := ofList 0 [1, 2, 3] })
        (fun _ => 0) = .ok r_f ∧
      (List.range 6).map r_a = [1, 2, 3, 1, 3, 0] ∧
      (List.range 6).map r_f = [1, 2, 3, 1, 2, 3]) ∧
    (∃ r_a r_f,
      cs_xdef_eval_cw_3_at_xyz_by_array sample_cdo_defs sample_xdef_ext
        (vtx_cell_mesh 0 (fun _ => 0) (fun _ => 0)) 1
        { stride := 3, loc := 256 + 8192, values := ofList 0 [1, 2, 3], index := none }
        (fun _ => 0) = .ok r_a ∧
      cs_xdef_eval_cw_3_at_xyz_by_field sample_cdo_defs sample_xdef_ext
        (vtx_cell_mesh 0 (fun _ => 0) (fun _ => 0)) 1
        (some { dim := 3, location_id := 1, val := ofList 0 [1, 2, 3] })
        (fun _ => 0) = .ok r_f ∧
      (List.range 6).map r_a = [1, 2, 3, 0, 0, 0] ∧
      (List.range 6).map r_f = [1, 2, 3, 0, 0, 0]) :=
  ⟨⟨_, _, rfl, rfl, by decide!, by decide!⟩, ⟨_, _, rfl, rfl, by decide!, by decide!⟩⟩

/-! ## The integral on a tetrahedral cell -/

/-- C33: in `_pcsd_by_analytic` the step of a selected cell `c` that is a
tetrahedron is ONE call of the rule, on the four vertices
`c2v.ids[c2v.idx[c] + 0..3]` in this order, with the measure `cell_vol[c]`,
accumulating into `values[c]`, with no loop on faces and edges: the evaluator
is the succession of these steps over the selected cells.  With the one-point
rule, the constant function `k`, a list without duplicates and a zero entry,
`values[c]` is `cell_vol[c] * k` on return. -/
theorem pcsd_by_analytic_tetra_single_call (E : cs_extern_t) (sh : cs_shared_t)
    (ana : cs_analytic_func_t) (ci : cs_quadrature_tetra_integral_t) (k : ℚ) (n_elts : Nat)
    (elt_ids : Option (Nat → Nat)) (values : Nat → ℚ) (c : Nat)
    (hnd : (selected_cells n_elts elt_ids).Nodup) (hc : c ∈ selected_cells n_elts elt_ids)
    (ht : sh.connect.cell_type c = .FVM_CELL_TETRA) (hzero : values c = 0) :
    _pcsd_by_analytic E sh ana n_elts elt_ids ci values =
      (selected_cells n_elts elt_ids).foldl (fun vals c_id =>
        if sh.connect.cell_type c_id = .FVM_CELL_TETRA then
          ci sh.t_cur
            (sh.quant.vtx_coord (sh.connect.c2v.ids (sh.connect.c2v.idx c_id + 0)))
            (sh.quant.vtx_coord (sh.connect.c2v.ids (sh.connect.c2v.idx c_id + 1)))
            (sh.quant.vtx_coord (sh.connect.c2v.ids (sh.connect.c2v.idx c_id + 2)))
            (sh.quant.vtx_coord (sh.connect.c2v.ids (sh.connect.c2v.idx c_id + 3)))
            (sh.quant.cell_vol c_id) ana vals c_id
        else pc_cell_integral E sh ana ci c_id vals) values ∧
    _pcsd_by_analytic E sh (ana_const k) n_elts elt_ids tet_1pt_scal values c =
      sh.quant.cell_vol c * k := by
  constructor
  · unfold _pcsd_by_analytic
    rw [forLoop_elt_id n_elts elt_ids (fun c vals => pc_cell_integral E sh ana ci c vals)]
    apply foldl_congr_mem
    intro c_id _ vals
    by_cases h : sh.connect.cell_type c_id = .FVM_CELL_TETRA
    · unfold pc_cell_integral
      simp only [h, if_true]
    · simp only [h, if_false]
  · rw [pcsd_by_analytic_apply E sh (ana_const k) n_elts elt_ids tet_1pt_scal values
      (fun t a b c d vol off => tet_1pt_scal_scalarRule t a b c d vol (ana_const k) off)
      hnd c hc]
    unfold pc_cell_integral
    simp only [ht, if_true, hzero]
    show Function.update (fun _ => (0 : ℚ)) c
      (0 + sh.quant.cell_vol c * (Function.update (fun _ => (0 : ℚ)) (0 + 0) k 0)) c = _
    rw [Function.update_same]
    simp

/-- Witness of `pcsd_by_analytic_tetra_single_call`: cell `1` of `two_tetra`
(volume `26`), the two cells being selected, and the constant `2`. -/
theorem pcsd_by_analytic_tetra_single_call_witness :
    _pcsd_by_analytic (sample_ext { n_elts := 2, elt_ids := none }) two_tetra (ana_const 2) 2
        none tet_1pt_scal (fun _ => 0) =
      (selected_cells 2 none).foldl (fun vals c_id =>
        if two_tetra.connect.cell_type c_id = .FVM_CELL_TETRA then
          tet_1pt_scal two_tetra.t_cur
            (two_tetra.quant.vtx_coord
              (two_tetra.connect.c2v.ids (two_tetra.connect.c2v.idx c_id + 0)))
            (two_tetra.quant.vtx_coord
              (two_tetra.connect.c2v.ids (two_tetra.connect.c2v.idx c_id + 1)))
            (two_tetra.quant.vtx_coord
              (two_tetra.connect.c2v.ids (two_tetra.connect.c2v.idx c_id + 2)))
            (two_tetra.quant.vtx_coord
              (two_tetra.connect.c2v.ids (two_tetra.connect.c2v.idx c_id + 3)))
            (two_tetra.quant.cell_vol c_id) (ana_const 2) vals c_id
        else pc_cell_integral (sample_ext { n_elts := 2, elt_ids := none }) two_tetra
          (ana_const 2) tet_1pt_scal c_id vals) (fun _ => 0) ∧
    _pcsd_by_analytic (sample_ext { n_elts := 2, elt_ids := none }) two_tetra (ana_const 2) 2
        none tet_1pt_scal (fun _ => 0) 1 = two_tetra.quant.cell_vol 1 * 2 :=
  pcsd_by_analytic_tetra_single_call (sample_ext { n_elts := 2, elt_ids := none }) two_tetra
    (ana_const 2) tet_1pt_scal 2 2 none (fun _ => 0) 1 (by decide) (by decide) rfl rfl

/-! ## The integral on a cell: local view against global evaluator -/

/-- C34 (divergence): on the unit cube, a hexahedron, with the local view
`unit_cube_cm` that agrees with the mesh (`hfc[f]` is the unit normal of the
face dotted with the dual edge vector, `tef` the areas of the sub-triangles,
same face measures, same cell volume `1`), and a rule that adds to the
accumulator the measure it is given: `_cellwise_pcsd_by_analytic` returns
`1`, the sum of the measures `cs_math_onethird * hfc[f] * tef[i] = 1/24` of the
24 sub-tetrahedra, and `_pcsd_by_analytic` leaves `3`, the sum of the measures
`hfc * area = 1/8` it passes.  With the one-point rule on the constant
function `2` the two integrals are `2` and `6`. -/
theorem cellwise_pcsd_by_analytic_measure_divergence :
    (∀ f, f < 6 →
      unit_cube_cm.hfc f =
        (sample_ext { n_elts := 1, elt_ids := none }).cs_math_3_dot_product
          (unit_cube.quant.face f).unitv (unit_cube.quant.dedge_vector f) ∧
      (unit_cube_cm.face f).meas = (unit_cube.quant.face f).meas ∧
      ∀ j, unit_cube.connect.f2e.idx f ≤ j → j < unit_cube.connect.f2e.idx (f + 1) →
        unit_cube_cm.tef j =
          (sample_ext { n_elts := 1, elt_ids := none }).cs_math_surftri
            (unit_cube.quant.vtx_coord
              (unit_cube.connect.e2v.ids (2 * unit_cube.connect.f2e.ids j)))
            (unit_cube.quant.vtx_coord
              (unit_cube.connect.e2v.ids (2 * unit_cube.connect.f2e.ids j + 1)))
            (unit_cube.quant.face f).center) ∧
    unit_cube_cm.vol_c = unit_cube.quant.cell_vol 0 ∧
    _cellwise_pcsd_by_analytic (sample_ext { n_elts := 1, elt_ids := none }) unit_cube
      unit_cube_cm (ana_const 2) scal_probe = 1 ∧
    _pcsd_by_analytic (sample_ext { n_elts := 1, elt_ids := none }) unit_cube
      (ana_const 2) 1 none scal_probe (fun _ => 0) 0 = 3 ∧
    _cellwise_pcsd_by_analytic (sample_ext { n_elts := 1, elt_ids := none }) unit_cube
      unit_cube_cm (ana_const 2) tet_1pt_scal = 2 ∧
    _pcsd_by_analytic (sample_ext { n_elts := 1, elt_ids := none }) unit_cube
      (ana_const 2) 1 none tet_1pt_scal (fun _ => 0) 0 = 6 := by
  refine ⟨?_, rfl, by decide!, by decide!, by decide!, by decide!⟩
  intro f hf
  interval_cases f <;> refine ⟨by decide!, rfl, ?_⟩ <;> intro j h1 h2
  · have h3 : j < 4 := h2
    interval_cases j <;> decide!
  · have h3 : 4 ≤ j := h1
    have h4 : j < 8 := h2
    interval_cases j <;> decide!
  · have h3 : 8 ≤ j := h1
    have h4 : j < 12 := h2
    interval_cases j <;> decide!
  · have h3 : 12 ≤ j := h1
    have h4 : j < 16 := h2
    interval_cases j <;> decide!
  · have h3 : 16 ≤ j := h1
    have h4 : j < 20 := h2
    interval_cases j <;> decide!
  · have h3 : 20 ≤ j := h1
    have h4 : j < 24 := h2
    interval_cases j <;> decide!


/-! ## Navier-Stokes system: no system activated -/

/-- C39: when no Navier-Stokes system is activated (the static pointer is
NULL), `cs_navsto_system_init_setup`, `cs_navsto_system_finalize_setup` (given
the connectivity and the quantities), `cs_navsto_system_initialize` and
`cs_navsto_system_compute` stop with the error of the empty structure;
`cs_navsto_system_destroy` and `cs_navsto_system_log_setup` change nothing,
`cs_navsto_system_get_param` returns NULL and `cs_navsto_system_is_activated`
returns false. -/
theorem navsto_not_activated {W : Type} (N : cs_navsto_defs_t) (X : cs_navsto_extern_t W)
    (w : W) (connect : cs_cdo_connect_t) (quant : cs_cdo_quantities_t) (mesh : cs_mesh_t)
    (dt_cur : ℚ) :
    cs_navsto_system_init_setup N X none w = .error .empty_ns ∧
    cs_navsto_system_finalize_setup N X none w (some connect) (some quant) =
      .error .empty_ns ∧
    cs_navsto_system_initialize (none : Option (cs_navsto_system_t W)) w = .error .empty_ns ∧
    cs_navsto_system_compute (none : Option (cs_navsto_system_t W)) w mesh dt_cur =
      .error .empty_ns ∧
    cs_navsto_system_destroy N X none w = .ok (none, w) ∧
    cs_navsto_system_log_setup N X none w = w ∧
    cs_navsto_system_get_param (none : Option (cs_navsto_system_t W)) = none ∧
    cs_navsto_system_is_activated (none : Option (cs_navsto_system_t W)) = false :=
  ⟨rfl, rfl, rfl, rfl, rfl, rfl, rfl, rfl⟩


/-! ## Navier-Stokes system: destruction -/

/-- A system as `cs_navsto_system_activate` leaves it: parameters with one of
the four couplings, and the function pointer `free` still NULL. -/
theorem navsto_activate_shape {W : Type} (N : cs_navsto_defs_t) (X : cs_navsto_extern_t W)
    (model time_state algo_coupling : Nat) (w w2 : W) (g : Option (cs_navsto_system_t W))
    (h : cs_navsto_system_activate N X model time_state algo_coupling w = .ok (g, w2)) :
    ∃ navsto p, g = some navsto ∧ navsto.param = some p ∧ navsto.free = none ∧
      p = (X.cs_navsto_param_create model time_state algo_coupling w).1 ∧
      navsto.density.isSome = true ∧ navsto.lami_viscosity.isSome = true ∧
      navsto.context.isSome = true ∧
      (p.coupling = N.CS_NAVSTO_COUPLING_UZAWA ∨
       p.coupling = N.CS_NAVSTO_COUPLING_ARTIFICIAL_COMPRESSIBILITY ∨
       p.coupling = N.CS_NAVSTO_COUPLING_ARTIFICIAL_COMPRESSIBILITY_VPP ∨
       p.coupling = N.CS_NAVSTO_COUPLING_PROJECTION) := by
  unfold cs_navsto_system_activate at h
  by_cases hm : model = N.CS_NAVSTO_N_MODELS
  · simp [hm] at h
  · simp only [hm, if_false, _allocate_navsto_system] at h
    by_cases h1 : (X.cs_navsto_param_create model time_state algo_coupling w).1.coupling =
        N.CS_NAVSTO_COUPLING_UZAWA
    · rw [if_pos h1] at h
      simp only [Except.ok.injEq, Prod.mk.injEq] at h
      exact ⟨_, _, h.1.symm, rfl, rfl, rfl, rfl, rfl, rfl, Or.inl h1⟩
    · by_cases h2 : (X.cs_navsto_param_create model time_state algo_coupling w).1.coupling =
          N.CS_NAVSTO_COUPLING_ARTIFICIAL_COMPRESSIBILITY
      · rw [if_neg h1, if_pos h2] at h
        simp only [Except.ok.injEq, Prod.mk.injEq] at h
        exact ⟨_, _, h.1.symm, rfl, rfl, rfl, rfl, rfl, rfl, Or.inr (Or.inl h2)⟩
      · by_cases h3 : (X.cs_navsto_param_create model time_state algo_coupling w).1.coupling =
            N.CS_NAVSTO_COUPLING_ARTIFICIAL_COMPRESSIBILITY_VPP
        · rw [if_neg h1, if_neg h2, if_pos h3] at h
          simp only [Except.ok.injEq, Prod.mk.injEq] at h
          exact ⟨_, _, h.1.symm, rfl, rfl, rfl, rfl, rfl, rfl, Or.inr (Or.inr (Or.inl h3))⟩
        · by_cases h4 : (X.cs_navsto_param_create model time_state algo_coupling w).1.coupling =
              N.CS_NAVSTO_COUPLING_PROJECTION
          · rw [if_neg h1, if_neg h2, if_neg h3, if_pos h4] at h
            simp only [Except.ok.injEq, Prod.mk.injEq] at h
            exact ⟨_, _, h.1.symm, rfl, rfl, rfl, rfl, rfl, rfl,
              Or.inr (Or.inr (Or.inr h4))⟩
          · rw [if_neg h1, if_neg h2, if_neg h3, if_neg h4] at h
            exact absurd h (by simp)

/-- `cs_navsto_system_destroy` on a system whose pointer `free` is NULL: the
call `navsto->free(nsp)` goes through the NULL pointer. -/
theorem navsto_destroy_null_free {W : Type} (N : cs_navsto_defs_t) (X : cs_navsto_extern_t W)
    (navsto : cs_navsto_system_t W) (p : cs_navsto_param_t) (w : W)
    (hp : navsto.param = some p) (hf : navsto.free = none)
    (hc : p.coupling = N.CS_NAVSTO_COUPLING_UZAWA ∨
       p.coupling = N.CS_NAVSTO_COUPLING_ARTIFICIAL_COMPRESSIBILITY ∨
       p.coupling = N.CS_NAVSTO_COUPLING_ARTIFICIAL_COMPRESSIBILITY_VPP ∨
       p.coupling = N.CS_NAVSTO_COUPLING_PROJECTION) :
    cs_navsto_system_destroy N X (some navsto) w = .error .null_call := by
  unfold cs_navsto_system_destroy
  simp only [hp, hc, if_true, _free_context, hf]

/-- `cs_navsto_system_destroy` on a system whose pointer `free` is set. -/
theorem navsto_destroy_some_free {W : Type} (N : cs_navsto_defs_t) (X : cs_navsto_extern_t W)
    (navsto : cs_navsto_system_t W) (p : cs_navsto_param_t) (w : W)
    (free : Option cs_navsto_param_t → W → W)
    (hp : navsto.param = some p) (hf : navsto.free = some free)
    (hc : p.coupling = N.CS_NAVSTO_COUPLING_UZAWA ∨
       p.coupling = N.CS_NAVSTO_COUPLING_ARTIFICIAL_COMPRESSIBILITY ∨
       p.coupling = N.CS_NAVSTO_COUPLING_ARTIFICIAL_COMPRESSIBILITY_VPP ∨
       p.coupling = N.CS_NAVSTO_COUPLING_PROJECTION) :
    cs_navsto_system_destroy N X (some navsto) w =
      .ok (none, X.cs_navsto_param_free (some p) (free (some p) w)) := by
  unfold cs_navsto_system_destroy
  simp only [hp, hc, if_true, _free_context, hf]

/-- What `cs_navsto_system_finalize_setup` does to the pointer `free`: it is
set for the schemes `CDOFB` and `HHO_P0`, and left as it was for the schemes
`HHO_P1` and `HHO_P2`; the parameters are kept. -/
theorem navsto_finalize_free {W : Type} (N : cs_navsto_defs_t) (X : cs_navsto_extern_t W)
    (navsto : cs_navsto_system_t W) (p : cs_navsto_param_t) (w w3 : W)
    (connect : Option cs_cdo_connect_t) (quant : Option cs_cdo_quantities_t)
    (g3 : Option (cs_navsto_system_t W)) (hp : navsto.param = some p)
    (h : cs_navsto_system_finalize_setup N X (some navsto) w connect quant = .ok (g3, w3)) :
    ∃ navsto3, g3 = some navsto3 ∧ navsto3.param = some p ∧
      ((p.space_scheme = N.CS_SPACE_SCHEME_CDOFB ∨
          p.space_scheme = N.CS_SPACE_SCHEME_HHO_P0) →
        navsto3.free = some X.cs_cdofb_navsto_free_context) ∧
      (¬ (p.space_scheme = N.CS_SPACE_SCHEME_CDOFB ∨
          p.space_scheme = N.CS_SPACE_SCHEME_HHO_P0) → navsto3.free = navsto.free) := by
  unfold cs_navsto_system_finalize_setup at h
  by_cases ha : connect.isNone = true ∨ quant.isNone = true
  · rw [if_pos ha] at h
    exact absurd h (by simp)
  · rw [if_neg ha] at h
    rcases hd : navsto.density with _ | density
    · simp [hd] at h
    · rcases hl : navsto.lami_viscosity with _ | lami
      · simp [hd, hl] at h
      · simp only [hd, hl, hp] at h
        by_cases h1 : p.space_scheme = N.CS_SPACE_SCHEME_CDOFB ∨
            p.space_scheme = N.CS_SPACE_SCHEME_HHO_P0
        · rw [if_pos h1] at h
          split at h
          · exact absurd h (by simp)
          · simp only [Except.ok.injEq, Prod.mk.injEq] at h
            refine ⟨_, h.1.symm, ?_, fun _ => rfl, fun hn => absurd h1 hn⟩
            unfold navsto_set_cdofb_functions
            split_ifs <;> exact hp
        · by_cases h2 : p.space_scheme = N.CS_SPACE_SCHEME_HHO_P1 ∨
              p.space_scheme = N.CS_SPACE_SCHEME_HHO_P2
          · rw [if_neg h1, if_pos h2] at h
            split at h
            · exact absurd h (by simp)
            · simp only [Except.ok.injEq, Prod.mk.injEq] at h
              exact ⟨_, h.1.symm, hp, fun hh => absurd hh h1, fun _ => rfl⟩
          · rw [if_neg h1, if_neg h2] at h
            exact absurd h (by simp)

/-- C40 (what the code does): `cs_navsto_system_destroy` calls `navsto->free`
without a test, and this pointer is NULL from the allocation until
`cs_navsto_system_finalize_setup` sets it, which it does for the schemes
`CDOFB` and `HHO_P0` only.  So, for a system that `cs_navsto_system_activate`
has just activated, `cs_navsto_system_destroy` calls a NULL function pointer;
it still does after `cs_navsto_system_finalize_setup` when the space scheme is
`HHO_P1` or `HHO_P2`; it completes and leaves no system activated after
`cs_navsto_system_finalize_setup` when the scheme is `CDOFB` or `HHO_P0`. -/
theorem navsto_destroy_calls_unset_free {W : Type} (N : cs_navsto_defs_t)
    (X : cs_navsto_extern_t W) (model time_state algo_coupling : Nat) (w w2 : W)
    (g : Option (cs_navsto_system_t W))
    (h : cs_navsto_system_activate N X model time_state algo_coupling w = .ok (g, w2)) :
    cs_navsto_system_is_activated g = true ∧
    cs_navsto_system_destroy N X g w2 = .error .null_call ∧
    (∀ connect quant g3 w3,
      cs_navsto_system_finalize_setup N X g w2 connect quant = .ok (g3, w3) →
      (((X.cs_navsto_param_create model time_state algo_coupling w).1.space_scheme =
            N.CS_SPACE_SCHEME_CDOFB ∨
          (X.cs_navsto_param_create model time_state algo_coupling w).1.space_scheme =
            N.CS_SPACE_SCHEME_HHO_P0) →
        ∃ w4, cs_navsto_system_destroy N X g3 w3 = .ok (none, w4)) ∧
      (¬ ((X.cs_navsto_param_create model time_state algo_coupling w).1.space_scheme =
            N.CS_SPACE_SCHEME_CDOFB ∨
          (X.cs_navsto_param_create model time_state algo_coupling w).1.space_scheme =
            N.CS_SPACE_SCHEME_HHO_P0) →
        cs_navsto_system_is_activated g3 = true ∧
        cs_navsto_system_destroy N X g3 w3 = .error .null_call)) := by
  obtain ⟨navsto, p, hg, hp, hf, hpe, _, _, _, hc⟩ :=
    navsto_activate_shape N X model time_state algo_coupling w w2 g h
  subst hg
  subst hpe
  refine ⟨rfl, navsto_destroy_null_free N X navsto _ w2 hp hf hc, ?_⟩
  intro connect quant g3 w3 h3
  obtain ⟨navsto3, hg3, hp3, hset, hkeep⟩ :=
    navsto_finalize_free N X navsto _ w2 w3 connect quant g3 hp h3
  subst hg3
  refine ⟨fun hs => ⟨_, navsto_destroy_some_free N X navsto3 _ w3 _ hp3 (hset hs) hc⟩,
    fun hs => ⟨rfl, navsto_destroy_null_free N X navsto3 _ w3 hp3 ?_ hc⟩⟩
  rw [hkeep hs, hf]

/-- Witness of `navsto_destroy_calls_unset_free`: a system activated with the
Uzawa coupling and the scheme `HHO_P1`, the other modules having made no call
before. -/
theorem navsto_destroy_calls_unset_free_witness :
    ∃ g w2,
      cs_navsto_system_activate sample_navsto_defs (sample_navsto_ext 5) 0 1 0 0 = .ok (g, w2) ∧
      cs_navsto_system_is_activated g = true ∧
      cs_navsto_system_destroy sample_navsto_defs (sample_navsto_ext 5) g w2 =
        .error .null_call ∧
      ∃ g3 w3,
        cs_navsto_system_finalize_setup sample_navsto_defs (sample_navsto_ext 5) g w2
          (some two_tetra.connect) (some two_tetra.quant) = .ok (g3, w3) ∧
        cs_navsto_system_is_activated g3 = true ∧
        cs_navsto_system_destroy sample_navsto_defs (sample_navsto_ext 5) g3 w3 =
          .error .null_call :=
  ⟨_, _, rfl,
    (navsto_destroy_calls_unset_free sample_navsto_defs (sample_navsto_ext 5) 0 1 0 0 _ _
      rfl).1,
    (navsto_destroy_calls_unset_free sample_navsto_defs (sample_navsto_ext 5) 0 1 0 0 _ _
      rfl).2.1,
    _, _, rfl,
    ((navsto_destroy_calls_unset_free sample_navsto_defs (sample_navsto_ext 5) 0 1 0 0 _ _
      rfl).2.2 (some two_tetra.connect) (some two_tetra.quant) _ _ rfl).2 (by decide)⟩


/-! ## Name to id map: the binary search ends -/

theorem deref_key_error (m : cs_map_name_to_id_t) (p : Nat) (e : cs_error)
    (h : deref_key m p = .error e) : e = .invalid_read := by
  unfold deref_key at h
  split_ifs at h
  · split at h
    · exact absurd h (by simp)
    · simp only [Except.error.injEq] at h
      exact h.symm
  · simp only [Except.error.injEq] at h
    exact h.symm

/-- The middle of a non-empty interval lies in the interval, the division of
`int` truncating. -/
theorem mid_id_bounds (s e : Int) (h : s ≤ e) :
    s ≤ s + Int.tdiv (e - s) 2 ∧ s + Int.tdiv (e - s) 2 ≤ e := by
  rw [Int.tdiv_eq_ediv (by omega) (by decide)]
  omega

/-- The loop of `cs_map_name_to_id` ends within `end_id - start_id + 1`
iterations: each iteration returns, or goes on with an interval that is
strictly shorter. -/
theorem name_to_id_search_ends (m : cs_map_name_to_id_t) (key : List Nat) (fuel : Nat) :
    ∀ (s e cmp : Int), (e - s + 1).toNat ≤ fuel →
      name_to_id_search m key fuel s e (s + Int.tdiv (e - s) 2) cmp ≠ .error .fuel := by
  induction fuel with
  | zero =>
    intro s e cmp hf
    have hlt : ¬ s ≤ e := by omega
    simp only [name_to_id_search, hlt, if_false]
    exact fun h => by simp at h
  | succ fuel ih =>
    intro s e cmp hf
    by_cases hse : s ≤ e
    · have hb := mid_id_bounds s e hse
      simp only [name_to_id_search, hse, if_true]
      rcases hd : deref_key m (m.key (s + Int.tdiv (e - s) 2).toNat) with err | str
      · have he := deref_key_error m _ err hd
        subst he
        exact fun h => by simp at h
      · simp only []
        by_cases h1 : strcmp str key < 0
        · simp only [h1, if_true]
          exact ih _ _ _ (by omega)
        · by_cases h2 : strcmp str key > 0
          · simp only [h1, h2, if_true, if_false]
            exact ih _ _ _ (by omega)
          · simp only [h1, h2, if_false]
            exact fun h => by simp at h
    · simp only [name_to_id_search, hse, if_false]
      exact fun h => by simp at h

/-- C38: the binary search of `cs_map_name_to_id` terminates for every map
and every key: within `size` iterations the call has returned or stopped on a
read, since the middle `start_id + (end_id - start_id)/2` lies in the interval
and the next interval, `[mid_id + 1, end_id]` or `[start_id, mid_id - 1]`, is
strictly shorter.  On a map without entry the body of the loop is not entered
(no iteration is needed), the insertion index is `0`, as the division
`(0 - 1) / 2` of `int` truncates to `0`, and the call returns the id `0`. -/
theorem name_to_id_search_terminates (M : cs_mem_t) (m : cs_map_name_to_id_t)
    (key : List Nat) (fuel : Nat) (hf : m.size ≤ fuel) :
    cs_map_name_to_id M fuel m key ≠ .error .fuel ∧
    (∀ s e : Int, s ≤ e →
      (s ≤ s + Int.tdiv (e - s) 2 ∧ s + Int.tdiv (e - s) 2 ≤ e) ∧
      e - (s + Int.tdiv (e - s) 2 + 1) < e - s ∧
      (s + Int.tdiv (e - s) 2 - 1) - s < e - s) ∧
    Int.tdiv ((0 : Int) - 1 - 0) 2 = 0 ∧
    (∀ m0 : cs_map_name_to_id_t, m0.size = 0 → ∀ fuel0,
      cs_map_name_to_id M fuel0 m0 key = .ok (0, _name_to_id_insert_key M m0 key 0 0)) := by
  refine ⟨?_, ?_, rfl, ?_⟩
  · unfold cs_map_name_to_id
    have h := name_to_id_search_ends m key fuel 0 ((m.size : Int) - 1) 1 (by omega)
    rcases hs : name_to_id_search m key fuel 0 ((m.size : Int) - 1)
        (0 + Int.tdiv ((m.size : Int) - 1 - 0) 2) 1 with err | r
    · simp only [hs]
      intro hh
      simp only [Except.error.injEq] at hh
      exact h (hs.trans (congrArg _ hh))
    · simp only [hs]
      exact fun hh => by simp at hh
  · intro s e hse
    have hb := mid_id_bounds s e hse
    exact ⟨hb, by omega, by omega⟩
  · intro m0 h0 fuel0
    unfold cs_map_name_to_id
    have e1 : ((m0.size : Int) - 1) = -1 := by rw [h0]; rfl
    have hs : name_to_id_search m0 key fuel0 0 (-1) (0 + Int.tdiv (-1 - 0) 2) 1 =
        .ok (0, 1) := by
      cases fuel0 <;> rfl
    rw [e1]
    simp only [hs, h0]
    show Except.ok ((_name_to_id_insert_key M m0 key 0 0).id 0, _) = _
    have hid : (_name_to_id_insert_key M m0 key 0 0).id 0 = 0 := by
      unfold _name_to_id_insert_key
      simp
    rw [hid]
    rfl


theorem name_to_id_search_terminates_witness :
    (_name_to_id_insert_key fixed_mem (cs_map_name_to_id_create fixed_mem) [98] 0 0).size ≤ 1 ∧
    cs_map_name_to_id fixed_mem 1
      (_name_to_id_insert_key fixed_mem (cs_map_name_to_id_create fixed_mem) [98] 0 0) [97] ≠
        .error .fuel ∧
    cs_map_name_to_id fixed_mem 0 (cs_map_name_to_id_create fixed_mem) [97] =
      .ok (0, _name_to_id_insert_key fixed_mem (cs_map_name_to_id_create fixed_mem) [97] 0 0) :=
  ⟨by decide,
   (name_to_id_search_terminates fixed_mem
      (_name_to_id_insert_key fixed_mem (cs_map_name_to_id_create fixed_mem) [98] 0 0)
      [97] 1 (by decide)).1,
   (name_to_id_search_terminates fixed_mem
      (_name_to_id_insert_key fixed_mem (cs_map_name_to_id_create fixed_mem) [98] 0 0)
      [97] 1 (by decide)).2.2.2 (cs_map_name_to_id_create fixed_mem) rfl 0⟩


/-! ## Name to id map: key of an id -/

set_option maxRecDepth 8192 in
/-- C32 (divergence): in the map built from `cs_map_name_to_id_create` by the
calls of `cs_map_name_to_id` with `"b"` (id `0`) then `"a"` (id `1`), the
block `keys` staying in place, `cs_map_name_to_id_key(m, 0)` is `"a"` and
`cs_map_name_to_id_key(m, 1)` is `"b"`: the function returns `key[id]`, the
key at the position `id` of the sorted index, while `cs_map_name_to_id`
still gives `"b"` the id `0` and `"a"` the id `1`.  On a NULL map, and at an
id that is not below the size, it returns NULL. -/
theorem name_to_id_key_is_by_position :
    (∃ m1 m2,
      cs_map_name_to_id fixed_mem 0 (cs_map_name_to_id_create fixed_mem) [98] = .ok (0, m1) ∧
      cs_map_name_to_id fixed_mem 1 m1 [97] = .ok (1, m2) ∧
      cs_map_name_to_id fixed_mem 2 m2 [98] = .ok (0, m2) ∧
      cs_map_name_to_id fixed_mem 2 m2 [97] = .ok (1, m2) ∧
      deref_key m2 (cs_map_name_to_id_key (some m2) 0) = .ok [97] ∧
      deref_key m2 (cs_map_name_to_id_key (some m2) 1) = .ok [98] ∧
      cs_map_name_to_id_size (some m2) = 2 ∧
      cs_map_name_to_id_key (some m2) 2 = 0) ∧
    (∀ id, cs_map_name_to_id_key none id = 0) :=
  ⟨⟨_, _, rfl, rfl, rfl, rfl, rfl, rfl, rfl, rfl⟩, fun _ => rfl⟩


/-! ## Name to id map: a new key after the block of the keys has moved -/

set_option maxRecDepth 8192 in
/-- C31 (divergence): a map built from `cs_map_name_to_id_create` by the calls
of `cs_map_name_to_id` with `"k"` (id `0`) then with a key of 126 bytes `'z'`
(id `1`); the second insertion reallocates the block `keys`.  When the
allocator moves the block, the call with the new key `"c"` reads `key[0]`
outside the block and returns no id, however many iterations are allowed, the
map holding two entries; when the allocator extends the block in place, the
same call returns `2`, the number of entries before the call, and leaves a
map of size `3`. -/
theorem name_to_id_new_key_after_realloc :
    (∃ m1 m2,
      cs_map_name_to_id moving_mem 0 (cs_map_name_to_id_create moving_mem) [107] = .ok (0, m1) ∧
      cs_map_name_to_id moving_mem 1 m1 (List.replicate 126 122) = .ok (1, m2) ∧
      cs_map_name_to_id_size (some m2) = 2 ∧
      ∀ fuel, cs_map_name_to_id moving_mem (fuel + 1) m2 [99] = .error .invalid_read) ∧
    (∃ m1 m2 m3,
      cs_map_name_to_id fixed_mem 0 (cs_map_name_to_id_create fixed_mem) [107] = .ok (0, m1) ∧
      cs_map_name_to_id fixed_mem 1 m1 (List.replicate 126 122) = .ok (1, m2) ∧
      cs_map_name_to_id fixed_mem 2 m2 [99] = .ok (2, m3) ∧
      cs_map_name_to_id_size (some m3) = 3) :=
  ⟨⟨_, _, rfl, rfl, rfl, fun _ => rfl⟩, ⟨_, _, _, rfl, rfl, rfl, rfl⟩⟩


/-! ## Name to id map: the index of the keys -/

set_option maxRecDepth 8192 in
/-- C37 (divergence): a map built from `cs_map_name_to_id_create` by the calls
of `cs_map_name_to_id` with `"m"` then with a key of 126 bytes `'a'`.  The
search ends on the position `0`, the new key is inserted there and the entry
of `"m"` is shifted to `key[1]`; the insertion reallocates the block `keys`.
When the allocator moves the block, `key[1]` still holds the former address
`1000`, outside the block that now starts at `5096`: the second entry of the
index is no string to compare, and a call with `"z"`, which compares with it,
returns no id.  When the allocator extends the block in place, the index holds
the 126 bytes `'a'` then `"m"`, in increasing order, with the ids `1` and
`0`. -/
theorem name_to_id_index_after_realloc :
    (∃ m1 m2,
      cs_map_name_to_id moving_mem 0 (cs_map_name_to_id_create moving_mem) [109] = .ok (0, m1) ∧
      cs_map_name_to_id moving_mem 1 m1 (List.replicate 126 97) = .ok (1, m2) ∧
      m2.keys_addr = 5096 ∧ m2.key 0 = 5098 ∧ m2.key 1 = 1000 ∧
      deref_key m2 (m2.key 0) = .ok (List.replicate 126 97) ∧
      deref_key m2 (m2.key 1) = .error .invalid_read ∧
      ∀ fuel, cs_map_name_to_id moving_mem (fuel + 2) m2 [122] = .error .invalid_read) ∧
    (∃ m1 m2,
      cs_map_name_to_id fixed_mem 0 (cs_map_name_to_id_create fixed_mem) [109] = .ok (0, m1) ∧
      cs_map_name_to_id fixed_mem 1 m1 (List.replicate 126 97) = .ok (1, m2) ∧
      deref_key m2 (m2.key 0) = .ok (List.replicate 126 97) ∧
      deref_key m2 (m2.key 1) = .ok [109] ∧
      strcmp (List.replicate 126 97) [109] < 0 ∧
      m2.id 0 = 1 ∧ m2.id 1 = 0) :=
  ⟨⟨_, _, rfl, rfl, rfl, rfl, rfl, rfl, rfl, fun _ => rfl⟩,
   ⟨_, _, rfl, rfl, rfl, rfl, by decide, rfl, rfl⟩⟩


/-! ## Quantity over volume: the array accesses stay within bounds -/

theorem rd_ok {α : Type} (n : Nat) (a : Nat → α) (i : Nat) (h : i < n) :
    rd n a i = .ok (a i) := by
  unfold rd
  rw [if_pos h]

theorem wr_ok {α : Type} (n : Nat) (a : Nat → α) (i : Nat) (x : α) (h : i < n) :
    wr n a i x = .ok (Function.update a i x) := by
  unfold wr
  rw [if_pos h]

theorem foldlM_eq_ok {σ : Type} (l : List Nat) (bodyM : Nat → σ → Except cs_error σ)
    (body : Nat → σ → σ) (h : ∀ j, j ∈ l → ∀ s, bodyM j s = .ok (body j s)) (s : σ) :
    l.foldlM (fun acc j => bodyM j acc) s = .ok (l.foldl (fun acc j => body j acc) s) := by
  induction l generalizing s with
  | nil => rfl
  | cons a l ih =>
    rw [List.foldlM_cons, List.foldl_cons, h a (List.mem_cons_self a l) s]
    exact ih (fun j hj => h j (List.mem_cons_of_mem a hj)) (body a s)

/-- A loop whose body never stops computes what the plain loop computes. -/
theorem forLoopM_eq_ok {σ : Type} (lo hi : Nat) (bodyM : Nat → σ → Except cs_error σ)
    (body : Nat → σ → σ) (h : ∀ j, lo ≤ j → j < hi → ∀ s, bodyM j s = .ok (body j s))
    (s : σ) : forLoopM lo hi bodyM s = .ok (forLoop lo hi body s) := by
  unfold forLoopM forLoop
  apply foldlM_eq_ok
  intro j hj s
  rw [List.mem_range'_1] at hj
  exact h j hj.1 (by omega) s

/-- In a relation whose index is non-decreasing, every slice ends before the
end of the list of the ids. -/
theorem idx_le_last (idx : Nat → Nat) (n : Nat) (h : ∀ c, c < n → idx c ≤ idx (c + 1)) :
    ∀ c, c ≤ n → idx c ≤ idx n := by
  intro c hc
  induction n with
  | zero =>
    have : c = 0 := by omega
    subst this
    exact le_refl _
  | succ n ih =>
    by_cases hcn : c = n + 1
    · subst hcn
      exact le_refl _
    · exact le_trans (ih (fun c hc => h c (by omega)) (by omega)) (h n (by omega))

theorem untag_checked_ok (sh : cs_shared_t)
    (hf2v : ∀ f, f < sh.m.n_i_faces → sh.m.i_face_vtx_idx f ≤ sh.m.i_face_vtx_idx (f + 1))
    (hc2f : ∀ c, c < sh.quant.n_cells → sh.connect.c2f.idx c ≤ sh.connect.c2f.idx (c + 1))
    (hfc : ∀ f, f < sh.m.n_i_faces →
      (sh.m.i_face_cells f).1 < sh.m.n_cells_with_ghosts ∧
      (sh.m.i_face_cells f).2 < sh.m.n_cells_with_ghosts)
    (hfv : ∀ i, i < sh.m.i_face_vtx_idx sh.m.n_i_faces →
      sh.m.i_face_vtx_lst i < sh.quant.n_vertices)
    (c_id : Nat) (hc : c_id < sh.quant.n_cells) (cell_tag : Nat → Bool) (vtx_tag : Nat → Int) :
    _untag_frontier_vertices_checked sh c_id cell_tag vtx_tag =
      .ok (_untag_frontier_vertices sh c_id cell_tag vtx_tag) := by
  unfold _untag_frontier_vertices_checked _untag_frontier_vertices
  rw [rd_ok _ _ _ (by omega), rd_ok _ _ _ (by omega)]
  simp only [bind, Except.bind]
  apply forLoopM_eq_ok
  intro j hlo hhi t
  have hj : j < sh.connect.c2f.idx sh.quant.n_cells :=
    lt_of_lt_of_le hhi (idx_le_last _ _ hc2f (c_id + 1) (by omega))
  rw [rd_ok _ _ _ hj]
  simp only []
  by_cases hi : sh.connect.c2f.ids j < sh.m.n_i_faces
  · rw [if_pos hi, if_pos hi, rd_ok _ _ _ hi]
    simp only []
    rw [rd_ok _ _ _ (hfc _ hi).1]
    simp only []
    by_cases h0 : cell_tag (sh.m.i_face_cells (sh.connect.c2f.ids j)).1 = false
    · rw [if_pos h0, if_pos (Or.inl h0)]
      simp only [pure, Except.pure, if_true]
      rw [rd_ok _ _ _ (by omega), rd_ok _ _ _ (by omega)]
      simp only []
      apply forLoopM_eq_ok
      intro i hilo hihi u
      have hi2 : i < sh.m.i_face_vtx_idx sh.m.n_i_faces :=
        lt_of_lt_of_le hihi (idx_le_last _ _ hf2v _ (by omega))
      rw [rd_ok _ _ _ hi2]
      exact wr_ok _ _ _ _ (hfv i hi2)
    · rw [if_neg h0, rd_ok _ _ _ (hfc _ hi).2]
      simp only [pure, Except.pure]
      by_cases h1 : cell_tag (sh.m.i_face_cells (sh.connect.c2f.ids j)).2 = false
      · rw [if_pos (Or.inr h1)]
        simp only [h1, beq_self_eq_true, if_true]
        rw [rd_ok _ _ _ (by omega), rd_ok _ _ _ (by omega)]
        simp only []
        apply forLoopM_eq_ok
        intro i hilo hihi u
        have hi2 : i < sh.m.i_face_vtx_idx sh.m.n_i_faces :=
          lt_of_lt_of_le hihi (idx_le_last _ _ hf2v _ (by omega))
        rw [rd_ok _ _ _ hi2]
        exact wr_ok _ _ _ _ (hfv i hi2)
      · rw [if_neg (not_or.2 ⟨h0, h1⟩)]
        simp only [Bool.not_eq_false] at h1
        simp [h1]
  · rw [if_neg hi, if_neg hi]
    rfl

theorem first_pass_checked_eq (sh : cs_shared_t) (n_elts : Nat) (elt_ids : Option (Nat → Nat))
    (hg : sh.quant.n_cells ≤ sh.m.n_cells_with_ghosts)
    (hc2v : ∀ c, c < sh.quant.n_cells → sh.connect.c2v.idx c ≤ sh.connect.c2v.idx (c + 1))
    (hcv : ∀ j, j < sh.connect.c2v.idx sh.quant.n_cells →
      sh.connect.c2v.ids j < sh.quant.n_vertices)
    (hnone : elt_ids = none → n_elts = sh.quant.n_cells)
    (hsel : ∀ ids, elt_ids = some ids → ∀ i, i < n_elts → ids i < sh.quant.n_cells) :
    qov_first_pass_checked sh n_elts elt_ids = qov_first_pass sh n_elts elt_ids := by
  unfold qov_first_pass_checked qov_first_pass
  by_cases hlt : n_elts < sh.quant.n_cells
  · rw [if_pos hlt, if_pos hlt]
    cases elt_ids with
    | none => exact absurd (hnone rfl) (by omega)
    | some ids =>
      simp only [read_elt_ids, bind, Except.bind]
      rw [forLoopM_eq_ok 0 sh.quant.n_vertices _ (fun v_id t => Function.update t v_id 0)
        (fun j _ hj s => wr_ok _ _ _ _ hj)]
      simp only []
      rw [forLoopM_eq_ok 0 sh.m.n_cells_with_ghosts _
        (fun c_id t => Function.update t c_id false) (fun j _ hj s => wr_ok _ _ _ _ hj)]
      simp only []
      apply forLoopM_eq_ok
      intro i _ hi s
      have hci := hsel ids rfl i hi
      simp only [rd_elt]
      rw [rd_ok _ _ _ hi]
      simp only []
      rw [wr_ok _ _ _ _ (by omega), rd_ok _ _ _ (by omega), rd_ok _ _ _ (by omega)]
      simp only []
      rw [forLoopM_eq_ok (sh.connect.c2v.idx (ids i)) (sh.connect.c2v.idx (ids i + 1)) _
        (fun j t => Function.update t (sh.connect.c2v.ids j) (-1))]
      · rfl
      · intro j _ hj t
        have hj2 : j < sh.connect.c2v.idx sh.quant.n_cells :=
          lt_of_lt_of_le hj (idx_le_last _ _ hc2v _ (by omega))
        rw [rd_ok _ _ _ hj2]
        exact wr_ok _ _ _ _ (hcv j hj2)
  · rw [if_neg hlt, if_neg hlt]
    by_cases he : sh.quant.n_cells = n_elts
    · rw [if_pos he, if_pos he]
      simp only [bind, Except.bind]
      rw [forLoopM_eq_ok 0 sh.quant.n_vertices _ (fun v_id t => Function.update t v_id (-1))
        (fun j _ hj s => wr_ok _ _ _ _ hj)]
      simp only []
      rw [forLoopM_eq_ok 0 sh.quant.n_cells _
        (fun c_id t => Function.update t c_id true)
        (fun j _ hj s => wr_ok _ _ _ _ (by omega))]
      simp only []
      rw [forLoopM_eq_ok sh.quant.n_cells sh.m.n_cells_with_ghosts _
        (fun c_id t => Function.update t c_id false) (fun j _ hj s => wr_ok _ _ _ _ hj)]
      rfl
    · rw [if_neg he, if_neg he]

theorem vtx_tag_checked_eq (sh : cs_shared_t) (n_elts : Nat) (elt_ids : Option (Nat → Nat))
    (hg : sh.quant.n_cells ≤ sh.m.n_cells_with_ghosts)
    (hc2v : ∀ c, c < sh.quant.n_cells → sh.connect.c2v.idx c ≤ sh.connect.c2v.idx (c + 1))
    (hcv : ∀ j, j < sh.connect.c2v.idx sh.quant.n_cells →
      sh.connect.c2v.ids j < sh.quant.n_vertices)
    (hf2v : ∀ f, f < sh.m.n_i_faces → sh.m.i_face_vtx_idx f ≤ sh.m.i_face_vtx_idx (f + 1))
    (hc2f : ∀ c, c < sh.quant.n_cells → sh.connect.c2f.idx c ≤ sh.connect.c2f.idx (c + 1))
    (hfc : ∀ f, f < sh.m.n_i_faces →
      (sh.m.i_face_cells f).1 < sh.m.n_cells_with_ghosts ∧
      (sh.m.i_face_cells f).2 < sh.m.n_cells_with_ghosts)
    (hfv : ∀ i, i < sh.m.i_face_vtx_idx sh.m.n_i_faces →
      sh.m.i_face_vtx_lst i < sh.quant.n_vertices)
    (hnone : elt_ids = none → n_elts = sh.quant.n_cells)
    (hsel : ∀ ids, elt_ids = some ids → ∀ i, i < n_elts → ids i < sh.quant.n_cells) :
    qov_vtx_tag_checked sh n_elts elt_ids = qov_vtx_tag sh n_elts elt_ids := by
  unfold qov_vtx_tag_checked qov_vtx_tag
  rw [first_pass_checked_eq sh n_elts elt_ids hg hc2v hcv hnone hsel]
  rcases hfp : qov_first_pass sh n_elts elt_ids with e | ⟨cell_tag, vtx_tag⟩
  · rfl
  · simp only [bind, Except.bind]
    by_cases hlt : n_elts < sh.quant.n_cells
    · rw [if_pos hlt, if_pos hlt]
      cases elt_ids with
      | none => exact absurd (hnone rfl) (by omega)
      | some ids =>
        simp only [read_elt_ids]
        rw [forLoopM_eq_ok 0 n_elts _ (fun i t => _untag_frontier_vertices sh (ids i)
          (match sh.m.halo with
            | some h => h.sync cell_tag
            | none => cell_tag) t)]
        · rfl
        · intro i _ hi t
          simp only [rd_elt]
          rw [rd_ok _ _ _ hi]
          exact untag_checked_ok sh hf2v hc2f hfc hfv (ids i) (hsel ids rfl i hi) _ t
    · rw [if_neg hlt, if_neg hlt]
      rw [forLoopM_eq_ok 0 sh.quant.n_cells _ (fun i t => _untag_frontier_vertices sh i
        (match sh.m.halo with
          | some h => h.sync cell_tag
          | none => cell_tag) t)]
      · rfl
      · intro i _ hi t
        exact untag_checked_ok sh hf2v hc2f hfc hfv i hi _ t

theorem cell_sum_checked_ok (sh : cs_shared_t) (vtx_tag : Nat → Int)
    (hc2v : ∀ c, c < sh.quant.n_cells → sh.connect.c2v.idx c ≤ sh.connect.c2v.idx (c + 1))
    (hcv : ∀ j, j < sh.connect.c2v.idx sh.quant.n_cells →
      sh.connect.c2v.ids j < sh.quant.n_vertices)
    (c_id : Nat) (hc : c_id < sh.quant.n_cells) (vol : ℚ) :
    qov_cell_sum_checked sh vtx_tag c_id vol =
      .ok (forLoop (sh.connect.c2v.idx c_id) (sh.connect.c2v.idx (c_id + 1)) (fun j vol =>
        if vtx_tag (sh.connect.c2v.ids j) = -1 then vol + sh.quant.dcell_vol j else vol) vol) := by
  unfold qov_cell_sum_checked
  rw [rd_ok _ _ _ (by omega), rd_ok _ _ _ (by omega)]
  simp only [bind, Except.bind]
  apply forLoopM_eq_ok
  intro j _ hj v
  have hj2 : j < sh.connect.c2v.idx sh.quant.n_cells :=
    lt_of_lt_of_le hj (idx_le_last _ _ hc2v _ (by omega))
  rw [rd_ok _ _ _ hj2]
  simp only []
  rw [rd_ok _ _ _ (hcv j hj2)]
  simp only []
  by_cases ht : vtx_tag (sh.connect.c2v.ids j) = -1
  · rw [if_pos ht, if_pos ht, rd_ok _ _ _ hj2]
    rfl
  · rw [if_neg ht, if_neg ht]
    rfl

theorem volume_marked_checked_ok (sh : cs_shared_t) (n_elts : Nat)
    (elt_ids : Option (Nat → Nat)) (vtx_tag : Nat → Int)
    (hc2v : ∀ c, c < sh.quant.n_cells → sh.connect.c2v.idx c ≤ sh.connect.c2v.idx (c + 1))
    (hcv : ∀ j, j < sh.connect.c2v.idx sh.quant.n_cells →
      sh.connect.c2v.ids j < sh.quant.n_vertices)
    (hsel : ∀ ids, elt_ids = some ids → ∀ i, i < n_elts → ids i < sh.quant.n_cells) :
    qov_volume_marked_checked sh n_elts elt_ids vtx_tag =
      .ok (qov_volume_marked sh n_elts elt_ids vtx_tag) := by
  unfold qov_volume_marked_checked qov_volume_marked
  cases elt_ids with
  | none =>
    simp only [bind, Except.bind]
    rw [forLoopM_eq_ok 0 sh.quant.n_cells _ (fun c_id vol =>
      forLoop (sh.connect.c2v.idx c_id) (sh.connect.c2v.idx (c_id + 1)) (fun j vol =>
        if vtx_tag (sh.connect.c2v.ids j) = -1 then vol + sh.quant.dcell_vol j else vol) vol)
      (fun c _ hc vol => cell_sum_checked_ok sh vtx_tag hc2v hcv c hc vol)]
    rfl
  | some ids =>
    simp only [bind, Except.bind]
    rw [forLoopM_eq_ok 0 n_elts _ (fun i vol =>
      forLoop (sh.connect.c2v.idx (ids i)) (sh.connect.c2v.idx (ids i + 1)) (fun j vol =>
        if vtx_tag (sh.connect.c2v.ids j) = -1 then vol + sh.quant.dcell_vol j else vol) vol)]
    · rfl
    · intro i _ hi vol
      rw [rd_ok _ _ _ hi]
      exact cell_sum_checked_ok sh vtx_tag hc2v hcv (ids i) (hsel ids rfl i hi) vol

theorem pvsp_by_qov_checked_eq (sh : cs_shared_t) (quantity_val : ℚ) (n_elts : Nat)
    (elt_ids : Option (Nat → Nat)) (values : Nat → ℚ)
    (hg : sh.quant.n_cells ≤ sh.m.n_cells_with_ghosts)
    (hc2v : ∀ c, c < sh.quant.n_cells → sh.connect.c2v.idx c ≤ sh.connect.c2v.idx (c + 1))
    (hcv : ∀ j, j < sh.connect.c2v.idx sh.quant.n_cells →
      sh.connect.c2v.ids j < sh.quant.n_vertices)
    (hf2v : ∀ f, f < sh.m.n_i_faces → sh.m.i_face_vtx_idx f ≤ sh.m.i_face_vtx_idx (f + 1))
    (hc2f : ∀ c, c < sh.quant.n_cells → sh.connect.c2f.idx c ≤ sh.connect.c2f.idx (c + 1))
    (hfc : ∀ f, f < sh.m.n_i_faces →
      (sh.m.i_face_cells f).1 < sh.m.n_cells_with_ghosts ∧
      (sh.m.i_face_cells f).2 < sh.m.n_cells_with_ghosts)
    (hfv : ∀ i, i < sh.m.i_face_vtx_idx sh.m.n_i_faces →
      sh.m.i_face_vtx_lst i < sh.quant.n_vertices)
    (hnone : elt_ids = none → n_elts = sh.quant.n_cells)
    (hsel : ∀ ids, elt_ids = some ids → ∀ i, i < n_elts → ids i < sh.quant.n_cells) :
    _pvsp_by_qov_checked sh quantity_val n_elts elt_ids values =
      _pvsp_by_qov sh quantity_val n_elts elt_ids values := by
  unfold _pvsp_by_qov_checked _pvsp_by_qov
  rw [vtx_tag_checked_eq sh n_elts elt_ids hg hc2v hcv hf2v hc2f hfc hfv hnone hsel]
  rcases hvt : qov_vtx_tag sh n_elts elt_ids with e | vtx_tag
  · rfl
  · simp only [bind, Except.bind]
    rw [volume_marked_checked_ok sh n_elts elt_ids vtx_tag hc2v hcv hsel]
    simp only []
    by_cases hlt : n_elts < sh.quant.n_cells
    · rw [if_pos hlt, if_pos hlt]
      apply forLoopM_eq_ok
      intro v _ hv vals
      rw [rd_ok _ _ _ hv]
      simp only []
      by_cases ht : vtx_tag v = -1
      · rw [if_pos ht, if_pos ht]
        exact wr_ok _ _ _ _ hv
      · rw [if_neg ht, if_neg ht]
        rfl
    · rw [if_neg hlt, if_neg hlt]
      apply forLoopM_eq_ok
      intro v _ hv vals
      exact wr_ok _ _ _ _ hv

/-- C36: under the adjacency invariant of the cell->vertex, cell->face and
interior face->vertex relations (index arrays non-decreasing, vertex ids below
`n_vertices`), with the listed cell ids below `n_cells`, the cells of every
interior face below `n_cells_with_ghosts`, and the conventions of the mesh and
of a selection (the `n_cells` local cells are among the `n_cells_with_ghosts`
cells; at most `n_cells` cells are selected, and a NULL list selects them
all), every array access of `_pvsp_by_qov` and of `_untag_frontier_vertices`
is within bounds: the run in which each access is checked against the size of
its array (`vtx_tag` and `values` of size `n_vertices`, `cell_tag` of size
`n_cells_with_ghosts`, `dcell_vol` and `c2v->ids` of size `c2v->idx[n_cells]`)
stops on no access and returns the buffer that `_pvsp_by_qov` returns; so does
`_untag_frontier_vertices` for every cell below `n_cells` and every content of
the two tag arrays. -/
theorem pvsp_by_qov_accesses_within_bounds (sh : cs_shared_t) (quantity_val : ℚ)
    (n_elts : Nat) (elt_ids : Option (Nat → Nat)) (values : Nat → ℚ)
    (hg : sh.quant.n_cells ≤ sh.m.n_cells_with_ghosts)
    (hc2v : ∀ c, c < sh.quant.n_cells → sh.connect.c2v.idx c ≤ sh.connect.c2v.idx (c + 1))
    (hcv : ∀ j, j < sh.connect.c2v.idx sh.quant.n_cells →
      sh.connect.c2v.ids j < sh.quant.n_vertices)
    (hc2f : ∀ c, c < sh.quant.n_cells → sh.connect.c2f.idx c ≤ sh.connect.c2f.idx (c + 1))
    (hf2v : ∀ f, f < sh.m.n_i_faces → sh.m.i_face_vtx_idx f ≤ sh.m.i_face_vtx_idx (f + 1))
    (hfv : ∀ i, i < sh.m.i_face_vtx_idx sh.m.n_i_faces →
      sh.m.i_face_vtx_lst i < sh.quant.n_vertices)
    (hfc : ∀ f, f < sh.m.n_i_faces →
      (sh.m.i_face_cells f).1 < sh.m.n_cells_with_ghosts ∧
      (sh.m.i_face_cells f).2 < sh.m.n_cells_with_ghosts)
    (hn : n_elts ≤ sh.quant.n_cells)
    (hnone : elt_ids = none → n_elts = sh.quant.n_cells)
    (hsel : ∀ ids, elt_ids = some ids → ∀ i, i < n_elts → ids i < sh.quant.n_cells) :
    (∃ r, _pvsp_by_qov_checked sh quantity_val n_elts elt_ids values = .ok r ∧
      _pvsp_by_qov sh quantity_val n_elts elt_ids values = .ok r) ∧
    (∀ c_id, c_id < sh.quant.n_cells → ∀ cell_tag vtx_tag,
      _untag_frontier_vertices_checked sh c_id cell_tag vtx_tag =
        .ok (_untag_frontier_vertices sh c_id cell_tag vtx_tag)) := by
  refine ⟨?_, fun c_id hc cell_tag vtx_tag =>
    untag_checked_ok sh hf2v hc2f hfc hfv c_id hc cell_tag vtx_tag⟩
  rw [pvsp_by_qov_checked_eq sh quantity_val n_elts elt_ids values hg hc2v hcv hf2v hc2f hfc
    hfv hnone hsel]
  have hids : n_elts < sh.quant.n_cells → elt_ids.isSome = true := by
    intro hlt
    cases elt_ids with
    | none => exact absurd (hnone rfl) (by omega)
    | some ids => rfl
  obtain ⟨tags, ht⟩ := qov_vtx_tag_ok sh n_elts elt_ids hn hids
  unfold _pvsp_by_qov
  rw [ht]
  simp only []
  by_cases hlt : n_elts < sh.quant.n_cells
  · rw [if_pos hlt]
    exact ⟨_, rfl, rfl⟩
  · rw [if_neg hlt]
    exact ⟨_, rfl, rfl⟩

theorem pvsp_by_qov_accesses_within_bounds_witness :
    (∃ r, _pvsp_by_qov_checked two_tetra 5 1 (some (ofList 0 [1])) (fun _ => 0) = .ok r ∧
      _pvsp_by_qov two_tetra 5 1 (some (ofList 0 [1])) (fun _ => 0) = .ok r) ∧
    (∀ c_id, c_id < two_tetra.quant.n_cells → ∀ cell_tag vtx_tag,
      _untag_frontier_vertices_checked two_tetra c_id cell_tag vtx_tag =
        .ok (_untag_frontier_vertices two_tetra c_id cell_tag vtx_tag)) :=
  pvsp_by_qov_accesses_within_bounds two_tetra 5 1 (some (ofList 0 [1])) (fun _ => 0)
    (by decide) (by decide) (by decide) (by decide) (by decide) (by decide) (by decide)
    (by decide) (fun h => by cases h)
    (fun ids h => by cases h; decide)

/-- The checked run does stop on an access outside an array: with a `cell_tag`
of one entry for the two cells of `two_tetra`, the write `cell_tag[1] = true`
of the first pass is refused. -/
theorem pvsp_by_qov_checked_stops :
    _pvsp_by_qov_checked
      { two_tetra with m := { two_tetra.m with n_cells_with_ghosts := 1 } }
      5 1 (some (ofList 0 [1])) (fun _ => 0) = .error .out_of_bounds ∧
    _pvsp_by_qov_checked
      { two_tetra with quant := { two_tetra.quant with n_vertices := 4 } }
      5 1 (some (ofList 0 [1])) (fun _ => 0) = .error .out_of_bounds :=
  ⟨rfl, rfl⟩



/-! ## Arithmetic of `double`: values of the rounding -/

/-- Values of `round_double`: a value of the type is kept; `0.1` and `1/3` go
to their nearest 53-bit values; a tie goes to the even mantissa (`2^53 + 1`
down, `2^53 + 3` up); below `2^-1022` the values are the multiples of
`2^-1074`; the value nearest to the opposite is the opposite. -/
theorem round_double_values :
    round_double 1 = 1 ∧ round_double (3 / 4) = 3 / 4 ∧
    round_double (1 / 10) = 3602879701896397 / 2 ^ 55 ∧
    round_double (1 / 3) = 6004799503160661 / 2 ^ 54 ∧
    round_double (2 ^ 53 + 1) = 2 ^ 53 ∧ round_double (2 ^ 53 + 3) = 2 ^ 53 + 4 ∧
    round_double (1 / 2 ^ 1075) = 0 ∧ round_double (3 / 2 ^ 1075) = 2 / 2 ^ 1074 ∧
    round_double (5 / 2 ^ 1076) = 1 / 2 ^ 1074 ∧
    round_double (- (1 / 10)) = - round_double (1 / 10) ∧
    round_double (round_double (1 / 10)) = round_double (1 / 10) := by
  refine ⟨?_, ?_, ?_, ?_, ?_, ?_, ?_, ?_, ?_, ?_, ?_⟩ <;> decide!

/-! ## Dual densities by value in the arithmetic of `double` -/

theorem foldl_entry {α : Type} (body : Nat → (Nat → α) → (Nat → α)) (y : Nat) (p : Nat → Bool)
    (g : Nat → α → α)
    (h : ∀ j t, body j t y = if p j = true then g j (t y) else t y) (js : List Nat)
    (t : Nat → α) :
    (js.foldl (fun t j => body j t) t) y = (js.filter p).foldl (fun acc j => g j acc) (t y) := by
  induction js generalizing t with
  | nil => rfl
  | cons j js ih =>
    rw [List.foldl_cons, ih, h j t]
    by_cases hp : p j = true
    · rw [if_pos hp, List.filter_cons_of_pos hp, List.foldl_cons]
    · rw [if_neg hp, List.filter_cons_of_neg hp]

/-- Effect on the entry `y` of nested loops, on cells then on the positions of
their slices, whose step changes the entry only at the incidences of `v`:
the steps of these incidences, in the order of the loops. -/
theorem nested_foldl_entry {α : Type} (a : cs_adjacency_t)
    (body : Nat → Nat → (Nat → α) → (Nat → α)) (y v : Nat) (g : Nat → Nat → α → α)
    (h : ∀ c j t, body c j t y = if decide (a.ids j = v) = true then g c j (t y) else t y)
    (cells : List Nat) (t : Nat → α) :
    (cells.foldl (fun t c => (slice a c).foldl (fun t j => body c j t) t) t) y =
      (incidences_of a v cells).foldl (fun acc p => g p.1 p.2 acc) (t y) := by
  induction cells generalizing t with
  | nil => rfl
  | cons c cells ih =>
    rw [List.foldl_cons, ih]
    show _ = List.foldl _ _ (_ ++ incidences_of a v cells)
    rw [List.foldl_append, List.foldl_map,
      foldl_entry (body c) y (fun j => decide (a.ids j = v)) (g c) (h c) (slice a c) t]

theorem incidences_of_not_reached (a : cs_adjacency_t) (v : Nat) (cells : List Nat)
    (h : ¬ reached a cells v) : incidences_of a v cells = [] := by
  induction cells with
  | nil => rfl
  | cons c cells ih =>
    have h1 : (slice a c).filter (fun j => decide (a.ids j = v)) = [] := by
      rw [List.filter_eq_nil_iff]
      intro j hj hp
      exact h ⟨c, List.mem_cons_self _ _, j, hj, of_decide_eq_true hp⟩
    have h2 : ¬ reached a cells v := by
      rintro ⟨c2, hc2, j, hj, hv⟩
      exact h ⟨c2, List.mem_cons_of_mem _ hc2, j, hj, hv⟩
    show List.map _ (List.filter _ (slice a c)) ++ incidences_of a v cells = []
    rw [h1, ih h2]
    rfl

theorem dcsd_rounded_loops_apply (A : cs_real_arith) (a : cs_adjacency_t) (d : Nat → ℚ) (k : ℚ)
    (cells : List Nat) (t0 : Nat → ℚ) (x : Nat) :
    cells.foldl (fun acc c => (slice a c).foldl
      (fun t j => Function.update t (a.ids j) (A.add (t (a.ids j)) (A.mul (d j) k))) acc) t0 x =
      (incidences_of a x cells).foldl (fun acc p => A.add acc (A.mul (d p.2) k)) (t0 x) := by
  refine nested_foldl_entry a
    (fun _ j t => Function.update t (a.ids j) (A.add (t (a.ids j)) (A.mul (d j) k))) x x
    (fun _ j acc => A.add acc (A.mul (d j) k)) ?_ cells t0
  intro c j t
  by_cases h : a.ids j = x
  · subst h
    simp
  · simp [h, Function.update_noteq (Ne.symm h)]

theorem dcvd_add_rounded_apply (A : cs_real_arith) (vec : Nat → ℚ) (v : Nat) (vol : ℚ)
    (t : Nat → ℚ) (x i : Nat) (hi : i < 3) :
    dcvd_add_rounded A vec v vol t (3 * x + i) =
      if decide (v = x) = true then A.add (t (3 * x + i)) (A.mul vol (vec i))
      else t (3 * x + i) := by
  unfold dcvd_add_rounded
  by_cases h : v = x
  · subst h
    have hi3 : i = 0 ∨ i = 1 ∨ i = 2 := by omega
    rcases hi3 with rfl | rfl | rfl
    · simp [Function.update_apply]
    · simp [Function.update_apply]
    · simp [Function.update_apply]
  · have h0 : 3 * x + i ≠ 3 * v := by omega
    have h1 : 3 * x + i ≠ 3 * v + 1 := by omega
    have h2 : 3 * x + i ≠ 3 * v + 2 := by omega
    simp [h, Function.update_apply, h0, h1, h2]

theorem dcvd_rounded_loops_apply (A : cs_real_arith) (a : cs_adjacency_t) (d : Nat → ℚ)
    (vec : Nat → Nat → ℚ) (cells : List Nat) (t0 : Nat → ℚ) (x i : Nat) (hi : i < 3) :
    cells.foldl (fun acc c => (slice a c).foldl
      (fun t j => dcvd_add_rounded A (vec c) (a.ids j) (d j) t) acc) t0 (3 * x + i) =
      (incidences_of a x cells).foldl (fun acc p => A.add acc (A.mul (d p.2) (vec p.1 i)))
        (t0 (3 * x + i)) :=
  nested_foldl_entry a (fun c j t => dcvd_add_rounded A (vec c) (a.ids j) (d j) t) (3 * x + i) x
    (fun c j acc => A.add acc (A.mul (d j) (vec c i)))
    (fun c j t => dcvd_add_rounded_apply A (vec c) (a.ids j) (d j) t x i hi) cells t0

/-- Without rounding the two embeddings of `_dcsd_by_value` and of
`_dcvd_by_value` are the same functions. -/
theorem dual_density_rounded_exact (sh : cs_shared_t) (k : ℚ) (vec : Nat → ℚ) (n_elts : Nat)
    (elt_ids : Option (Nat → Nat)) (values : Nat → ℚ) :
    _dcsd_by_value_rounded exact_arith sh k n_elts elt_ids values =
      _dcsd_by_value sh k n_elts elt_ids values ∧
    _dcvd_by_value_rounded exact_arith sh vec n_elts elt_ids values =
      _dcvd_by_value sh vec n_elts elt_ids values :=
  ⟨rfl, rfl⟩

/-- Result of `_dcsd_by_value` in the arithmetic `A`, entry by entry. -/
theorem dcsd_by_value_rounded_apply (A : cs_real_arith) (sh : cs_shared_t) (k : ℚ)
    (n_elts : Nat) (elt_ids : Option (Nat → Nat)) (values : Nat → ℚ)
    (hnone : elt_ids = none → n_elts = sh.quant.n_cells) :
    ∃ vals, _dcsd_by_value_rounded A sh k n_elts elt_ids values = .ok vals ∧
      ∀ v, vals v = (incidences_of sh.connect.c2v v (selected_cells n_elts elt_ids)).foldl
        (fun acc p => A.add acc (A.mul (sh.quant.dcell_vol p.2) k)) (values v) := by
  unfold _dcsd_by_value_rounded
  cases elt_ids with
  | none =>
    simp only [hnone rfl, if_true]
    refine ⟨_, rfl, ?_⟩
    intro v
    rw [forLoop_selected_none]
    simp only [forLoop_slice]
    exact dcsd_rounded_loops_apply A sh.connect.c2v sh.quant.dcell_vol k _ values v
  | some ids =>
    simp only []
    refine ⟨_, rfl, ?_⟩
    intro v
    rw [forLoop_selected_some n_elts ids (fun c (values : Nat → ℚ) =>
      forLoop (sh.connect.c2v.idx c) (sh.connect.c2v.idx (c + 1)) (fun j values =>
        Function.update values (sh.connect.c2v.ids j)
          (A.add (values (sh.connect.c2v.ids j)) (A.mul (sh.quant.dcell_vol j) k))) values)]
    simp only [forLoop_slice]
    exact dcsd_rounded_loops_apply A sh.connect.c2v sh.quant.dcell_vol k _ values v

/-- Result of `_dcvd_by_value` in the arithmetic `A`, entry by entry. -/
theorem dcvd_by_value_rounded_apply (A : cs_real_arith) (sh : cs_shared_t) (vec : Nat → ℚ)
    (n_elts : Nat) (elt_ids : Option (Nat → Nat)) (values : Nat → ℚ) (v i : Nat) (hi : i < 3) :
    _dcvd_by_value_rounded A sh vec n_elts elt_ids values (3 * v + i) =
      (incidences_of sh.connect.c2v v (selected_cells n_elts elt_ids)).foldl
        (fun acc p => A.add acc (A.mul (sh.quant.dcell_vol p.2) (vec i)))
        (values (3 * v + i)) := by
  unfold _dcvd_by_value_rounded
  cases elt_ids with
  | none =>
    simp only []
    rw [forLoop_selected_none]
    simp only [forLoop_slice]
    exact dcvd_rounded_loops_apply A sh.connect.c2v sh.quant.dcell_vol (fun _ => vec) _ values
      v i hi
  | some ids =>
    simp only []
    rw [forLoop_selected_some n_elts ids (fun c values =>
      forLoop (sh.connect.c2v.idx c) (sh.connect.c2v.idx (c + 1)) (fun j values =>
        dcvd_add_rounded A vec (sh.connect.c2v.ids j) (sh.quant.dcell_vol j) values) values)]
    simp only [forLoop_slice]
    exact dcvd_rounded_loops_apply A sh.connect.c2v sh.quant.dcell_vol (fun _ => vec) _ values
      v i hi

/-- C7 (counterexample): in the arithmetic of `double`, on the two-cell mesh
whose vertex `1` has the dual-volume fractions `0.1` in cell `0` and `0.7` in
cell `1`, with `const_val = 0.3` and a zero buffer, `_dcsd_by_value` leaves
`(0 + 0.1*0.3) + 0.7*0.3 = 0.24` at `values[1]`.  This is not the prior content
plus `const_val` times the sum of the two fractions: not in exact arithmetic,
and not in the arithmetic of `double` either, where
`0 + 0.3*(0.1 + 0.7) = 0.23999999999999996`. -/
theorem dual_density_by_value_rounding_counterexample :
    ∃ vals, _dcsd_by_value_rounded double_arith
        (two_tetra_with (ofList 0 [1, round_double (1/10), 1, 1, round_double (7/10), 1, 1, 1]))
        (round_double (3/10)) 2 none (fun _ => 0) = .ok vals ∧
      vals 1 = round_double (24/100) ∧
      vals 1 ≠ (fun _ => (0 : ℚ)) 1 + round_double (3/10) *
        incidence_sum two_tetra.connect.c2v (selected_cells 2 none)
          (fun j => decide (two_tetra.connect.c2v.ids j = 1))
          (ofList 0 [1, round_double (1/10), 1, 1, round_double (7/10), 1, 1, 1]) ∧
      vals 1 ≠ double_arith.add 0 (double_arith.mul (round_double (3/10))
        (double_arith.add (round_double (1/10)) (round_double (7/10)))) ∧
      double_arith.add 0 (double_arith.mul (round_double (3/10))
        (double_arith.add (round_double (1/10)) (round_double (7/10)))) =
          8646911284551351 / 36028797018963968 :=
  ⟨_, rfl, by decide!, by decide!, by decide!, by decide!⟩

/-- C7 (amended): `_dcsd_by_value` returns (the whole mesh is asserted when
there is no list) and, for every vertex `v`, `values[v]` is the result of
adding to its prior content, one after the other and in the order of the
loops, the products `dcell_vol[j]*const_val` of every selected cell `c` and
every position `j` of the cell->vertex slice of `c` with `c2v.ids[j] = v`,
each product and each sum being an operation of the type `double`: cells
sharing `v` add up, and the entry of a vertex of no selected cell is
unchanged.  `_dcvd_by_value` does the same for the components
`3v, 3v+1, 3v+2`.  In an arithmetic without rounding this value is the prior
content plus `const_val` times the sum of the `dcell_vol[j]`. -/
theorem dual_density_by_value_accumulates_in_order (A : cs_real_arith) (sh : cs_shared_t)
    (k : ℚ) (vec : Nat → ℚ) (n_elts : Nat) (elt_ids : Option (Nat → Nat)) (values : Nat → ℚ)
    (hnone : elt_ids = none → n_elts = sh.quant.n_cells) :
    (∃ vals, _dcsd_by_value_rounded A sh k n_elts elt_ids values = .ok vals ∧ ∀ v,
      vals v = (incidences_of sh.connect.c2v v (selected_cells n_elts elt_ids)).foldl
        (fun acc p => A.add acc (A.mul (sh.quant.dcell_vol p.2) k)) (values v) ∧
      (¬ reached sh.connect.c2v (selected_cells n_elts elt_ids) v → vals v = values v)) ∧
    (∀ v i, i < 3 →
      _dcvd_by_value_rounded A sh vec n_elts elt_ids values (3 * v + i) =
        (incidences_of sh.connect.c2v v (selected_cells n_elts elt_ids)).foldl
          (fun acc p => A.add acc (A.mul (sh.quant.dcell_vol p.2) (vec i)))
          (values (3 * v + i)) ∧
      (¬ reached sh.connect.c2v (selected_cells n_elts elt_ids) v →
        _dcvd_by_value_rounded A sh vec n_elts elt_ids values (3 * v + i) =
          values (3 * v + i))) ∧
    (∃ vals, _dcsd_by_value_rounded exact_arith sh k n_elts elt_ids values = .ok vals ∧ ∀ v,
      vals v = values v + k * incidence_sum sh.connect.c2v (selected_cells n_elts elt_ids)
        (fun j => decide (sh.connect.c2v.ids j = v)) sh.quant.dcell_vol) ∧
    (∀ v i, i < 3 →
      _dcvd_by_value_rounded exact_arith sh vec n_elts elt_ids values (3 * v + i) =
        values (3 * v + i) + vec i * incidence_sum sh.connect.c2v
          (selected_cells n_elts elt_ids) (fun j => decide (sh.connect.c2v.ids j = v))
          sh.quant.dcell_vol) := by
  refine ⟨?_, ?_, ?_, ?_⟩
  · obtain ⟨vals, hv, hspec⟩ := dcsd_by_value_rounded_apply A sh k n_elts elt_ids values hnone
    refine ⟨vals, hv, fun v => ⟨hspec v, fun hnr => ?_⟩⟩
    rw [hspec v, incidences_of_not_reached _ _ _ hnr]
    rfl
  · intro v i hi
    have h := dcvd_by_value_rounded_apply A sh vec n_elts elt_ids values v i hi
    refine ⟨h, fun hnr => ?_⟩
    rw [h, incidences_of_not_reached _ _ _ hnr]
    rfl
  · rw [(dual_density_rounded_exact sh k vec n_elts elt_ids values).1]
    exact dcsd_by_value_apply sh k n_elts elt_ids values hnone
  · intro v i hi
    rw [(dual_density_rounded_exact sh k vec n_elts elt_ids values).2]
    have e1 : (3 * v + i) / 3 = v := by omega
    have e2 : (3 * v + i) % 3 = i := by omega
    have h := dcvd_by_value_apply sh vec n_elts elt_ids values (3 * v + i)
    rw [e1, e2] at h
    exact h

/-- Witness of `dual_density_by_value_accumulates_in_order`: the arithmetic of
`double`, both cells of the two-cell mesh with the fractions `0.1` and `0.7`
at the vertex `1`. -/
theorem dual_density_by_value_accumulates_in_order_witness :
    ∃ vals, _dcsd_by_value_rounded double_arith
        (two_tetra_with (ofList 0 [1, round_double (1/10), 1, 1, round_double (7/10), 1, 1, 1]))
        (round_double (3/10)) 2 none (fun _ => 0) = .ok vals ∧
      vals 1 = double_arith.add
        (double_arith.add 0 (double_arith.mul (round_double (1/10)) (round_double (3/10))))
        (double_arith.mul (round_double (7/10)) (round_double (3/10))) ∧
      vals 5 = 0 :=
  (dual_density_by_value_accumulates_in_order double_arith
    (two_tetra_with (ofList 0 [1, round_double (1/10), 1, 1, round_double (7/10), 1, 1, 1]))
    (round_double (3/10)) (fun _ => 0) 2 none (fun _ => 0) (fun _ => rfl)).1.imp
    (fun _ h => ⟨h.1, (h.2 1).1, (h.2 5).2 (by
      rintro ⟨c, hc, j, hj, hv⟩
      revert c j
      decide)⟩)

/-! ## Vector at all vertices from a cell-located array, in the arithmetic of `double` -/

/-- The loop on the vertices of one cell acts on `dc_vol` and on `eval`
separately. -/
theorem vtx_accumulate_rounded_eq (A : cs_real_arith) (connect : cs_cdo_connect_t)
    (quant : cs_cdo_quantities_t) (c : Nat) (cv : Nat → ℚ) (s : (Nat → ℚ) × (Nat → ℚ)) :
    vtx_accumulate_rounded A connect quant c cv s =
      ((slice connect.c2v c).foldl (fun t j =>
          Function.update t (connect.c2v.ids j)
            (A.add (t (connect.c2v.ids j)) (quant.dcell_vol j))) s.1,
       (slice connect.c2v c).foldl (fun t j =>
          dcvd_add_rounded A cv (connect.c2v.ids j) (quant.dcell_vol j) t) s.2) := by
  obtain ⟨dc, ev⟩ := s
  exact (forLoop_shift (connect.c2v.idx c) (connect.c2v.idx (c + 1))
    (fun j (s : (Nat → ℚ) × (Nat → ℚ)) =>
      (Function.update s.1 (connect.c2v.ids j)
        (A.add (s.1 (connect.c2v.ids j)) (quant.dcell_vol j)),
       dcvd_add_rounded A cv (connect.c2v.ids j) (quant.dcell_vol j) s.2)) (dc, ev)).trans
    (forLoop_pair (connect.c2v.idx c) (connect.c2v.idx (c + 1))
      (fun j (t : Nat → ℚ) =>
        Function.update t (connect.c2v.ids j)
          (A.add (t (connect.c2v.ids j)) (quant.dcell_vol j)))
      (fun j (t : Nat → ℚ) => dcvd_add_rounded A cv (connect.c2v.ids j) (quant.dcell_vol j) t)
      dc ev)

theorem vtx_accumulate_rounded_loops (A : cs_real_arith) (connect : cs_cdo_connect_t)
    (quant : cs_cdo_quantities_t) (cv : Nat → Nat → ℚ) (n : Nat) (dc ev : Nat → ℚ) :
    forLoop 0 n (fun c s => vtx_accumulate_rounded A connect quant c (cv c) s) (dc, ev) =
      ((List.range n).foldl (fun acc c => (slice connect.c2v c).foldl (fun t j =>
          Function.update t (connect.c2v.ids j)
            (A.add (t (connect.c2v.ids j)) (quant.dcell_vol j))) acc) dc,
       (List.range n).foldl (fun acc c => (slice connect.c2v c).foldl (fun t j =>
          dcvd_add_rounded A (cv c) (connect.c2v.ids j) (quant.dcell_vol j) t) acc) ev) := by
  have e : (fun c (s : (Nat → ℚ) × (Nat → ℚ)) =>
        vtx_accumulate_rounded A connect quant c (cv c) s) =
      (fun c (s : (Nat → ℚ) × (Nat → ℚ)) =>
        ((fun c (t : Nat → ℚ) => (slice connect.c2v c).foldl (fun t j =>
          Function.update t (connect.c2v.ids j)
            (A.add (t (connect.c2v.ids j)) (quant.dcell_vol j))) t) c s.1,
         (fun c (t : Nat → ℚ) => (slice connect.c2v c).foldl (fun t j =>
          dcvd_add_rounded A (cv c) (connect.c2v.ids j) (quant.dcell_vol j) t) t) c s.2)) := by
    funext c s
    exact vtx_accumulate_rounded_eq A connect quant c (cv c) s
  rw [e]
  exact (forLoop_pair 0 n
    (fun c (t : Nat → ℚ) => (slice connect.c2v c).foldl (fun t j =>
      Function.update t (connect.c2v.ids j)
        (A.add (t (connect.c2v.ids j)) (quant.dcell_vol j))) t)
    (fun c (t : Nat → ℚ) => (slice connect.c2v c).foldl (fun t j =>
      dcvd_add_rounded A (cv c) (connect.c2v.ids j) (quant.dcell_vol j) t) t) dc ev).trans
    (by rw [forLoop_range, forLoop_range])

/-- Total dual volume gathered in `dc_vol[x]`, in the arithmetic `A`. -/
theorem dc_vol_rounded_loops_apply (A : cs_real_arith) (a : cs_adjacency_t) (d : Nat → ℚ)
    (cells : List Nat) (t0 : Nat → ℚ) (x : Nat) :
    cells.foldl (fun acc c => (slice a c).foldl
      (fun t j => Function.update t (a.ids j) (A.add (t (a.ids j)) (d j))) acc) t0 x =
      (incidences_of a x cells).foldl (fun acc p => A.add acc (d p.2)) (t0 x) := by
  refine nested_foldl_entry a
    (fun _ j t => Function.update t (a.ids j) (A.add (t (a.ids j)) (d j))) x x
    (fun _ j acc => A.add acc (d j)) ?_ cells t0
  intro c j t
  by_cases h : a.ids j = x
  · subst h
    simp
  · simp [h, Function.update_noteq (Ne.symm h)]

theorem scale_block_rounded_apply (A : cs_real_arith) (v : Nat) (inv : ℚ) (e : Nat → ℚ)
    (x : Nat) :
    forLoop 0 3 (fun k e => Function.update e (3 * v + k) (A.mul (e (3 * v + k)) inv)) e x =
      if x / 3 = v then A.mul (e x) inv else e x := by
  show Function.update (Function.update (Function.update e (3 * v + 0)
      (A.mul (e (3 * v + 0)) inv)) (3 * v + 1) _) (3 * v + 2) _ x = _
  by_cases h2 : x = 3 * v + 2
  · have e1 : (3 * v + 2) / 3 = v := by omega
    subst h2
    simp [e1, Function.update_apply]
  · by_cases h1 : x = 3 * v + 1
    · have e1 : (3 * v + 1) / 3 = v := by omega
      subst h1
      simp [e1, Function.update_apply]
    · by_cases h0 : x = 3 * v
      · have e1 : (3 * v) / 3 = v := by omega
        subst h0
        simp [e1, Function.update_apply]
      · have hne : ¬ x / 3 = v := by omega
        simp [hne, Function.update_apply, h0, h1, h2]

theorem scale_rounded_loops_apply (A : cs_real_arith) (n : Nat) (dc e : Nat → ℚ) (x : Nat) :
    forLoop 0 n (fun v_id e =>
      forLoop 0 3 (fun k e =>
        Function.update e (3 * v_id + k) (A.mul (e (3 * v_id + k)) (A.div 1 (dc v_id)))) e) e x =
      if x / 3 < n then A.mul (e x) (A.div 1 (dc (x / 3))) else e x := by
  rw [forLoop_range]
  induction n with
  | zero => simp
  | succ n ih =>
    rw [List.range_succ, List.foldl_append, List.foldl_cons, List.foldl_nil,
      scale_block_rounded_apply, ih]
    by_cases h : x / 3 = n
    · subst h
      simp
    · by_cases h1 : x / 3 < n
      · have h2 : x / 3 < n + 1 := by omega
        simp only [h, if_false, h1, if_true, h2]
      · have h2 : ¬ x / 3 < n + 1 := by omega
        simp only [h, if_false, h1, h2]

/-- Without rounding the two embeddings of
`cs_xdef_eval_3_at_all_vertices_by_array` are the same function. -/
theorem all_vertices_by_array_rounded_exact (C : cs_cdo_defs_t) (X : cs_xdef_extern_t)
    (par : cs_parall_t) (n_elts : Nat) (elt_ids : Option (Nat → Nat))
    (connect : cs_cdo_connect_t) (quant : cs_cdo_quantities_t) (a : cs_xdef_array_input_t)
    (eval : Nat → ℚ) :
    cs_xdef_eval_3_at_all_vertices_by_array_rounded exact_arith C X par n_elts elt_ids connect
        quant a eval =
      cs_xdef_eval_3_at_all_vertices_by_array C X par n_elts elt_ids connect quant a eval :=
  rfl

/-- Value left by `cs_xdef_eval_3_at_all_vertices_by_array` at `eval[3*v + k]`
in the branch of the cell-located data, in the arithmetic `A`. -/
theorem all_vertices_by_array_rounded_apply (A : cs_real_arith) (C : cs_cdo_defs_t)
    (X : cs_xdef_extern_t) (par : cs_parall_t) (n_elts : Nat) (connect : cs_cdo_connect_t)
    (quant : cs_cdo_quantities_t) (a : cs_xdef_array_input_t) (eval : Nat → ℚ)
    (hn : quant.n_vertices ≤ n_elts)
    (hloc : C.cs_test_flag a.loc C.cs_cdo_primal_cell = true) (hs : a.stride = 3) :
    ∃ r, cs_xdef_eval_3_at_all_vertices_by_array_rounded A C X par n_elts none connect quant a
        eval = .ok r ∧
      ∀ v, v < quant.n_vertices → ∀ k, k < 3 →
        r (3 * v + k) =
          A.mul
            ((incidences_of connect.c2v v (List.range quant.n_cells)).foldl
              (fun acc p => A.add acc (A.mul (quant.dcell_vol p.2) (a.values (3 * p.1 + k))))
              (eval (3 * v + k)))
            (A.div 1 ((incidences_of connect.c2v v (List.range quant.n_cells)).foldl
              (fun acc p => A.add acc (quant.dcell_vol p.2)) 0)) := by
  have hnl : ¬ n_elts < quant.n_vertices := by omega
  refine ⟨vtx_scale_rounded A quant
    (forLoop 0 quant.n_cells (fun c_id s =>
      vtx_accumulate_rounded A connect quant c_id
        (forLoop 0 3 (fun k cell_vector =>
          Function.update cell_vector k (a.values (3 * c_id + k))) X.stack_cell_vector) s)
      (forLoop 0 quant.n_vertices (fun i dc_vol => Function.update dc_vol i 0)
        par.malloc_dc_vol, eval)).1
    (forLoop 0 quant.n_cells (fun c_id s =>
      vtx_accumulate_rounded A connect quant c_id
        (forLoop 0 3 (fun k cell_vector =>
          Function.update cell_vector k (a.values (3 * c_id + k))) X.stack_cell_vector) s)
      (forLoop 0 quant.n_vertices (fun i dc_vol => Function.update dc_vol i 0)
        par.malloc_dc_vol, eval)).2, ?_, ?_⟩
  · unfold cs_xdef_eval_3_at_all_vertices_by_array_rounded
    simp only [Option.isSome_none, Bool.false_eq_true, false_or, hnl, if_false, hloc, if_true,
      hs, ne_eq, not_true_eq_false]
  · intro v hv k hk
    have e1 : (3 * v + k) / 3 = v := by omega
    rw [vtx_accumulate_rounded_loops A connect quant
      (fun c => forLoop 0 3 (fun k cell_vector =>
          Function.update cell_vector k (a.values (3 * c + k))) X.stack_cell_vector)]
    have hsc := scale_rounded_loops_apply A quant.n_vertices
      ((List.range quant.n_cells).foldl (fun acc c => (slice connect.c2v c).foldl (fun t j =>
          Function.update t (connect.c2v.ids j)
            (A.add (t (connect.c2v.ids j)) (quant.dcell_vol j)))
          acc) (forLoop 0 quant.n_vertices (fun i dc_vol => Function.update dc_vol i 0)
            par.malloc_dc_vol))
      ((List.range quant.n_cells).foldl (fun acc c => (slice connect.c2v c).foldl (fun t j =>
          dcvd_add_rounded A (forLoop 0 3 (fun k cell_vector =>
            Function.update cell_vector k (a.values (3 * c + k))) X.stack_cell_vector)
            (connect.c2v.ids j) (quant.dcell_vol j) t) acc) eval) (3 * v + k)
    rw [e1, if_pos hv, dc_vol_rounded_loops_apply,
      dcvd_rounded_loops_apply A connect.c2v quant.dcell_vol
        (fun c => forLoop 0 3 (fun k cell_vector =>
          Function.update cell_vector k (a.values (3 * c + k))) X.stack_cell_vector)
        (List.range quant.n_cells) eval v k hk,
      dc_vol_init _ _ _ hv] at hsc
    refine hsc.trans ?_
    congr 1
    apply foldl_congr_mem
    intro p _ acc
    beta_reduce
    rw [cell_vector_apply a.values X.stack_cell_vector p.1 k hk]

/-- C25 (counterexample): in the arithmetic of `double`, on the two-cell mesh
whose vertex `1` has the dual-volume fractions `0.1` in cell `0` and `0.2` in
cell `1` (every vertex has a positive total dual volume), with the vector
`(0.7, 0.7, 0.7)` in both cells of an array located at the cells and a zero
buffer, `cs_xdef_eval_3_at_all_vertices_by_array` leaves
`(0.1*0.7 + 0.2*0.7) * (1/(0.1 + 0.2)) = 0.6999999999999998` at `eval[3]`:
the vector of the cells is not reproduced, and the value is not the quotient
of the weighted sum by the total dual volume, be it computed without rounding
(`0.7`) or in `double` (`0.6999999999999997`). -/
theorem all_vertices_by_array_rounding_counterexample :
    (∀ v, v < 5 →
      incidence_sum two_tetra.connect.c2v (List.range 2)
        (fun j => decide (two_tetra.connect.c2v.ids j = v))
        (ofList 0 [1, round_double (1/10), 1, 1, round_double (2/10), 1, 1, 1]) ≠ 0) ∧
    ∃ r, cs_xdef_eval_3_at_all_vertices_by_array_rounded double_arith sample_cdo_defs
        sample_xdef_ext serial 5 none two_tetra.connect
        (two_tetra_with
          (ofList 0 [1, round_double (1/10), 1, 1, round_double (2/10), 1, 1, 1])).quant
        { stride := 3
          loc := 256 + 8192
          values := ofList 0 (List.replicate 6 (round_double (7/10)))
          index := none }
        (fun _ => 0) = .ok r ∧
      r 3 = 6305039478318693 / 9007199254740992 ∧
      r 3 ≠ round_double (7/10) ∧
      r 3 ≠ incidence_sum2 two_tetra.connect.c2v (List.range 2)
          (fun j => decide (two_tetra.connect.c2v.ids j = 1))
          (fun _ j => ofList (0 : ℚ)
            [1, round_double (1/10), 1, 1, round_double (2/10), 1, 1, 1] j *
            round_double (7/10)) /
        incidence_sum two_tetra.connect.c2v (List.range 2)
          (fun j => decide (two_tetra.connect.c2v.ids j = 1))
          (ofList 0 [1, round_double (1/10), 1, 1, round_double (2/10), 1, 1, 1]) ∧
      r 3 ≠ double_arith.div
        (double_arith.add
          (double_arith.add 0 (double_arith.mul (round_double (1/10)) (round_double (7/10))))
          (double_arith.mul (round_double (2/10)) (round_double (7/10))))
        (double_arith.add (double_arith.add 0 (round_double (1/10))) (round_double (2/10))) :=
  ⟨by decide!, _, rfl, by decide!, by decide!, by decide!, by decide!⟩

/-- C25 (amended): `cs_xdef_eval_3_at_all_vertices_by_array` with all the
vertices, no list of ids and an array of three values per cell located at the
cells returns; when `eval` holds zeros on entry, for every vertex `v` whose
total dual volume is not zero and every `k < 3`, `eval[3*v + k]` is the product
of two values of the type `double`: the weighted sum, obtained by adding from
zero, one after the other and in the order of the loops, the products
`dcell_vol[j] * values[3*c + k]` of the incidences `(c, j)` with
`c2v.ids[j] = v`, and the inverse `1/dc_vol[v]` of the total dual volume,
obtained by adding the `dcell_vol[j]` in the same way; each product, sum and
inverse is an operation of the type.  In an arithmetic without rounding this
is the quotient of the weighted sum by the total dual volume, and a vector
that is the same in every cell is reproduced. -/
theorem all_vertices_by_array_scaled_sum (A : cs_real_arith) (C : cs_cdo_defs_t)
    (X : cs_xdef_extern_t) (par : cs_parall_t) (n_elts : Nat) (connect : cs_cdo_connect_t)
    (quant : cs_cdo_quantities_t) (a : cs_xdef_array_input_t) (eval : Nat → ℚ)
    (hn : quant.n_vertices ≤ n_elts)
    (hloc : C.cs_test_flag a.loc C.cs_cdo_primal_cell = true) (hs : a.stride = 3)
    (h0 : ∀ x, x < 3 * quant.n_vertices → eval x = 0) :
    (∃ r, cs_xdef_eval_3_at_all_vertices_by_array_rounded A C X par n_elts none connect quant a
        eval = .ok r ∧
      ∀ v, v < quant.n_vertices →
        (incidences_of connect.c2v v (List.range quant.n_cells)).foldl
          (fun acc p => A.add acc (quant.dcell_vol p.2)) 0 ≠ 0 →
        ∀ k, k < 3 →
          r (3 * v + k) =
            A.mul
              ((incidences_of connect.c2v v (List.range quant.n_cells)).foldl
                (fun acc p => A.add acc (A.mul (quant.dcell_vol p.2) (a.values (3 * p.1 + k))))
                0)
              (A.div 1 ((incidences_of connect.c2v v (List.range quant.n_cells)).foldl
                (fun acc p => A.add acc (quant.dcell_vol p.2)) 0))) ∧
    (∃ r, cs_xdef_eval_3_at_all_vertices_by_array_rounded exact_arith C X par n_elts none connect
        quant a eval = .ok r ∧
      (∀ v, v < quant.n_vertices →
        incidence_sum connect.c2v (List.range quant.n_cells)
          (fun j => decide (connect.c2v.ids j = v)) quant.dcell_vol ≠ 0 →
        ∀ k, k < 3 →
          r (3 * v + k) =
            incidence_sum2 connect.c2v (List.range quant.n_cells)
              (fun j => decide (connect.c2v.ids j = v))
              (fun c j => quant.dcell_vol j * a.values (3 * c + k)) /
            incidence_sum connect.c2v (List.range quant.n_cells)
              (fun j => decide (connect.c2v.ids j = v)) quant.dcell_vol) ∧
      (∀ u : Nat → ℚ,
        (∀ c, c < quant.n_cells → ∀ k, k < 3 → a.values (3 * c + k) = u k) →
        ∀ v, v < quant.n_vertices →
          incidence_sum connect.c2v (List.range quant.n_cells)
            (fun j => decide (connect.c2v.ids j = v)) quant.dcell_vol ≠ 0 →
          ∀ k, k < 3 → r (3 * v + k) = u k)) := by
  constructor
  · obtain ⟨r, hr, hv⟩ :=
      all_vertices_by_array_rounded_apply A C X par n_elts connect quant a eval hn hloc hs
    refine ⟨r, hr, fun v hlt _ k hk => ?_⟩
    rw [hv v hlt k hk, h0 (3 * v + k) (by omega)]
  · rw [all_vertices_by_array_rounded_exact]
    exact all_vertices_by_array_weighted_average C X par n_elts connect quant a eval hn hloc hs h0

/-- Witness of `all_vertices_by_array_scaled_sum`: the arithmetic of `double`
and the two cells of `two_tetra` carrying the same vector `(2, 2, 2)`; at the
vertex `1`, of incidences `(0, 1)` and `(1, 4)` with the fractions `2` and
`5`, the first component is `(2*2 + 5*2) * (1/(2 + 5))` in `double`, and `2`
without rounding. -/
theorem all_vertices_by_array_scaled_sum_witness :
    (∃ r, cs_xdef_eval_3_at_all_vertices_by_array_rounded double_arith sample_cdo_defs
        sample_xdef_ext serial 5 none two_tetra.connect two_tetra.quant
        { stride := 3, loc := 256 + 8192, values := ofList 0 (List.replicate 6 2), index := none }
        (fun _ => 0) = .ok r ∧
      r (3 * 1 + 0) = double_arith.mul
        ((incidences_of two_tetra.connect.c2v 1 (List.range two_tetra.quant.n_cells)).foldl
          (fun acc p => double_arith.add acc
            (double_arith.mul (two_tetra.quant.dcell_vol p.2)
              (ofList (0 : ℚ) (List.replicate 6 2) (3 * p.1 + 0))))
          0)
        (double_arith.div 1
          ((incidences_of two_tetra.connect.c2v 1 (List.range two_tetra.quant.n_cells)).foldl
            (fun acc p => double_arith.add acc (two_tetra.quant.dcell_vol p.2)) 0))) ∧
    (∃ r, cs_xdef_eval_3_at_all_vertices_by_array_rounded exact_arith sample_cdo_defs
        sample_xdef_ext serial 5 none two_tetra.connect two_tetra.quant
        { stride := 3, loc := 256 + 8192, values := ofList 0 (List.replicate 6 2), index := none }
        (fun _ => 0) = .ok r ∧
      r (3 * 1 + 0) = (fun _ => (2 : ℚ)) 0) :=
  ⟨(all_vertices_by_array_scaled_sum double_arith sample_cdo_defs sample_xdef_ext serial 5
      two_tetra.connect two_tetra.quant
      { stride := 3, loc := 256 + 8192, values := ofList 0 (List.replicate 6 2), index := none }
      (fun _ => 0) (by decide) (by decide) rfl (fun _ _ => rfl)).1.imp
      (fun _ h => ⟨h.1, h.2 1 (by decide) (by decide!) 0 (by decide)⟩),
   (all_vertices_by_array_scaled_sum double_arith sample_cdo_defs sample_xdef_ext serial 5
      two_tetra.connect two_tetra.quant
      { stride := 3, loc := 256 + 8192, values := ofList 0 (List.replicate 6 2), index := none }
      (fun _ => 0) (by decide) (by decide) rfl (fun _ _ => rfl)).2.imp
      (fun _ h => ⟨h.1, h.2.2 (fun _ => 2) (by decide!) 1 (by decide) (by decide!) 0
        (by decide)⟩)⟩

end CodeSaturne
